import Mathlib

/-! # k4RecCalorimeter: tower-grid mapping and cluster splitting

A shallow embedding of `CaloTowerTool`, `LayeredCaloTowerTool` and `SplitClusters`
(`RecCalorimeter/src/components`).

Conventions of the embedding

* `float` and `double` values are rationals (exact arithmetic).
* The position of an emitted cluster, a quotient by the summed energy, is a number or
  none: the division by zero gives no number (`divide`).
* `int` values are integers, `uint` values are naturals; a conversion to `uint` reduces
  modulo `2^32`, a conversion of a `uint` to `int` reads the value back as a signed
  32-bit number.
* `std::vector` is `List`; an access outside a vector has no defined behaviour in the
  source and makes the embedded function return `none`.
* `std::map` is a list of key-value pairs kept in increasing key order.
* Functions of external libraries (`cosh`, the segmentation, the neighbour and position
  tools, `TLorentzVector::DeltaR`) are parameters.
-/

namespace K4Rec

/-! ## Scalars -/

/-- The constant `M_PI` of `<cmath>`: the double nearest to pi, as an exact rational. -/
def M_PI : ℚ := 884279719003555 / 281474976710656

/-- The local constant `float epsilon = 0.0001` of `towersNumber` and `CellsIntoTowers`,
taken at its decimal value. -/
def epsilon : ℚ := 1 / 10000

/-- Conversion of an integral value to `uint` (32 bits): reduction modulo `2^32`. The
same is used for the floor of a floating-point value outside the range of `uint`, as
the usual compilers do (the language leaves that conversion undefined). -/
def toUInt (z : Int) : Nat := (z % 4294967296).toNat

/-- Conversion of a `uint` to `int` (32 bits, two's complement). -/
def toInt (n : Nat) : Int := if n < 2147483648 then (n : Int) else (n : Int) - 4294967296

/-- The values an `int` can hold. -/
def IsInt32 (z : Int) : Prop := -2147483648 ≤ z ∧ z < 2147483648

instance (z : Int) : Decidable (IsInt32 z) := by
  unfold IsInt32
  infer_instance

/-- The indices visited by `for (auto i = lo; i <= hi; i++)`. -/
def intRange (lo hi : Int) : List Int :=
  (List.range (hi + 1 - lo).toNat).map (fun (k : Nat) => lo + (k : Int))

/-! ## Event data -/

/-- An `edm4hep::CalorimeterHit`: cell identifier, energy and type. -/
structure CalorimeterHit where
  cellID : Nat
  energy : ℚ
  type : Int
deriving DecidableEq, Repr

/-- A phi-eta grid segmentation (`FCCSWGridPhiEta_k4geo`): its parameters and the
position it gives to a cell identifier. -/
structure GridPhiEta where
  gridSizeEta : ℚ
  phiBins : Int
  offsetEta : ℚ
  offsetPhi : ℚ
  eta : Nat → ℚ
  phi : Nat → ℚ

/-- A registered segmentation with its `SegmentationType`: `kPhiEta` or `kMulti`
(a multi-segmentation lists its sub-grids and selects one for every cell). -/
inductive Segmentation where
  | kPhiEta (s : GridPhiEta)
  | kMulti (subSegmentations : List GridPhiEta) (subsegmentation : Nat → GridPhiEta)

/-- The phi-eta grid used for one cell in `CellsIntoTowers`. -/
def Segmentation.forCell : Segmentation → Nat → GridPhiEta
  | .kPhiEta s, _ => s
  | .kMulti _ sub, cellID => sub cellID

/-! ## `std::map` -/

/-- Lookup in a map (`find`): the value stored for a key, if any. -/
def mapFind {κ α : Type} [DecidableEq κ] : List (κ × α) → κ → Option α
  | [], _ => none
  | (k', v) :: m, k => if k' = k then some v else mapFind m k

/-- Insertion of a new key at its place in the key order. -/
def mapInsert {κ α : Type} (lt : κ → κ → Bool) : List (κ × α) → κ → α → List (κ × α)
  | [], k, v => [(k, v)]
  | (k', v') :: m, k, v =>
    if lt k k' then (k, v) :: (k', v') :: m else (k', v') :: mapInsert lt m k v

/-- Replacement of the value of a key that is present. -/
def mapReplace {κ α : Type} [DecidableEq κ] : List (κ × α) → κ → α → List (κ × α)
  | [], _, _ => []
  | (k', v') :: m, k, v => if k' = k then (k', v) :: m else (k', v') :: mapReplace m k v

/-- The member `emplace`: inserts unless the key is present already. -/
def mapEmplace {κ α : Type} [DecidableEq κ] (lt : κ → κ → Bool)
    (m : List (κ × α)) (k : κ) (v : α) : List (κ × α) :=
  match mapFind m k with
  | some _ => m
  | none => mapInsert lt m k v

/-- The assignment `m[k] = v`. -/
def mapAssign {κ α : Type} [DecidableEq κ] (lt : κ → κ → Bool)
    (m : List (κ × α)) (k : κ) (v : α) : List (κ × α) :=
  match mapFind m k with
  | some _ => mapReplace m k v
  | none => mapInsert lt m k v

/-- The read `m[k]`, whose value is `dflt` (value-initialised) for an absent key. -/
def mapGet {κ α : Type} [DecidableEq κ] (m : List (κ × α)) (k : κ) (dflt : α) : α :=
  (mapFind m k).getD dflt

/-- The member `erase` by key. -/
def mapErase {κ α : Type} [DecidableEq κ] (m : List (κ × α)) (k : κ) : List (κ × α) :=
  m.filter (fun p => decide (p.1 ≠ k))

/-- Key order of `std::map<uint64_t, _>` and `std::map<uint, _>`. -/
def natLt (a b : Nat) : Bool := decide (a < b)

/-- Key order of `std::map<std::pair<uint, uint>, _>`. -/
def pairLt (a b : Nat × Nat) : Bool := decide (a.1 < b.1 ∨ (a.1 = b.1 ∧ a.2 < b.2))

/-! ## The tower grid -/

/-- The tower grid `std::vector<std::vector<float>>`, indexed `[iEta][iPhi]`. -/
abbrev Towers := List (List ℚ)

/-- The map `m_cellsInTowers` from a tower to the cells recorded for it. -/
abbrev CellsInTowers := List ((Nat × Nat) × List CalorimeterHit)

/-- A grid of the given size holding zero everywhere. -/
def zeroTowers (nEta nPhi : Nat) : Towers := List.replicate nEta (List.replicate nPhi 0)

/-- The update `row[j] += v` of one row. -/
def addRow : List ℚ → Nat → ℚ → Option (List ℚ)
  | [], _, _ => none
  | x :: xs, 0, v => some ((x + v) :: xs)
  | x :: xs, j + 1, v => (addRow xs j v).map (fun r => x :: r)

/-- The update `aTowers[i][j] += v` for an index `i` of type `size_t`. -/
def addTowerNat : Towers → Nat → Nat → ℚ → Option Towers
  | [], _, _, _ => none
  | r :: rs, 0, j, v => (addRow r j v).map (fun r' => r' :: rs)
  | r :: rs, i + 1, j, v => (addTowerNat rs i j v).map (fun g => r :: g)

/-- The update `aTowers[iEta][j] += v` where `iEta` is an `int`: a negative index
converts to a `size_t` beyond every vector. -/
def addTower (g : Towers) (iEta : Int) (j : Nat) (v : ℚ) : Option Towers :=
  if iEta < 0 then none else addTowerNat g iEta.toNat j v

/-- The energy held by tower `(i, j)` (zero outside the grid). -/
def towerAt (g : Towers) (i j : Nat) : ℚ := (g.getD i []).getD j 0

/-- The sum of the energies of all towers. -/
def towersSum (g : Towers) : ℚ := (g.map List.sum).sum

/-- The grid has `nEta` rows of `nPhi` towers. -/
def GridDims (g : Towers) (nEta nPhi : Nat) : Prop :=
  g.length = nEta ∧ ∀ r ∈ g, r.length = nPhi

instance (g : Towers) (nEta nPhi : Nat) : Decidable (GridDims g nEta nPhi) := by
  unfold GridDims
  infer_instance

/-! ## `CaloTowerTool` -/

/-- The members of `CaloTowerTool` used by the tower building, together with the
functions it calls: `cosh` and the decoder of the `layer` field. -/
structure CaloTowerTool where
  etaMax : ℚ
  phiMax : ℚ
  deltaEtaTower : ℚ
  deltaPhiTower : ℚ
  nEtaTower : Int
  nPhiTower : Int
  useHalfTower : Bool
  max_layer : Nat
  layer : Nat → Nat
  cosh : ℚ → ℚ

namespace CaloTowerTool

/-- `uint CaloTowerTool::idEta(float aEta)`. -/
def idEta (t : CaloTowerTool) (aEta : ℚ) : Nat :=
  toUInt ⌊(aEta + t.etaMax) / t.deltaEtaTower⌋

/-- `uint CaloTowerTool::idPhi(float aPhi)`. -/
def idPhi (t : CaloTowerTool) (aPhi : ℚ) : Nat :=
  toUInt ⌊(aPhi + t.phiMax) / t.deltaPhiTower⌋

/-- `float CaloTowerTool::eta(int aIdEta)`: middle of the tower. -/
def eta (t : CaloTowerTool) (aIdEta : Int) : ℚ :=
  ((aIdEta : ℚ) + 1 / 2) * t.deltaEtaTower - t.etaMax

/-- `float CaloTowerTool::phi(int aIdPhi)`: middle of the tower. -/
def phi (t : CaloTowerTool) (aIdPhi : Int) : ℚ :=
  ((aIdPhi : ℚ) + 1 / 2) * t.deltaPhiTower - t.phiMax

/-- `uint CaloTowerTool::phiNeighbour(int aIPhi)`. -/
def phiNeighbour (t : CaloTowerTool) (aIPhi : Int) : Nat :=
  if aIPhi < 0 then toUInt (t.nPhiTower + aIPhi)
  else if aIPhi ≥ t.nPhiTower then toUInt (Int.tmod aIPhi t.nPhiTower)
  else toUInt aIPhi

/-! The local variables of the loop body of `CellsIntoTowers`, for the grid `s` of the
cell and the cell identifier `c`. -/

/-- `etaCellMin = cellEta - gridSizeEta * 0.5`. -/
def etaCellMin (s : GridPhiEta) (c : Nat) : ℚ := s.eta c - s.gridSizeEta * (1 / 2)

/-- `etaCellMax = cellEta + gridSizeEta * 0.5`. -/
def etaCellMax (s : GridPhiEta) (c : Nat) : ℚ := s.eta c + s.gridSizeEta * (1 / 2)

/-- `phiCellMin = cellPhi - M_PI / phiBins`. -/
def phiCellMin (s : GridPhiEta) (c : Nat) : ℚ := s.phi c - M_PI / (s.phiBins : ℚ)

/-- `phiCellMax = cellPhi + M_PI / phiBins`. -/
def phiCellMax (s : GridPhiEta) (c : Nat) : ℚ := s.phi c + M_PI / (s.phiBins : ℚ)

/-- `iEtaMin = idEta(etaCellMin + epsilon)`. -/
def iEtaMin (t : CaloTowerTool) (s : GridPhiEta) (c : Nat) : Int :=
  toInt (t.idEta (etaCellMin s c + epsilon))

/-- `iPhiMin = idPhi(phiCellMin + epsilon)`. -/
def iPhiMin (t : CaloTowerTool) (s : GridPhiEta) (c : Nat) : Int :=
  toInt (t.idPhi (phiCellMin s c + epsilon))

/-- `iEtaMax = idEta(etaCellMax - epsilon)`. -/
def iEtaMax (t : CaloTowerTool) (s : GridPhiEta) (c : Nat) : Int :=
  toInt (t.idEta (etaCellMax s c - epsilon))

/-- `iPhiMax = idPhi(phiCellMax - epsilon)`. -/
def iPhiMax (t : CaloTowerTool) (s : GridPhiEta) (c : Nat) : Int :=
  toInt (t.idPhi (phiCellMax s c - epsilon))

/-- `fracEtaMin`: `1.0` unless the first and last eta towers differ. -/
def fracEtaMin (t : CaloTowerTool) (s : GridPhiEta) (c : Nat) : ℚ :=
  if iEtaMin t s c ≠ iEtaMax t s c then
    |t.eta (iEtaMin t s c) + 1 / 2 * t.deltaEtaTower - etaCellMin s c| / s.gridSizeEta
  else 1

/-- `fracEtaMax`: `1.0` unless the first and last eta towers differ. -/
def fracEtaMax (t : CaloTowerTool) (s : GridPhiEta) (c : Nat) : ℚ :=
  if iEtaMin t s c ≠ iEtaMax t s c then
    |etaCellMax s c - t.eta (iEtaMax t s c) + 1 / 2 * t.deltaEtaTower| / s.gridSizeEta
  else 1

/-- `fracEtaMiddle`: the remainder shared by the towers strictly between, `0.0` when
there is none. -/
def fracEtaMiddle (t : CaloTowerTool) (s : GridPhiEta) (c : Nat) : ℚ :=
  if iEtaMin t s c ≠ iEtaMax t s c then
    if iEtaMax t s c - iEtaMin t s c - 1 ≠ 0 then
      (1 - fracEtaMin t s c - fracEtaMax t s c) / ((iEtaMax t s c - iEtaMin t s c - 1 : Int) : ℚ)
    else 0
  else 1

/-- `fracPhiMin`: `1.0` unless the first and last phi towers differ. -/
def fracPhiMin (t : CaloTowerTool) (s : GridPhiEta) (c : Nat) : ℚ :=
  if iPhiMin t s c ≠ iPhiMax t s c then
    |t.phi (iPhiMin t s c) + 1 / 2 * t.deltaPhiTower - phiCellMin s c|
      / (2 * M_PI / (s.phiBins : ℚ))
  else 1

/-- `fracPhiMax`: `1.0` unless the first and last phi towers differ. -/
def fracPhiMax (t : CaloTowerTool) (s : GridPhiEta) (c : Nat) : ℚ :=
  if iPhiMin t s c ≠ iPhiMax t s c then
    |phiCellMax s c - t.phi (iPhiMax t s c) + 1 / 2 * t.deltaPhiTower|
      / (2 * M_PI / (s.phiBins : ℚ))
  else 1

/-- `fracPhiMiddle`: the remainder shared by the towers strictly between, `0.0` when
there is none. -/
def fracPhiMiddle (t : CaloTowerTool) (s : GridPhiEta) (c : Nat) : ℚ :=
  if iPhiMin t s c ≠ iPhiMax t s c then
    if iPhiMax t s c - iPhiMin t s c - 1 ≠ 0 then
      (1 - fracPhiMin t s c - fracPhiMax t s c) / ((iPhiMax t s c - iPhiMin t s c - 1 : Int) : ℚ)
    else 0
  else 1

/-- `ratioEta` for the tower index `iEta` of the eta loop. -/
def ratioEta (t : CaloTowerTool) (s : GridPhiEta) (c : Nat) (iEta : Int) : ℚ :=
  if iEta = iEtaMin t s c then fracEtaMin t s c
  else if iEta = iEtaMax t s c then fracEtaMax t s c
  else fracEtaMiddle t s c

/-- `ratioPhi` for the tower index `iPhi` of the phi loop. -/
def ratioPhi (t : CaloTowerTool) (s : GridPhiEta) (c : Nat) (iPhi : Int) : ℚ :=
  if iPhi = iPhiMin t s c then fracPhiMin t s c
  else if iPhi = iPhiMax t s c then fracPhiMax t s c
  else fracPhiMiddle t s c

/-- The statement `m_cellsInTowers[key].push_back(cell.clone())`. -/
def pushCell (m : CellsInTowers) (key : Nat × Nat) (cell : CalorimeterHit) : CellsInTowers :=
  mapAssign pairLt m key (mapGet m key [] ++ [cell])

/-- The body of the phi loop: the energy added to one tower, and the cell recorded for
that tower when `fillTowersCells` is set. -/
def deposit (t : CaloTowerTool) (s : GridPhiEta) (fillTowersCells : Bool)
    (cell : CalorimeterHit) (iEta iPhi : Int) (st : Towers × CellsInTowers) :
    Option (Towers × CellsInTowers) :=
  match addTower st.1 iEta (t.phiNeighbour iPhi)
      (cell.energy / t.cosh (s.eta cell.cellID) * ratioEta t s cell.cellID iEta
        * ratioPhi t s cell.cellID iPhi) with
  | none => none
  | some g =>
    some (g, if fillTowersCells then
      pushCell st.2 (toUInt iEta, t.phiNeighbour iPhi) cell else st.2)

/-- The phi loop for one eta index. -/
def phiLoop (t : CaloTowerTool) (s : GridPhiEta) (fillTowersCells : Bool)
    (cell : CalorimeterHit) (iEta : Int) (st : Towers × CellsInTowers) :
    Option (Towers × CellsInTowers) :=
  (intRange (iPhiMin t s cell.cellID) (iPhiMax t s cell.cellID)).foldlM
    (fun st iPhi => deposit t s fillTowersCells cell iEta iPhi st) st

/-- The eta loop: all towers touched by one cell that passed the depth filter. -/
def towerLoop (t : CaloTowerTool) (s : GridPhiEta) (fillTowersCells : Bool)
    (cell : CalorimeterHit) (st : Towers × CellsInTowers) :
    Option (Towers × CellsInTowers) :=
  (intRange (iEtaMin t s cell.cellID) (iEtaMax t s cell.cellID)).foldlM
    (fun st iEta => phiLoop t s fillTowersCells cell iEta st) st

/-- The flag `pass` of a cell: with `halfTower` set, a cell whose layer exceeds
`max_layer` is skipped. -/
def pass (t : CaloTowerTool) (cell : CalorimeterHit) : Bool :=
  !(t.useHalfTower && decide (t.layer cell.cellID > t.max_layer))

/-- `void CaloTowerTool::CellsIntoTowers(aTowers, aCells, aSegmentation, aType,
fillTowersCells)`, as a function of the grid and of `m_cellsInTowers`. -/
def CellsIntoTowers (t : CaloTowerTool) (aCells : List CalorimeterHit)
    (aSegmentation : Segmentation) (fillTowersCells : Bool)
    (st : Towers × CellsInTowers) : Option (Towers × CellsInTowers) :=
  aCells.foldlM
    (fun st cell =>
      if t.pass cell then
        towerLoop t (aSegmentation.forCell cell.cellID) fillTowersCells cell st
      else some st) st

end CaloTowerTool

/-! ## `LayeredCaloTowerTool` -/

/-- The members of `LayeredCaloTowerTool` used by its index functions. -/
structure LayeredCaloTowerTool where
  etaMax : ℚ
  phiMax : ℚ
  deltaEtaTower : ℚ
  deltaPhiTower : ℚ
  nEtaTower : Int
  nPhiTower : Int

namespace LayeredCaloTowerTool

/-- `uint LayeredCaloTowerTool::idEta(float aEta)`. -/
def idEta (t : LayeredCaloTowerTool) (aEta : ℚ) : Nat :=
  toUInt ⌊(aEta + t.etaMax) / t.deltaEtaTower⌋

/-- `uint LayeredCaloTowerTool::idPhi(float aPhi)`. -/
def idPhi (t : LayeredCaloTowerTool) (aPhi : ℚ) : Nat :=
  toUInt ⌊(aPhi + t.phiMax) / t.deltaPhiTower⌋

/-- `float LayeredCaloTowerTool::eta(int aIdEta)`: middle of the tower. -/
def eta (t : LayeredCaloTowerTool) (aIdEta : Int) : ℚ :=
  ((aIdEta : ℚ) + 1 / 2) * t.deltaEtaTower - t.etaMax

/-- `float LayeredCaloTowerTool::phi(int aIdPhi)`: middle of the tower. -/
def phi (t : LayeredCaloTowerTool) (aIdPhi : Int) : ℚ :=
  ((aIdPhi : ℚ) + 1 / 2) * t.deltaPhiTower - t.phiMax

/-- `uint LayeredCaloTowerTool::phiNeighbour(int aIPhi)`. -/
def phiNeighbour (t : LayeredCaloTowerTool) (aIPhi : Int) : Nat :=
  if aIPhi < 0 then toUInt (t.nPhiTower + aIPhi)
  else if aIPhi ≥ t.nPhiTower then toUInt (Int.tmod aIPhi t.nPhiTower)
  else toUInt aIPhi

end LayeredCaloTowerTool


/-! ## `CaloTowerTool`: grid size, tower building and cell attachment -/

/-- One value for each of the seven calorimeter partitions of `CaloTowerTool`, in the
order in which `towersNumber` and `buildTowers` go through them. -/
structure Partitions (α : Type) where
  ecalBarrel : α
  ecalEndcap : α
  ecalFwd : α
  hcalBarrel : α
  hcalExtBarrel : α
  hcalEndcap : α
  hcalFwd : α

/-- The seven values in the order of the source. -/
def Partitions.toList {α : Type} (p : Partitions α) : List α :=
  [p.ecalBarrel, p.ecalEndcap, p.ecalFwd, p.hcalBarrel, p.hcalExtBarrel, p.hcalEndcap, p.hcalFwd]

/-- Conversion of an integral floating-point value to `int`: the value itself when an
`int` can hold it; the language leaves the other conversions undefined, and the usual
compilers yield the smallest `int`. -/
def doubleToInt (z : Int) : Int := if IsInt32 z then z else -2147483648

/-- The value `*std::max_element(begin, end)` of a vector holding `first` followed by
`rest`. -/
def maxElement (first : ℚ) (rest : List ℚ) : ℚ :=
  rest.foldl (fun largest x => if largest < x then x else largest) first

namespace CaloTowerTool

/-- `CaloTowerTool::retrievePhiEtaExtrema`: the pair `(phiMax, etaMax)` of one partition;
`none` is the null segmentation pointer (a registered segmentation of type `kWrong`
makes `initialize` fail). -/
def retrievePhiEtaExtrema : Option Segmentation → ℚ × ℚ
  | none => (-1, -1)
  | some (.kPhiEta s) =>
    (|s.offsetPhi| + M_PI / (s.phiBins : ℚ), |s.offsetEta| + s.gridSizeEta * (1 / 2))
  | some (.kMulti subSegmentations _) =>
    subSegmentations.foldl
      (fun acc s =>
        (if |s.offsetPhi| + M_PI / (s.phiBins : ℚ) > acc.1 then
            |s.offsetPhi| + M_PI / (s.phiBins : ℚ) else acc.1,
         if |s.offsetEta| + s.gridSizeEta * (1 / 2) > acc.2 then
            |s.offsetEta| + s.gridSizeEta * (1 / 2) else acc.2))
      (-1, -1)

/-- `void CaloTowerTool::towersNumber(int& nEta, int& nPhi)`: the tool with the members
`m_phiMax`, `m_etaMax`, `m_nPhiTower` and `m_nEtaTower` set, and the pair `(nEta, nPhi)`
written to the arguments. -/
def towersNumber (t : CaloTowerTool) (segmentations : Partitions (Option Segmentation)) :
    CaloTowerTool × (Int × Int) :=
  let listPhiMax := segmentations.toList.map (fun s => (retrievePhiEtaExtrema s).1)
  let listEtaMax := segmentations.toList.map (fun s => (retrievePhiEtaExtrema s).2)
  let phiMax := maxElement (listPhiMax.headD 0) listPhiMax.tail
  let etaMax := maxElement (listEtaMax.headD 0) listEtaMax.tail
  let nPhiTower := doubleToInt ⌈2 * (phiMax - epsilon) / t.deltaPhiTower⌉
  let nEtaTower := doubleToInt ⌈2 * (etaMax - epsilon) / t.deltaEtaTower⌉
  ({ t with phiMax := phiMax, etaMax := etaMax, nPhiTower := nPhiTower, nEtaTower := nEtaTower },
    (nEtaTower, nPhiTower))

/-- One of the seven blocks of `buildTowers`: when the segmentation of the partition is
not null its cells go into the towers and their number is added to the `uint`
`totalNumberOfCells`. -/
def buildStep (t : CaloTowerTool) (fillTowersCells : Bool)
    (acc : (Towers × CellsInTowers) × Nat) (p : Option Segmentation × List CalorimeterHit) :
    Option ((Towers × CellsInTowers) × Nat) :=
  match p.1 with
  | none => some acc
  | some aSegmentation =>
    match t.CellsIntoTowers p.2 aSegmentation fillTowersCells acc.1 with
    | none => none
    | some st => some (st, (acc.2 + p.2.length) % 4294967296)

/-- `uint CaloTowerTool::buildTowers(aTowers, fillTowersCells)`, as a function of the grid
`aTowers` and of `m_cellsInTowers`: every vector of `m_cellsInTowers` is cleared, then
the seven partitions are gone through; the result holds the grid, the map and the
returned number. -/
def buildTowers (t : CaloTowerTool) (segmentations : Partitions (Option Segmentation))
    (cells : Partitions (List CalorimeterHit)) (fillTowersCells : Bool)
    (st : Towers × CellsInTowers) : Option ((Towers × CellsInTowers) × Nat) :=
  (segmentations.toList.zip cells.toList).foldlM (buildStep t fillTowersCells)
    ((st.1, st.2.map (fun towerInMap => (towerInMap.1, []))), 0)

/-- The state of `attachCells`: `m_cellsInTowers`, the local vector `seen_cellIDs`, the
collection `aEdmClusterCells` and the hits of `aEdmCluster`. -/
structure Attached where
  cellsInTowers : CellsInTowers
  seen_cellIDs : List Nat
  edmClusterCells : List CalorimeterHit
  hits : List CalorimeterHit

/-- The body of the loop over the cells of one tower: a cell whose identifier was seen
is skipped, another one is cloned into the collection and added to the hits. -/
def attachCell (st : Attached) (cell : CalorimeterHit) : Attached :=
  if cell.cellID ∈ st.seen_cellIDs then st
  else
    { st with seen_cellIDs := st.seen_cellIDs ++ [cell.cellID],
              edmClusterCells := st.edmClusterCells ++ [cell],
              hits := st.hits ++ [cell] }

/-- The loop over `m_cellsInTowers[std::make_pair(iEta, phiNeighbour(iPhi))]`; the
subscript creates an empty entry for a tower without one. -/
def attachTower (t : CaloTowerTool) (st : Attached) (iEta iPhi : Int) : Attached :=
  (mapGet st.cellsInTowers (toUInt iEta, t.phiNeighbour iPhi) []).foldl attachCell
    { st with cellsInTowers :=
        mapEmplace pairLt st.cellsInTowers (toUInt iEta, t.phiNeighbour iPhi) [] }

/-- The test of the elliptical window for the tower `(iEta, iPhi)`. -/
def inEllipse (etaId phiId : Int) (halfEtaFin halfPhiFin : Nat) (iEta iPhi : Int) : Bool :=
  decide ((((etaId - iEta : Int) : ℚ) / ((halfEtaFin : ℚ) + 1 / 2)) ^ 2
    + (((phiId - iPhi : Int) : ℚ) / ((halfPhiFin : ℚ) + 1 / 2)) ^ 2 < 1)

/-- `void CaloTowerTool::attachCells(eta, phi, halfEtaFin, halfPhiFin, aEdmCluster,
aEdmClusterCells, aEllipse)`: the loops over `iEta` and `iPhi`, whose bounds are computed
in `uint` and read as `int`; the result holds `m_cellsInTowers`, the cell collection and
the hits of the cluster after the call. -/
def attachCells (t : CaloTowerTool) (eta phi : ℚ) (halfEtaFin halfPhiFin : Nat)
    (aEllipse : Bool) (cellsInTowers : CellsInTowers)
    (aEdmClusterCells hits : List CalorimeterHit) : Attached :=
  let etaId := toInt (t.idEta eta)
  let phiId := toInt (t.idPhi phi)
  (intRange (toInt (toUInt (etaId - halfEtaFin))) (toInt (toUInt (etaId + halfEtaFin)))).foldl
    (fun st iEta =>
      (intRange (toInt (toUInt (phiId - halfPhiFin))) (toInt (toUInt (phiId + halfPhiFin)))).foldl
        (fun st iPhi =>
          if aEllipse then
            if inEllipse etaId phiId halfEtaFin halfPhiFin iEta iPhi then t.attachTower st iEta iPhi
            else st
          else t.attachTower st iEta iPhi)
        st)
    { cellsInTowers := cellsInTowers, seen_cellIDs := [], edmClusterCells := aEdmClusterCells,
      hits := hits }

end CaloTowerTool

/-! ## `LayeredCaloTowerTool`: tower building -/

/-- The members of `LayeredCaloTowerTool` read by `buildTowers` besides the grid
parameters: the segmentation, the decoder of the `layer` field, the three layer
properties (all declared `float`), and the function `cosh`. -/
structure LayeredReadout where
  segmentation : GridPhiEta
  layer : Nat → Int
  addLayerRestriction : ℚ
  minimumLayer : ℚ
  maximumLayer : ℚ
  cosh : ℚ → ℚ

namespace LayeredCaloTowerTool

/-- `iEtaMin = idEta(etaCellMin + epsilon)`. -/
def iEtaMin (t : LayeredCaloTowerTool) (s : GridPhiEta) (c : Nat) : Int :=
  toInt (t.idEta (s.eta c - s.gridSizeEta * (1 / 2) + epsilon))

/-- `iPhiMin = idPhi(phiCellMin + epsilon)`. -/
def iPhiMin (t : LayeredCaloTowerTool) (s : GridPhiEta) (c : Nat) : Int :=
  toInt (t.idPhi (s.phi c - M_PI / (s.phiBins : ℚ) + epsilon))

/-- `iEtaMax = idEta(etaCellMax - epsilon)`. -/
def iEtaMax (t : LayeredCaloTowerTool) (s : GridPhiEta) (c : Nat) : Int :=
  toInt (t.idEta (s.eta c + s.gridSizeEta * (1 / 2) - epsilon))

/-- `iPhiMax = idPhi(phiCellMax - epsilon)`. -/
def iPhiMax (t : LayeredCaloTowerTool) (s : GridPhiEta) (c : Nat) : Int :=
  toInt (t.idPhi (s.phi c + M_PI / (s.phiBins : ℚ) - epsilon))

/-- `ratioEta` for the tower index `iEta`: `fracEtaMin`, `fracEtaMax` or
`fracEtaMiddle`, all `1.0` unless the first and last eta towers differ. -/
def ratioEta (t : LayeredCaloTowerTool) (s : GridPhiEta) (c : Nat) (iEta : Int) : ℚ :=
  let fracEtaMin :=
    |t.eta (iEtaMin t s c) + 1 / 2 * t.deltaEtaTower - (s.eta c - s.gridSizeEta * (1 / 2))|
      / s.gridSizeEta
  let fracEtaMax :=
    |s.eta c + s.gridSizeEta * (1 / 2) - t.eta (iEtaMax t s c) + 1 / 2 * t.deltaEtaTower|
      / s.gridSizeEta
  if iEtaMin t s c ≠ iEtaMax t s c then
    if iEta = iEtaMin t s c then fracEtaMin
    else if iEta = iEtaMax t s c then fracEtaMax
    else if iEtaMax t s c - iEtaMin t s c - 1 ≠ 0 then
      (1 - fracEtaMin - fracEtaMax) / ((iEtaMax t s c - iEtaMin t s c - 1 : Int) : ℚ)
    else 0
  else 1

/-- `ratioPhi` for the tower index `iPhi`: `fracPhiMin`, `fracPhiMax` or
`fracPhiMiddle`, all `1.0` unless the first and last phi towers differ. -/
def ratioPhi (t : LayeredCaloTowerTool) (s : GridPhiEta) (c : Nat) (iPhi : Int) : ℚ :=
  let fracPhiMin :=
    |t.phi (iPhiMin t s c) + 1 / 2 * t.deltaPhiTower - (s.phi c - M_PI / (s.phiBins : ℚ))|
      / (2 * M_PI / (s.phiBins : ℚ))
  let fracPhiMax :=
    |s.phi c + M_PI / (s.phiBins : ℚ) - t.phi (iPhiMax t s c) + 1 / 2 * t.deltaPhiTower|
      / (2 * M_PI / (s.phiBins : ℚ))
  if iPhiMin t s c ≠ iPhiMax t s c then
    if iPhi = iPhiMin t s c then fracPhiMin
    else if iPhi = iPhiMax t s c then fracPhiMax
    else if iPhiMax t s c - iPhiMin t s c - 1 ≠ 0 then
      (1 - fracPhiMin - fracPhiMax) / ((iPhiMax t s c - iPhiMin t s c - 1 : Int) : ℚ)
    else 0
  else 1

/-- The body of the phi loop: with the layer restriction the energy is added only for a
cell whose layer lies between `minimumLayer` and `maximumLayer`. -/
def deposit (t : LayeredCaloTowerTool) (r : LayeredReadout) (cell : CalorimeterHit)
    (iEta iPhi : Int) (g : Towers) : Option Towers :=
  if r.addLayerRestriction = 1 then
    if ((r.layer cell.cellID : Int) : ℚ) ≥ r.minimumLayer
        ∧ ((r.layer cell.cellID : Int) : ℚ) ≤ r.maximumLayer then
      addTower g iEta (t.phiNeighbour iPhi)
        (cell.energy / r.cosh (r.segmentation.eta cell.cellID)
          * ratioEta t r.segmentation cell.cellID iEta * ratioPhi t r.segmentation cell.cellID iPhi)
    else some g
  else
    addTower g iEta (t.phiNeighbour iPhi)
      (cell.energy / r.cosh (r.segmentation.eta cell.cellID)
        * ratioEta t r.segmentation cell.cellID iEta * ratioPhi t r.segmentation cell.cellID iPhi)

/-- The loops over `iEta` and `iPhi` for one cell. -/
def towerLoop (t : LayeredCaloTowerTool) (r : LayeredReadout) (cell : CalorimeterHit)
    (g : Towers) : Option Towers :=
  (intRange (iEtaMin t r.segmentation cell.cellID) (iEtaMax t r.segmentation cell.cellID)).foldlM
    (fun g iEta =>
      (intRange (iPhiMin t r.segmentation cell.cellID)
          (iPhiMax t r.segmentation cell.cellID)).foldlM
        (fun g iPhi => deposit t r cell iEta iPhi g) g)
    g

/-- `uint LayeredCaloTowerTool::buildTowers(aTowers, fillTowerCells)`: the grid after the
loop over the cells, and the returned `uint`. -/
def buildTowers (t : LayeredCaloTowerTool) (r : LayeredReadout) (cells : List CalorimeterHit)
    (aTowers : Towers) : Option (Towers × Nat) :=
  match cells.foldlM (fun g cell => towerLoop t r cell g) aTowers with
  | none => none
  | some g => some (g, cells.length % 4294967296)

end LayeredCaloTowerTool

/-! ## `LayeredCaloTowerTool`: cell attachment -/

namespace LayeredCaloTowerTool

/-- The test made by `attachCells` for one cell: the tower indices of the cell and of the
cluster, `uint` values read as `long int`, differ by at most `halfEtaFin` in eta and by at
most `halfPhiFin` in phi. -/
def inWindow (t : LayeredCaloTowerTool) (s : GridPhiEta) (eta phi : ℚ)
    (halfEtaFin halfPhiFin : Nat) (cell : CalorimeterHit) : Bool :=
  decide (|((t.idEta (s.eta cell.cellID) : Nat) : Int) - ((t.idEta eta : Nat) : Int)|
      ≤ (halfEtaFin : Int)) &&
    decide (|((t.idPhi (s.phi cell.cellID) : Nat) : Int) - ((t.idPhi phi : Nat) : Int)|
      ≤ (halfPhiFin : Int))

/-- `void LayeredCaloTowerTool::attachCells(eta, phi, halfEtaFin, halfPhiFin, aEdmCluster,
aEdmClusterCells, bool)`: the loop over the input cells `cells` of the segmentation `s`;
the result holds the cell collection and the hits of the cluster after the call. -/
def attachCells (t : LayeredCaloTowerTool) (s : GridPhiEta) (cells : List CalorimeterHit)
    (eta phi : ℚ) (halfEtaFin halfPhiFin : Nat)
    (aEdmClusterCells hits : List CalorimeterHit) :
    List CalorimeterHit × List CalorimeterHit :=
  cells.foldl
    (fun st cell =>
      if inWindow t s eta phi halfEtaFin halfPhiFin cell then (st.1 ++ [cell], st.2 ++ [cell])
      else st)
    (aEdmClusterCells, hits)

end LayeredCaloTowerTool

/-! ## `LayeredCaloTowerTool`: initialisation and grid size -/

namespace LayeredCaloTowerTool

/-- `StatusCode LayeredCaloTowerTool::initialize()`, as a function of the members read by
`buildTowers`: `fields` holds the names of the fields of the readout's decoder, and the
member `m_addLayerRestriction`, which holds the value of the property
`addLayerRestriction` on entry, is assigned `false` when no field is named `layer` and
`true` otherwise. The returns with `StatusCode::FAILURE` (no geometry service, no readout,
no phi-eta segmentation) come before and are left out: the readout is given with its
segmentation. The spelling of the name avoids a reserved word. -/
def initialise (r : LayeredReadout) (fields : List String) : LayeredReadout :=
  if "layer" ∉ fields then { r with addLayerRestriction := 0 }
  else { r with addLayerRestriction := 1 }

/-- `void LayeredCaloTowerTool::towersNumber(int& nEta, int& nPhi)` for the segmentation
`s` of the tool: the tool with the members `m_etaMax`, `m_phiMax`, `m_nPhiTower` and
`m_nEtaTower` set, and the pair `(nEta, nPhi)` written to the arguments. -/
def towersNumber (t : LayeredCaloTowerTool) (s : GridPhiEta) :
    LayeredCaloTowerTool × (Int × Int) :=
  let etaMax := |s.offsetEta| + s.gridSizeEta * (1 / 2)
  let phiMax := |s.offsetPhi| + M_PI / (s.phiBins : ℚ)
  let nPhiTower := doubleToInt ⌈2 * (phiMax - epsilon) / t.deltaPhiTower⌉
  let nEtaTower := doubleToInt ⌈2 * (etaMax - epsilon) / t.deltaEtaTower⌉
  ({ t with etaMax := etaMax, phiMax := phiMax, nPhiTower := nPhiTower, nEtaTower := nEtaTower },
    (nEtaTower, nPhiTower))

end LayeredCaloTowerTool

/-! ## `SplitClusters` -/

/-- A `TLorentzVector` `(x, y, z, e)`; in `SplitClusters` it holds a cell position together
with the cell energy. -/
structure TLorentzVector where
  x : ℚ
  y : ℚ
  z : ℚ
  e : ℚ
deriving DecidableEq, Repr

instance : Add TLorentzVector := ⟨fun a b => ⟨a.x + b.x, a.y + b.y, a.z + b.z, a.e + b.e⟩⟩

instance : Sub TLorentzVector := ⟨fun a b => ⟨a.x - b.x, a.y - b.y, a.z - b.z, a.e - b.e⟩⟩

/-- The default-constructed `TLorentzVector`. -/
instance : Zero TLorentzVector := ⟨⟨0, 0, 0, 0⟩⟩

/-- A position of a cell: `dd4hep::Position`. -/
structure Vector3 where
  x : ℚ
  y : ℚ
  z : ℚ
deriving DecidableEq, Repr

/-- The value of the floating-point division `x / y`: the quotient when the divisor is not
zero; `none` stands for the values that are no numbers (NaN and the infinities), which a
division by zero gives. -/
def divide (x y : ℚ) : Option ℚ := if y = 0 then none else some (x / y)

/-- An `edm4hep::Vector3f`, the position of a cluster: each of the three values is a
number or, after a division by zero, none. -/
structure Vector3f where
  x : Option ℚ
  y : Option ℚ
  z : Option ℚ
deriving DecidableEq, Repr

/-- An `edm4hep::Cluster`: type, energy, position and hit list. -/
structure Cluster where
  type : Int
  energy : ℚ
  position : Vector3f
  hits : List CalorimeterHit
deriving DecidableEq, Repr

/-- The ways `execute` can stop without returning `SUCCESS`: the explicit
`return StatusCode::FAILURE`, and an access outside a vector. -/
inductive Abort where
  | failure
  | undefined
deriving DecidableEq, Repr

/-- The properties of `SplitClusters` and the tools it calls. `endType` and `endEnergy`
stand for the values the source reads through a past-the-end iterator, which it
dereferences before any test (`*cellsType.find(id)` and `*std::find_if(...)`). -/
structure SplitClusters where
  threshold : ℚ
  neighbours : Nat → List Nat
  systemId : Nat → Nat
  noSegmentationHCalUsed : Bool
  positionsECalBarrel : Nat → Vector3
  positionsHCalBarrel : Nat → Vector3
  positionsHCalBarrelNoSeg : Nat → Vector3
  deltaR : TLorentzVector → TLorentzVector → ℚ
  endType : Int
  endEnergy : ℚ

namespace SplitClusters

/-- The position `posCell` of a cell: chosen by the system identifier, and left
default-constructed for a system without position tool. -/
def posCell (a : SplitClusters) (cellID : Nat) : Vector3 :=
  if a.systemId cellID = 5 then a.positionsECalBarrel cellID
  else if a.systemId cellID = 8 then
    if a.noSegmentationHCalUsed then a.positionsHCalBarrelNoSeg cellID
    else a.positionsHCalBarrel cellID
  else ⟨0, 0, 0⟩

/-- The map `cellsType` filled by the loop over the cluster cells. -/
def cellsType (hits : List CalorimeterHit) : List (Nat × Int) :=
  hits.foldl (fun m cell => mapEmplace natLt m cell.cellID cell.type) []

/-- The map `allCells` after the loop over the cluster cells. -/
def allCellsAfterRead (allCells : List (Nat × Int)) (hits : List CalorimeterHit) :
    List (Nat × Int) :=
  hits.foldl (fun m cell => mapEmplace natLt m cell.cellID cell.type) allCells

/-- The map `cellsPosition` filled by the loop over the cluster cells. -/
def cellsPosition (a : SplitClusters) (hits : List CalorimeterHit) :
    List (Nat × TLorentzVector) :=
  hits.foldl (fun m cell => mapEmplace natLt m cell.cellID
    ⟨(a.posCell cell.cellID).x, (a.posCell cell.cellID).y, (a.posCell cell.cellID).z,
      cell.energy⟩) []

/-- The vector `cellsEnergy` after `std::sort` by increasing energy (entries of equal
energy are kept in the order of the hits, one of the orders `std::sort` may produce). -/
def cellsEnergy (hits : List CalorimeterHit) : List (Nat × ℚ) :=
  List.insertionSort (fun p q => p.2 ≤ q.2) (hits.map (fun cell => (cell.cellID, cell.energy)))

/-- The value `(*cellsType.find(id)).second`. -/
def typeOf (a : SplitClusters) (aCellsType : List (Nat × Int)) (id : Nat) : Int :=
  match mapFind aCellsType id with
  | some ty => ty
  | none => a.endType

/-- The value `(*std::find_if(cellsEnergy.begin(), cellsEnergy.end(), ...)).second` for
the first entry with the given identifier. -/
def energyOf (a : SplitClusters) (aCellsEnergy : List (Nat × ℚ)) (id : Nat) : ℚ :=
  match aCellsEnergy.find? (fun elem => decide (elem.1 = id)) with
  | some elem => elem.2
  | none => a.endEnergy

/-- The loop over the neighbours of a seed candidate of energy `energy`: the final value
of `countNeighbours`, counting from `n`; a neighbouring seed of higher energy ends the
loop (`break`). -/
def countNeighbours (a : SplitClusters) (aCellsType : List (Nat × Int))
    (aCellsEnergy : List (Nat × ℚ)) (energy : ℚ) : List Nat → Nat → Nat
  | [], n => n
  | nCellId :: rest, n =>
    if a.typeOf aCellsType nCellId = 2 then
      countNeighbours a aCellsType aCellsEnergy energy rest (n + 1)
    else if a.typeOf aCellsType nCellId = 1 then
      if a.energyOf aCellsEnergy nCellId > energy then n
      else countNeighbours a aCellsType aCellsEnergy energy rest (n + 1)
    else countNeighbours a aCellsType aCellsEnergy energy rest n

/-- The test made for one entry of `cellsEnergy`: the cell is of seed type, above the
threshold, and has more than 4 counted neighbours. -/
def isNewSeed (a : SplitClusters) (aCellsType : List (Nat × Int))
    (aCellsEnergy : List (Nat × ℚ)) (cell : Nat × ℚ) : Bool :=
  decide (a.typeOf aCellsType cell.1 = 1) && decide (cell.2 > a.threshold) &&
    decide (countNeighbours a aCellsType aCellsEnergy cell.2 (a.neighbours cell.1) 0 > 4)

/-- The vector `newSeeds` of the cluster: the confirmed seeds, by increasing energy. -/
def newSeeds (a : SplitClusters) (hits : List CalorimeterHit) : List (Nat × ℚ) :=
  (cellsEnergy hits).filter (fun cell => a.isNewSeed (cellsType hits) (cellsEnergy hits) cell)

/-- The two maps updated by `searchForNeighbours`: `clusterOfCell` and
`clusterPositions`. -/
structure Growth where
  clusterOfCell : List (Nat × Nat)
  clusterPositions : List (Nat × TLorentzVector)
deriving DecidableEq, Repr

/-- The body of the loop of `searchForNeighbours` for one neighbour: the maps and the
vector `addedNeighbourIds` after it. -/
def visitNeighbour (a : SplitClusters) (aClusterID : Nat) (aCellsType : List (Nat × Int))
    (aCellPosition : List (Nat × TLorentzVector)) (st : Growth × List (Nat × Nat))
    (neighbourID : Nat) : Growth × List (Nat × Nat) :=
  match mapFind aCellsType neighbourID with
  | none => st
  | some _ =>
    match mapFind st.1.clusterOfCell neighbourID with
    | none =>
      ({ clusterOfCell := mapEmplace natLt st.1.clusterOfCell neighbourID aClusterID,
         clusterPositions := mapAssign natLt st.1.clusterPositions aClusterID
           (mapGet st.1.clusterPositions aClusterID 0 + mapGet aCellPosition neighbourID 0) },
       st.2 ++ [(neighbourID, aClusterID)])
    | some clusterIDToMerge =>
      if clusterIDToMerge ≠ aClusterID then
        if a.deltaR (mapGet st.1.clusterPositions aClusterID 0)
              (mapGet aCellPosition neighbourID 0)
            ≤ a.deltaR (mapGet st.1.clusterPositions clusterIDToMerge 0)
              (mapGet aCellPosition neighbourID 0) then
          let removed := mapAssign natLt st.1.clusterPositions clusterIDToMerge
            (mapGet st.1.clusterPositions clusterIDToMerge 0 - mapGet aCellPosition neighbourID 0)
          ({ clusterOfCell := mapAssign natLt st.1.clusterOfCell neighbourID aClusterID,
             clusterPositions := mapAssign natLt removed aClusterID
               (mapGet removed aClusterID 0 + mapGet aCellPosition neighbourID 0) },
           st.2 ++ [(neighbourID, aClusterID)])
        else
          ({ clusterOfCell := mapAssign natLt st.1.clusterOfCell neighbourID clusterIDToMerge,
             clusterPositions := st.1.clusterPositions },
           st.2)
      else st

/-- `SplitClusters::searchForNeighbours`: the updated maps and the returned vector
`addedNeighbourIds`; an empty neighbour list yields the single pair `(0, 0)`. -/
def searchForNeighbours (a : SplitClusters) (aCellId aClusterID : Nat)
    (aCellsType : List (Nat × Int)) (aCellPosition : List (Nat × TLorentzVector))
    (g : Growth) : Growth × List (Nat × Nat) :=
  if (a.neighbours aCellId).length = 0 then (g, [(0, 0)])
  else (a.neighbours aCellId).foldl (visitNeighbour a aClusterID aCellsType aCellPosition) (g, [])

/-- The state of the sub-cluster building of one cluster. -/
structure Building where
  growth : Growth
  preClusterCollection : List (Nat × List (Nat × Int))
  mapVecNextNeighbours : List (Nat × List (List (Nat × Nat)))
  clusterID : Nat
deriving DecidableEq, Repr

/-- Iteration 0 for one seed: the seed starts the sub-cluster `clusterID`, its neighbours
are searched, and the frontier vectors of the sub-cluster are allocated (the first
frontier followed by 1000 empty ones). -/
def startSeed (a : SplitClusters) (aCellsType : List (Nat × Int))
    (aCellPosition : List (Nat × TLorentzVector)) (b : Building) (seed : Nat × ℚ) : Building :=
  let found := searchForNeighbours a seed.1 b.clusterID aCellsType aCellPosition
    { clusterOfCell := mapEmplace natLt b.growth.clusterOfCell seed.1 b.clusterID,
      clusterPositions := mapEmplace natLt b.growth.clusterPositions b.clusterID
        (mapGet aCellPosition seed.1 0) }
  { growth := found.1,
    preClusterCollection := mapEmplace natLt b.preClusterCollection b.clusterID [],
    mapVecNextNeighbours := mapEmplace natLt b.mapVecNextNeighbours b.clusterID
      (found.2 :: List.replicate 1000 []),
    clusterID := b.clusterID + 1 }

/-- The append `vecVec[iter].insert(vecVec[iter].end(), vec)` on the frontier vectors of
one sub-cluster. -/
def appendFrontier : List (List (Nat × Nat)) → Nat → List (Nat × Nat) →
    Option (List (List (Nat × Nat)))
  | [], _, _ => none
  | f :: fs, 0, vec => some ((f ++ vec) :: fs)
  | f :: fs, iter + 1, vec => (appendFrontier fs iter vec).map (fun r => f :: r)

/-- The body of the loop over the frontier of one sub-cluster: the two checks that stop
the building, the search from the frontier cell and the append to the next frontier. -/
def expandCell (a : SplitClusters) (aCellsType : List (Nat × Int))
    (aCellPosition : List (Nat × TLorentzVector)) (iter clusterID : Nat)
    (st : Growth × List (Nat × List (List (Nat × Nat)))) (id : Nat × Nat) :
    Except Abort (Growth × List (Nat × List (List (Nat × Nat)))) :=
  if id.1 = 0 then Except.error Abort.failure
  else if id.2 ≠ clusterID then Except.error Abort.failure
  else
    let found := searchForNeighbours a id.1 clusterID aCellsType aCellPosition st.1
    match appendFrontier (mapGet st.2 clusterID []) iter found.2 with
    | none => Except.error Abort.undefined
    | some vecVec => Except.ok (found.1, mapAssign natLt st.2 clusterID vecVec)

/-- One sub-cluster in one round of the growth loop: when its frontier of the round
before is not empty, `foundNewNeighbours` is set and every frontier cell is expanded. -/
def expandCluster (a : SplitClusters) (aCellsType : List (Nat × Int))
    (aCellPosition : List (Nat × TLorentzVector)) (iter : Nat)
    (st : (Growth × List (Nat × List (List (Nat × Nat)))) × Bool) (clusterID : Nat) :
    Except Abort ((Growth × List (Nat × List (List (Nat × Nat)))) × Bool) :=
  match (mapGet st.1.2 clusterID []).get? (iter - 1) with
  | none => Except.error Abort.undefined
  | some frontier =>
    if frontier.length > 0 then
      match frontier.foldlM (expandCell a aCellsType aCellPosition iter clusterID) st.1 with
      | Except.error e => Except.error e
      | Except.ok st' => Except.ok (st', true)
    else Except.ok st

/-- One round of the growth loop: all sub-clusters in the order of their identifiers;
the flag tells whether some frontier was not empty. -/
def growthRound (a : SplitClusters) (aCellsType : List (Nat × Int))
    (aCellPosition : List (Nat × TLorentzVector)) (nClusters nSeeds iter : Nat)
    (st : Growth × List (Nat × List (List (Nat × Nat)))) :
    Except Abort ((Growth × List (Nat × List (List (Nat × Nat)))) × Bool) :=
  ((List.range nSeeds).map (fun k => nClusters + (k + 1))).foldlM
    (expandCluster a aCellsType aCellPosition iter) (st, false)

/-- The loop `while (iter > 0)`: rounds are run from `iter` on until one finds every
frontier empty. The frontier vectors have 1001 entries, so that a round beyond them
stops in `expandCluster`; `fuel` bounds the number of rounds. -/
def growthLoop (a : SplitClusters) (aCellsType : List (Nat × Int))
    (aCellPosition : List (Nat × TLorentzVector)) (nClusters nSeeds : Nat) :
    Nat → Nat → Growth × List (Nat × List (List (Nat × Nat))) →
    Except Abort (Growth × List (Nat × List (List (Nat × Nat))))
  | 0, _, _ => Except.error Abort.undefined
  | fuel + 1, iter, st =>
    match growthRound a aCellsType aCellPosition nClusters nSeeds iter st with
    | Except.error e => Except.error e
    | Except.ok (st', true) => growthLoop a aCellsType aCellPosition nClusters nSeeds fuel (iter + 1) st'
    | Except.ok (st', false) => Except.ok st'

/-- The state of the loop over `clusterOfCell` after the growth: the pre-clusters, what
is left of `cellsType`, the map `allCells` and the counter `allClusteredCells`. -/
structure Collected where
  preClusterCollection : List (Nat × List (Nat × Int))
  cellsType : List (Nat × Int)
  allCells : List (Nat × Int)
  allClusteredCells : Nat
deriving DecidableEq, Repr

/-- The body of the loop over `clusterOfCell`: the cell joins the pre-cluster of its
sub-cluster with the type held by `allCells`, and leaves `cellsType`. -/
def collectCell (c : Collected) (i : Nat × Nat) : Collected :=
  { preClusterCollection := mapAssign natLt c.preClusterCollection i.2
      (mapGet c.preClusterCollection i.2 [] ++ [(i.1, mapGet c.allCells i.1 0)]),
    cellsType := mapErase c.cellsType i.1,
    allCells := mapEmplace natLt c.allCells i.1 0,
    allClusteredCells := c.allClusteredCells + 1 }

/-- The sums kept while the cells of one output cluster are created. -/
structure Sums where
  posX : ℚ
  posY : ℚ
  posZ : ℚ
  energy : ℚ
  cells : List CalorimeterHit
deriving DecidableEq, Repr

/-- The body of the loop creating the cells of an output cluster: a new cell with the
energy found in `cellsEnergy`, the identifier and the given type. -/
def addCell (a : SplitClusters) (aCellsEnergy : List (Nat × ℚ)) (s : Sums) (cID : Nat)
    (type : Int) : Sums :=
  { posX := s.posX + (a.posCell cID).x * a.energyOf aCellsEnergy cID,
    posY := s.posY + (a.posCell cID).y * a.energyOf aCellsEnergy cID,
    posZ := s.posZ + (a.posCell cID).z * a.energyOf aCellsEnergy cID,
    energy := s.energy + a.energyOf aCellsEnergy cID,
    cells := s.cells ++ [{ cellID := cID, energy := a.energyOf aCellsEnergy cID, type := type }] }

/-- The sums of the left-over cluster: every cell remaining in `cellsType`, created with
type 4. -/
def leftoverSums (a : SplitClusters) (aCellsEnergy : List (Nat × ℚ))
    (aCellsType : List (Nat × Int)) : Sums :=
  aCellsType.foldl (fun s it => addCell a aCellsEnergy s it.1 4) ⟨0, 0, 0, 0, []⟩

/-- The left-over cluster: type 3, the summed energy and the position
`(posX / energy, posY / energy, posZ / energy)`; its cells are created in the cell
collection and no hit is attached to it. -/
def leftoverCluster (s : Sums) : Cluster :=
  { type := 3, energy := s.energy,
    position := ⟨divide s.posX s.energy, divide s.posY s.energy, divide s.posZ s.energy⟩, hits := [] }

/-- The sums of one sub-cluster: every cell of the pre-cluster, created with the type
recorded for it. -/
def subClusterSums (a : SplitClusters) (aCellsEnergy : List (Nat × ℚ))
    (cells : List (Nat × Int)) : Sums :=
  cells.foldl (fun s pair => addCell a aCellsEnergy s pair.1 pair.2) ⟨0, 0, 0, 0, []⟩

/-- One sub-cluster: type 2, the summed energy, the position
`(posX / energy, posY / energy, posZ / energy)` and the created cells as hits. -/
def subCluster (s : Sums) : Cluster :=
  { type := 2, energy := s.energy,
    position := ⟨divide s.posX s.energy, divide s.posY s.energy, divide s.posZ s.energy⟩, hits := s.cells }

/-- What `execute` emits for one input cluster: the clusters appended to the output
cluster collection, the cells appended to the output cell collection, the increments of
`totCellsAfter` and `totEnergyAfter`, and the map `allCells` afterwards. -/
structure Emitted where
  clusters : List Cluster
  cells : List CalorimeterHit
  cellsAfter : Nat
  energyAfter : ℚ
  allCells : List (Nat × Int)
deriving DecidableEq, Repr

/-- The branch of `execute` that fills the cluster without changes: a clone of type 1
and a clone of every hit. -/
def emitUnsplit (cluster : Cluster) (allCells : List (Nat × Int)) : Emitted :=
  { clusters := [{ cluster with type := 1 }],
    cells := cluster.hits,
    cellsAfter := cluster.hits.length,
    energyAfter := cluster.energy,
    allCells := cluster.hits.foldl (fun m cell => mapErase m cell.cellID) allCells }

/-- The output of a split cluster once the growth has stopped: the cells of
`clusterOfCell` are collected, the left-over cluster is created when their number
differs from the number of hits, then one cluster is filled per pre-cluster. -/
def emitSplit (a : SplitClusters) (cluster : Cluster) (allCells : List (Nat × Int))
    (preClusterCollection : List (Nat × List (Nat × Int)))
    (clusterOfCell : List (Nat × Nat)) : Emitted :=
  let c := clusterOfCell.foldl collectCell
    { preClusterCollection := preClusterCollection, cellsType := cellsType cluster.hits,
      allCells := allCells, allClusteredCells := 0 }
  let ce := cellsEnergy cluster.hits
  let left := leftoverSums a ce c.cellsType
  let hasLeft := decide (c.allClusteredCells ≠ cluster.hits.length)
  let subs := c.preClusterCollection.map (fun i => subClusterSums a ce i.2)
  { clusters := (if hasLeft then [leftoverCluster left] else []) ++ subs.map subCluster,
    cells := (if hasLeft then left.cells else []) ++ subs.flatMap (fun s => s.cells),
    cellsAfter := (if hasLeft then left.cells.length else 0)
      + (subs.map (fun s => s.cells.length)).sum,
    energyAfter := (if hasLeft then left.energy else 0) + (subs.map (fun s => s.energy)).sum,
    allCells := (c.preClusterCollection.flatMap (fun i => i.2)).foldl
      (fun m pair => mapErase m pair.1) c.allCells }

/-- The body of the loop of `execute` over the input clusters, for one cluster:
`nClusters` is the size of the input collection and `allCells` the map on entry. -/
def splitCluster (a : SplitClusters) (nClusters : Nat) (allCells : List (Nat × Int))
    (cluster : Cluster) : Except Abort Emitted :=
  let ct := cellsType cluster.hits
  let cp := cellsPosition a cluster.hits
  let all := allCellsAfterRead allCells cluster.hits
  let seeds := newSeeds a cluster.hits
  if seeds.length > 1 then
    let b := seeds.foldl (startSeed a ct cp)
      { growth := { clusterOfCell := [], clusterPositions := [] },
        preClusterCollection := [], mapVecNextNeighbours := [], clusterID := nClusters + 1 }
    match growthLoop a ct cp nClusters seeds.length 1002 1 (b.growth, b.mapVecNextNeighbours) with
    | Except.error e => Except.error e
    | Except.ok st => Except.ok (emitSplit a cluster all b.preClusterCollection st.1.clusterOfCell)
  else Except.ok (emitUnsplit cluster all)

/-- The output collections and the totals of `execute`. -/
structure Event where
  edmClusters : List Cluster
  edmClusterCells : List CalorimeterHit
  allCells : List (Nat × Int)
  totCellsBefore : Nat
  totCellsAfter : Nat
  totEnergyBefore : ℚ
  totEnergyAfter : ℚ
deriving DecidableEq, Repr

/-- `SplitClusters::execute`: the loop over the input clusters; a failure in one cluster
ends the execution. -/
def execute (a : SplitClusters) (clusters : List Cluster) : Except Abort Event :=
  clusters.foldlM
    (fun ev cluster =>
      match splitCluster a clusters.length ev.allCells cluster with
      | Except.error e => Except.error e
      | Except.ok out =>
        Except.ok
          { edmClusters := ev.edmClusters ++ out.clusters,
            edmClusterCells := ev.edmClusterCells ++ out.cells,
            allCells := out.allCells,
            totCellsBefore := ev.totCellsBefore + cluster.hits.length,
            totCellsAfter := ev.totCellsAfter + out.cellsAfter,
            totEnergyBefore := ev.totEnergyBefore + cluster.energy,
            totEnergyAfter := ev.totEnergyAfter + out.energyAfter })
    { edmClusters := [], edmClusterCells := [], allCells := [], totCellsBefore := 0,
      totCellsAfter := 0, totEnergyBefore := 0, totEnergyAfter := 0 }

end SplitClusters

/-! ## `SplitClusters`: the rounds of the growth loop -/

namespace SplitClusters

/-- The loop `while (iter == 0)` of `execute`: iteration 0 for every confirmed seed, in
the order of `newSeeds`; `nClusters` is the size of the input collection. -/
def iteration0 (a : SplitClusters) (nClusters : Nat) (cluster : Cluster) : Building :=
  (a.newSeeds cluster.hits).foldl
    (a.startSeed (cellsType cluster.hits) (a.cellsPosition cluster.hits))
    { growth := { clusterOfCell := [], clusterPositions := [] },
      preClusterCollection := [], mapVecNextNeighbours := [], clusterID := nClusters + 1 }

/-- The loop `while (iter > 0)` again, giving the number of the round that finds every
frontier empty (the value logged as "Stopped cluster building at iteration"); `fuel`
bounds the number of rounds. -/
def stoppedAt (a : SplitClusters) (aCellsType : List (Nat × Int))
    (aCellPosition : List (Nat × TLorentzVector)) (nClusters nSeeds : Nat) :
    Nat → Nat → Growth × List (Nat × List (List (Nat × Nat))) → Except Abort Nat
  | 0, _, _ => Except.error Abort.undefined
  | fuel + 1, iter, st =>
    match growthRound a aCellsType aCellPosition nClusters nSeeds iter st with
    | Except.error e => Except.error e
    | Except.ok (st', true) => stoppedAt a aCellsType aCellPosition nClusters nSeeds fuel (iter + 1) st'
    | Except.ok (_, false) => Except.ok iter

end SplitClusters

/-! ## Predicates and data used in the statements -/

/-- A tower tool with towers of size 1/100 covering `|eta| ≤ 1` and `|phi| ≤ 1/2`. -/
def exampleTool : CaloTowerTool :=
  { etaMax := 1, phiMax := 1 / 2, deltaEtaTower := 1 / 100, deltaPhiTower := 1 / 100,
    nEtaTower := 200, nPhiTower := 100, useHalfTower := false, max_layer := 6,
    layer := fun _ => 0, cosh := fun _ => 1 }

/-- The layered tool with the same grid as `exampleTool`. -/
def exampleLayeredTool : LayeredCaloTowerTool :=
  { etaMax := 1, phiMax := 1 / 2, deltaEtaTower := 1 / 100, deltaPhiTower := 1 / 100,
    nEtaTower := 200, nPhiTower := 100 }

/-- A tower tool with four phi towers. -/
def fourPhiTool : CaloTowerTool :=
  { etaMax := 1, phiMax := 2, deltaEtaTower := 1, deltaPhiTower := 1,
    nEtaTower := 2, nPhiTower := 4, useHalfTower := false, max_layer := 6,
    layer := fun _ => 0, cosh := fun _ => 1 }

/-- The layered tool with four phi towers. -/
def fourPhiLayeredTool : LayeredCaloTowerTool :=
  { etaMax := 1, phiMax := 2, deltaEtaTower := 1, deltaPhiTower := 1,
    nEtaTower := 2, nPhiTower := 4 }

/-- The state `st'` is `st` with `tot` added in total and `pt a b` added to tower
`(a, b)`, the grid keeping its size. -/
def Gained (nEta nPhi : Nat) (st st' : Towers × CellsInTowers) (tot : ℚ)
    (pt : Nat → Nat → ℚ) : Prop :=
  GridDims st'.1 nEta nPhi ∧ towersSum st'.1 = towersSum st.1 + tot ∧
    ∀ a b, towerAt st'.1 a b = towerAt st.1 a b + pt a b

/-- The energy added to one tower by the body of the phi loop. -/
def CaloTowerTool.share (t : CaloTowerTool) (s : GridPhiEta) (cell : CalorimeterHit)
    (iEta iPhi : Int) : ℚ :=
  cell.energy / t.cosh (s.eta cell.cellID) * t.ratioEta s cell.cellID iEta
    * t.ratioPhi s cell.cellID iPhi

/-- The cell `c` of the grid `s` is at least `2 * epsilon` wide in both coordinates and
lies inside a grid of `nEta` by `nPhi` towers: its eta interval is inside the eta range of
the grid, its phi interval starts at most one turn below the phi range of the grid and its
last phi index fits an `int`. -/
def CellInGrid (t : CaloTowerTool) (s : GridPhiEta) (nEta nPhi : Nat) (c : Nat) : Prop :=
  2 * epsilon ≤ s.gridSizeEta ∧ 2 * epsilon ≤ 2 * M_PI / (s.phiBins : ℚ) ∧
  -t.etaMax ≤ CaloTowerTool.etaCellMin s c ∧
  CaloTowerTool.etaCellMax s c ≤ (nEta : ℚ) * t.deltaEtaTower - t.etaMax ∧
  -t.phiMax - (nPhi : ℚ) * t.deltaPhiTower ≤ CaloTowerTool.phiCellMin s c ∧
  CaloTowerTool.phiCellMax s c ≤ 2147483648 * t.deltaPhiTower - t.phiMax

/-- The tower sizes are positive and the grid of `nEta` by `nPhi` towers has the phi size
known to the tool, both sizes being `int` values. -/
def GridOfTool (t : CaloTowerTool) (nEta nPhi : Nat) : Prop :=
  0 < t.deltaEtaTower ∧ 0 < t.deltaPhiTower ∧ nEta < 2147483648 ∧ nPhi < 2147483648 ∧
  0 < nPhi ∧ t.nPhiTower = (nPhi : Int)

instance (t : CaloTowerTool) (s : GridPhiEta) (nEta nPhi c : Nat) :
    Decidable (CellInGrid t s nEta nPhi c) := by
  unfold CellInGrid
  infer_instance

instance (t : CaloTowerTool) (nEta nPhi : Nat) : Decidable (GridOfTool t nEta nPhi) := by
  unfold GridOfTool
  infer_instance

/-- A grid of cells one unit wide in eta and a quarter turn wide in phi, every cell
centred at the origin. -/
def unitGrid : GridPhiEta :=
  { gridSizeEta := 1, phiBins := 4, offsetEta := 0, offsetPhi := 0,
    eta := fun _ => 0, phi := fun _ => 0 }

/-- A grid of cells only `1/10000` wide in eta, every cell centred at the origin. -/
def narrowGrid : GridPhiEta :=
  { gridSizeEta := 1 / 10000, phiBins := 4, offsetEta := 0, offsetPhi := 0,
    eta := fun _ => 0, phi := fun _ => 0 }

/-- A cell of energy 5. -/
def cellFive : CalorimeterHit := { cellID := 1, energy := 5, type := 0 }

/-- A cell of energy 3. -/
def cellThree : CalorimeterHit := { cellID := 2, energy := 3, type := 0 }

/-- The tool `fourPhiTool` with phi towers a quarter turn wide. -/
def quarterTurnTool : CaloTowerTool :=
  { etaMax := 1, phiMax := M_PI, deltaEtaTower := 1, deltaPhiTower := M_PI / 2,
    nEtaTower := 2, nPhiTower := 4, useHalfTower := false, max_layer := 6,
    layer := fun _ => 0, cosh := fun _ => 1 }

/-- The tool `quarterTurnTool` with the depth filter switched on, every cell being in
layer 7. -/
def quarterTurnHalfTool : CaloTowerTool :=
  { etaMax := 1, phiMax := M_PI, deltaEtaTower := 1, deltaPhiTower := M_PI / 2,
    nEtaTower := 2, nPhiTower := 4, useHalfTower := true, max_layer := 6,
    layer := fun _ => 7, cosh := fun _ => 1 }

/-- A grid whose cells have the size of the towers of `quarterTurnTool` and sit at the
centre of its tower `(1, 2)`. -/
def quarterTurnGrid : GridPhiEta :=
  { gridSizeEta := 1, phiBins := 4, offsetEta := 1 / 2, offsetPhi := M_PI / 4,
    eta := fun _ => 1 / 2, phi := fun _ => M_PI / 4 }

/-- A grid whose cells are twice as wide as the towers of `quarterTurnTool` in both
coordinates and are centred on the boundary between the towers 0 and 1 in eta and
between the towers 1 and 2 in phi. -/
def doubleGrid : GridPhiEta :=
  { gridSizeEta := 2, phiBins := 2, offsetEta := 0, offsetPhi := 0,
    eta := fun _ => 0, phi := fun _ => 0 }

/-- The keys of `coc` are pairwise distinct and are keys of `ct`. -/
def KeysWithin {α β : Type} (ct : List (Nat × α)) (coc : List (Nat × β)) : Prop :=
  (coc.map Prod.fst).Nodup ∧ ∀ k ∈ coc.map Prod.fst, k ∈ ct.map Prod.fst

instance {α β : Type} (ct : List (Nat × α)) (coc : List (Nat × β)) :
    Decidable (KeysWithin ct coc) := by
  unfold KeysWithin
  infer_instance

/-- Every pre-cluster is still empty. -/
def PreEmpty (pre : List (Nat × List (Nat × Int))) : Prop := ∀ p ∈ pre, p.2 = []

instance (pre : List (Nat × List (Nat × Int))) : Decidable (PreEmpty pre) := by
  unfold PreEmpty
  infer_instance

/-- A splitter whose cells sit on the x axis at their identifier, with the distance on
that axis standing for `DeltaR`; the cells 1 and 2 are both neighbours of the cells
3 to 7, and these have the cells 1 and 2 as neighbours. -/
def lineSplitter : SplitClusters :=
  { threshold := 1,
    neighbours := fun id => if id = 1 ∨ id = 2 then [3, 4, 5, 6, 7] else [1, 2],
    systemId := fun _ => 5,
    noSegmentationHCalUsed := false,
    positionsECalBarrel := fun id => ⟨(id : ℚ), 0, 0⟩,
    positionsHCalBarrel := fun _ => ⟨0, 0, 0⟩,
    positionsHCalBarrelNoSeg := fun _ => ⟨0, 0, 0⟩,
    deltaR := fun p q => |p.x - q.x|,
    endType := 0,
    endEnergy := 0 }

/-- A cluster of two seed cells (1 and 2) and five neighbour cells (3 to 7), of total
energy 20. -/
def twoSeedCluster : Cluster :=
  { type := 0, energy := 20, position := ⟨some 3, some 0, some 0⟩,
    hits := [⟨1, 5, 1⟩, ⟨2, 5, 1⟩, ⟨3, 2, 2⟩, ⟨4, 2, 2⟩, ⟨5, 2, 2⟩, ⟨6, 2, 2⟩, ⟨7, 2, 2⟩] }

/-- A cluster of three neighbour cells and no seed, of total energy 6. -/
def noSeedCluster : Cluster :=
  { type := 0, energy := 6, position := ⟨some 4, some 0, some 0⟩,
    hits := [⟨3, 2, 2⟩, ⟨4, 2, 2⟩, ⟨5, 2, 2⟩] }

/-- A splitter for eleven cells at unit distance from the beam line, the cell `id`
sitting at the transverse coordinate `y`; the difference of the slopes `y / x` stands
for `DeltaR`. The seed 1 has the neighbours 3, 4, 5, 6 and 7, the seed 2 the neighbours
8, 9, 10, 11 and 7, and the cell 7 lies between the two groups. -/
def tieSplitter : SplitClusters :=
  { threshold := 1,
    neighbours := fun id =>
      if id = 1 then [3, 4, 5, 6, 7] else if id = 2 then [8, 9, 10, 11, 7]
      else if id = 7 then [1, 2] else if id ≤ 6 then [1] else [2],
    systemId := fun _ => 5,
    noSegmentationHCalUsed := false,
    positionsECalBarrel := fun id =>
      ⟨1, [0, -3, 5 / 2, -5, -4, -2, -1, 0, 1, 2, 3, 4].getD id 0, 0⟩,
    positionsHCalBarrel := fun _ => ⟨0, 0, 0⟩,
    positionsHCalBarrelNoSeg := fun _ => ⟨0, 0, 0⟩,
    deltaR := fun p q => |p.y / p.x - q.y / q.x|,
    endType := 0,
    endEnergy := 0 }

/-- The cluster of the eleven cells of `tieSplitter`: the seeds 1 and 2 (energies 5 and
6) and nine neighbour cells of energy 1. -/
def tieCluster : Cluster :=
  { type := 0, energy := 20, position := ⟨some 1, some 0, some 0⟩,
    hits := [⟨1, 5, 1⟩, ⟨2, 6, 1⟩, ⟨3, 1, 2⟩, ⟨4, 1, 2⟩, ⟨5, 1, 2⟩, ⟨6, 1, 2⟩, ⟨7, 1, 2⟩,
      ⟨8, 1, 2⟩, ⟨9, 1, 2⟩, ⟨10, 1, 2⟩, ⟨11, 1, 2⟩] }

/-- The state reached by `execute` on `tieCluster` (alone in its collection) in
iteration 0, inside the call of `searchForNeighbours` for the seed 2 (sub-cluster 3),
just before the neighbour 7 is visited: the seed 1 has started sub-cluster 2 and taken
its five neighbours, the seed 2 has taken the cells 8, 9, 10 and 11. -/
def tieReached : SplitClusters.Growth × List (Nat × Nat) :=
  let ct := SplitClusters.cellsType tieCluster.hits
  let cp := tieSplitter.cellsPosition tieCluster.hits
  let b := tieSplitter.startSeed ct cp
    { growth := { clusterOfCell := [], clusterPositions := [] },
      preClusterCollection := [], mapVecNextNeighbours := [], clusterID := 2 } (1, 5)
  [8, 9, 10, 11].foldl (tieSplitter.visitNeighbour 3 ct cp)
    ({ clusterOfCell := mapEmplace natLt b.growth.clusterOfCell 2 3,
       clusterPositions := mapEmplace natLt b.growth.clusterPositions 3 (mapGet cp 2 0) }, [])


/-! ## Predicates and data used in the statements on the tower building -/

/-- The extent `|offsetPhi| + pi / phiBins` of a grid in phi. -/
def GridPhiEta.phiExtent (s : GridPhiEta) : ℚ := |s.offsetPhi| + M_PI / (s.phiBins : ℚ)

/-- The extent `|offsetEta| + gridSizeEta / 2` of a grid in eta. -/
def GridPhiEta.etaExtent (s : GridPhiEta) : ℚ := |s.offsetEta| + s.gridSizeEta / 2

/-- The grids of a source: the grid itself, or every sub-grid of a multi-segmentation. -/
def Segmentation.grids : Segmentation → List GridPhiEta
  | .kPhiEta s => [s]
  | .kMulti subSegmentations _ => subSegmentations

/-- The grids of one partition: none when its segmentation is not registered. -/
def gridsOf : Option Segmentation → List GridPhiEta
  | none => []
  | some s => s.grids

/-- The grids of the available sources (those whose segmentation is registered). -/
def availableGrids (segmentations : Partitions (Option Segmentation)) : List GridPhiEta :=
  segmentations.toList.flatMap gridsOf

/-- The cells of the input collections of the partitions whose segmentation is
available. -/
def availableCells (segmentations : Partitions (Option Segmentation))
    (cells : Partitions (List CalorimeterHit)) : List CalorimeterHit :=
  (segmentations.toList.zip cells.toList).flatMap (fun p => if p.1.isSome then p.2 else [])

/-- The sum of two grids of the same size, tower by tower. -/
def gridAdd (g h : Towers) : Towers :=
  List.zipWith (fun r r' => List.zipWith (fun x y => x + y) r r') g h

/-- The cells of a list whose identifier is not in `seen` and did not occur earlier in
the list: the first cell of every identifier. -/
def keepNew : List Nat → List CalorimeterHit → List CalorimeterHit
  | _, [] => []
  | seen, c :: cs =>
    if c.cellID ∈ seen then keepNew seen cs else c :: keepNew (seen ++ [c.cellID]) cs

/-- The towers `(iEta, iPhi)` with `iEta` in `[etaId - halfEta, etaId + halfEta]` and
`iPhi` in `[phiId - halfPhi, phiId + halfPhi]`, eta index by eta index. -/
def windowTowers (etaId phiId : Int) (halfEta halfPhi : Nat) : List (Int × Int) :=
  (intRange (etaId - halfEta) (etaId + halfEta)).flatMap
    (fun iEta => (intRange (phiId - halfPhi) (phiId + halfPhi)).map (fun iPhi => (iEta, iPhi)))

/-- The cell list of the tower `(iEta, phiNeighbour(iPhi))` in the map `m`. -/
def towerCells (t : CaloTowerTool) (m : CellsInTowers) (p : Int × Int) : List CalorimeterHit :=
  mapGet m (toUInt p.1, t.phiNeighbour p.2) []

/-- The offsets of the tower `p` from the centre tower satisfy
`(dEta / (halfEta + 0.5))^2 + (dPhi / (halfPhi + 0.5))^2 < 1`. -/
def offsetsInEllipse (etaId phiId : Int) (halfEta halfPhi : Nat) (p : Int × Int) : Bool :=
  decide ((((p.1 - etaId : Int) : ℚ) / ((halfEta : ℚ) + 1 / 2)) ^ 2
    + (((p.2 - phiId : Int) : ℚ) / ((halfPhi : ℚ) + 1 / 2)) ^ 2 < 1)

/-- A grid with offsets `1/2` in eta and `1` in phi. -/
def offsetGrid : GridPhiEta :=
  { gridSizeEta := 1, phiBins := 4, offsetEta := 1 / 2, offsetPhi := 1,
    eta := fun _ => 0, phi := fun _ => 0 }

/-- Seven partitions of which only the ECAL barrel (grid `unitGrid`) and the HCAL barrel
(a multi-segmentation of `unitGrid` and `offsetGrid`) have a segmentation. -/
def twoSources : Partitions (Option Segmentation) :=
  { ecalBarrel := some (.kPhiEta unitGrid), ecalEndcap := none, ecalFwd := none,
    hcalBarrel := some (.kMulti [unitGrid, offsetGrid] (fun _ => unitGrid)),
    hcalExtBarrel := none, hcalEndcap := none, hcalFwd := none }

/-- Seven partitions of which only the ECAL barrel has a segmentation, the grid
`quarterTurnGrid`. -/
def barrelOnly : Partitions (Option Segmentation) :=
  { ecalBarrel := some (.kPhiEta quarterTurnGrid), ecalEndcap := none, ecalFwd := none,
    hcalBarrel := none, hcalExtBarrel := none, hcalEndcap := none, hcalFwd := none }

/-- The input collections: `cellFive` and `cellThree` in the ECAL barrel, `cellThree` in
the ECAL endcap, nothing elsewhere. -/
def barrelCells : Partitions (List CalorimeterHit) :=
  { ecalBarrel := [cellFive, cellThree], ecalEndcap := [cellThree], ecalFwd := [],
    hcalBarrel := [], hcalExtBarrel := [], hcalEndcap := [], hcalFwd := [] }

/-- A cell of energy 9 recorded by an earlier build. -/
def cellNine : CalorimeterHit := { cellID := 9, energy := 9, type := 0 }

/-- A grid of `quarterTurnTool` holding the energy 7 in the tower `(0, 0)`. -/
def usedTowers : Towers := [[7, 0, 0, 0], [0, 0, 0, 0]]

/-- A map `m_cellsInTowers` of `quarterTurnTool` in which the cells 1 and 2 are recorded
for the towers `(1, 2)` and `(1, 3)`, and the cell 9 for the tower `(1, 3)`. -/
def filledIndex : CellsInTowers :=
  [((1, 2), [cellFive, cellThree]), ((1, 3), [cellThree, cellNine, cellFive])]

/-- The layered tool with the grid of `quarterTurnTool`. -/
def quarterTurnLayeredTool : LayeredCaloTowerTool :=
  { etaMax := 1, phiMax := M_PI, deltaEtaTower := 1, deltaPhiTower := M_PI / 2,
    nEtaTower := 2, nPhiTower := 4 }

/-- A readout on `quarterTurnGrid` keeping the layers 0 to 130, every cell being in
layer 200. -/
def deepReadout : LayeredReadout :=
  { segmentation := quarterTurnGrid, layer := fun _ => 200, addLayerRestriction := 1,
    minimumLayer := 0, maximumLayer := 130, cosh := fun _ => 1 }

/-- The cells found in the cell lists of the towers of the rectangular window, in the
order of the towers. -/
def windowCells (t : CaloTowerTool) (m : CellsInTowers) (etaId phiId : Int)
    (halfEta halfPhi : Nat) : List CalorimeterHit :=
  (windowTowers etaId phiId halfEta halfPhi).flatMap (towerCells t m)

/-- The cells found in the cell lists of those towers of the rectangular window whose
offsets from the centre tower lie inside the ellipse. -/
def ellipseCells (t : CaloTowerTool) (m : CellsInTowers) (etaId phiId : Int)
    (halfEta halfPhi : Nat) : List CalorimeterHit :=
  ((windowTowers etaId phiId halfEta halfPhi).filter
    (offsetsInEllipse etaId phiId halfEta halfPhi)).flatMap (towerCells t m)

/-- A map `m_cellsInTowers` of `quarterTurnTool` with cells recorded for the towers
`(1, 2)`, `(1, 3)`, `(1, 0)` and `(3, 1)`. -/
def wideIndex : CellsInTowers :=
  [((1, 0), [cellNine]), ((1, 2), [cellFive, cellThree]),
   ((1, 3), [cellThree, cellNine, cellFive]), ((3, 1), [⟨4, 4, 0⟩])]

/-! ## Data used in the statements on the seed classification and the growth -/

/-- A splitter whose cells sit on the x axis at their identifier. The seed candidate 1
has the neighbours 3, 4, 5, 6 and 7 followed by the cell 2; the cell 2 has the cell 1
and the cells 3 to 7 as neighbours. -/
def lateSeedSplitter : SplitClusters :=
  { threshold := 1,
    neighbours := fun id =>
      if id = 1 then [3, 4, 5, 6, 7, 2] else if id = 2 then [1, 3, 4, 5, 6, 7] else [1, 2],
    systemId := fun _ => 5,
    noSegmentationHCalUsed := false,
    positionsECalBarrel := fun id => ⟨(id : ℚ), 0, 0⟩,
    positionsHCalBarrel := fun _ => ⟨0, 0, 0⟩,
    positionsHCalBarrelNoSeg := fun _ => ⟨0, 0, 0⟩,
    deltaR := fun p q => |p.x - q.x|,
    endType := 0,
    endEnergy := 0 }

/-- The splitter `lateSeedSplitter` with the cell 2 listed first among the neighbours
of the cell 1. -/
def earlySeedSplitter : SplitClusters :=
  { lateSeedSplitter with
    neighbours := fun id =>
      if id = 1 then [2, 3, 4, 5, 6, 7] else if id = 2 then [1, 3, 4, 5, 6, 7] else [1, 2] }

/-- A cluster of the seed cells 1 (energy 5) and 2 (energy 9) and of the five neighbour
cells 3 to 7, of total energy 24. -/
def unequalSeedCluster : Cluster :=
  { type := 0, energy := 24, position := ⟨some 3, some 0, some 0⟩,
    hits := [⟨1, 5, 1⟩, ⟨2, 9, 1⟩, ⟨3, 2, 2⟩, ⟨4, 2, 2⟩, ⟨5, 2, 2⟩, ⟨6, 2, 2⟩, ⟨7, 2, 2⟩] }

/-- A splitter in which the seed candidate 1 has the neighbours 3, 4 and 5 and the
cells 100 and 101; a read through the past-the-end iterator of `cellsType` yields the
type `endType`. -/
def strayReadSplitter (endType : Int) : SplitClusters :=
  { threshold := 1,
    neighbours := fun id => if id = 1 then [3, 4, 5, 100, 101] else [1],
    systemId := fun _ => 5,
    noSegmentationHCalUsed := false,
    positionsECalBarrel := fun id => ⟨(id : ℚ), 0, 0⟩,
    positionsHCalBarrel := fun _ => ⟨0, 0, 0⟩,
    positionsHCalBarrelNoSeg := fun _ => ⟨0, 0, 0⟩,
    deltaR := fun p q => |p.x - q.x|,
    endType := endType,
    endEnergy := 0 }

/-- A cluster of the seed cell 1 and the three neighbour cells 3, 4 and 5; the cells 100
and 101 are not in it. -/
def smallSeedCluster : Cluster :=
  { type := 0, energy := 11, position := ⟨some 3, some 0, some 0⟩,
    hits := [⟨1, 5, 1⟩, ⟨3, 2, 2⟩, ⟨4, 2, 2⟩, ⟨5, 2, 2⟩] }

/-- The values of the flag `foundNewNeighbours` in the rounds `iter`, `iter + 1`, ... of
the growth loop: at most `k` rounds, up to the round that fails or finds every frontier
empty. -/
def roundFlags (a : SplitClusters) (aCellsType : List (Nat × Int))
    (aCellPosition : List (Nat × TLorentzVector)) (nClusters nSeeds : Nat) :
    Nat → Nat → SplitClusters.Growth × List (Nat × List (List (Nat × Nat))) → List Bool
  | 0, _, _ => []
  | k + 1, iter, st =>
    match a.growthRound aCellsType aCellPosition nClusters nSeeds iter st with
    | Except.error _ => []
    | Except.ok (st', true) =>
      true :: roundFlags a aCellsType aCellPosition nClusters nSeeds k (iter + 1) st'
    | Except.ok (_, false) => [false]

/-- Every sub-cluster has 1001 frontier vectors. -/
def FrontiersAllocated (mapVecNextNeighbours : List (Nat × List (List (Nat × Nat)))) : Prop :=
  ∀ e ∈ mapVecNextNeighbours, e.2.length = 1001

/-- A splitter for twelve cells on the x axis, the cells 2, 7 and 8 at `x = 1` and the
others at `x = 0`; the distance on that axis between the summed position of a
sub-cluster and a cell stands for `DeltaR`. The seed 1 has the neighbours 3 to 7, the
seed 2 the neighbours 8 to 12, and the cells 7 and 8 are neighbours of each other. -/
def pingPongSplitter : SplitClusters :=
  { threshold := 1,
    neighbours := fun id =>
      if id = 1 then [3, 4, 5, 6, 7] else if id = 2 then [8, 9, 10, 11, 12]
      else if id = 7 then [1, 8] else if id = 8 then [2, 7]
      else if id ≤ 6 then [1] else [2],
    systemId := fun _ => 5,
    noSegmentationHCalUsed := false,
    positionsECalBarrel := fun id => ⟨if id = 2 ∨ id = 7 ∨ id = 8 then 1 else 0, 0, 0⟩,
    positionsHCalBarrel := fun _ => ⟨0, 0, 0⟩,
    positionsHCalBarrelNoSeg := fun _ => ⟨0, 0, 0⟩,
    deltaR := fun p q => |p.x - q.x|,
    endType := 0,
    endEnergy := 0 }

/-- The cluster of the twelve cells of `pingPongSplitter`: the seeds 1 and 2 and ten
neighbour cells. -/
def pingPongCluster : Cluster :=
  { type := 0, energy := 20, position := ⟨some 1, some 0, some 0⟩,
    hits := [⟨1, 5, 1⟩, ⟨2, 5, 1⟩, ⟨3, 1, 2⟩, ⟨4, 1, 2⟩, ⟨5, 1, 2⟩, ⟨6, 1, 2⟩, ⟨7, 1, 2⟩,
      ⟨8, 1, 2⟩, ⟨9, 1, 2⟩, ⟨10, 1, 2⟩, ⟨11, 1, 2⟩, ⟨12, 1, 2⟩] }

/-- The seed `seed` has at least 5 neighbours; each of them is a cell of type 2 of the
cluster, has neighbours itself, and has no neighbour in the cluster other than the seed
and the neighbours of the seed. -/
def SeparatedSeed (a : SplitClusters) (hits : List CalorimeterHit) (seed : Nat) : Prop :=
  5 ≤ (a.neighbours seed).length ∧
  ∀ nb ∈ a.neighbours seed,
    (∃ c ∈ hits, c.cellID = nb ∧ c.type = 2) ∧ a.neighbours nb ≠ [] ∧
    ∀ m ∈ a.neighbours nb, m ∈ hits.map (fun c => c.cellID) → m = seed ∨ m ∈ a.neighbours seed

instance (a : SplitClusters) (hits : List CalorimeterHit) (seed : Nat) :
    Decidable (SeparatedSeed a hits seed) := by
  unfold SeparatedSeed
  infer_instance

/-- Every cell assigned in `coc` is assigned to the sub-cluster `ω` gives for it. -/
def Owned (ω : Nat → Nat) (coc : List (Nat × Nat)) : Prop :=
  ∀ k v, mapFind coc k = some v → v = ω k

/-- Every cell of `ct` is assigned in `coc`. -/
def Assigned (ct : List (Nat × Int)) (coc : List (Nat × Nat)) : Prop :=
  ∀ k, mapFind ct k ≠ none → mapFind coc k ≠ none

/-- A splitter for twelve cells on the x axis at their identifier. The seed 1 has the
neighbours 3 to 7, the seed 2 the neighbours 8 to 12; each of these cells has its seed
and the next cell of its group as neighbours, and the cell 20, which is in no cluster. -/
def apartSplitter : SplitClusters :=
  { threshold := 1,
    neighbours := fun id =>
      if id = 1 then [3, 4, 5, 6, 7] else if id = 2 then [8, 9, 10, 11, 12]
      else if id ≤ 6 then [1, id + 1, 20] else if id = 7 then [1, 20]
      else if id ≤ 11 then [2, id + 1, 20] else [2, 20],
    systemId := fun _ => 5,
    noSegmentationHCalUsed := false,
    positionsECalBarrel := fun id => ⟨(id : ℚ), 0, 0⟩,
    positionsHCalBarrel := fun _ => ⟨0, 0, 0⟩,
    positionsHCalBarrelNoSeg := fun _ => ⟨0, 0, 0⟩,
    deltaR := fun p q => |p.x - q.x|,
    endType := 0,
    endEnergy := 0 }

/-- The splitter `apartSplitter` with a neighbour tool that knows no neighbour of the
cells 3 to 12. -/
def oneWaySplitter : SplitClusters :=
  { apartSplitter with
    neighbours := fun id =>
      if id = 1 then [3, 4, 5, 6, 7] else if id = 2 then [8, 9, 10, 11, 12] else [] }

/-- A cluster of the seeds 1 and 2 (energies 5 and 6) and of the ten neighbour cells 3
to 12 of energy 1, of total energy 21. -/
def apartCluster : Cluster :=
  { type := 0, energy := 21, position := ⟨some 1, some 0, some 0⟩,
    hits := [⟨1, 5, 1⟩, ⟨2, 6, 1⟩, ⟨3, 1, 2⟩, ⟨4, 1, 2⟩, ⟨5, 1, 2⟩, ⟨6, 1, 2⟩, ⟨7, 1, 2⟩,
      ⟨8, 1, 2⟩, ⟨9, 1, 2⟩, ⟨10, 1, 2⟩, ⟨11, 1, 2⟩, ⟨12, 1, 2⟩] }

/-- The abort of a computation, if any. -/
def abortOf {α : Type} : Except Abort α → Option Abort
  | Except.error e => some e
  | Except.ok _ => none

/-! ## Predicates and data used in the statements on the fractions -/

/-- The length of the intersection of the interval `[lo, hi]` with the interval
`[a, b]`. -/
def overlap (lo hi a b : ℚ) : ℚ := max 0 (min hi b - max lo a)

/-- A tower tool with four eta towers of size 1 covering `|eta| ≤ 2` and six phi towers
of a sixth of a turn. -/
def sixPhiTool : CaloTowerTool :=
  { etaMax := 2, phiMax := M_PI, deltaEtaTower := 1, deltaPhiTower := M_PI / 3,
    nEtaTower := 4, nPhiTower := 6, useHalfTower := false, max_layer := 6,
    layer := fun _ => 0, cosh := fun _ => 1 }

/-- A grid whose cells are three towers of `sixPhiTool` wide in both coordinates and
cover exactly its eta towers 1 to 3 and its phi towers 2 to 4. -/
def tripleGrid : GridPhiEta :=
  { gridSizeEta := 3, phiBins := 2, offsetEta := 1 / 2, offsetPhi := M_PI / 6,
    eta := fun _ => 1 / 2, phi := fun _ => M_PI / 6 }

/-- The grid `tripleGrid` moved down by `1/5` in eta and up by `1/10` in phi: its cells
reach into the eta towers 0 to 3 and the phi towers 2 to 5 of `sixPhiTool`. -/
def shiftedTripleGrid : GridPhiEta :=
  { gridSizeEta := 3, phiBins := 2, offsetEta := 3 / 10, offsetPhi := M_PI / 6 + 1 / 10,
    eta := fun _ => 3 / 10, phi := fun _ => M_PI / 6 + 1 / 10 }

/-! ## Predicates and data used in the statements on the layered tool -/

/-- Following the words of the specification: the cells whose layer lies in the inclusive
range from `minimumLayer` to `maximumLayer`. -/
def cellsInLayerRange (r : LayeredReadout) (cells : List CalorimeterHit) :
    List CalorimeterHit :=
  cells.filter (fun cell =>
    decide (r.minimumLayer ≤ ((r.layer cell.cellID : Int) : ℚ)
      ∧ ((r.layer cell.cellID : Int) : ℚ) ≤ r.maximumLayer))

/-- Following the words of the specification: the layer restriction as a filter applied
before apportionment, that is the tower grid of the build without restriction from the
cells in the layer range. -/
def buildTowersPrefiltered (t : LayeredCaloTowerTool) (r : LayeredReadout)
    (cells : List CalorimeterHit) (aTowers : Towers) : Option Towers :=
  (t.buildTowers { r with addLayerRestriction := 0 } (cellsInLayerRange r cells) aTowers).map
    Prod.fst

/-- A readout on `quarterTurnGrid` keeping the layers 1 and 2, the layer of a cell being
its identifier. -/
def idLayerReadout : LayeredReadout :=
  { segmentation := quarterTurnGrid, layer := fun id => (id : Int), addLayerRestriction := 1,
    minimumLayer := 1, maximumLayer := 2, cosh := fun _ => 1 }

/-- A grid of cells that fit the towers of `fourPhiTool`: the cell `id` sits at the centre
of the tower 1 in eta and of the tower `id` in phi. -/
def ringGrid : GridPhiEta :=
  { gridSizeEta := 1, phiBins := 7, offsetEta := 1 / 2, offsetPhi := 0,
    eta := fun _ => 1 / 2, phi := fun id => (id : ℚ) - 3 / 2 }

/-- Four cells of `ringGrid`, one in each phi tower of `fourPhiTool`. -/
def ringCells : List CalorimeterHit := [⟨0, 1, 0⟩, ⟨1, 1, 0⟩, ⟨2, 1, 0⟩, ⟨3, 1, 0⟩]

/-! ## Predicates and data used in the statements on the tower-to-cells index -/

/-- The towers to which `CellsIntoTowers` adds a fraction of the energy of a cell of the
grid `s`, in the order of its loops: `(iEta, phiNeighbour(iPhi))` for `iEta` from `iEtaMin`
to `iEtaMax` and `iPhi` from `iPhiMin` to `iPhiMax`; none for a cell skipped by the depth
filter. -/
def CaloTowerTool.towersOfCell (t : CaloTowerTool) (s : GridPhiEta) (cell : CalorimeterHit) :
    List (Nat × Nat) :=
  if t.pass cell then
    (intRange (t.iEtaMin s cell.cellID) (t.iEtaMax s cell.cellID)).flatMap (fun iEta =>
      (intRange (t.iPhiMin s cell.cellID) (t.iPhiMax s cell.cellID)).map (fun iPhi =>
        (toUInt iEta, t.phiNeighbour iPhi)))
  else []

/-- The cells of one partition, each with the grid used for it; none when the
segmentation of the partition is not registered. -/
def gridCells (p : Option Segmentation × List CalorimeterHit) :
    List (GridPhiEta × CalorimeterHit) :=
  match p.1 with
  | none => []
  | some seg => p.2.map (fun cell => (seg.forCell cell.cellID, cell))

/-- The input cells of a build in input order: partition by partition in the order of
`buildTowers`, each collection in its own order. -/
def inputCells (segmentations : Partitions (Option Segmentation))
    (cells : Partitions (List CalorimeterHit)) : List (GridPhiEta × CalorimeterHit) :=
  (segmentations.toList.zip cells.toList).flatMap gridCells

/-- The input cells that have the tower `key` among their towers, in input order, each
as many times as the loops reach the tower. -/
def cellsOfTower (t : CaloTowerTool) (inputs : List (GridPhiEta × CalorimeterHit))
    (key : Nat × Nat) : List CalorimeterHit :=
  inputs.flatMap (fun p =>
    ((t.towersOfCell p.1 p.2).filter (fun k => decide (k = key))).map (fun _ => p.2))

/-- The input collections: the cells 0 to 3 of `ringGrid` in the ECAL barrel, nothing
elsewhere. -/
def ringBarrelCells : Partitions (List CalorimeterHit) :=
  { ecalBarrel := ringCells, ecalEndcap := [], ecalFwd := [],
    hcalBarrel := [], hcalExtBarrel := [], hcalEndcap := [], hcalFwd := [] }

/-- Seven partitions of which only the ECAL barrel has a segmentation, the grid
`tripleGrid`. -/
def tripleBarrel : Partitions (Option Segmentation) :=
  { ecalBarrel := some (.kPhiEta tripleGrid), ecalEndcap := none, ecalFwd := none,
    hcalBarrel := none, hcalExtBarrel := none, hcalEndcap := none, hcalFwd := none }

/-! ## Predicates and data used in the statements on the output of the splitter -/

/-- The identifiers of the cells in the hit lists of the sub-clusters (the clusters of
type 2). -/
def claimedIds (clusters : List Cluster) : List Nat :=
  (clusters.filter (fun cl => decide (cl.type = 2))).flatMap
    (fun cl => cl.hits.map (fun c => c.cellID))

/-- The cells of `hits` that are in the hit list of no sub-cluster. -/
def unclaimedCells (hits : List CalorimeterHit) (clusters : List Cluster) :
    List CalorimeterHit :=
  hits.filter (fun c => decide (c.cellID ∉ claimedIds clusters))

/-- The energy-weighted mean of the positions of the cells `hits`, the positions being
those of the position tools. -/
def centroid (a : SplitClusters) (hits : List CalorimeterHit) : Vector3 :=
  ⟨(hits.map (fun c => (a.posCell c.cellID).x * c.energy)).sum / (hits.map (fun c => c.energy)).sum,
   (hits.map (fun c => (a.posCell c.cellID).y * c.energy)).sum / (hits.map (fun c => c.energy)).sum,
   (hits.map (fun c => (a.posCell c.cellID).z * c.energy)).sum / (hits.map (fun c => c.energy)).sum⟩

/-- Every sub-cluster identifier in `coc` lies in `(lo, hi]`. -/
def ValuesIn (lo hi : Nat) (coc : List (Nat × Nat)) : Prop :=
  ∀ e ∈ coc, lo < e.2 ∧ e.2 ≤ hi

/-- The cluster `twoSeedCluster` with one more cell, the cell 9, which is a neighbour of
no cell of `lineSplitter`. -/
def strayCellCluster : Cluster :=
  { type := 0, energy := 23, position := ⟨some 3, some 0, some 0⟩,
    hits := [⟨1, 5, 1⟩, ⟨2, 5, 1⟩, ⟨3, 2, 2⟩, ⟨4, 2, 2⟩, ⟨5, 2, 2⟩, ⟨6, 2, 2⟩, ⟨7, 2, 2⟩,
      ⟨9, 3, 2⟩] }

/-! ## Predicates used in the statements on the empty neighbour lookup -/

/-- The map `mapVecNextNeighbours`: the frontier vectors of every sub-cluster. -/
abbrev Frontiers := List (Nat × List (List (Nat × Nat)))

/-- The state of the growth at the start of the round `iter + k`: the state reached from
`st` at the start of the round `iter` when the `k` rounds `iter`, ..., `iter + k - 1` each
found a frontier that is not empty and none of them stopped the execution. -/
def reachedRound (a : SplitClusters) (aCellsType : List (Nat × Int))
    (aCellPosition : List (Nat × TLorentzVector)) (nClusters nSeeds : Nat) :
    Nat → Nat → SplitClusters.Growth × Frontiers → Option (SplitClusters.Growth × Frontiers)
  | 0, _, st => some st
  | k + 1, iter, st =>
    match a.growthRound aCellsType aCellPosition nClusters nSeeds iter st with
    | Except.ok (st', true) =>
      reachedRound a aCellsType aCellPosition nClusters nSeeds k (iter + 1) st'
    | _ => none

/-- Each of the `nSeeds` sub-clusters of the cluster has its 1001 frontier vectors. -/
def FrontiersReady (nClusters nSeeds : Nat) (mv : Frontiers) : Prop :=
  ∀ j < nSeeds, (mapGet mv (nClusters + (j + 1)) []).length = 1001

/-- The frontier with index `i` of the sub-cluster `c` holds the pair `(0, 0)` written
for an empty neighbour list. -/
def Marked (c i : Nat) (mv : Frontiers) : Prop :=
  ∃ f, (mapGet mv c []).get? i = some f ∧ (0, 0) ∈ f

/-- The splitter `apartSplitter` with one more cell, the cell 13: it is a neighbour of the
cell 7 only, and the neighbour tool knows no neighbour of it. -/
def gapSplitter : SplitClusters :=
  { apartSplitter with
    neighbours := fun id =>
      if id = 13 then [] else if id = 7 then [1, 13, 20] else apartSplitter.neighbours id }

/-- The cluster `apartCluster` with the cell 13. -/
def gapCluster : Cluster :=
  { type := 0, energy := 22, position := ⟨some 1, some 0, some 0⟩,
    hits := [⟨1, 5, 1⟩, ⟨2, 6, 1⟩, ⟨3, 1, 2⟩, ⟨4, 1, 2⟩, ⟨5, 1, 2⟩, ⟨6, 1, 2⟩, ⟨7, 1, 2⟩,
      ⟨8, 1, 2⟩, ⟨9, 1, 2⟩, ⟨10, 1, 2⟩, ⟨11, 1, 2⟩, ⟨12, 1, 2⟩, ⟨13, 1, 2⟩] }

/-! ## Data used in the statements on the layer switch and the depth filter -/

/-- The readout `deepReadout` with the property `addLayerRestriction` set to off. -/
def deepReadoutOff : LayeredReadout := { deepReadout with addLayerRestriction := 0 }

/-- The field names of a readout with a `layer` field. -/
def layerFields : List String := ["system", "layer", "eta", "phi"]

/-- The field names of a readout without `layer` field. -/
def plainFields : List String := ["system", "eta", "phi"]

/-- The seven values with `f` applied to each. -/
def Partitions.map {α β : Type} (f : α → β) (p : Partitions α) : Partitions β :=
  { ecalBarrel := f p.ecalBarrel, ecalEndcap := f p.ecalEndcap, ecalFwd := f p.ecalFwd,
    hcalBarrel := f p.hcalBarrel, hcalExtBarrel := f p.hcalExtBarrel,
    hcalEndcap := f p.hcalEndcap, hcalFwd := f p.hcalFwd }

/-- Following the words of the specification: the cells whose decoded layer is at most
`max_layer`. -/
def cellsUpToMaxLayer (t : CaloTowerTool) (cells : List CalorimeterHit) : List CalorimeterHit :=
  cells.filter (fun cell => decide (t.layer cell.cellID ≤ t.max_layer))

/-- Following the words of the specification: the depth filter as a build without filter
over the cells with layer at most `max_layer`; the grid and the tower-to-cells index of
that build. -/
def buildTowersUpToMaxLayer (t : CaloTowerTool) (segmentations : Partitions (Option Segmentation))
    (cells : Partitions (List CalorimeterHit)) (fillTowersCells : Bool)
    (st : Towers × CellsInTowers) : Option (Towers × CellsInTowers) :=
  (({ t with useHalfTower := false } : CaloTowerTool).buildTowers segmentations
    (cells.map (cellsUpToMaxLayer t)) fillTowersCells st).map Prod.fst

/-- The tool `quarterTurnTool` with the depth filter switched on, the layer of a cell
being its identifier: with `max_layer = 6` the cells 1 and 2 pass and the cell 9 does
not. -/
def idLayerHalfTool : CaloTowerTool :=
  { quarterTurnTool with useHalfTower := true, layer := fun id => id }

/-- The input collections: the cells 1, 9 and 2 in the ECAL barrel, nothing elsewhere. -/
def depthCells : Partitions (List CalorimeterHit) :=
  { ecalBarrel := [cellFive, cellNine, cellThree], ecalEndcap := [], ecalFwd := [],
    hcalBarrel := [], hcalExtBarrel := [], hcalEndcap := [], hcalFwd := [] }

/-! ## Predicates and data used in the statements comparing the two tower tools -/

/-- Seven partitions holding `x` in the partition number `k` (counted from 0 in the order
of the source) and `dflt` in the others. -/
def singlePartition {α : Type} (k : Nat) (x dflt : α) : Partitions α :=
  { ecalBarrel := if k = 0 then x else dflt,
    ecalEndcap := if k = 1 then x else dflt,
    ecalFwd := if k = 2 then x else dflt,
    hcalBarrel := if k = 3 then x else dflt,
    hcalExtBarrel := if k = 4 then x else dflt,
    hcalEndcap := if k = 5 then x else dflt,
    hcalFwd := if k = 6 then x else dflt }

/-- The layered tool with the grid members of a `CaloTowerTool`. -/
def CaloTowerTool.toLayered (t : CaloTowerTool) : LayeredCaloTowerTool :=
  { etaMax := t.etaMax, phiMax := t.phiMax, deltaEtaTower := t.deltaEtaTower,
    deltaPhiTower := t.deltaPhiTower, nEtaTower := t.nEtaTower, nPhiTower := t.nPhiTower }

/-- A tower tool with towers of size 1 in eta and of a quarter turn in phi, before
`towersNumber` has set its grid members. -/
def freshTool : CaloTowerTool :=
  { etaMax := 0, phiMax := 0, deltaEtaTower := 1, deltaPhiTower := M_PI / 2,
    nEtaTower := 0, nPhiTower := 0, useHalfTower := false, max_layer := 6,
    layer := fun _ => 0, cosh := fun _ => 1 }

/-- The layered tool with the tower sizes of `freshTool`, before `towersNumber`. -/
def freshLayeredTool : LayeredCaloTowerTool :=
  { etaMax := 0, phiMax := 0, deltaEtaTower := 1, deltaPhiTower := M_PI / 2,
    nEtaTower := 0, nPhiTower := 0 }

/-- A readout on `quarterTurnGrid` with the layer restriction off, every cell being in
layer 200. -/
def plainReadout : LayeredReadout :=
  { segmentation := quarterTurnGrid, layer := fun _ => 200, addLayerRestriction := 0,
    minimumLayer := 0, maximumLayer := 130, cosh := fun _ => 1 }

/-! ## Predicates and data used in the statements on the growth of the sub-clusters -/

/-- Following the words of the specification: the neighbour `nb` is a cell of the cluster
(it is in the cell-type map) and either is not yet assigned, or is assigned to another
sub-cluster than the growing one `cid` and wins the arbitration, the test of the source
being `DeltaR` to the growing centroid `<=` `DeltaR` to the centroid of the owner. -/
def takesNeighbour (a : SplitClusters) (cid : Nat) (ct : List (Nat × Int))
    (cp : List (Nat × TLorentzVector)) (g : SplitClusters.Growth) (nb : Nat) : Bool :=
  (mapFind ct nb).isSome &&
    (match mapFind g.clusterOfCell nb with
      | none => true
      | some owner =>
        decide (owner ≠ cid) &&
          decide (a.deltaR (mapGet g.clusterPositions cid 0) (mapGet cp nb 0)
            ≤ a.deltaR (mapGet g.clusterPositions owner 0) (mapGet cp nb 0)))

/-- The sum of a list of 4-vectors, component by component. -/
def vectorSum (l : List TLorentzVector) : TLorentzVector :=
  ⟨(l.map (fun v => v.x)).sum, (l.map (fun v => v.y)).sum, (l.map (fun v => v.z)).sum,
    (l.map (fun v => v.e)).sum⟩

/-- Following the words of the specification: the sum of the 4-vectors of exactly the
cells currently assigned to the sub-cluster `c` in the cluster-of-cell map. -/
def assignedSum (cp : List (Nat × TLorentzVector)) (coc : List (Nat × Nat)) (c : Nat) :
    TLorentzVector :=
  vectorSum ((coc.filter (fun e => decide (e.2 = c))).map (fun e => mapGet cp e.1 0))

/-- Following the words of the specification: for every sub-cluster the running centroid
equals the sum of the 4-vectors of the cells assigned to it. -/
def CentroidsMatch (cp : List (Nat × TLorentzVector)) (g : SplitClusters.Growth) : Prop :=
  ∀ c, mapGet g.clusterPositions c 0 = assignedSum cp g.clusterOfCell c

/-- A splitter for seven cells at unit distance from the beam line, the cell 2 at the
transverse coordinate 1 and the others at 0; the difference of the slopes `y / x` stands
for `DeltaR`. The seed candidates 1 and 2 are neighbours of each other and have the cells
3 to 7 as further neighbours; these have the cells 1 and 2 as neighbours. -/
def adjacentSeedSplitter : SplitClusters :=
  { threshold := 1,
    neighbours := fun id =>
      if id = 1 then [2, 3, 4, 5, 6, 7] else if id = 2 then [1, 3, 4, 5, 6, 7] else [1, 2],
    systemId := fun _ => 5,
    noSegmentationHCalUsed := false,
    positionsECalBarrel := fun id => ⟨1, if id = 2 then 1 else 0, 0⟩,
    positionsHCalBarrel := fun _ => ⟨0, 0, 0⟩,
    positionsHCalBarrelNoSeg := fun _ => ⟨0, 0, 0⟩,
    deltaR := fun p q => |p.y / p.x - q.y / q.x|,
    endType := 0,
    endEnergy := 0 }

/-- A cluster of the seed cells 1 and 2, both of energy 5, and of the five neighbour cells
3 to 7 of energy 2, of total energy 20. -/
def adjacentSeedCluster : Cluster :=
  { type := 0, energy := 20, position := ⟨some 1, some 0, some 0⟩,
    hits := [⟨1, 5, 1⟩, ⟨2, 5, 1⟩, ⟨3, 2, 2⟩, ⟨4, 2, 2⟩, ⟨5, 2, 2⟩, ⟨6, 2, 2⟩, ⟨7, 2, 2⟩] }

/-- The state of the sub-cluster building of `adjacentSeedCluster` (alone in its
collection) after iteration 0 for the seed 1: the sub-cluster 2 holds the seed 1 and its
neighbours, the seed 2 among them. -/
def adjacentSeedStarted : SplitClusters.Building :=
  adjacentSeedSplitter.startSeed (SplitClusters.cellsType adjacentSeedCluster.hits)
    (adjacentSeedSplitter.cellsPosition adjacentSeedCluster.hits)
    { growth := { clusterOfCell := [], clusterPositions := [] },
      preClusterCollection := [], mapVecNextNeighbours := [], clusterID := 2 } (1, 5)

/-- The splitter `tieSplitter` with the cells at other places: the cells 2 and 7 sit at
the transverse coordinate 1, the cells 8 to 11 at 10 and the others at 0. -/
def stolenSeedSplitter : SplitClusters :=
  { tieSplitter with
    positionsECalBarrel := fun id =>
      ⟨1, if id = 2 ∨ id = 7 then 1 else if 8 ≤ id then 10 else 0, 0⟩ }

/-- Following the words of the specification: the cell is connected to some confirmed
seed by a chain of neighbouring cluster cells. The chain starts at a seed of `seeds` and
each of its cells is a cell of the cluster (a key of the cell-type map `ct`) listed by the
neighbour tool among the neighbours of the cell before it. -/
inductive Connected (a : SplitClusters) (ct : List (Nat × Int)) (seeds : List Nat) :
    Nat → Prop
  | seed (s : Nat) (h : s ∈ seeds) : Connected a ct seeds s
  | step (k n : Nat) (hk : Connected a ct seeds k) (hn : n ∈ a.neighbours k)
      (hct : mapFind ct n ≠ none) : Connected a ct seeds n

/-- Every neighbour of the cell `k` that is a cell of the cluster is assigned. -/
def Expanded (a : SplitClusters) (ct : List (Nat × Int)) (coc : List (Nat × Nat)) (k : Nat) :
    Prop :=
  ∀ n ∈ a.neighbours k, mapFind ct n ≠ none → mapFind coc n ≠ none

/-- The cell `k` is in the frontier with index `i` of one of the `nSeeds` sub-clusters. -/
def InFrontier (nClusters nSeeds : Nat) (mv : Frontiers) (i k : Nat) : Prop :=
  ∃ j < nSeeds, ∃ f, (mapGet mv (nClusters + (j + 1)) []).get? i = some f ∧ k ∈ f.map Prod.fst

/-- The state of the growth when the frontiers with index `i` are about to be expanded:
every assigned cell is connected to a seed, every seed is assigned, every assigned cell has
its neighbours assigned or is in a frontier with index `i`, the cells of these frontiers
are assigned, and the frontiers with a larger index are empty. -/
def GrowthInv (a : SplitClusters) (ct : List (Nat × Int)) (seeds : List Nat)
    (nClusters nSeeds i : Nat) (st : SplitClusters.Growth × Frontiers) : Prop :=
  (∀ k, mapFind st.1.clusterOfCell k ≠ none → Connected a ct seeds k) ∧
  (∀ s ∈ seeds, mapFind st.1.clusterOfCell s ≠ none) ∧
  (∀ k, mapFind st.1.clusterOfCell k ≠ none →
    Expanded a ct st.1.clusterOfCell k ∨ InFrontier nClusters nSeeds st.2 i k) ∧
  (∀ j < nSeeds, ∀ f, (mapGet st.2 (nClusters + (j + 1)) []).get? i = some f →
    ∀ e ∈ f, e.1 ≠ 0 → mapFind st.1.clusterOfCell e.1 ≠ none) ∧
  (∀ j < nSeeds, ∀ i', i < i' → ∀ f, (mapGet st.2 (nClusters + (j + 1)) []).get? i' = some f →
    f = [])

/-- The state of the growth inside the round `iter`: `pending` holds the cells of the
current frontier still to be expanded and `rest` the sub-clusters still to be gone
through. -/
def MidInv (a : SplitClusters) (ct : List (Nat × Int)) (seeds : List Nat)
    (nClusters nSeeds iter : Nat) (pending : List (Nat × Nat)) (rest : List Nat)
    (st : SplitClusters.Growth × Frontiers) : Prop :=
  (∀ k, mapFind st.1.clusterOfCell k ≠ none → Connected a ct seeds k) ∧
  (∀ s ∈ seeds, mapFind st.1.clusterOfCell s ≠ none) ∧
  (∀ k, mapFind st.1.clusterOfCell k ≠ none →
    Expanded a ct st.1.clusterOfCell k ∨ k ∈ pending.map Prod.fst ∨
    (∃ c ∈ rest, ∃ f, (mapGet st.2 c []).get? (iter - 1) = some f ∧ k ∈ f.map Prod.fst) ∨
    InFrontier nClusters nSeeds st.2 iter k) ∧
  (∀ e ∈ pending, e.1 ≠ 0 → mapFind st.1.clusterOfCell e.1 ≠ none) ∧
  (∀ c ∈ rest, ∀ f, (mapGet st.2 c []).get? (iter - 1) = some f →
    ∀ e ∈ f, e.1 ≠ 0 → mapFind st.1.clusterOfCell e.1 ≠ none) ∧
  (∀ j < nSeeds, ∀ f, (mapGet st.2 (nClusters + (j + 1)) []).get? iter = some f →
    ∀ e ∈ f, e.1 ≠ 0 → mapFind st.1.clusterOfCell e.1 ≠ none) ∧
  (∀ j < nSeeds, ∀ i', iter < i' →
    ∀ f, (mapGet st.2 (nClusters + (j + 1)) []).get? i' = some f → f = [])

/-! ## Predicates and data used in the statements on the frontier storage -/

/-- The state `s` in a round `i1` and the state `b` in a round `i2` hold the same maps and,
for every sub-cluster of `L`, the same frontier to expand (index `i1 - 1` and `i2 - 1`)
and the same frontier to fill (index `i1` and `i2`). -/
def FrontiersAgree (L : List Nat) (i1 i2 : Nat) (s b : SplitClusters.Growth × Frontiers) :
    Prop :=
  s.1 = b.1 ∧
  ∀ c ∈ L, (mapGet s.2 c []).get? (i1 - 1) = (mapGet b.2 c []).get? (i2 - 1) ∧
    (mapGet s.2 c []).get? i1 = (mapGet b.2 c []).get? i2

/-- A state of the growth of two sub-clusters 2 and 3 with two frontier vectors each: the
frontiers `f2` and `f3` to expand, and empty frontiers to fill. -/
def roundState (g : SplitClusters.Growth) (f2 f3 : List (Nat × Nat)) :
    SplitClusters.Growth × Frontiers :=
  (g, [(2, [f2, []]), (3, [f3, []])])

/-- The outcome of one round on `roundState g f2 f3`: the maps, the two frontiers filled
and the flag `foundNewNeighbours`. -/
def roundOutcome (a : SplitClusters) (ct : List (Nat × Int)) (cp : List (Nat × TLorentzVector))
    (g : SplitClusters.Growth) (f2 f3 : List (Nat × Nat)) :
    Option (SplitClusters.Growth × List (Nat × Nat) × List (Nat × Nat) × Bool) :=
  match a.growthRound ct cp 1 2 1 (roundState g f2 f3) with
  | Except.ok (st, flag) =>
    match (mapGet st.2 2 []).get? 1, (mapGet st.2 3 []).get? 1 with
    | some n2, some n3 => some (st.1, n2, n3, flag)
    | _, _ => none
  | Except.error _ => none

/-- The maps of the growth of `pingPongCluster` at the start of every odd round from the
round 5 on: the sub-cluster 2 holds the cell 2 only. -/
def pingOddGrowth : SplitClusters.Growth :=
  { clusterOfCell := [(1, 3), (2, 2), (3, 3), (4, 3), (5, 3), (6, 3), (7, 3), (8, 3), (9, 3),
      (10, 3), (11, 3), (12, 3)],
    clusterPositions := [(2, ⟨1, 0, 0, 5⟩), (3, ⟨2, 0, 0, 15⟩)] }

/-- The maps of the growth of `pingPongCluster` at the start of every even round from the
round 6 on: the sub-cluster 2 holds the cell 8 only. -/
def pingEvenGrowth : SplitClusters.Growth :=
  { clusterOfCell := [(1, 3), (2, 3), (3, 3), (4, 3), (5, 3), (6, 3), (7, 3), (8, 2), (9, 3),
      (10, 3), (11, 3), (12, 3)],
    clusterPositions := [(2, ⟨1, 0, 0, 1⟩), (3, ⟨2, 0, 0, 19⟩)] }

/-- The maps and the two frontiers to expand after `k` rounds run from the maps and
frontiers `X`, when each of these rounds found a frontier that is not empty and none of
them stopped the execution. -/
def roundsFrom (a : SplitClusters) (ct : List (Nat × Int)) (cp : List (Nat × TLorentzVector)) :
    Nat → SplitClusters.Growth × List (Nat × Nat) × List (Nat × Nat) →
    Option (SplitClusters.Growth × List (Nat × Nat) × List (Nat × Nat))
  | 0, X => some X
  | k + 1, X =>
    match roundOutcome a ct cp X.1 X.2.1 X.2.2 with
    | some (g, n2, n3, true) => roundsFrom a ct cp k (g, n2, n3)
    | _ => none

/-- The state `b` of the growth of two sub-clusters 2 and 3 at the start of the round
`iter`: the invariants of the growth hold, every sub-cluster has its 1001 frontier vectors,
and the maps and the two frontiers to expand are those of `X`. -/
def RoundStart (a : SplitClusters) (ct : List (Nat × Int)) (seeds : List Nat) (iter : Nat)
    (X : SplitClusters.Growth × List (Nat × Nat) × List (Nat × Nat))
    (b : SplitClusters.Growth × Frontiers) : Prop :=
  GrowthInv a ct seeds 1 2 (iter - 1) b ∧ FrontiersReady 1 2 b.2 ∧ b.1 = X.1 ∧
  (mapGet b.2 2 []).get? (iter - 1) = some X.2.1 ∧
  (mapGet b.2 3 []).get? (iter - 1) = some X.2.2

/-! ## Data used in the statement on the eta indices -/

/-- A grid of two cells in eta, each `40003/40000` wide: a cell with an even identifier
covers the eta interval from `-40003/40000` to `0`, a cell with an odd identifier the
interval from `0` to `40003/40000`; every cell is a quarter turn wide in phi and centred
at `phi = 0`. -/
def edgeGrid : GridPhiEta :=
  { gridSizeEta := 40003 / 40000, phiBins := 4, offsetEta := -(40003 / 80000), offsetPhi := 0,
    eta := fun c => -(40003 / 80000) + ((c % 2 : Nat) : ℚ) * (40003 / 40000),
    phi := fun _ => 0 }

/-- The grid `edgeGrid` registered for the first partition, the other six being absent. -/
def edgePartitions : Partitions (Option Segmentation) :=
  singlePartition 0 (some (Segmentation.kPhiEta edgeGrid)) none

/-! ## Sums over one index of the tower grid -/

theorem toUInt_cast {z : Int} (h0 : 0 ≤ z) (h1 : z < 4294967296) : ((toUInt z : Nat) : Int) = z := by
  unfold toUInt
  rw [Int.toNat_of_nonneg (Int.emod_nonneg _ (by norm_num))]
  exact Int.emod_eq_of_lt h0 h1

theorem toInt_toUInt {z : Int} (h : IsInt32 z) : toInt (toUInt z) = z := by
  obtain ⟨h0, h1⟩ := h
  unfold toInt toUInt
  have hm0 := Int.emod_nonneg z (show (4294967296 : Int) ≠ 0 by norm_num)
  have hm1 := Int.emod_lt_of_pos z (show (0 : Int) < 4294967296 by norm_num)
  have hdiv := Int.emod_add_ediv z 4294967296
  split_ifs with hlt <;> omega

theorem floor_index_center (i : Int) (d m : ℚ) (hd : 0 < d) :
    ⌊(((i : ℚ) + 1 / 2) * d - m + m) / d⌋ = i := by
  have hne : d ≠ 0 := ne_of_gt hd
  have e : (((i : ℚ) + 1 / 2) * d - m + m) / d = (i : ℚ) + 1 / 2 := by
    field_simp
    ring
  rw [e, Int.floor_eq_iff]
  constructor <;> norm_num

/-- C6. Index/position round trip: with a positive tower size, the index functions of
both tower tools send the centre of tower `i` back to `i`: `idPhi(phi(i)) = i` for `i` in
`[0, nPhiTower)` and `idEta(eta(i)) = i` for `i` in `[0, nEtaTower)` (the tower counts are
`int` values). -/
theorem index_position_round_trip (t : CaloTowerTool) (u : LayeredCaloTowerTool) (i : Int)
    (hi : 0 ≤ i) :
    (0 < t.deltaPhiTower → IsInt32 t.nPhiTower → i < t.nPhiTower →
        ((t.idPhi (t.phi i) : Nat) : Int) = i) ∧
    (0 < t.deltaEtaTower → IsInt32 t.nEtaTower → i < t.nEtaTower →
        ((t.idEta (t.eta i) : Nat) : Int) = i) ∧
    (0 < u.deltaPhiTower → IsInt32 u.nPhiTower → i < u.nPhiTower →
        ((u.idPhi (u.phi i) : Nat) : Int) = i) ∧
    (0 < u.deltaEtaTower → IsInt32 u.nEtaTower → i < u.nEtaTower →
        ((u.idEta (u.eta i) : Nat) : Int) = i) := by
  refine ⟨?_, ?_, ?_, ?_⟩
  · intro hd hn hlt
    unfold CaloTowerTool.idPhi CaloTowerTool.phi
    rw [floor_index_center i _ _ hd]
    exact toUInt_cast hi (by have := hn.2; omega)
  · intro hd hn hlt
    unfold CaloTowerTool.idEta CaloTowerTool.eta
    rw [floor_index_center i _ _ hd]
    exact toUInt_cast hi (by have := hn.2; omega)
  · intro hd hn hlt
    unfold LayeredCaloTowerTool.idPhi LayeredCaloTowerTool.phi
    rw [floor_index_center i _ _ hd]
    exact toUInt_cast hi (by have := hn.2; omega)
  · intro hd hn hlt
    unfold LayeredCaloTowerTool.idEta LayeredCaloTowerTool.eta
    rw [floor_index_center i _ _ hd]
    exact toUInt_cast hi (by have := hn.2; omega)

theorem index_position_round_trip_witness :
    ((exampleTool.idPhi (exampleTool.phi 7) : Nat) : Int) = 7 ∧
    ((exampleTool.idEta (exampleTool.eta 7) : Nat) : Int) = 7 ∧
    ((exampleLayeredTool.idPhi (exampleLayeredTool.phi 7) : Nat) : Int) = 7 ∧
    ((exampleLayeredTool.idEta (exampleLayeredTool.eta 7) : Nat) : Int) = 7 :=
  have h := index_position_round_trip exampleTool exampleLayeredTool 7 (by decide)
  ⟨h.1 (by decide!) (by decide) (by decide),
   h.2.1 (by decide!) (by decide) (by decide),
   h.2.2.1 (by decide!) (by decide) (by decide),
   h.2.2.2 (by decide!) (by decide) (by decide)⟩

/-- C7. Phi wraparound values: for a tower count `nPhiTower > 3` (an `int`), in both tower
tools `phiNeighbour(-1) = nPhiTower - 1`, `phiNeighbour(nPhiTower) = 0` and
`phiNeighbour(nPhiTower + 3) = 3`. -/
theorem phiNeighbour_wraparound_values (t : CaloTowerTool) (u : LayeredCaloTowerTool) :
    (3 < t.nPhiTower → IsInt32 t.nPhiTower →
      ((t.phiNeighbour (-1) : Nat) : Int) = t.nPhiTower - 1 ∧
      t.phiNeighbour t.nPhiTower = 0 ∧ t.phiNeighbour (t.nPhiTower + 3) = 3) ∧
    (3 < u.nPhiTower → IsInt32 u.nPhiTower →
      ((u.phiNeighbour (-1) : Nat) : Int) = u.nPhiTower - 1 ∧
      u.phiNeighbour u.nPhiTower = 0 ∧ u.phiNeighbour (u.nPhiTower + 3) = 3) := by
  have key : ∀ n : Int, 3 < n → IsInt32 n →
      ((toUInt (n + -1) : Nat) : Int) = n - 1 ∧ toUInt (Int.tmod n n) = 0 ∧
        toUInt (Int.tmod (n + 3) n) = 3 := by
    intro n h3 hn
    refine ⟨?_, ?_, ?_⟩
    · have := toUInt_cast (z := n + -1) (by omega) (by have := hn.2; omega)
      omega
    · rw [Int.tmod_self]; rfl
    · have e : Int.tmod (n + 3) n = 3 := by
        rw [Int.tmod_eq_emod (by omega) (by omega)]
        rw [Int.add_emod_self_left]
        exact Int.emod_eq_of_lt (by omega) h3
      rw [e]; rfl
  constructor
  · intro h3 hn
    obtain ⟨k1, k2, k3⟩ := key t.nPhiTower h3 hn
    unfold CaloTowerTool.phiNeighbour
    refine ⟨?_, ?_, ?_⟩
    · rw [if_pos (by decide)]; exact k1
    · rw [if_neg (by omega), if_pos (le_refl _)]; exact k2
    · rw [if_neg (by omega), if_pos (by show t.nPhiTower ≤ t.nPhiTower + 3; omega)]; exact k3
  · intro h3 hn
    obtain ⟨k1, k2, k3⟩ := key u.nPhiTower h3 hn
    unfold LayeredCaloTowerTool.phiNeighbour
    refine ⟨?_, ?_, ?_⟩
    · rw [if_pos (by decide)]; exact k1
    · rw [if_neg (by omega), if_pos (le_refl _)]; exact k2
    · rw [if_neg (by omega), if_pos (by show u.nPhiTower ≤ u.nPhiTower + 3; omega)]; exact k3

theorem phiNeighbour_wraparound_values_witness :
    (((exampleTool.phiNeighbour (-1) : Nat) : Int) = exampleTool.nPhiTower - 1 ∧
      exampleTool.phiNeighbour exampleTool.nPhiTower = 0 ∧
      exampleTool.phiNeighbour (exampleTool.nPhiTower + 3) = 3) ∧
    (((exampleLayeredTool.phiNeighbour (-1) : Nat) : Int) = exampleLayeredTool.nPhiTower - 1 ∧
      exampleLayeredTool.phiNeighbour exampleLayeredTool.nPhiTower = 0 ∧
      exampleLayeredTool.phiNeighbour (exampleLayeredTool.nPhiTower + 3) = 3) :=
  have h := phiNeighbour_wraparound_values exampleTool exampleLayeredTool
  ⟨h.1 (by decide) (by decide), h.2 (by decide) (by decide)⟩

/-- C8. Range of `phiNeighbour`: the documented result range `[0, nPhiTower)` is not kept
for a requested index below `-nPhiTower`: with four phi towers the request `-5` yields
`4294967295` (the `int` value `-1` returned as `uint`) in both tower tools, while the
request `9`, handled by the remainder, yields `1`. -/
theorem phiNeighbour_range_fails_below :
    0 < fourPhiTool.nPhiTower ∧
    fourPhiTool.phiNeighbour (-5) = 4294967295 ∧
    ¬ ((fourPhiTool.phiNeighbour (-5) : Int) < fourPhiTool.nPhiTower) ∧
    fourPhiLayeredTool.phiNeighbour (-5) = 4294967295 ∧
    ¬ ((fourPhiLayeredTool.phiNeighbour (-5) : Int) < fourPhiLayeredTool.nPhiTower) ∧
    fourPhiTool.phiNeighbour 9 = 1 := by
  decide

/-! ## The tower grid -/

theorem addRow_spec (xs : List ℚ) (j : Nat) (v : ℚ) (hj : j < xs.length) :
    ∃ r, addRow xs j v = some r ∧ r.length = xs.length ∧ r.sum = xs.sum + v ∧
      ∀ b, r.getD b 0 = xs.getD b 0 + if b = j then v else 0 := by
  induction xs generalizing j with
  | nil => simp at hj
  | cons x xs ih =>
    cases j with
    | zero =>
      refine ⟨(x + v) :: xs, rfl, rfl, ?_, ?_⟩
      · simp only [List.sum_cons]; ring
      · intro b
        cases b with
        | zero => simp
        | succ b => simp
    | succ j =>
      obtain ⟨r, hr, hlen, hsum, hpt⟩ := ih j (by simpa using hj)
      refine ⟨x :: r, ?_, ?_, ?_, ?_⟩
      · simp [addRow, hr]
      · simp [hlen]
      · simp only [List.sum_cons, hsum]; ring
      · intro b
        cases b with
        | zero => simp
        | succ b => simpa using hpt b

theorem addTowerNat_spec (g : Towers) (nEta nPhi i j : Nat) (v : ℚ)
    (hg : GridDims g nEta nPhi) (hi : i < nEta) (hj : j < nPhi) :
    ∃ g', addTowerNat g i j v = some g' ∧ GridDims g' nEta nPhi ∧
      towersSum g' = towersSum g + v ∧
      ∀ a b, towerAt g' a b = towerAt g a b + if a = i ∧ b = j then v else 0 := by
  induction g generalizing i nEta with
  | nil =>
    obtain ⟨h, _⟩ := hg
    simp at h; omega
  | cons r rs ih =>
    obtain ⟨hlen, hrows⟩ := hg
    cases i with
    | zero =>
      obtain ⟨r', hr', hl', hs', hp'⟩ :=
        addRow_spec r j v (by rw [hrows r (List.mem_cons_self _ _)]; exact hj)
      refine ⟨r' :: rs, ?_, ⟨?_, ?_⟩, ?_, ?_⟩
      · simp [addTowerNat, hr']
      · simpa using hlen
      · intro q hq
        rcases List.mem_cons.1 hq with h | h
        · rw [h, hl']; exact hrows r (List.mem_cons_self _ _)
        · exact hrows q (List.mem_cons_of_mem _ h)
      · simp only [towersSum, List.map_cons, List.sum_cons, hs']; ring
      · intro a b
        cases a with
        | zero => simpa [towerAt] using hp' b
        | succ a => simp [towerAt]
    | succ i =>
      have hlen' : rs.length = nEta - 1 := by simp at hlen; omega
      obtain ⟨g', hg', hd', hs', hp'⟩ := ih (nEta - 1) i
        ⟨hlen', fun q hq => hrows q (List.mem_cons_of_mem _ hq)⟩ (by omega)
      refine ⟨r :: g', ?_, ⟨?_, ?_⟩, ?_, ?_⟩
      · simp [addTowerNat, hg']
      · simp [hd'.1]; omega
      · intro q hq
        rcases List.mem_cons.1 hq with h | h
        · rw [h]; exact hrows r (List.mem_cons_self _ _)
        · exact hd'.2 q h
      · simp only [towersSum, List.map_cons, List.sum_cons] at hs' ⊢
        rw [hs']; ring
      · intro a b
        cases a with
        | zero => simp [towerAt]
        | succ a => simpa [towerAt] using hp' a b

theorem foldlM_gained {ι : Type} (nEta nPhi : Nat)
    (f : Towers × CellsInTowers → ι → Option (Towers × CellsInTowers))
    (tot : ι → ℚ) (pt : ι → Nat → Nat → ℚ) (l : List ι)
    (hstep : ∀ x ∈ l, ∀ st : Towers × CellsInTowers, GridDims st.1 nEta nPhi →
      ∃ st', f st x = some st' ∧ Gained nEta nPhi st st' (tot x) (pt x))
    (st : Towers × CellsInTowers) (hst : GridDims st.1 nEta nPhi) :
    ∃ st', l.foldlM f st = some st' ∧
      Gained nEta nPhi st st' (l.map tot).sum (fun a b => (l.map (fun x => pt x a b)).sum) := by
  induction l generalizing st with
  | nil =>
    exact ⟨st, rfl, hst, by simp, by simp⟩
  | cons x xs ih =>
    obtain ⟨st1, h1, hd1, hs1, hp1⟩ := hstep x (List.mem_cons_self _ _) st hst
    obtain ⟨st2, h2, hd2, hs2, hp2⟩ :=
      ih (fun y hy => hstep y (List.mem_cons_of_mem _ hy)) st1 hd1
    refine ⟨st2, ?_, hd2, ?_, ?_⟩
    · rw [List.foldlM_cons, h1]; exact h2
    · rw [hs2, hs1, List.map_cons, List.sum_cons]; ring
    · intro a b
      rw [hp2, hp1]
      simp only [List.map_cons, List.sum_cons]; ring

theorem deposit_gained (t : CaloTowerTool) (s : GridPhiEta) (fill : Bool)
    (cell : CalorimeterHit) (nEta nPhi : Nat) (iEta iPhi : Int)
    (h0 : 0 ≤ iEta) (h1 : iEta < nEta) (hphi : t.phiNeighbour iPhi < nPhi)
    (st : Towers × CellsInTowers) (hst : GridDims st.1 nEta nPhi) :
    ∃ st', t.deposit s fill cell iEta iPhi st = some st' ∧
      Gained nEta nPhi st st' (t.share s cell iEta iPhi)
        (fun a b => if a = iEta.toNat ∧ b = t.phiNeighbour iPhi then t.share s cell iEta iPhi
          else 0) := by
  obtain ⟨g', hg', hd', hs', hp'⟩ := addTowerNat_spec st.1 nEta nPhi iEta.toNat
    (t.phiNeighbour iPhi) (t.share s cell iEta iPhi) hst (by omega) hphi
  refine ⟨(g', if fill then
      CaloTowerTool.pushCell st.2 (toUInt iEta, t.phiNeighbour iPhi) cell else st.2), ?_, hd', hs', hp'⟩
  unfold CaloTowerTool.deposit addTower
  rw [if_neg (by omega)]
  unfold CaloTowerTool.share at hg'
  rw [hg']

theorem phiList_gained (t : CaloTowerTool) (s : GridPhiEta) (fill : Bool)
    (cell : CalorimeterHit) (nEta nPhi : Nat) (iEta : Int) (js : List Int)
    (h0 : 0 ≤ iEta) (h1 : iEta < nEta) (hphi : ∀ j ∈ js, t.phiNeighbour j < nPhi)
    (st : Towers × CellsInTowers) (hst : GridDims st.1 nEta nPhi) :
    ∃ st', js.foldlM (fun st iPhi => t.deposit s fill cell iEta iPhi st) st = some st' ∧
      Gained nEta nPhi st st' (js.map (fun j => t.share s cell iEta j)).sum
        (fun a b => (js.map (fun j =>
          if a = iEta.toNat ∧ b = t.phiNeighbour j then t.share s cell iEta j else 0)).sum) :=
  foldlM_gained nEta nPhi _ _ _ js
    (fun j hj st' hst' => deposit_gained t s fill cell nEta nPhi iEta j h0 h1 (hphi j hj) st' hst')
    st hst

theorem towerList_gained (t : CaloTowerTool) (s : GridPhiEta) (fill : Bool)
    (cell : CalorimeterHit) (nEta nPhi : Nat) (is js : List Int)
    (heta : ∀ i ∈ is, 0 ≤ i ∧ i < nEta) (hphi : ∀ j ∈ js, t.phiNeighbour j < nPhi)
    (st : Towers × CellsInTowers) (hst : GridDims st.1 nEta nPhi) :
    ∃ st', is.foldlM (fun st iEta =>
        js.foldlM (fun st iPhi => t.deposit s fill cell iEta iPhi st) st) st = some st' ∧
      Gained nEta nPhi st st'
        (is.map (fun i => (js.map (fun j => t.share s cell i j)).sum)).sum
        (fun a b => (is.map (fun i => (js.map (fun j =>
          if a = i.toNat ∧ b = t.phiNeighbour j then t.share s cell i j else 0)).sum)).sum) :=
  foldlM_gained nEta nPhi _ _ _ is
    (fun i hi st' hst' =>
      phiList_gained t s fill cell nEta nPhi i js (heta i hi).1 (heta i hi).2 hphi st' hst')
    st hst

/-! ## Fractions along one coordinate -/

theorem intRange_eq (lo : Int) (n : Nat) :
    intRange lo (lo + n) = (List.range (n + 1)).map (fun (k : Nat) => lo + (k : Int)) := by
  unfold intRange
  have : (lo + (n : Int) + 1 - lo).toNat = n + 1 := by omega
  rw [this]

theorem mem_intRange {lo hi i : Int} (h : i ∈ intRange lo hi) : lo ≤ i ∧ i ≤ hi := by
  unfold intRange at h
  obtain ⟨k, hk, rfl⟩ := List.mem_map.1 h
  have := List.mem_range.1 hk
  omega

theorem intRange_ratio_sum (lo hi : Int) (h : lo ≤ hi) (fmin fmax fmid : ℚ)
    (h1 : lo = hi → fmin = 1) (h2 : hi = lo + 1 → fmin + fmax = 1)
    (h3 : lo + 1 < hi → fmin + fmax + ((hi - lo - 1 : Int) : ℚ) * fmid = 1) :
    ((intRange lo hi).map
      (fun i => if i = lo then fmin else if i = hi then fmax else fmid)).sum = 1 := by
  obtain ⟨n, rfl⟩ : ∃ n : Nat, hi = lo + n := ⟨(hi - lo).toNat, by omega⟩
  rw [intRange_eq, List.map_map]
  cases n with
  | zero =>
    have := h1 (by simp)
    simp [List.range_succ, this]
  | succ m =>
    rw [List.sum_range_succ, List.sum_range_succ']
    have hmid : ((List.range m).map (fun i =>
        ((fun i => if i = lo then fmin else if i = lo + ((m + 1 : Nat) : Int) then fmax else fmid) ∘
          fun k : Nat => lo + (k : Int)) i.succ)) = (List.range m).map (fun _ => fmid) := by
      apply List.map_congr_left
      intro k hk
      have hk' := List.mem_range.1 hk
      simp only [Function.comp]
      rw [if_neg (by push_cast; omega), if_neg (by push_cast; omega)]
    rw [hmid]
    simp only [Function.comp, List.map_const', List.sum_replicate, List.length_range,
      smul_eq_mul, nsmul_eq_mul]
    simp only [Nat.cast_zero, add_zero, if_true, Nat.cast_add, Nat.cast_one]
    rw [if_neg (by omega)]
    cases m with
    | zero =>
      have := h2 (by push_cast; ring)
      simp; linarith
    | succ k =>
      have := h3 (by push_cast; omega)
      have e : ((lo + ((k + 1 + 1 : Nat) : Int) - lo - 1 : Int) : ℚ) = ((k + 1 : Nat) : ℚ) := by
        push_cast; ring
      rw [e] at this
      linarith

theorem axis_fractions_sum (lo hi M d w : ℚ) (iMin iMax : Int) (fmin fmax fmid : ℚ)
    (hd : 0 < d) (hw : 0 < w) (hwid : hi - lo = w)
    (hMin : iMin = ⌊(lo + epsilon + M) / d⌋) (hMax : iMax = ⌊(hi - epsilon + M) / d⌋)
    (hle : iMin ≤ iMax)
    (hfmin : fmin = if iMin ≠ iMax then |((iMin : ℚ) + 1 / 2) * d - M + 1 / 2 * d - lo| / w else 1)
    (hfmax : fmax = if iMin ≠ iMax then |hi - (((iMax : ℚ) + 1 / 2) * d - M) + 1 / 2 * d| / w else 1)
    (hfmid : fmid = if iMin ≠ iMax then
        (if iMax - iMin - 1 ≠ 0 then (1 - fmin - fmax) / ((iMax - iMin - 1 : Int) : ℚ) else 0)
      else 1) :
    ((intRange iMin iMax).map
      (fun i => if i = iMin then fmin else if i = iMax then fmax else fmid)).sum = 1 := by
  have heps : (0 : ℚ) < epsilon := by unfold epsilon; norm_num
  apply intRange_ratio_sum iMin iMax hle
  · intro h
    rw [hfmin, if_neg (by simpa using h)]
  · intro h
    have hne : iMin ≠ iMax := by omega
    rw [hfmin, hfmax, if_pos hne, if_pos hne]
    have h1 : (lo + epsilon + M) / d < (iMin : ℚ) + 1 := by
      rw [hMin]; exact Int.lt_floor_add_one _
    have h2 : (iMax : ℚ) ≤ (hi - epsilon + M) / d := by
      rw [hMax]; exact Int.floor_le _
    rw [div_lt_iff₀ hd] at h1
    rw [le_div_iff₀ hd] at h2
    have hc : (iMax : ℚ) = (iMin : ℚ) + 1 := by rw [h]; push_cast; ring
    rw [hc] at h2 ⊢
    rw [abs_of_nonneg (by linarith), abs_of_nonneg (by linarith), ← add_div,
      div_eq_one_iff_eq (ne_of_gt hw)]
    linarith
  · intro h
    have hne : iMin ≠ iMax := by omega
    have hk : iMax - iMin - 1 ≠ 0 := by omega
    have hkq : ((iMax - iMin - 1 : Int) : ℚ) ≠ 0 := by exact_mod_cast hk
    rw [hfmid, if_pos hne, if_pos hk]
    have e : ((iMax - iMin - 1 : Int) : ℚ) * ((1 - fmin - fmax) / ((iMax - iMin - 1 : Int) : ℚ))
        = 1 - fmin - fmax := mul_div_cancel₀ _ hkq
    rw [e]
    ring

theorem iEtaMin_eq (t : CaloTowerTool) (s : GridPhiEta) (c : Nat)
    (h : IsInt32 ⌊(CaloTowerTool.etaCellMin s c + epsilon + t.etaMax) / t.deltaEtaTower⌋) :
    t.iEtaMin s c = ⌊(CaloTowerTool.etaCellMin s c + epsilon + t.etaMax) / t.deltaEtaTower⌋ :=
  toInt_toUInt h

theorem iEtaMax_eq (t : CaloTowerTool) (s : GridPhiEta) (c : Nat)
    (h : IsInt32 ⌊(CaloTowerTool.etaCellMax s c - epsilon + t.etaMax) / t.deltaEtaTower⌋) :
    t.iEtaMax s c = ⌊(CaloTowerTool.etaCellMax s c - epsilon + t.etaMax) / t.deltaEtaTower⌋ :=
  toInt_toUInt h

theorem iPhiMin_eq (t : CaloTowerTool) (s : GridPhiEta) (c : Nat)
    (h : IsInt32 ⌊(CaloTowerTool.phiCellMin s c + epsilon + t.phiMax) / t.deltaPhiTower⌋) :
    t.iPhiMin s c = ⌊(CaloTowerTool.phiCellMin s c + epsilon + t.phiMax) / t.deltaPhiTower⌋ :=
  toInt_toUInt h

theorem iPhiMax_eq (t : CaloTowerTool) (s : GridPhiEta) (c : Nat)
    (h : IsInt32 ⌊(CaloTowerTool.phiCellMax s c - epsilon + t.phiMax) / t.deltaPhiTower⌋) :
    t.iPhiMax s c = ⌊(CaloTowerTool.phiCellMax s c - epsilon + t.phiMax) / t.deltaPhiTower⌋ :=
  toInt_toUInt h

theorem ratioEta_sum (t : CaloTowerTool) (s : GridPhiEta) (c : Nat)
    (hd : 0 < t.deltaEtaTower) (hw : 0 < s.gridSizeEta)
    (h1 : IsInt32 ⌊(CaloTowerTool.etaCellMin s c + epsilon + t.etaMax) / t.deltaEtaTower⌋)
    (h2 : IsInt32 ⌊(CaloTowerTool.etaCellMax s c - epsilon + t.etaMax) / t.deltaEtaTower⌋)
    (hle : t.iEtaMin s c ≤ t.iEtaMax s c) :
    ((intRange (t.iEtaMin s c) (t.iEtaMax s c)).map (fun i => t.ratioEta s c i)).sum = 1 := by
  unfold CaloTowerTool.ratioEta
  exact axis_fractions_sum (CaloTowerTool.etaCellMin s c) (CaloTowerTool.etaCellMax s c)
    t.etaMax t.deltaEtaTower s.gridSizeEta _ _ _ _ _ hd hw
    (by unfold CaloTowerTool.etaCellMin CaloTowerTool.etaCellMax; ring)
    (iEtaMin_eq t s c h1) (iEtaMax_eq t s c h2) hle
    (by unfold CaloTowerTool.fracEtaMin CaloTowerTool.eta; rfl)
    (by unfold CaloTowerTool.fracEtaMax CaloTowerTool.eta; rfl)
    (by unfold CaloTowerTool.fracEtaMiddle; rfl)

theorem ratioPhi_sum (t : CaloTowerTool) (s : GridPhiEta) (c : Nat)
    (hd : 0 < t.deltaPhiTower) (hw : 0 < 2 * M_PI / (s.phiBins : ℚ))
    (h1 : IsInt32 ⌊(CaloTowerTool.phiCellMin s c + epsilon + t.phiMax) / t.deltaPhiTower⌋)
    (h2 : IsInt32 ⌊(CaloTowerTool.phiCellMax s c - epsilon + t.phiMax) / t.deltaPhiTower⌋)
    (hle : t.iPhiMin s c ≤ t.iPhiMax s c) :
    ((intRange (t.iPhiMin s c) (t.iPhiMax s c)).map (fun i => t.ratioPhi s c i)).sum = 1 := by
  unfold CaloTowerTool.ratioPhi
  exact axis_fractions_sum (CaloTowerTool.phiCellMin s c) (CaloTowerTool.phiCellMax s c)
    t.phiMax t.deltaPhiTower (2 * M_PI / (s.phiBins : ℚ)) _ _ _ _ _ hd hw
    (by unfold CaloTowerTool.phiCellMin CaloTowerTool.phiCellMax; ring)
    (iPhiMin_eq t s c h1) (iPhiMax_eq t s c h2) hle
    (by unfold CaloTowerTool.fracPhiMin CaloTowerTool.phi; rfl)
    (by unfold CaloTowerTool.fracPhiMax CaloTowerTool.phi; rfl)
    (by unfold CaloTowerTool.fracPhiMiddle; rfl)

/-! ## Cells inside the grid -/

theorem phiNeighbour_lt (t : CaloTowerTool) (nPhi : Nat) (j : Int)
    (hn : t.nPhiTower = (nPhi : Int)) (hpos : 0 < nPhi) (hlt : nPhi < 2147483648)
    (hlo : -(nPhi : Int) ≤ j) (hhi : j < 2147483648) : t.phiNeighbour j < nPhi := by
  have cast : ∀ z : Int, 0 ≤ z → z < nPhi → toUInt z < nPhi := by
    intro z h0 h1
    have := toUInt_cast h0 (by omega)
    omega
  unfold CaloTowerTool.phiNeighbour
  rw [hn]
  split_ifs with h1 h2
  · exact cast _ (by omega) (by omega)
  · have hj : 0 ≤ j := by omega
    rw [Int.tmod_eq_emod hj (by omega)]
    exact cast _ (Int.emod_nonneg _ (by omega)) (Int.emod_lt_of_pos _ (by omega))
  · exact cast _ (by omega) (by omega)

theorem cell_indices (t : CaloTowerTool) (s : GridPhiEta) (nEta nPhi c : Nat)
    (ht : GridOfTool t nEta nPhi) (hc : CellInGrid t s nEta nPhi c) :
    (IsInt32 ⌊(CaloTowerTool.etaCellMin s c + epsilon + t.etaMax) / t.deltaEtaTower⌋ ∧
     IsInt32 ⌊(CaloTowerTool.etaCellMax s c - epsilon + t.etaMax) / t.deltaEtaTower⌋ ∧
     IsInt32 ⌊(CaloTowerTool.phiCellMin s c + epsilon + t.phiMax) / t.deltaPhiTower⌋ ∧
     IsInt32 ⌊(CaloTowerTool.phiCellMax s c - epsilon + t.phiMax) / t.deltaPhiTower⌋) ∧
    (0 ≤ t.iEtaMin s c ∧ t.iEtaMin s c ≤ t.iEtaMax s c ∧ t.iEtaMax s c < nEta) ∧
    (-(nPhi : Int) ≤ t.iPhiMin s c ∧ t.iPhiMin s c ≤ t.iPhiMax s c ∧
      t.iPhiMax s c < 2147483648) := by
  obtain ⟨hdE, hdP, hnE, hnP, hpos, hn⟩ := ht
  obtain ⟨hwE, hwP, hElo, hEhi, hPlo, hPhi⟩ := hc
  have heps : (0 : ℚ) < epsilon := by unfold epsilon; norm_num
  have hwidE : CaloTowerTool.etaCellMax s c - CaloTowerTool.etaCellMin s c = s.gridSizeEta := by
    unfold CaloTowerTool.etaCellMin CaloTowerTool.etaCellMax; ring
  have hwidP : CaloTowerTool.phiCellMax s c - CaloTowerTool.phiCellMin s c
      = 2 * M_PI / (s.phiBins : ℚ) := by
    unfold CaloTowerTool.phiCellMin CaloTowerTool.phiCellMax; ring
  -- eta floors
  have a0 : 0 ≤ ⌊(CaloTowerTool.etaCellMin s c + epsilon + t.etaMax) / t.deltaEtaTower⌋ :=
    Int.floor_nonneg.2 (div_nonneg (by linarith) (le_of_lt hdE))
  have ab : ⌊(CaloTowerTool.etaCellMin s c + epsilon + t.etaMax) / t.deltaEtaTower⌋
      ≤ ⌊(CaloTowerTool.etaCellMax s c - epsilon + t.etaMax) / t.deltaEtaTower⌋ :=
    Int.floor_le_floor ((div_le_div_iff_of_pos_right hdE).2 (by linarith))
  have b1 : ⌊(CaloTowerTool.etaCellMax s c - epsilon + t.etaMax) / t.deltaEtaTower⌋
      < (nEta : Int) := by
    rw [Int.floor_lt, div_lt_iff₀ hdE]
    push_cast
    linarith
  -- phi floors
  have p0 : -(nPhi : Int)
      ≤ ⌊(CaloTowerTool.phiCellMin s c + epsilon + t.phiMax) / t.deltaPhiTower⌋ := by
    rw [Int.le_floor, le_div_iff₀ hdP]
    push_cast
    linarith
  have pq : ⌊(CaloTowerTool.phiCellMin s c + epsilon + t.phiMax) / t.deltaPhiTower⌋
      ≤ ⌊(CaloTowerTool.phiCellMax s c - epsilon + t.phiMax) / t.deltaPhiTower⌋ :=
    Int.floor_le_floor ((div_le_div_iff_of_pos_right hdP).2 (by linarith))
  have q1 : ⌊(CaloTowerTool.phiCellMax s c - epsilon + t.phiMax) / t.deltaPhiTower⌋
      < (2147483648 : Int) := by
    rw [Int.floor_lt, div_lt_iff₀ hdP]
    push_cast
    linarith
  have i1 : IsInt32 ⌊(CaloTowerTool.etaCellMin s c + epsilon + t.etaMax) / t.deltaEtaTower⌋ :=
    ⟨by omega, by omega⟩
  have i2 : IsInt32 ⌊(CaloTowerTool.etaCellMax s c - epsilon + t.etaMax) / t.deltaEtaTower⌋ :=
    ⟨by omega, by omega⟩
  have i3 : IsInt32 ⌊(CaloTowerTool.phiCellMin s c + epsilon + t.phiMax) / t.deltaPhiTower⌋ :=
    ⟨by omega, by omega⟩
  have i4 : IsInt32 ⌊(CaloTowerTool.phiCellMax s c - epsilon + t.phiMax) / t.deltaPhiTower⌋ :=
    ⟨by omega, by omega⟩
  refine ⟨⟨i1, i2, i3, i4⟩, ?_, ?_⟩
  · rw [iEtaMin_eq t s c i1, iEtaMax_eq t s c i2]
    exact ⟨a0, ab, b1⟩
  · rw [iPhiMin_eq t s c i3, iPhiMax_eq t s c i4]
    exact ⟨p0, pq, q1⟩

theorem towerLoop_gained (t : CaloTowerTool) (s : GridPhiEta) (fill : Bool)
    (cell : CalorimeterHit) (nEta nPhi : Nat)
    (ht : GridOfTool t nEta nPhi) (hc : CellInGrid t s nEta nPhi cell.cellID)
    (st : Towers × CellsInTowers) (hst : GridDims st.1 nEta nPhi) :
    ∃ st', t.towerLoop s fill cell st = some st' ∧ GridDims st'.1 nEta nPhi ∧
      towersSum st'.1 = towersSum st.1 + cell.energy / t.cosh (s.eta cell.cellID) := by
  obtain ⟨⟨i1, i2, i3, i4⟩, ⟨e0, e1, e2⟩, ⟨p0, p1, p2⟩⟩ :=
    cell_indices t s nEta nPhi cell.cellID ht hc
  have heps : (0 : ℚ) < epsilon := by unfold epsilon; norm_num
  obtain ⟨hdE, hdP, hnE, hnP, hpos, hn⟩ := ht
  obtain ⟨st', h, hd, hs, -⟩ := towerList_gained t s fill cell nEta nPhi
    (intRange (t.iEtaMin s cell.cellID) (t.iEtaMax s cell.cellID))
    (intRange (t.iPhiMin s cell.cellID) (t.iPhiMax s cell.cellID))
    (fun i hi => by have := mem_intRange hi; omega)
    (fun j hj => by
      have := mem_intRange hj
      exact phiNeighbour_lt t nPhi j hn hpos hnP (by omega) (by omega))
    st hst
  refine ⟨st', h, hd, ?_⟩
  rw [hs]
  congr 1
  have hE := ratioEta_sum t s cell.cellID hdE (by linarith [hc.1]) i1 i2 e1
  have hP := ratioPhi_sum t s cell.cellID hdP (by linarith [hc.2.1]) i3 i4 p1
  have inner : ∀ i : Int,
      ((intRange (t.iPhiMin s cell.cellID) (t.iPhiMax s cell.cellID)).map
        (fun j => t.share s cell i j)).sum
      = cell.energy / t.cosh (s.eta cell.cellID) * t.ratioEta s cell.cellID i := by
    intro i
    unfold CaloTowerTool.share
    rw [List.sum_map_mul_left, hP, mul_one]
  simp only [inner]
  rw [List.sum_map_mul_left, hE, mul_one]

theorem zeroTowers_dims (nEta nPhi : Nat) : GridDims (zeroTowers nEta nPhi) nEta nPhi := by
  unfold GridDims zeroTowers
  refine ⟨by simp, ?_⟩
  intro r hr
  rw [(List.mem_replicate.1 hr).2]
  simp

theorem zeroTowers_sum (nEta nPhi : Nat) : towersSum (zeroTowers nEta nPhi) = 0 := by
  unfold towersSum zeroTowers
  simp

theorem CellsIntoTowers_sum (t : CaloTowerTool) (seg : Segmentation) (fill : Bool)
    (nEta nPhi : Nat) (ht : GridOfTool t nEta nPhi) (hfilter : t.useHalfTower = false)
    (cells : List CalorimeterHit)
    (hcells : ∀ c ∈ cells, CellInGrid t (seg.forCell c.cellID) nEta nPhi c.cellID)
    (st : Towers × CellsInTowers) (hst : GridDims st.1 nEta nPhi) :
    ∃ st', t.CellsIntoTowers cells seg fill st = some st' ∧ GridDims st'.1 nEta nPhi ∧
      towersSum st'.1 = towersSum st.1 +
        (cells.map (fun c => c.energy / t.cosh ((seg.forCell c.cellID).eta c.cellID))).sum := by
  induction cells generalizing st with
  | nil => exact ⟨st, rfl, hst, by simp⟩
  | cons c cs ih =>
    obtain ⟨st1, h1, hd1, hs1⟩ := towerLoop_gained t (seg.forCell c.cellID) fill c nEta nPhi ht
      (hcells c (List.mem_cons_self _ _)) st hst
    obtain ⟨st2, h2, hd2, hs2⟩ := ih (fun x hx => hcells x (List.mem_cons_of_mem _ hx)) st1 hd1
    refine ⟨st2, ?_, hd2, ?_⟩
    · unfold CaloTowerTool.CellsIntoTowers at h2 ⊢
      rw [List.foldlM_cons]
      have hp : t.pass c = true := by simp [CaloTowerTool.pass, hfilter]
      rw [if_pos hp, h1]
      exact h2
    · rw [hs2, hs1, List.map_cons, List.sum_cons]; ring

/-- C1 (as amended). Tower-energy conservation: with no depth filter, positive tower
sizes and a grid that is zero before the call, for every collection of cells that are at
least `2 * epsilon` wide in both coordinates and lie inside the grid, `CellsIntoTowers`
completes and the sum over all towers equals the sum over the cells of
`energy / cosh(eta)`. -/
theorem CellsIntoTowers_conserves_energy (t : CaloTowerTool) (seg : Segmentation)
    (fill : Bool) (nEta nPhi : Nat) (cells : List CalorimeterHit) (tc : CellsInTowers)
    (ht : GridOfTool t nEta nPhi) (hfilter : t.useHalfTower = false)
    (hcells : ∀ c ∈ cells, CellInGrid t (seg.forCell c.cellID) nEta nPhi c.cellID) :
    ∃ st', t.CellsIntoTowers cells seg fill (zeroTowers nEta nPhi, tc) = some st' ∧
      towersSum st'.1 =
        (cells.map (fun c => c.energy / t.cosh ((seg.forCell c.cellID).eta c.cellID))).sum := by
  obtain ⟨st', h, -, hs⟩ := CellsIntoTowers_sum t seg fill nEta nPhi ht hfilter cells hcells
    (zeroTowers nEta nPhi, tc) (zeroTowers_dims nEta nPhi)
  refine ⟨st', h, ?_⟩
  rw [hs, zeroTowers_sum, zero_add]

theorem CellsIntoTowers_conserves_energy_witness :
    ∃ st', fourPhiTool.CellsIntoTowers [cellFive, cellThree] (Segmentation.kPhiEta unitGrid)
        true (zeroTowers 2 4, []) = some st' ∧
      towersSum st'.1 = ([cellFive, cellThree].map (fun c => c.energy /
        fourPhiTool.cosh (((Segmentation.kPhiEta unitGrid).forCell c.cellID).eta c.cellID))).sum :=
  CellsIntoTowers_conserves_energy fourPhiTool (Segmentation.kPhiEta unitGrid) true 2 4
    [cellFive, cellThree] [] (by decide!) (by decide)
    (by
      intro c hc
      have hc' : c = cellFive ∨ c = cellThree := by simpa using hc
      rcases hc' with rfl | rfl <;> decide!)

/-- C1 (as stated) fails: a cell narrower than `2 * epsilon` in eta, inside the grid and
with no depth filter, has its first eta index above its last one, so the loops add
nothing: the towers stay zero while the cell carries the transverse energy 5. -/
theorem narrow_cell_energy_lost :
    fourPhiTool.useHalfTower = false ∧
    fourPhiTool.iEtaMin narrowGrid 1 = 1 ∧ fourPhiTool.iEtaMax narrowGrid 1 = 0 ∧
    fourPhiTool.CellsIntoTowers [cellFive] (Segmentation.kPhiEta narrowGrid) false
      (zeroTowers 2 4, []) = some (zeroTowers 2 4, []) ∧
    towersSum (zeroTowers 2 4) = 0 ∧
    ([cellFive].map (fun c => c.energy /
        fourPhiTool.cosh (((Segmentation.kPhiEta narrowGrid).forCell c.cellID).eta c.cellID))).sum
      = 5 := by
  decide!

/-! ## Cells matching the towers -/

theorem floor_div_eq (x d : ℚ) (k : Int) (hd : 0 < d) (h1 : (k : ℚ) * d ≤ x)
    (h2 : x < ((k : ℚ) + 1) * d) : ⌊x / d⌋ = k := by
  rw [Int.floor_eq_iff, le_div_iff₀ hd, div_lt_iff₀ hd]
  exact ⟨h1, h2⟩

theorem toInt_toUInt_nat (i : Nat) (hi : i < 2147483648) : toInt (toUInt (i : Int)) = i :=
  toInt_toUInt ⟨by omega, by omega⟩

theorem intRange_self (i : Int) : intRange i i = [i] := by
  unfold intRange
  have : (i + 1 - i).toNat = 1 := by omega
  rw [this]
  simp [List.range_succ]

theorem intRange_succ (i : Int) : intRange i (i + 1) = [i, i + 1] := by
  unfold intRange
  have : (i + 1 + 1 - i).toNat = 2 := by omega
  rw [this]
  simp [List.range_succ]

theorem phiNeighbour_of_lt (t : CaloTowerTool) (j : Nat) (h : (j : Int) < t.nPhiTower)
    (hj : j < 2147483648) : t.phiNeighbour j = j := by
  unfold CaloTowerTool.phiNeighbour
  rw [if_neg (by omega), if_neg (by omega)]
  have := toUInt_cast (z := (j : Int)) (by omega) (by omega)
  omega

theorem single_tower_indices (t : CaloTowerTool) (s : GridPhiEta) (c i j : Nat)
    (hi : i < 2147483648) (hj : j < 2147483648)
    (hεE : epsilon < t.deltaEtaTower) (hεP : epsilon < t.deltaPhiTower)
    (hwE : s.gridSizeEta = t.deltaEtaTower)
    (hwP : 2 * M_PI / (s.phiBins : ℚ) = t.deltaPhiTower)
    (hcE : s.eta c = t.eta i) (hcP : s.phi c = t.phi j) :
    t.iEtaMin s c = i ∧ t.iEtaMax s c = i ∧ t.iPhiMin s c = j ∧ t.iPhiMax s c = j := by
  have heps : (0 : ℚ) < epsilon := by unfold epsilon; norm_num
  have hhalf : M_PI / (s.phiBins : ℚ) = t.deltaPhiTower / 2 := by
    rw [← hwP]; ring
  refine ⟨?_, ?_, ?_, ?_⟩
  · unfold CaloTowerTool.iEtaMin CaloTowerTool.idEta CaloTowerTool.etaCellMin
    rw [hcE, hwE, floor_div_eq _ _ (i : Int) (by linarith)]
    · exact toInt_toUInt_nat i hi
    · unfold CaloTowerTool.eta; push_cast; linarith
    · unfold CaloTowerTool.eta; push_cast; linarith
  · unfold CaloTowerTool.iEtaMax CaloTowerTool.idEta CaloTowerTool.etaCellMax
    rw [hcE, hwE, floor_div_eq _ _ (i : Int) (by linarith)]
    · exact toInt_toUInt_nat i hi
    · unfold CaloTowerTool.eta; push_cast; linarith
    · unfold CaloTowerTool.eta; push_cast; linarith
  · unfold CaloTowerTool.iPhiMin CaloTowerTool.idPhi CaloTowerTool.phiCellMin
    rw [hcP, hhalf, floor_div_eq _ _ (j : Int) (by linarith)]
    · exact toInt_toUInt_nat j hj
    · unfold CaloTowerTool.phi; push_cast; linarith
    · unfold CaloTowerTool.phi; push_cast; linarith
  · unfold CaloTowerTool.iPhiMax CaloTowerTool.idPhi CaloTowerTool.phiCellMax
    rw [hcP, hhalf, floor_div_eq _ _ (j : Int) (by linarith)]
    · exact toInt_toUInt_nat j hj
    · unfold CaloTowerTool.phi; push_cast; linarith
    · unfold CaloTowerTool.phi; push_cast; linarith

/-- C9 (as amended). Single-tower case: for every cell that passes the depth filter, whose
eta and phi widths equal the tower sizes (tower sizes above `epsilon`) and whose centre
is the centre of tower `(i, j)` of the grid, `CellsIntoTowers` adds
`energy / cosh(eta)` to tower `(i, j)` and nothing to any other tower. -/
theorem single_tower_cell (t : CaloTowerTool) (seg : Segmentation) (fill : Bool)
    (cell : CalorimeterHit) (nEta nPhi i j : Nat) (st : Towers × CellsInTowers)
    (ht : GridOfTool t nEta nPhi) (hst : GridDims st.1 nEta nPhi)
    (hi : i < nEta) (hj : j < nPhi) (hpass : t.pass cell = true)
    (hεE : epsilon < t.deltaEtaTower) (hεP : epsilon < t.deltaPhiTower)
    (hwE : (seg.forCell cell.cellID).gridSizeEta = t.deltaEtaTower)
    (hwP : 2 * M_PI / ((seg.forCell cell.cellID).phiBins : ℚ) = t.deltaPhiTower)
    (hcE : (seg.forCell cell.cellID).eta cell.cellID = t.eta i)
    (hcP : (seg.forCell cell.cellID).phi cell.cellID = t.phi j) :
    ∃ st', t.CellsIntoTowers [cell] seg fill st = some st' ∧
      ∀ a b, towerAt st'.1 a b = towerAt st.1 a b +
        if a = i ∧ b = j then
          cell.energy / t.cosh ((seg.forCell cell.cellID).eta cell.cellID) else 0 := by
  obtain ⟨hdE, hdP, hnE, hnP, hpos, hn⟩ := ht
  obtain ⟨e1, e2, p1, p2⟩ := single_tower_indices t (seg.forCell cell.cellID) cell.cellID i j
    (by omega) (by omega) hεE hεP hwE hwP hcE hcP
  have hnb : t.phiNeighbour (j : Int) = j := phiNeighbour_of_lt t j (by omega) (by omega)
  obtain ⟨st', h, -, -, hp⟩ := towerList_gained t (seg.forCell cell.cellID) fill cell nEta nPhi
    [(i : Int)] [(j : Int)] (fun x hx => by simp at hx; omega)
    (fun x hx => by simp at hx; rw [hx, hnb]; exact hj) st hst
  refine ⟨st', ?_, ?_⟩
  · unfold CaloTowerTool.CellsIntoTowers
    rw [List.foldlM_cons, if_pos hpass]
    unfold CaloTowerTool.towerLoop CaloTowerTool.phiLoop
    rw [e1, e2, p1, p2, intRange_self, intRange_self, h]
    rfl
  · intro a b
    rw [hp a b]
    have hshare : t.share (seg.forCell cell.cellID) cell (i : Int) (j : Int)
        = cell.energy / t.cosh ((seg.forCell cell.cellID).eta cell.cellID) := by
      unfold CaloTowerTool.share CaloTowerTool.ratioEta CaloTowerTool.ratioPhi
        CaloTowerTool.fracEtaMin CaloTowerTool.fracPhiMin
      rw [e1, e2, p1, p2]
      simp
    simp only [List.map_cons, List.map_nil, List.sum_cons, List.sum_nil, add_zero, hshare, hnb,
      Int.toNat_ofNat]

theorem single_tower_cell_witness :
    ∃ st', quarterTurnTool.CellsIntoTowers [cellFive] (Segmentation.kPhiEta quarterTurnGrid)
        true (zeroTowers 2 4, []) = some st' ∧
      ∀ a b, towerAt st'.1 a b = towerAt (zeroTowers 2 4, ([] : CellsInTowers)).1 a b +
        if a = 1 ∧ b = 2 then
          cellFive.energy / quarterTurnTool.cosh
            (((Segmentation.kPhiEta quarterTurnGrid).forCell cellFive.cellID).eta cellFive.cellID)
        else 0 :=
  single_tower_cell quarterTurnTool (Segmentation.kPhiEta quarterTurnGrid) true cellFive 2 4 1 2
    (zeroTowers 2 4, []) (by decide!) (zeroTowers_dims 2 4)
    (by decide) (by decide) (by decide) (by decide!) (by decide!) (by decide!) (by decide!)
    (by decide!) (by decide!)

/-- C9 (as stated) fails: with the depth filter on (`halfTower`, layer 7 above
`max_layer` 6) a cell of exactly the tower size sitting at the centre of tower `(1, 2)`
is skipped, so that tower receives nothing although the cell carries the transverse
energy 5. -/
theorem single_tower_cell_filtered :
    (epsilon < quarterTurnHalfTool.deltaEtaTower ∧ epsilon < quarterTurnHalfTool.deltaPhiTower) ∧
    (quarterTurnGrid.gridSizeEta = quarterTurnHalfTool.deltaEtaTower ∧
      2 * M_PI / (quarterTurnGrid.phiBins : ℚ) = quarterTurnHalfTool.deltaPhiTower) ∧
    (quarterTurnGrid.eta cellFive.cellID = quarterTurnHalfTool.eta 1 ∧
      quarterTurnGrid.phi cellFive.cellID = quarterTurnHalfTool.phi 2) ∧
    quarterTurnHalfTool.CellsIntoTowers [cellFive] (Segmentation.kPhiEta quarterTurnGrid)
      true (zeroTowers 2 4, []) = some (zeroTowers 2 4, []) ∧
    towerAt (zeroTowers 2 4) 1 2 = 0 ∧
    cellFive.energy / quarterTurnHalfTool.cosh (quarterTurnGrid.eta cellFive.cellID) = 5 := by
  decide!

theorem mapFind_eq_none {κ α : Type} [DecidableEq κ] (m : List (κ × α)) (k : κ) :
    mapFind m k = none ↔ k ∉ m.map Prod.fst := by
  induction m with
  | nil => simp [mapFind]
  | cons p m ih =>
    obtain ⟨k', v⟩ := p
    unfold mapFind
    by_cases h : k' = k
    · simp [h]
    · rw [if_neg h, ih]
      simp [h, Ne.symm h]

theorem mapFind_some_mem {κ α : Type} [DecidableEq κ] (m : List (κ × α)) (k : κ) (v : α)
    (h : mapFind m k = some v) : k ∈ m.map Prod.fst := by
  by_contra hk
  rw [(mapFind_eq_none m k).2 hk] at h
  cases h

theorem mapInsert_perm {κ α : Type} (lt : κ → κ → Bool) (m : List (κ × α)) (k : κ) (v : α) :
    (mapInsert lt m k v).Perm ((k, v) :: m) := by
  induction m with
  | nil => simp [mapInsert]
  | cons p m ih =>
    obtain ⟨k', v'⟩ := p
    unfold mapInsert
    split_ifs
    · exact List.Perm.refl _
    · exact (List.Perm.cons _ ih).trans (List.Perm.swap _ _ _)

theorem mapReplace_keys {κ α : Type} [DecidableEq κ] (m : List (κ × α)) (k : κ) (v : α) :
    (mapReplace m k v).map Prod.fst = m.map Prod.fst := by
  induction m with
  | nil => rfl
  | cons p m ih =>
    obtain ⟨k', v'⟩ := p
    unfold mapReplace
    split_ifs
    · rfl
    · simp [ih]

theorem keysWithin_nil {α β : Type} (ct : List (Nat × α)) :
    KeysWithin ct ([] : List (Nat × β)) :=
  ⟨List.nodup_nil, fun _ h => by simp at h⟩

theorem keysWithin_emplace {α β : Type} (ct : List (Nat × α)) (coc : List (Nat × β))
    (k : Nat) (v : β) (h : KeysWithin ct coc) (hk : k ∈ ct.map Prod.fst) :
    KeysWithin ct (mapEmplace natLt coc k v) := by
  unfold mapEmplace
  cases hf : mapFind coc k with
  | some w => exact h
  | none =>
    have hnot := (mapFind_eq_none coc k).1 hf
    have hp : ((mapInsert natLt coc k v).map Prod.fst).Perm (k :: coc.map Prod.fst) :=
      (mapInsert_perm natLt coc k v).map Prod.fst
    refine ⟨(hp.nodup_iff).2 (List.nodup_cons.2 ⟨hnot, h.1⟩), ?_⟩
    intro x hx
    rcases List.mem_cons.1 (hp.subset hx) with rfl | hx'
    · exact hk
    · exact h.2 x hx'

theorem keysWithin_assign {α β : Type} (ct : List (Nat × α)) (coc : List (Nat × β))
    (k : Nat) (v : β) (h : KeysWithin ct coc) (hk : k ∈ ct.map Prod.fst) :
    KeysWithin ct (mapAssign natLt coc k v) := by
  unfold mapAssign
  cases hf : mapFind coc k with
  | some w =>
    show KeysWithin ct (mapReplace coc k v)
    unfold KeysWithin
    rw [mapReplace_keys]
    exact h
  | none =>
    have := keysWithin_emplace ct coc k v h hk
    unfold mapEmplace at this
    rw [hf] at this
    exact this

/-! ## The growth keeps `clusterOfCell` inside the cluster -/

theorem visitNeighbour_keys (a : SplitClusters) (cid : Nat) (ct : List (Nat × Int))
    (cp : List (Nat × TLorentzVector)) (st : SplitClusters.Growth × List (Nat × Nat)) (nb : Nat)
    (h : KeysWithin ct st.1.clusterOfCell) :
    KeysWithin ct (a.visitNeighbour cid ct cp st nb).1.clusterOfCell := by
  unfold SplitClusters.visitNeighbour
  cases hf : mapFind ct nb with
  | none => exact h
  | some ty =>
    have hk := mapFind_some_mem ct nb ty hf
    cases hc : mapFind st.1.clusterOfCell nb with
    | none => exact keysWithin_emplace ct _ nb cid h hk
    | some owner =>
      simp only
      split_ifs
      · exact keysWithin_assign ct _ nb cid h hk
      · exact keysWithin_assign ct _ nb owner h hk
      · exact h

theorem foldl_visitNeighbour_keys (a : SplitClusters) (cid : Nat) (ct : List (Nat × Int))
    (cp : List (Nat × TLorentzVector)) (nbs : List Nat)
    (st : SplitClusters.Growth × List (Nat × Nat)) (h : KeysWithin ct st.1.clusterOfCell) :
    KeysWithin ct (nbs.foldl (a.visitNeighbour cid ct cp) st).1.clusterOfCell := by
  induction nbs generalizing st with
  | nil => exact h
  | cons nb nbs ih => exact ih _ (visitNeighbour_keys a cid ct cp st nb h)

theorem searchForNeighbours_keys (a : SplitClusters) (id cid : Nat) (ct : List (Nat × Int))
    (cp : List (Nat × TLorentzVector)) (g : SplitClusters.Growth)
    (h : KeysWithin ct g.clusterOfCell) :
    KeysWithin ct (a.searchForNeighbours id cid ct cp g).1.clusterOfCell := by
  unfold SplitClusters.searchForNeighbours
  split_ifs
  · exact h
  · exact foldl_visitNeighbour_keys a cid ct cp _ (g, []) h

theorem mem_keys_cellsType_aux (hits : List CalorimeterHit) (m : List (Nat × Int)) (k : Nat) :
    k ∈ (hits.foldl (fun m cell => mapEmplace natLt m cell.cellID cell.type) m).map Prod.fst ↔
      k ∈ m.map Prod.fst ∨ k ∈ hits.map (fun c => c.cellID) := by
  induction hits generalizing m with
  | nil => simp
  | cons c cs ih =>
    rw [List.foldl_cons, ih]
    have hstep : k ∈ (mapEmplace natLt m c.cellID c.type).map Prod.fst ↔
        k ∈ m.map Prod.fst ∨ k = c.cellID := by
      unfold mapEmplace
      cases hf : mapFind m c.cellID with
      | some w =>
        have := mapFind_some_mem m c.cellID w hf
        constructor
        · intro h; exact Or.inl h
        · rintro (h | h)
          · exact h
          · rw [h]; exact this
      | none =>
        have hp : ((mapInsert natLt m c.cellID c.type).map Prod.fst).Perm
            (c.cellID :: m.map Prod.fst) := (mapInsert_perm natLt m c.cellID c.type).map Prod.fst
        show k ∈ (mapInsert natLt m c.cellID c.type).map Prod.fst ↔ _
        rw [hp.mem_iff, List.mem_cons]
        tauto
    rw [hstep, List.map_cons, List.mem_cons]
    tauto

theorem nodup_keys_cellsType_aux (hits : List CalorimeterHit) (m : List (Nat × Int))
    (hm : (m.map Prod.fst).Nodup) :
    ((hits.foldl (fun m cell => mapEmplace natLt m cell.cellID cell.type) m).map Prod.fst).Nodup := by
  induction hits generalizing m with
  | nil => exact hm
  | cons c cs ih =>
    rw [List.foldl_cons]
    apply ih
    unfold mapEmplace
    cases hf : mapFind m c.cellID with
    | some w => exact hm
    | none =>
      have hp : ((mapInsert natLt m c.cellID c.type).map Prod.fst).Perm
          (c.cellID :: m.map Prod.fst) := (mapInsert_perm natLt m c.cellID c.type).map Prod.fst
      exact (hp.nodup_iff).2 (List.nodup_cons.2 ⟨(mapFind_eq_none m c.cellID).1 hf, hm⟩)

theorem mem_keys_cellsType (hits : List CalorimeterHit) (k : Nat) :
    k ∈ (SplitClusters.cellsType hits).map Prod.fst ↔ k ∈ hits.map (fun c => c.cellID) := by
  unfold SplitClusters.cellsType
  rw [mem_keys_cellsType_aux]
  simp

theorem nodup_keys_cellsType (hits : List CalorimeterHit) :
    ((SplitClusters.cellsType hits).map Prod.fst).Nodup :=
  nodup_keys_cellsType_aux hits [] List.nodup_nil

theorem keys_cellsType_perm (hits : List CalorimeterHit)
    (hd : (hits.map (fun c => c.cellID)).Nodup) :
    ((SplitClusters.cellsType hits).map Prod.fst).Perm (hits.map (fun c => c.cellID)) :=
  (List.perm_ext_iff_of_nodup (nodup_keys_cellsType hits) hd).2 (mem_keys_cellsType hits)

theorem cellsEnergy_perm (hits : List CalorimeterHit) :
    (SplitClusters.cellsEnergy hits).Perm (hits.map (fun cell => (cell.cellID, cell.energy))) :=
  List.perm_insertionSort _ _

theorem newSeeds_mem_keys (a : SplitClusters) (hits : List CalorimeterHit) (seed : Nat × ℚ)
    (h : seed ∈ a.newSeeds hits) : seed.1 ∈ (SplitClusters.cellsType hits).map Prod.fst := by
  unfold SplitClusters.newSeeds at h
  have h1 := (List.mem_filter.1 h).1
  have h2 := (cellsEnergy_perm hits).subset h1
  rw [mem_keys_cellsType]
  obtain ⟨c, hc, rfl⟩ := List.mem_map.1 h2
  exact List.mem_map.2 ⟨c, hc, rfl⟩

theorem preEmpty_emplace (pre : List (Nat × List (Nat × Int))) (k : Nat) (h : PreEmpty pre) :
    PreEmpty (mapEmplace natLt pre k []) := by
  unfold mapEmplace
  cases hf : mapFind pre k with
  | some w => exact h
  | none =>
    intro p hp
    rcases List.mem_cons.1 ((mapInsert_perm natLt pre k []).subset hp) with rfl | hp'
    · rfl
    · exact h p hp'

theorem startSeed_keys (a : SplitClusters) (ct : List (Nat × Int))
    (cp : List (Nat × TLorentzVector)) (b : SplitClusters.Building) (seed : Nat × ℚ)
    (hseed : seed.1 ∈ ct.map Prod.fst)
    (h : KeysWithin ct b.growth.clusterOfCell ∧ PreEmpty b.preClusterCollection) :
    KeysWithin ct (a.startSeed ct cp b seed).growth.clusterOfCell ∧
      PreEmpty (a.startSeed ct cp b seed).preClusterCollection := by
  unfold SplitClusters.startSeed
  exact ⟨searchForNeighbours_keys a _ _ ct cp _ (keysWithin_emplace ct _ _ _ h.1 hseed),
    preEmpty_emplace _ _ h.2⟩

theorem foldl_startSeed_keys (a : SplitClusters) (ct : List (Nat × Int))
    (cp : List (Nat × TLorentzVector)) (seeds : List (Nat × ℚ))
    (hseeds : ∀ s ∈ seeds, s.1 ∈ ct.map Prod.fst) (b : SplitClusters.Building)
    (h : KeysWithin ct b.growth.clusterOfCell ∧ PreEmpty b.preClusterCollection) :
    KeysWithin ct (seeds.foldl (a.startSeed ct cp) b).growth.clusterOfCell ∧
      PreEmpty (seeds.foldl (a.startSeed ct cp) b).preClusterCollection := by
  induction seeds generalizing b with
  | nil => exact h
  | cons s ss ih =>
    exact ih (fun x hx => hseeds x (List.mem_cons_of_mem _ hx)) _
      (startSeed_keys a ct cp b s (hseeds s (List.mem_cons_self _ _)) h)

theorem foldlM_except_inv {σ ι : Type} (P : σ → Prop) (f : σ → ι → Except Abort σ)
    (hf : ∀ s x s', P s → f s x = Except.ok s' → P s') (l : List ι) (s s' : σ)
    (hs : P s) (h : l.foldlM f s = Except.ok s') : P s' := by
  induction l generalizing s with
  | nil =>
    simp only [List.foldlM_nil] at h
    cases h
    exact hs
  | cons x xs ih =>
    rw [List.foldlM_cons] at h
    cases hx : f s x with
    | error e =>
      rw [hx] at h
      cases h
    | ok s1 =>
      rw [hx] at h
      exact ih s1 (hf s x s1 hs hx) h

theorem expandCell_keys (a : SplitClusters) (ct : List (Nat × Int))
    (cp : List (Nat × TLorentzVector)) (iter cid : Nat)
    (st st' : SplitClusters.Growth × List (Nat × List (List (Nat × Nat)))) (id : Nat × Nat)
    (h : KeysWithin ct st.1.clusterOfCell)
    (he : a.expandCell ct cp iter cid st id = Except.ok st') :
    KeysWithin ct st'.1.clusterOfCell := by
  unfold SplitClusters.expandCell at he
  split_ifs at he
  cases hap : SplitClusters.appendFrontier (mapGet st.2 cid []) iter
      (a.searchForNeighbours id.1 cid ct cp st.1).2 with
  | none => simp only [hap] at he; cases he
  | some vv =>
    simp only [hap] at he
    cases he
    exact searchForNeighbours_keys a _ _ ct cp _ h

theorem expandCluster_keys (a : SplitClusters) (ct : List (Nat × Int))
    (cp : List (Nat × TLorentzVector)) (iter : Nat)
    (st st' : (SplitClusters.Growth × List (Nat × List (List (Nat × Nat)))) × Bool) (cid : Nat)
    (h : KeysWithin ct st.1.1.clusterOfCell)
    (he : a.expandCluster ct cp iter st cid = Except.ok st') :
    KeysWithin ct st'.1.1.clusterOfCell := by
  unfold SplitClusters.expandCluster at he
  cases hg : (mapGet st.1.2 cid []).get? (iter - 1) with
  | none => simp only [hg] at he; cases he
  | some frontier =>
    simp only [hg] at he
    split_ifs at he
    · cases hfold : frontier.foldlM (a.expandCell ct cp iter cid) st.1 with
      | error e => simp only [hfold] at he; cases he
      | ok s1 =>
        simp only [hfold] at he
        cases he
        exact foldlM_except_inv (fun s => KeysWithin ct s.1.clusterOfCell) _
          (fun s x s' hs hx => expandCell_keys a ct cp iter cid s s' x hs hx) frontier st.1 s1 h hfold
    · cases he
      exact h

theorem growthRound_keys (a : SplitClusters) (ct : List (Nat × Int))
    (cp : List (Nat × TLorentzVector)) (nClusters nSeeds iter : Nat)
    (st : SplitClusters.Growth × List (Nat × List (List (Nat × Nat))))
    (st' : (SplitClusters.Growth × List (Nat × List (List (Nat × Nat)))) × Bool)
    (h : KeysWithin ct st.1.clusterOfCell)
    (he : a.growthRound ct cp nClusters nSeeds iter st = Except.ok st') :
    KeysWithin ct st'.1.1.clusterOfCell := by
  unfold SplitClusters.growthRound at he
  exact foldlM_except_inv (fun s => KeysWithin ct s.1.1.clusterOfCell) _
    (fun s x s' hs hx => expandCluster_keys a ct cp iter s s' x hs hx) _ (st, false) st' h he

theorem growthLoop_keys (a : SplitClusters) (ct : List (Nat × Int))
    (cp : List (Nat × TLorentzVector)) (nClusters nSeeds fuel iter : Nat)
    (st st' : SplitClusters.Growth × List (Nat × List (List (Nat × Nat))))
    (h : KeysWithin ct st.1.clusterOfCell)
    (he : a.growthLoop ct cp nClusters nSeeds fuel iter st = Except.ok st') :
    KeysWithin ct st'.1.clusterOfCell := by
  induction fuel generalizing iter st with
  | zero =>
    unfold SplitClusters.growthLoop at he
    cases he
  | succ fuel ih =>
    unfold SplitClusters.growthLoop at he
    cases hr : a.growthRound ct cp nClusters nSeeds iter st with
    | error e => simp only [hr] at he; cases he
    | ok r =>
      obtain ⟨s1, found⟩ := r
      have hk := growthRound_keys a ct cp nClusters nSeeds iter st (s1, found) h hr
      cases found with
      | true =>
        simp only [hr] at he
        exact ih (iter + 1) s1 hk he
      | false =>
        simp only [hr] at he
        cases he
        exact hk

/-! ## Cells emitted for a split cluster -/

theorem mapReplace_push_perm (pre : List (Nat × List (Nat × Int))) (k : Nat)
    (l : List (Nat × Int)) (x : Nat × Int) (h : mapFind pre k = some l) :
    ((mapReplace pre k (l ++ [x])).flatMap (fun i => i.2)).Perm
      (x :: pre.flatMap (fun i => i.2)) := by
  induction pre with
  | nil => simp [mapFind] at h
  | cons p pre ih =>
    obtain ⟨k', l'⟩ := p
    unfold mapFind at h
    unfold mapReplace
    by_cases hk : k' = k
    · rw [if_pos hk] at h ⊢
      cases h
      simp only [List.flatMap_cons, List.append_assoc]
      exact List.perm_middle
    · rw [if_neg hk] at h ⊢
      simp only [List.flatMap_cons]
      exact (List.Perm.append_left _ (ih h)).trans List.perm_middle

theorem push_pre_perm (pre : List (Nat × List (Nat × Int))) (k : Nat) (x : Nat × Int) :
    ((mapAssign natLt pre k (mapGet pre k [] ++ [x])).flatMap (fun i => i.2)).Perm
      (x :: pre.flatMap (fun i => i.2)) := by
  unfold mapAssign mapGet
  cases hf : mapFind pre k with
  | some l =>
    simp only [Option.getD_some]
    exact mapReplace_push_perm pre k l x hf
  | none =>
    simp only [Option.getD_none, List.nil_append]
    simpa using (mapInsert_perm natLt pre k [x]).flatMap_right (fun i => i.2)

theorem foldl_collectCell (coc : List (Nat × Nat)) (c0 : SplitClusters.Collected) :
    (coc.foldl SplitClusters.collectCell c0).cellsType
        = c0.cellsType.filter (fun p => decide (p.1 ∉ coc.map Prod.fst)) ∧
    (coc.foldl SplitClusters.collectCell c0).allClusteredCells
        = c0.allClusteredCells + coc.length ∧
    (((coc.foldl SplitClusters.collectCell c0).preClusterCollection.flatMap
        (fun i => i.2)).map Prod.fst).Perm
      ((c0.preClusterCollection.flatMap (fun i => i.2)).map Prod.fst ++ coc.map Prod.fst) := by
  induction coc generalizing c0 with
  | nil => simp
  | cons i coc ih =>
    obtain ⟨h1, h2, h3⟩ := ih (SplitClusters.collectCell c0 i)
    rw [List.foldl_cons]
    refine ⟨?_, ?_, ?_⟩
    · rw [h1]
      unfold SplitClusters.collectCell mapErase
      simp only [List.filter_filter, List.map_cons, List.mem_cons]
      apply List.filter_congr
      intro p _
      by_cases ha : p.1 = i.1 <;> by_cases hb : p.1 ∈ coc.map Prod.fst <;> simp [ha, hb]
    · rw [h2]
      unfold SplitClusters.collectCell
      simp only [List.length_cons]
      omega
    · refine h3.trans ?_
      have hp := (push_pre_perm c0.preClusterCollection i.2 (i.1, mapGet c0.allCells i.1 0)).map
        Prod.fst
      unfold SplitClusters.collectCell
      simp only [List.map_cons]
      refine (List.Perm.append_right _ hp).trans ?_
      simp only [List.map_cons, List.cons_append]
      exact List.perm_middle.symm

theorem foldl_addCell (a : SplitClusters) (ce : List (Nat × ℚ)) (ty : Nat × Int → Int)
    (cells : List (Nat × Int)) (s0 : SplitClusters.Sums) :
    (cells.foldl (fun s p => a.addCell ce s p.1 (ty p)) s0).cells
        = s0.cells ++ cells.map (fun p =>
            ({ cellID := p.1, energy := a.energyOf ce p.1, type := ty p } : CalorimeterHit)) ∧
    (cells.foldl (fun s p => a.addCell ce s p.1 (ty p)) s0).energy
        = s0.energy + (cells.map (fun p => a.energyOf ce p.1)).sum := by
  induction cells generalizing s0 with
  | nil => simp
  | cons p ps ih =>
    obtain ⟨h1, h2⟩ := ih (a.addCell ce s0 p.1 (ty p))
    rw [List.foldl_cons]
    refine ⟨?_, ?_⟩
    · rw [h1]
      unfold SplitClusters.addCell
      simp
    · rw [h2]
      unfold SplitClusters.addCell
      simp only [List.map_cons, List.sum_cons]
      ring

theorem leftoverSums_spec (a : SplitClusters) (ce : List (Nat × ℚ)) (ct : List (Nat × Int)) :
    (a.leftoverSums ce ct).cells = ct.map (fun p =>
        ({ cellID := p.1, energy := a.energyOf ce p.1, type := 4 } : CalorimeterHit)) ∧
    (a.leftoverSums ce ct).energy = (ct.map (fun p => a.energyOf ce p.1)).sum := by
  have := foldl_addCell a ce (fun _ => 4) ct ⟨0, 0, 0, 0, []⟩
  unfold SplitClusters.leftoverSums
  simpa using this

theorem subClusterSums_spec (a : SplitClusters) (ce : List (Nat × ℚ)) (cells : List (Nat × Int)) :
    (a.subClusterSums ce cells).cells = cells.map (fun p =>
        ({ cellID := p.1, energy := a.energyOf ce p.1, type := p.2 } : CalorimeterHit)) ∧
    (a.subClusterSums ce cells).energy = (cells.map (fun p => a.energyOf ce p.1)).sum := by
  have := foldl_addCell a ce (fun p => p.2) cells ⟨0, 0, 0, 0, []⟩
  unfold SplitClusters.subClusterSums
  simpa using this

theorem subs_spec (a : SplitClusters) (ce : List (Nat × ℚ)) (pre : List (Nat × List (Nat × Int))) :
    ((pre.map (fun i => a.subClusterSums ce i.2)).flatMap (fun s => s.cells)).map
        (fun c => c.cellID) = (pre.flatMap (fun i => i.2)).map Prod.fst ∧
    ((pre.map (fun i => a.subClusterSums ce i.2)).map (fun s => s.cells.length)).sum
        = ((pre.map (fun i => a.subClusterSums ce i.2)).flatMap (fun s => s.cells)).length ∧
    ((pre.map (fun i => a.subClusterSums ce i.2)).map (fun s => s.energy)).sum
        = (((pre.map (fun i => a.subClusterSums ce i.2)).flatMap (fun s => s.cells)).map
            (fun c => c.energy)).sum ∧
    (∀ c ∈ (pre.map (fun i => a.subClusterSums ce i.2)).flatMap (fun s => s.cells),
        c.energy = a.energyOf ce c.cellID) ∧
    ((pre.map (fun i => a.subClusterSums ce i.2)).map SplitClusters.subCluster).flatMap
        (fun cl => cl.hits)
      = (pre.map (fun i => a.subClusterSums ce i.2)).flatMap (fun s => s.cells) ∧
    ((pre.map (fun i => a.subClusterSums ce i.2)).map SplitClusters.subCluster).map
        (fun cl => cl.energy)
      = (pre.map (fun i => a.subClusterSums ce i.2)).map (fun s => s.energy) := by
  induction pre with
  | nil => simp
  | cons p pre ih =>
    obtain ⟨h1, h2, h3, h4, h5, h6⟩ := ih
    obtain ⟨hc, he⟩ := subClusterSums_spec a ce p.2
    refine ⟨?_, ?_, ?_, ?_, ?_, ?_⟩
    · simp only [List.map_cons, List.flatMap_cons, List.map_append, h1, hc, List.map_map]
      rfl
    · simp only [List.map_cons, List.sum_cons, List.flatMap_cons, List.length_append, h2]
    · have e1 : ((a.subClusterSums ce p.2).cells.map (fun c => c.energy)).sum
          = (a.subClusterSums ce p.2).energy := by
        rw [hc, he, List.map_map]
        rfl
      simp only [List.map_cons, List.sum_cons, List.flatMap_cons, List.map_append,
        List.sum_append]
      rw [e1, h3]
    · intro c hcm
      simp only [List.map_cons, List.flatMap_cons, List.mem_append] at hcm
      rcases hcm with hcm | hcm
      · rw [hc] at hcm
        obtain ⟨q, _, rfl⟩ := List.mem_map.1 hcm
        rfl
      · exact h4 c hcm
    · simp only [List.map_cons, List.flatMap_cons, h5]
      rfl
    · simp only [List.map_cons, h6]
      rfl

theorem filter_keys_perm (K C : List Nat) (hK : K.Nodup) (hC : C.Nodup) (hsub : ∀ k ∈ C, k ∈ K) :
    (K.filter (fun k => decide (k ∉ C)) ++ C).Perm K := by
  have h1 : (K.filter (fun k => decide (k ∈ C))).Perm C := by
    apply (List.perm_ext_iff_of_nodup (hK.filter _) hC).2
    intro x
    simp only [List.mem_filter, decide_eq_true_eq]
    constructor
    · exact fun h => h.2
    · exact fun h => ⟨hsub x h, h⟩
  have h2 := List.filter_append_perm (fun k => decide (k ∈ C)) K
  have e : (K.filter (fun x => !(fun k => decide (k ∈ C)) x))
      = K.filter (fun k => decide (k ∉ C)) := by
    apply List.filter_congr
    intro x _
    simp
  rw [e] at h2
  exact (List.perm_append_comm.trans (List.Perm.append_right _ h1.symm)).trans h2

theorem map_fst_filter_keys {α : Type} (ct : List (Nat × α)) (C : List Nat) :
    (ct.filter (fun p => decide (p.1 ∉ C))).map Prod.fst
      = (ct.map Prod.fst).filter (fun k => decide (k ∉ C)) := by
  rw [List.filter_map]
  rfl

theorem energyOf_hit (a : SplitClusters) (hits : List CalorimeterHit)
    (hd : (hits.map (fun c => c.cellID)).Nodup) (h : CalorimeterHit) (hh : h ∈ hits) :
    a.energyOf (SplitClusters.cellsEnergy hits) h.cellID = h.energy := by
  unfold SplitClusters.energyOf
  cases hf : (SplitClusters.cellsEnergy hits).find? (fun elem => decide (elem.1 = h.cellID)) with
  | none =>
    rw [List.find?_eq_none] at hf
    have hmem : (h.cellID, h.energy) ∈ SplitClusters.cellsEnergy hits :=
      (cellsEnergy_perm hits).symm.subset (List.mem_map.2 ⟨h, hh, rfl⟩)
    have := hf _ hmem
    simp at this
  | some x =>
    have hp := List.find?_some hf
    have hx : x.1 = h.cellID := by simpa using hp
    have hmem := (cellsEnergy_perm hits).subset (List.mem_of_find?_eq_some hf)
    obtain ⟨h', hh', rfl⟩ := List.mem_map.1 hmem
    have : h' = h := List.inj_on_of_nodup_map hd hh' hh hx
    rw [this]

theorem sum_energyOf_ids (a : SplitClusters) (hits : List CalorimeterHit)
    (hd : (hits.map (fun c => c.cellID)).Nodup) :
    ((hits.map (fun c => c.cellID)).map (a.energyOf (SplitClusters.cellsEnergy hits))).sum
      = (hits.map (fun c => c.energy)).sum := by
  rw [List.map_map]
  congr 1
  apply List.map_congr_left
  intro h hh
  exact energyOf_hit a hits hd h hh

theorem emitSplit_spec (a : SplitClusters) (cluster : Cluster) (all : List (Nat × Int))
    (pre : List (Nat × List (Nat × Int))) (coc : List (Nat × Nat))
    (hd : (cluster.hits.map (fun c => c.cellID)).Nodup)
    (hK : KeysWithin (SplitClusters.cellsType cluster.hits) coc) (hP : PreEmpty pre) :
    ((a.emitSplit cluster all pre coc).cells.map (fun c => c.cellID)).Perm
        (cluster.hits.map (fun c => c.cellID)) ∧
    (a.emitSplit cluster all pre coc).cellsAfter = (a.emitSplit cluster all pre coc).cells.length ∧
    ((a.emitSplit cluster all pre coc).clusters.map (fun cl => cl.energy)).sum
        = ((a.emitSplit cluster all pre coc).cells.map (fun c => c.energy)).sum ∧
    (a.emitSplit cluster all pre coc).energyAfter
        = ((a.emitSplit cluster all pre coc).cells.map (fun c => c.energy)).sum ∧
    (∀ c ∈ (a.emitSplit cluster all pre coc).cells,
        c.energy = a.energyOf (SplitClusters.cellsEnergy cluster.hits) c.cellID) ∧
    ∃ lo, (a.emitSplit cluster all pre coc).cells
        = lo ++ (a.emitSplit cluster all pre coc).clusters.flatMap (fun cl => cl.hits) ∧
      ∀ c ∈ lo, c.type = 4 := by
  obtain ⟨c1, c2, c3⟩ := foldl_collectCell coc
    { preClusterCollection := pre, cellsType := SplitClusters.cellsType cluster.hits,
      allCells := all, allClusteredCells := 0 }
  have flat0 : pre.flatMap (fun i => i.2) = [] := by
    rw [List.flatMap_eq_nil_iff]
    exact hP
  simp only [flat0, List.map_nil, List.nil_append, zero_add] at c2 c3
  obtain ⟨s1, s2, s3, s4, s5, s6⟩ := subs_spec a (SplitClusters.cellsEnergy cluster.hits)
    (coc.foldl SplitClusters.collectCell
      { preClusterCollection := pre, cellsType := SplitClusters.cellsType cluster.hits,
        allCells := all, allClusteredCells := 0 }).preClusterCollection
  obtain ⟨l1, l2⟩ := leftoverSums_spec a (SplitClusters.cellsEnergy cluster.hits)
    (coc.foldl SplitClusters.collectCell
      { preClusterCollection := pre, cellsType := SplitClusters.cellsType cluster.hits,
        allCells := all, allClusteredCells := 0 }).cellsType
  have hKlen : ((SplitClusters.cellsType cluster.hits).map Prod.fst).length
      = cluster.hits.length := by
    have := (keys_cellsType_perm cluster.hits hd).length_eq
    simpa using this
  have hleftIds : ((a.leftoverSums (SplitClusters.cellsEnergy cluster.hits)
      (coc.foldl SplitClusters.collectCell
        { preClusterCollection := pre, cellsType := SplitClusters.cellsType cluster.hits,
          allCells := all, allClusteredCells := 0 }).cellsType).cells.map (fun c => c.cellID))
      = ((SplitClusters.cellsType cluster.hits).map Prod.fst).filter
          (fun k => decide (k ∉ coc.map Prod.fst)) := by
    rw [l1, c1, List.map_map, ← map_fst_filter_keys]
    rfl
  have hleftE : ((a.leftoverSums (SplitClusters.cellsEnergy cluster.hits)
      (coc.foldl SplitClusters.collectCell
        { preClusterCollection := pre, cellsType := SplitClusters.cellsType cluster.hits,
          allCells := all, allClusteredCells := 0 }).cellsType).cells.map (fun c => c.energy)).sum
      = (a.leftoverSums (SplitClusters.cellsEnergy cluster.hits)
      (coc.foldl SplitClusters.collectCell
        { preClusterCollection := pre, cellsType := SplitClusters.cellsType cluster.hits,
          allCells := all, allClusteredCells := 0 }).cellsType).energy := by
    rw [l2, l1, List.map_map]
    rfl
  unfold SplitClusters.emitSplit
  dsimp only
  by_cases hlen : coc.length = cluster.hits.length
  · -- every cell is clustered: no left-over cluster
    have hdec : decide ((coc.foldl SplitClusters.collectCell
        { preClusterCollection := pre, cellsType := SplitClusters.cellsType cluster.hits,
          allCells := all, allClusteredCells := 0 }).allClusteredCells ≠ cluster.hits.length)
        = false := by
      rw [c2]; simp [hlen]
    simp only [hdec, Bool.false_eq_true, if_false, List.nil_append, zero_add]
    refine ⟨?_, s2, ?_, s3, s4, ⟨[], ?_, ?_⟩⟩
    · rw [s1]
      refine c3.trans ?_
      have hp : (coc.map Prod.fst).Perm ((SplitClusters.cellsType cluster.hits).map Prod.fst) :=
        (List.subperm_of_subset hK.1 hK.2).perm_of_length_le
          (by rw [hKlen, List.length_map, hlen])
      exact hp.trans (keys_cellsType_perm cluster.hits hd)
    · rw [s6, s3]
    · rw [s5]; rfl
    · intro c hc; cases hc
  · have hdec : decide ((coc.foldl SplitClusters.collectCell
        { preClusterCollection := pre, cellsType := SplitClusters.cellsType cluster.hits,
          allCells := all, allClusteredCells := 0 }).allClusteredCells ≠ cluster.hits.length)
        = true := by
      rw [c2]; simp [hlen]
    simp only [hdec, if_true]
    refine ⟨?_, ?_, ?_, ?_, ?_, ⟨(a.leftoverSums (SplitClusters.cellsEnergy cluster.hits)
      (coc.foldl SplitClusters.collectCell
        { preClusterCollection := pre, cellsType := SplitClusters.cellsType cluster.hits,
          allCells := all, allClusteredCells := 0 }).cellsType).cells, ?_, ?_⟩⟩
    · rw [List.map_append, hleftIds, s1]
      refine (List.Perm.append_left _ c3).trans ?_
      exact (filter_keys_perm _ _ (nodup_keys_cellsType cluster.hits) hK.1 hK.2).trans
        (keys_cellsType_perm cluster.hits hd)
    · rw [List.length_append, s2]
    · rw [List.map_append, List.sum_append, List.map_append, List.sum_append, s6, s3, hleftE]
      simp [SplitClusters.leftoverCluster]
    · rw [List.map_append, List.sum_append, s3, hleftE]
    · intro c hc
      rcases List.mem_append.1 hc with hc | hc
      · rw [l1] at hc
        obtain ⟨q, _, rfl⟩ := List.mem_map.1 hc
        rfl
      · exact s4 c hc
    · rw [List.flatMap_append, s5]
      simp [SplitClusters.leftoverCluster]
    · intro c hc
      rw [l1] at hc
      obtain ⟨q, _, rfl⟩ := List.mem_map.1 hc
      rfl

theorem splitCluster_split (a : SplitClusters) (nClusters : Nat) (allCells : List (Nat × Int))
    (cluster : Cluster) (out : SplitClusters.Emitted)
    (hseeds : 2 ≤ (a.newSeeds cluster.hits).length)
    (hok : a.splitCluster nClusters allCells cluster = Except.ok out) :
    ∃ pre coc, KeysWithin (SplitClusters.cellsType cluster.hits) coc ∧ PreEmpty pre ∧
      out = a.emitSplit cluster (SplitClusters.allCellsAfterRead allCells cluster.hits) pre coc := by
  unfold SplitClusters.splitCluster at hok
  dsimp only at hok
  rw [if_pos (by omega)] at hok
  obtain ⟨hk0, hp0⟩ := foldl_startSeed_keys a (SplitClusters.cellsType cluster.hits)
    (SplitClusters.cellsPosition a cluster.hits) (a.newSeeds cluster.hits)
    (fun s hs => newSeeds_mem_keys a cluster.hits s hs)
    { growth := { clusterOfCell := [], clusterPositions := [] },
      preClusterCollection := [], mapVecNextNeighbours := [], clusterID := nClusters + 1 }
    ⟨keysWithin_nil _, fun _ h => by cases h⟩
  cases hg : a.growthLoop (SplitClusters.cellsType cluster.hits)
      (SplitClusters.cellsPosition a cluster.hits) nClusters (a.newSeeds cluster.hits).length
      1002 1
      (((a.newSeeds cluster.hits).foldl
          (a.startSeed (SplitClusters.cellsType cluster.hits)
            (SplitClusters.cellsPosition a cluster.hits))
          { growth := { clusterOfCell := [], clusterPositions := [] },
            preClusterCollection := [], mapVecNextNeighbours := [],
            clusterID := nClusters + 1 }).growth,
        ((a.newSeeds cluster.hits).foldl
          (a.startSeed (SplitClusters.cellsType cluster.hits)
            (SplitClusters.cellsPosition a cluster.hits))
          { growth := { clusterOfCell := [], clusterPositions := [] },
            preClusterCollection := [], mapVecNextNeighbours := [],
            clusterID := nClusters + 1 }).mapVecNextNeighbours) with
  | error e =>
    rw [hg] at hok
    cases hok
  | ok st =>
    rw [hg] at hok
    cases hok
    exact ⟨_, _, growthLoop_keys a _ _ _ _ _ _ _ st hk0 hg, hp0, rfl⟩

/-- C2. Cell-count conservation of the splitter: for every input cluster with pairwise
distinct cell identifiers, 2 or more confirmed seeds and a growth that completes, the
identifiers of the emitted cells are a rearrangement of the input identifiers (each one
emitted exactly once), the emitted cells are the left-over cells (type 4) followed by the
hits of the emitted clusters, and the number of cells counted after splitting is the
number of hits of the cluster. -/
theorem split_cells_conserved (a : SplitClusters) (nClusters : Nat)
    (allCells : List (Nat × Int)) (cluster : Cluster) (out : SplitClusters.Emitted)
    (hd : (cluster.hits.map (fun c => c.cellID)).Nodup)
    (hseeds : 2 ≤ (a.newSeeds cluster.hits).length)
    (hok : a.splitCluster nClusters allCells cluster = Except.ok out) :
    (out.cells.map (fun c => c.cellID)).Perm (cluster.hits.map (fun c => c.cellID)) ∧
    (∃ lo, out.cells = lo ++ out.clusters.flatMap (fun cl => cl.hits) ∧ ∀ c ∈ lo, c.type = 4) ∧
    out.cellsAfter = cluster.hits.length := by
  obtain ⟨pre, coc, hK, hP, rfl⟩ := splitCluster_split a nClusters allCells cluster out hseeds hok
  obtain ⟨h1, h2, -, -, -, h6⟩ := emitSplit_spec a cluster
    (SplitClusters.allCellsAfterRead allCells cluster.hits) pre coc hd hK hP
  refine ⟨h1, h6, ?_⟩
  rw [h2]
  simpa using h1.length_eq

/-- C3. Energy conservation of the splitter: for every input cluster with pairwise
distinct cell identifiers whose energy is the sum of the energies of its cells, the
energies of the clusters emitted for it (the sub-clusters and the left-over cluster when
split, the clone when unsplit) sum to the energy of the input cluster, and so does the
amount added to `totEnergyAfter`. -/
theorem split_energy_conserved (a : SplitClusters) (nClusters : Nat)
    (allCells : List (Nat × Int)) (cluster : Cluster) (out : SplitClusters.Emitted)
    (hd : (cluster.hits.map (fun c => c.cellID)).Nodup)
    (hE : cluster.energy = (cluster.hits.map (fun c => c.energy)).sum)
    (hok : a.splitCluster nClusters allCells cluster = Except.ok out) :
    (out.clusters.map (fun cl => cl.energy)).sum = cluster.energy ∧
    out.energyAfter = cluster.energy := by
  by_cases hseeds : 2 ≤ (a.newSeeds cluster.hits).length
  · obtain ⟨pre, coc, hK, hP, rfl⟩ :=
      splitCluster_split a nClusters allCells cluster out hseeds hok
    obtain ⟨h1, -, h3, h4, h5, -⟩ := emitSplit_spec a cluster
      (SplitClusters.allCellsAfterRead allCells cluster.hits) pre coc hd hK hP
    have hsum : ((a.emitSplit cluster (SplitClusters.allCellsAfterRead allCells cluster.hits)
        pre coc).cells.map (fun c => c.energy)).sum = cluster.energy := by
      have e1 : (a.emitSplit cluster (SplitClusters.allCellsAfterRead allCells cluster.hits)
          pre coc).cells.map (fun c => c.energy)
          = ((a.emitSplit cluster (SplitClusters.allCellsAfterRead allCells cluster.hits)
              pre coc).cells.map (fun c => c.cellID)).map
              (a.energyOf (SplitClusters.cellsEnergy cluster.hits)) := by
        rw [List.map_map]
        apply List.map_congr_left
        intro c hc
        exact h5 c hc
      rw [e1, (h1.map _).sum_eq, sum_energyOf_ids a cluster.hits hd, hE]
    exact ⟨h3.trans hsum, h4.trans hsum⟩
  · unfold SplitClusters.splitCluster at hok
    dsimp only at hok
    rw [if_neg (by omega)] at hok
    cases hok
    simp [SplitClusters.emitUnsplit]

/-- C4. Unsplit pass-through: for every input cluster with fewer than 2 confirmed seeds
(none included), exactly one cluster is emitted, with the energy, position and hit list
of the input and with type 1, and the emitted cells are the hits of the input, in the
same order and with the same identifier, energy and type. -/
theorem unsplit_pass_through (a : SplitClusters) (nClusters : Nat)
    (allCells : List (Nat × Int)) (cluster : Cluster)
    (hseeds : (a.newSeeds cluster.hits).length < 2) :
    ∃ out, a.splitCluster nClusters allCells cluster = Except.ok out ∧
      out.clusters = [{ type := 1, energy := cluster.energy, position := cluster.position,
                        hits := cluster.hits }] ∧
      out.cells = cluster.hits ∧ out.cellsAfter = cluster.hits.length := by
  refine ⟨SplitClusters.emitUnsplit cluster
    (SplitClusters.allCellsAfterRead allCells cluster.hits), ?_, rfl, rfl, rfl⟩
  unfold SplitClusters.splitCluster
  dsimp only
  rw [if_neg (by omega)]

theorem except_ok_of_isOk {α : Type} (x : Except Abort α) (h : x.isOk = true) :
    ∃ v, x = Except.ok v := by
  cases x with
  | error e => cases h
  | ok v => exact ⟨v, rfl⟩

theorem split_cells_conserved_witness :
    ∃ out, lineSplitter.splitCluster 1 [] twoSeedCluster = Except.ok out ∧
      (out.cells.map (fun c => c.cellID)).Perm (twoSeedCluster.hits.map (fun c => c.cellID)) ∧
      (∃ lo, out.cells = lo ++ out.clusters.flatMap (fun cl => cl.hits) ∧
        ∀ c ∈ lo, c.type = 4) ∧
      out.cellsAfter = twoSeedCluster.hits.length :=
  (except_ok_of_isOk (lineSplitter.splitCluster 1 [] twoSeedCluster) (by decide!)).elim
    (fun out h => ⟨out, h,
      split_cells_conserved lineSplitter 1 [] twoSeedCluster out (by decide) (by decide!) h⟩)

theorem split_energy_conserved_witness :
    ∃ out, lineSplitter.splitCluster 1 [] twoSeedCluster = Except.ok out ∧
      (out.clusters.map (fun cl => cl.energy)).sum = twoSeedCluster.energy ∧
      out.energyAfter = twoSeedCluster.energy :=
  (except_ok_of_isOk (lineSplitter.splitCluster 1 [] twoSeedCluster) (by decide!)).elim
    (fun out h => ⟨out, h,
      split_energy_conserved lineSplitter 1 [] twoSeedCluster out (by decide) (by decide!) h⟩)

theorem unsplit_pass_through_witness :
    ∃ out, lineSplitter.splitCluster 1 [] noSeedCluster = Except.ok out ∧
      out.clusters = [{ type := 1, energy := noSeedCluster.energy,
                        position := noSeedCluster.position, hits := noSeedCluster.hits }] ∧
      out.cells = noSeedCluster.hits ∧ out.cellsAfter = noSeedCluster.hits.length :=
  unsplit_pass_through lineSplitter 1 [] noSeedCluster (by decide!)

/-- C5. Contested-cell tie-break: in `searchForNeighbours` a contested cell at equal
distance from both centroids does not stay with its owner. On `tieCluster` the cell 7,
taken by sub-cluster 2 (seed 1), is visited from the seed 2 when it is at distance `5/2`
from the centroid of sub-cluster 2 and from the centroid of the growing sub-cluster 3: it
is reassigned to sub-cluster 3, its 4-vector is moved from one centroid to the other, it
is returned for the next frontier, and it is emitted in the cluster of the seed 2. -/
theorem contested_tie_is_reassigned :
    tieSplitter.newSeeds tieCluster.hits = [(1, 5), (2, 6)] ∧
    mapFind tieReached.1.clusterOfCell 7 = some 2 ∧
    tieSplitter.deltaR (mapGet tieReached.1.clusterPositions 3 0)
        (mapGet (tieSplitter.cellsPosition tieCluster.hits) 7 0) = 5 / 2 ∧
    tieSplitter.deltaR (mapGet tieReached.1.clusterPositions 2 0)
        (mapGet (tieSplitter.cellsPosition tieCluster.hits) 7 0) = 5 / 2 ∧
    tieReached.1.clusterPositions = [(2, ⟨6, -15, 0, 10⟩), (3, ⟨5, 25 / 2, 0, 10⟩)] ∧
    tieSplitter.visitNeighbour 3 (SplitClusters.cellsType tieCluster.hits)
        (tieSplitter.cellsPosition tieCluster.hits) tieReached 7
      = ({ clusterOfCell := [(1, 2), (2, 3), (3, 2), (4, 2), (5, 2), (6, 2), (7, 3), (8, 3),
             (9, 3), (10, 3), (11, 3)],
           clusterPositions := [(2, ⟨5, -15, 0, 9⟩), (3, ⟨6, 25 / 2, 0, 11⟩)] },
         [(8, 3), (9, 3), (10, 3), (11, 3), (7, 3)]) ∧
    (match tieSplitter.splitCluster 1 [] tieCluster with
      | Except.ok out => out.clusters.map (fun cl => cl.hits.map (fun c => c.cellID))
      | Except.error _ => [])
      = [[1, 3, 4, 5, 6], [2, 7, 8, 9, 10, 11]] := by
  decide!

/-! ## Grid size (`towersNumber`) -/

theorem foldMax_spec (l : List ℚ) (init : ℚ) :
    init ≤ l.foldl (fun largest x => if largest < x then x else largest) init ∧
    (∀ x ∈ l, x ≤ l.foldl (fun largest x => if largest < x then x else largest) init) ∧
    (l.foldl (fun largest x => if largest < x then x else largest) init = init ∨
      l.foldl (fun largest x => if largest < x then x else largest) init ∈ l) := by
  induction l generalizing init with
  | nil => simp
  | cons y ys ih =>
    simp only [List.foldl_cons, List.mem_cons]
    obtain ⟨h1, h2, h3⟩ := ih (if init < y then y else init)
    have hle : init ≤ (if init < y then y else init) ∧ y ≤ (if init < y then y else init) := by
      split_ifs with h
      · exact ⟨le_of_lt h, le_refl _⟩
      · exact ⟨le_refl _, not_lt.1 h⟩
    refine ⟨le_trans hle.1 h1, ?_, ?_⟩
    · intro x hx
      rcases hx with rfl | hx
      · exact le_trans hle.2 h1
      · exact h2 x hx
    · rcases h3 with h3 | h3
      · rw [h3]
        split_ifs with h
        · exact Or.inr (Or.inl rfl)
        · exact Or.inl rfl
      · exact Or.inr (Or.inr h3)

theorem maxElement_spec (first : ℚ) (rest : List ℚ) :
    maxElement first rest ∈ first :: rest ∧ ∀ x ∈ first :: rest, x ≤ maxElement first rest := by
  obtain ⟨h1, h2, h3⟩ := foldMax_spec rest first
  unfold maxElement
  refine ⟨?_, ?_⟩
  · rcases h3 with h3 | h3
    · rw [h3]; exact List.mem_cons_self _ _
    · exact List.mem_cons_of_mem _ h3
  · intro x hx
    rcases List.mem_cons.1 hx with rfl | hx
    · exact h1
    · exact h2 x hx

theorem multi_extrema (subs : List GridPhiEta) (acc : ℚ × ℚ) :
    subs.foldl
      (fun acc s =>
        (if |s.offsetPhi| + M_PI / (s.phiBins : ℚ) > acc.1 then
            |s.offsetPhi| + M_PI / (s.phiBins : ℚ) else acc.1,
         if |s.offsetEta| + s.gridSizeEta * (1 / 2) > acc.2 then
            |s.offsetEta| + s.gridSizeEta * (1 / 2) else acc.2)) acc
    = ((subs.map GridPhiEta.phiExtent).foldl
          (fun largest x => if largest < x then x else largest) acc.1,
       (subs.map GridPhiEta.etaExtent).foldl
          (fun largest x => if largest < x then x else largest) acc.2) := by
  induction subs generalizing acc with
  | nil => rfl
  | cons s ss ih =>
    rw [List.foldl_cons, ih]
    simp only [List.map_cons, List.foldl_cons, GridPhiEta.phiExtent, GridPhiEta.etaExtent,
      gt_iff_lt]
    have e : s.gridSizeEta * (1 / 2) = s.gridSizeEta / 2 := by ring
    rw [e]

/-- The extrema of one partition: each is `-1` for a partition without grid, is the
extent of one of its grids otherwise, and bounds the extents of all its grids. -/
theorem retrievePhiEtaExtrema_spec (o : Option Segmentation)
    (hwf : ∀ s ∈ gridsOf o,
      0 ≤ s.phiExtent ∧ 0 ≤ s.etaExtent) :
    ((CaloTowerTool.retrievePhiEtaExtrema o).1 = -1 ∨
      ∃ s ∈ gridsOf o,
        s.phiExtent = (CaloTowerTool.retrievePhiEtaExtrema o).1) ∧
    (∀ s ∈ gridsOf o,
        s.phiExtent ≤ (CaloTowerTool.retrievePhiEtaExtrema o).1) ∧
    ((CaloTowerTool.retrievePhiEtaExtrema o).2 = -1 ∨
      ∃ s ∈ gridsOf o,
        s.etaExtent = (CaloTowerTool.retrievePhiEtaExtrema o).2) ∧
    (∀ s ∈ gridsOf o,
        s.etaExtent ≤ (CaloTowerTool.retrievePhiEtaExtrema o).2) := by
  cases o with
  | none => simp [CaloTowerTool.retrievePhiEtaExtrema, gridsOf]
  | some seg =>
    cases seg with
    | kPhiEta s =>
      have e : |s.offsetEta| + s.gridSizeEta * (1 / 2) = s.etaExtent := by
        unfold GridPhiEta.etaExtent
        ring
      simp only [CaloTowerTool.retrievePhiEtaExtrema, gridsOf, Segmentation.grids,
        List.mem_singleton, e]
      exact ⟨Or.inr ⟨s, rfl, rfl⟩, fun s' hs' => by rw [hs']; exact le_refl _,
        Or.inr ⟨s, rfl, rfl⟩, fun s' hs' => by rw [hs']⟩
    | kMulti subs sub =>
      simp only [gridsOf, Segmentation.grids] at hwf ⊢
      simp only [CaloTowerTool.retrievePhiEtaExtrema]
      rw [multi_extrema]
      obtain ⟨p1, p2, p3⟩ := foldMax_spec (subs.map GridPhiEta.phiExtent) (-1)
      obtain ⟨q1, q2, q3⟩ := foldMax_spec (subs.map GridPhiEta.etaExtent) (-1)
      refine ⟨?_, ?_, ?_, ?_⟩
      · rcases p3 with p3 | p3
        · exact Or.inl p3
        · obtain ⟨s, hs, hse⟩ := List.mem_map.1 p3
          exact Or.inr ⟨s, hs, hse⟩
      · intro s hs
        exact p2 _ (List.mem_map_of_mem _ hs)
      · rcases q3 with q3 | q3
        · exact Or.inl q3
        · obtain ⟨s, hs, hse⟩ := List.mem_map.1 q3
          exact Or.inr ⟨s, hs, hse⟩
      · intro s hs
        exact q2 _ (List.mem_map_of_mem _ hs)

theorem extents_nonneg (s : GridPhiEta) (h : 0 < s.phiBins ∧ 0 ≤ s.gridSizeEta) :
    0 ≤ s.phiExtent ∧ 0 ≤ s.etaExtent := by
  unfold GridPhiEta.phiExtent GridPhiEta.etaExtent
  have hb : (0 : ℚ) < (s.phiBins : ℚ) := by exact_mod_cast h.1
  have hpi : (0 : ℚ) < M_PI := by unfold M_PI; norm_num
  have h1 : 0 ≤ M_PI / (s.phiBins : ℚ) := le_of_lt (div_pos hpi hb)
  have h2 : 0 ≤ s.gridSizeEta / 2 := by linarith [h.2]
  exact ⟨add_nonneg (abs_nonneg _) h1, add_nonneg (abs_nonneg _) h2⟩

theorem mem_availableGrids (segs : Partitions (Option Segmentation)) (s : GridPhiEta) :
    s ∈ availableGrids segs ↔
      ∃ o ∈ segs.toList, s ∈ gridsOf o := by
  unfold availableGrids
  rw [List.mem_flatMap]

/-- The maximum over the seven partitions of a component of the extrema is the largest
extent over the grids of the available sources. -/
theorem partitions_max (segs : Partitions (Option Segmentation))
    (ext : GridPhiEta → ℚ) (val : Option Segmentation → ℚ)
    (hne : availableGrids segs ≠ [])
    (hpos : ∀ s ∈ availableGrids segs, 0 ≤ ext s)
    (hval : ∀ o ∈ segs.toList,
      (val o = -1 ∨ ∃ s ∈ gridsOf o, ext s = val o) ∧
      ∀ s ∈ gridsOf o, ext s ≤ val o) :
    maxElement ((segs.toList.map val).headD 0) (segs.toList.map val).tail
        ∈ (availableGrids segs).map ext ∧
    ∀ s ∈ availableGrids segs,
      ext s ≤ maxElement ((segs.toList.map val).headD 0) (segs.toList.map val).tail := by
  have hl : (segs.toList.map val).headD 0 :: (segs.toList.map val).tail = segs.toList.map val := by
    simp [Partitions.toList]
  obtain ⟨m1, m2⟩ := maxElement_spec ((segs.toList.map val).headD 0) (segs.toList.map val).tail
  rw [hl] at m1 m2
  have hub : ∀ s ∈ availableGrids segs,
      ext s ≤ maxElement ((segs.toList.map val).headD 0) (segs.toList.map val).tail := by
    intro s hs
    obtain ⟨o, ho, hso⟩ := (mem_availableGrids segs s).1 hs
    exact le_trans ((hval o ho).2 s hso) (m2 _ (List.mem_map_of_mem _ ho))
  refine ⟨?_, hub⟩
  obtain ⟨o, ho, hov⟩ := List.mem_map.1 m1
  rcases (hval o ho).1 with h | ⟨s, hs, hse⟩
  · exfalso
    obtain ⟨s, hs⟩ := List.exists_mem_of_ne_nil _ hne
    have := hub s hs
    have := hpos s hs
    rw [← hov, h] at *
    linarith
  · rw [← hov, ← hse]
    exact List.mem_map_of_mem _ ((mem_availableGrids segs s).2 ⟨o, ho, hs⟩)

theorem doubleToInt_of_int32 (z : Int) (h : IsInt32 z) : doubleToInt z = z := by
  unfold doubleToInt
  rw [if_pos h]

/-- C15. Tower-grid sizing: when at least one source is available (its grids having a
positive number of phi bins and a non-negative cell size), the `phiMax` and `etaMax`
kept by `towersNumber` are the largest `|offsetPhi| + pi / phiBins` and the largest
`|offsetEta| + gridSizeEta / 2` over the grids of the available sources alone (every
sub-grid of a multi-segmentation included), so that sources without segmentation do
not change the result; and the numbers returned are
`nPhi = ceil(2 * (phiMax - 1e-4) / deltaPhiTower)` and
`nEta = ceil(2 * (etaMax - 1e-4) / deltaEtaTower)`, both being `int` values. -/
theorem towersNumber_grid_size (t : CaloTowerTool) (segs : Partitions (Option Segmentation))
    (hne : availableGrids segs ≠ [])
    (hwf : ∀ s ∈ availableGrids segs, 0 < s.phiBins ∧ 0 ≤ s.gridSizeEta)
    (hphi : IsInt32 ⌈2 * ((t.towersNumber segs).1.phiMax - 1 / 10000) / t.deltaPhiTower⌉)
    (heta : IsInt32 ⌈2 * ((t.towersNumber segs).1.etaMax - 1 / 10000) / t.deltaEtaTower⌉) :
    ((t.towersNumber segs).1.phiMax ∈ (availableGrids segs).map GridPhiEta.phiExtent ∧
      ∀ s ∈ availableGrids segs, s.phiExtent ≤ (t.towersNumber segs).1.phiMax) ∧
    ((t.towersNumber segs).1.etaMax ∈ (availableGrids segs).map GridPhiEta.etaExtent ∧
      ∀ s ∈ availableGrids segs, s.etaExtent ≤ (t.towersNumber segs).1.etaMax) ∧
    (t.towersNumber segs).2.2
      = ⌈2 * ((t.towersNumber segs).1.phiMax - 1 / 10000) / t.deltaPhiTower⌉ ∧
    (t.towersNumber segs).2.1
      = ⌈2 * ((t.towersNumber segs).1.etaMax - 1 / 10000) / t.deltaEtaTower⌉ := by
  have hspec : ∀ o ∈ segs.toList, ∀ s ∈ gridsOf o,
      0 ≤ s.phiExtent ∧ 0 ≤ s.etaExtent := by
    intro o ho s hs
    exact extents_nonneg s (hwf s ((mem_availableGrids segs s).2 ⟨o, ho, hs⟩))
  have hP := partitions_max segs GridPhiEta.phiExtent
    (fun o => (CaloTowerTool.retrievePhiEtaExtrema o).1) hne
    (fun s hs => (extents_nonneg s (hwf s hs)).1)
    (fun o ho => ⟨(retrievePhiEtaExtrema_spec o (hspec o ho)).1,
      (retrievePhiEtaExtrema_spec o (hspec o ho)).2.1⟩)
  have hE := partitions_max segs GridPhiEta.etaExtent
    (fun o => (CaloTowerTool.retrievePhiEtaExtrema o).2) hne
    (fun s hs => (extents_nonneg s (hwf s hs)).2)
    (fun o ho => ⟨(retrievePhiEtaExtrema_spec o (hspec o ho)).2.2.1,
      (retrievePhiEtaExtrema_spec o (hspec o ho)).2.2.2⟩)
  refine ⟨hP, hE, ?_, ?_⟩
  · exact doubleToInt_of_int32 _ hphi
  · exact doubleToInt_of_int32 _ heta

theorem towersNumber_grid_size_witness :
    ((quarterTurnTool.towersNumber twoSources).1.phiMax
        ∈ (availableGrids twoSources).map GridPhiEta.phiExtent ∧
      ∀ s ∈ availableGrids twoSources,
        s.phiExtent ≤ (quarterTurnTool.towersNumber twoSources).1.phiMax) ∧
    ((quarterTurnTool.towersNumber twoSources).1.etaMax
        ∈ (availableGrids twoSources).map GridPhiEta.etaExtent ∧
      ∀ s ∈ availableGrids twoSources,
        s.etaExtent ≤ (quarterTurnTool.towersNumber twoSources).1.etaMax) ∧
    (quarterTurnTool.towersNumber twoSources).2.2
      = ⌈2 * ((quarterTurnTool.towersNumber twoSources).1.phiMax - 1 / 10000)
          / quarterTurnTool.deltaPhiTower⌉ ∧
    (quarterTurnTool.towersNumber twoSources).2.1
      = ⌈2 * ((quarterTurnTool.towersNumber twoSources).1.etaMax - 1 / 10000)
          / quarterTurnTool.deltaEtaTower⌉ :=
  towersNumber_grid_size quarterTurnTool twoSources
    (by simp [availableGrids, twoSources, Partitions.toList, gridsOf, Segmentation.grids])
    (by
      intro s hs
      simp only [availableGrids, twoSources, Partitions.toList, gridsOf, Segmentation.grids,
        List.flatMap_cons, List.flatMap_nil, List.mem_append, List.mem_cons,
        List.mem_singleton, List.not_mem_nil, or_false, false_or] at hs
      rcases hs with rfl | rfl | rfl <;> exact ⟨by decide, by decide!⟩)
    (by decide!) (by decide!)

/-! ## Tower building (`buildTowers`) -/

theorem foldlM_option_inv {σ ι : Type} (P : σ → Prop) (f : σ → ι → Option σ) (l : List ι)
    (hf : ∀ x ∈ l, ∀ s s', P s → f s x = some s' → P s') (s s' : σ)
    (hs : P s) (h : l.foldlM f s = some s') : P s' := by
  induction l generalizing s with
  | nil =>
    simp only [List.foldlM_nil] at h
    cases h
    exact hs
  | cons x xs ih =>
    rw [List.foldlM_cons] at h
    cases hx : f s x with
    | none => rw [hx] at h; cases h
    | some s1 =>
      rw [hx] at h
      exact ih (fun y hy => hf y (List.mem_cons_of_mem _ hy)) s1
        (hf x (List.mem_cons_self _ _) s s1 hs hx) h

theorem mapFind_some_mem_pair {κ α : Type} [DecidableEq κ] (m : List (κ × α)) (k : κ) (v : α)
    (h : mapFind m k = some v) : (k, v) ∈ m := by
  induction m with
  | nil => simp [mapFind] at h
  | cons p m ih =>
    obtain ⟨k', v'⟩ := p
    unfold mapFind at h
    split_ifs at h with hk
    · cases h
      rw [hk]
      exact List.mem_cons_self _ _
    · exact List.mem_cons_of_mem _ (ih h)

theorem mem_mapReplace {κ α : Type} [DecidableEq κ] (m : List (κ × α)) (k : κ) (v : α)
    (e : κ × α) (h : e ∈ mapReplace m k v) : e ∈ m ∨ e = (k, v) := by
  induction m with
  | nil => simp [mapReplace] at h
  | cons p m ih =>
    obtain ⟨k', v'⟩ := p
    unfold mapReplace at h
    split_ifs at h with hk
    · rcases List.mem_cons.1 h with h | h
      · right; rw [h, hk]
      · left; exact List.mem_cons_of_mem _ h
    · rcases List.mem_cons.1 h with h | h
      · left; rw [h]; exact List.mem_cons_self _ _
      · rcases ih h with h | h
        · left; exact List.mem_cons_of_mem _ h
        · right; exact h

theorem mem_mapAssign {κ α : Type} [DecidableEq κ] (lt : κ → κ → Bool) (m : List (κ × α))
    (k : κ) (v : α) (e : κ × α) (h : e ∈ mapAssign lt m k v) : e ∈ m ∨ e = (k, v) := by
  unfold mapAssign at h
  cases hf : mapFind m k with
  | some w =>
    rw [hf] at h
    exact mem_mapReplace m k v e h
  | none =>
    rw [hf] at h
    rcases List.mem_cons.1 ((mapInsert_perm lt m k v).subset h) with h | h
    · right; exact h
    · left; exact h

theorem mem_mapGet {κ α : Type} [DecidableEq κ] (m : List (κ × List α)) (k : κ) (c : α)
    (h : c ∈ mapGet m k []) : ∃ e ∈ m, c ∈ e.2 := by
  unfold mapGet at h
  cases hf : mapFind m k with
  | none => rw [hf] at h; simp at h
  | some l =>
    rw [hf] at h
    exact ⟨(k, l), mapFind_some_mem_pair m k l hf, h⟩

/-- The cells recorded for the towers all belong to `S`. -/
theorem pushCell_within (S : List CalorimeterHit) (m : CellsInTowers) (key : Nat × Nat)
    (cell : CalorimeterHit) (hc : cell ∈ S) (hm : ∀ e ∈ m, ∀ c ∈ e.2, c ∈ S) :
    ∀ e ∈ CaloTowerTool.pushCell m key cell, ∀ c ∈ e.2, c ∈ S := by
  intro e he c hce
  unfold CaloTowerTool.pushCell at he
  rcases mem_mapAssign _ _ _ _ _ he with h | h
  · exact hm e h c hce
  · rw [h] at hce
    rcases List.mem_append.1 hce with h1 | h1
    · obtain ⟨e', he', hc'⟩ := mem_mapGet m key c h1
      exact hm e' he' c hc'
    · rw [List.mem_singleton.1 h1]
      exact hc

theorem towerLoop_within (t : CaloTowerTool) (s : GridPhiEta) (fill : Bool)
    (cell : CalorimeterHit) (S : List CalorimeterHit) (hc : cell ∈ S)
    (st st' : Towers × CellsInTowers) (hm : ∀ e ∈ st.2, ∀ c ∈ e.2, c ∈ S)
    (h : t.towerLoop s fill cell st = some st') : ∀ e ∈ st'.2, ∀ c ∈ e.2, c ∈ S := by
  unfold CaloTowerTool.towerLoop at h
  refine foldlM_option_inv (fun st => ∀ e ∈ st.2, ∀ c ∈ e.2, c ∈ S) _ _ ?_ st st' hm h
  intro iEta _ s1 s1' hs1 h1
  unfold CaloTowerTool.phiLoop at h1
  refine foldlM_option_inv (fun st => ∀ e ∈ st.2, ∀ c ∈ e.2, c ∈ S) _ _ ?_ s1 s1' hs1 h1
  intro iPhi _ s2 s2' hs2 h2
  unfold CaloTowerTool.deposit at h2
  cases ha : addTower s2.1 iEta (t.phiNeighbour iPhi)
      (cell.energy / t.cosh (s.eta cell.cellID) * t.ratioEta s cell.cellID iEta
        * t.ratioPhi s cell.cellID iPhi) with
  | none => rw [ha] at h2; cases h2
  | some g =>
    rw [ha] at h2
    cases h2
    cases fill with
    | false => exact hs2
    | true => exact pushCell_within S s2.2 _ cell hc hs2

theorem CellsIntoTowers_within (t : CaloTowerTool) (seg : Segmentation) (fill : Bool)
    (cells S : List CalorimeterHit) (hsub : ∀ c ∈ cells, c ∈ S)
    (st st' : Towers × CellsInTowers) (hm : ∀ e ∈ st.2, ∀ c ∈ e.2, c ∈ S)
    (h : t.CellsIntoTowers cells seg fill st = some st') : ∀ e ∈ st'.2, ∀ c ∈ e.2, c ∈ S := by
  unfold CaloTowerTool.CellsIntoTowers at h
  refine foldlM_option_inv (fun st => ∀ e ∈ st.2, ∀ c ∈ e.2, c ∈ S) _ _ ?_ st st' hm h
  intro cell hcell s1 s1' hs1 h1
  split_ifs at h1
  · exact towerLoop_within t _ fill cell S (hsub cell hcell) s1 s1' hs1 h1
  · cases h1
    exact hs1

theorem mem_availableCells (segs : Partitions (Option Segmentation))
    (cells : Partitions (List CalorimeterHit)) (p : Option Segmentation × List CalorimeterHit)
    (hp : p ∈ segs.toList.zip cells.toList) (seg : Segmentation) (hseg : p.1 = some seg)
    (c : CalorimeterHit) (hc : c ∈ p.2) : c ∈ availableCells segs cells := by
  unfold availableCells
  rw [List.mem_flatMap]
  refine ⟨p, hp, ?_⟩
  rw [hseg]
  exact hc

theorem buildStep_some (t : CaloTowerTool) (fill : Bool)
    (acc acc' : (Towers × CellsInTowers) × Nat) (p : Option Segmentation × List CalorimeterHit)
    (h : t.buildStep fill acc p = some acc') :
    (p.1 = none ∧ acc' = acc) ∨
    ∃ seg st, p.1 = some seg ∧ t.CellsIntoTowers p.2 seg fill acc.1 = some st ∧
      acc' = (st, (acc.2 + p.2.length) % 4294967296) := by
  unfold CaloTowerTool.buildStep at h
  cases hseg : p.1 with
  | none =>
    rw [hseg] at h
    cases h
    exact Or.inl ⟨rfl, rfl⟩
  | some seg =>
    rw [hseg] at h
    dsimp only at h
    cases hc : t.CellsIntoTowers p.2 seg fill acc.1 with
    | none => rw [hc] at h; cases h
    | some st =>
      rw [hc] at h
      cases h
      exact Or.inr ⟨seg, st, rfl, hc, rfl⟩

/-- C17. Tower-to-cells index reset: for every prior state `m` of the index and every
input, after `CaloTowerTool::buildTowers` every cell in the cell list of a tower is a
cell of the current input collections (of the partitions with a segmentation), and
after a build with `fillTowersCells = false` every cell list is empty. -/
theorem buildTowers_index_reset (t : CaloTowerTool)
    (segs : Partitions (Option Segmentation)) (cells : Partitions (List CalorimeterHit))
    (fill : Bool) (g : Towers) (m : CellsInTowers) (r : (Towers × CellsInTowers) × Nat)
    (h : t.buildTowers segs cells fill (g, m) = some r) :
    (∀ e ∈ r.1.2, ∀ c ∈ e.2, c ∈ availableCells segs cells) ∧
    (fill = false → ∀ e ∈ r.1.2, e.2 = []) := by
  unfold CaloTowerTool.buildTowers at h
  constructor
  · refine foldlM_option_inv
      (fun (acc : (Towers × CellsInTowers) × Nat) =>
        ∀ e ∈ acc.1.2, ∀ c ∈ e.2, c ∈ availableCells segs cells) _ _ ?_ _ r ?_ h
    · intro p hp s1 s1' hs1 h1
      rcases buildStep_some t fill s1 s1' p h1 with ⟨_, rfl⟩ | ⟨seg, st, hseg, hc, rfl⟩
      · exact hs1
      · exact CellsIntoTowers_within t seg fill p.2 _
          (fun c hcm => mem_availableCells segs cells p hp seg hseg c hcm) s1.1 st hs1 hc
    · intro e he c hce
      obtain ⟨e', _, rfl⟩ := List.mem_map.1 he
      simp at hce
  · intro hfill
    subst hfill
    have key : ∀ e ∈ r.1.2, ∀ c ∈ e.2, c ∈ ([] : List CalorimeterHit) := by
      refine foldlM_option_inv
        (fun (acc : (Towers × CellsInTowers) × Nat) =>
          ∀ e ∈ acc.1.2, ∀ c ∈ e.2, c ∈ ([] : List CalorimeterHit)) _ _ ?_ _ r ?_ h
      · intro p _ s1 s1' hs1 h1
        rcases buildStep_some t false s1 s1' p h1 with ⟨_, rfl⟩ | ⟨seg, st, hseg, hc, rfl⟩
        · exact hs1
        · unfold CaloTowerTool.CellsIntoTowers at hc
          refine foldlM_option_inv
            (fun (st : Towers × CellsInTowers) =>
              ∀ e ∈ st.2, ∀ c ∈ e.2, c ∈ ([] : List CalorimeterHit)) _ _ ?_ s1.1 st hs1 hc
          intro cell _ s2 s2' hs2 h2
          split_ifs at h2
          · unfold CaloTowerTool.towerLoop at h2
            refine foldlM_option_inv
              (fun (st : Towers × CellsInTowers) =>
                ∀ e ∈ st.2, ∀ c ∈ e.2, c ∈ ([] : List CalorimeterHit)) _ _ ?_ s2 s2' hs2 h2
            intro iEta _ s3 s3' hs3 h3
            unfold CaloTowerTool.phiLoop at h3
            refine foldlM_option_inv
              (fun (st : Towers × CellsInTowers) =>
                ∀ e ∈ st.2, ∀ c ∈ e.2, c ∈ ([] : List CalorimeterHit)) _ _ ?_ s3 s3' hs3 h3
            intro iPhi _ s4 s4' hs4 h4
            unfold CaloTowerTool.deposit at h4
            cases ha : addTower s4.1 iEta (t.phiNeighbour iPhi)
                (cell.energy / t.cosh ((seg.forCell cell.cellID).eta cell.cellID)
                  * t.ratioEta (seg.forCell cell.cellID) cell.cellID iEta
                  * t.ratioPhi (seg.forCell cell.cellID) cell.cellID iPhi) with
            | none => rw [ha] at h4; cases h4
            | some g' =>
              rw [ha] at h4
              cases h4
              exact hs4
          · cases h2
            exact hs2
      · intro e he c hce
        obtain ⟨e', _, rfl⟩ := List.mem_map.1 he
        simp at hce
    intro e he
    exact List.eq_nil_iff_forall_not_mem.2 (fun c hc => by simpa using key e he c hc)

theorem option_some_of_isSome {α : Type} (x : Option α) (h : x.isSome = true) :
    ∃ v, x = some v := by
  cases x with
  | none => cases h
  | some v => exact ⟨v, rfl⟩

theorem buildTowers_index_reset_witness :
    (∃ r, quarterTurnTool.buildTowers barrelOnly barrelCells true (usedTowers, filledIndex)
        = some r ∧
      ∀ e ∈ r.1.2, ∀ c ∈ e.2, c ∈ availableCells barrelOnly barrelCells) ∧
    (∃ r, quarterTurnTool.buildTowers barrelOnly barrelCells false (usedTowers, filledIndex)
        = some r ∧
      ∀ e ∈ r.1.2, e.2 = []) :=
  ⟨(option_some_of_isSome
      (quarterTurnTool.buildTowers barrelOnly barrelCells true (usedTowers, filledIndex))
      (by decide!)).elim
      (fun r h => ⟨r, h,
        (buildTowers_index_reset quarterTurnTool barrelOnly barrelCells true usedTowers
          filledIndex r h).1⟩),
    (option_some_of_isSome
      (quarterTurnTool.buildTowers barrelOnly barrelCells false (usedTowers, filledIndex))
      (by decide!)).elim
      (fun r h => ⟨r, h,
        (buildTowers_index_reset quarterTurnTool barrelOnly barrelCells false usedTowers
          filledIndex r h).2 rfl⟩)⟩

theorem buildSteps_count (t : CaloTowerTool) (fill : Bool)
    (l : List (Option Segmentation × List CalorimeterHit))
    (acc r : (Towers × CellsInTowers) × Nat) (hacc : acc.2 < 4294967296)
    (h : l.foldlM (t.buildStep fill) acc = some r) :
    r.2 = (acc.2 + (l.map (fun p => if p.1.isSome then p.2.length else 0)).sum)
      % 4294967296 := by
  induction l generalizing acc with
  | nil =>
    simp only [List.foldlM_nil] at h
    cases h
    simp [Nat.mod_eq_of_lt hacc]
  | cons p ps ih =>
    rw [List.foldlM_cons] at h
    cases hp : t.buildStep fill acc p with
    | none => rw [hp] at h; cases h
    | some acc' =>
      rw [hp] at h
      rcases buildStep_some t fill acc acc' p hp with ⟨hn, hacc'⟩ | ⟨seg, st, hseg, _, hacc'⟩
      · rw [hacc'] at h
        rw [ih acc hacc h]
        simp [hn]
      · rw [hacc'] at h
        rw [ih _ (Nat.mod_lt _ (by norm_num)) h]
        simp only [List.map_cons, List.sum_cons, hseg, Option.isSome_some, if_true]
        rw [Nat.add_mod, Nat.mod_mod, ← Nat.add_mod, Nat.add_assoc]

/-- C18. Return value of `buildTowers`: whatever the depth filter rejects,
`CaloTowerTool::buildTowers` returns the sum of the sizes of the input collections of
the partitions whose segmentation is available, and whatever the layer filter rejects
`LayeredCaloTowerTool::buildTowers` returns the size of its input collection (the
numbers being `uint` values). -/
theorem buildTowers_return_value (t : CaloTowerTool)
    (segs : Partitions (Option Segmentation)) (cells : Partitions (List CalorimeterHit))
    (fill : Bool) (st : Towers × CellsInTowers) (r : (Towers × CellsInTowers) × Nat)
    (u : LayeredCaloTowerTool) (readout : LayeredReadout) (layeredCells : List CalorimeterHit)
    (aTowers : Towers) (r' : Towers × Nat)
    (hsize : ((segs.toList.zip cells.toList).map
      (fun p => if p.1.isSome then p.2.length else 0)).sum < 4294967296)
    (hsize' : layeredCells.length < 4294967296)
    (h : t.buildTowers segs cells fill st = some r)
    (h' : u.buildTowers readout layeredCells aTowers = some r') :
    r.2 = ((segs.toList.zip cells.toList).map
      (fun p => if p.1.isSome then p.2.length else 0)).sum ∧
    r'.2 = layeredCells.length := by
  constructor
  · unfold CaloTowerTool.buildTowers at h
    rw [buildSteps_count t fill _ _ r (by norm_num) h, Nat.zero_add, Nat.mod_eq_of_lt hsize]
  · unfold LayeredCaloTowerTool.buildTowers at h'
    cases hc : layeredCells.foldlM (fun g cell => u.towerLoop readout cell g) aTowers with
    | none => rw [hc] at h'; cases h'
    | some g =>
      rw [hc] at h'
      cases h'
      exact Nat.mod_eq_of_lt hsize'

theorem buildTowers_return_value_witness :
    ∃ r r', quarterTurnHalfTool.buildTowers barrelOnly barrelCells true (usedTowers, filledIndex)
        = some r ∧
      quarterTurnLayeredTool.buildTowers deepReadout [cellFive, cellThree] usedTowers = some r' ∧
      r.2 = ((barrelOnly.toList.zip barrelCells.toList).map
        (fun p => if p.1.isSome then p.2.length else 0)).sum ∧
      r'.2 = [cellFive, cellThree].length :=
  (option_some_of_isSome
    (quarterTurnHalfTool.buildTowers barrelOnly barrelCells true (usedTowers, filledIndex))
    (by decide!)).elim
    (fun r h =>
      (option_some_of_isSome
        (quarterTurnLayeredTool.buildTowers deepReadout [cellFive, cellThree] usedTowers)
        (by decide!)).elim
        (fun r' h' => ⟨r, r', h, h',
          buildTowers_return_value quarterTurnHalfTool barrelOnly barrelCells true
            (usedTowers, filledIndex) r quarterTurnLayeredTool deepReadout
            [cellFive, cellThree] usedTowers r' (by decide) (by decide) h h'⟩))

/-! ### The grid is not cleared -/

theorem addRow_add (r r' : List ℚ) (hl : r.length = r'.length) (j : Nat) (v : ℚ) :
    addRow (List.zipWith (fun x y => x + y) r r') j v
        = (addRow r j v).map (fun x => List.zipWith (fun x y => x + y) x r') ∧
    ∀ x, addRow r j v = some x → x.length = r.length := by
  induction r generalizing r' j with
  | nil =>
    cases r' with
    | nil => simp [addRow]
    | cons y ys => simp at hl
  | cons x xs ih =>
    cases r' with
    | nil => simp at hl
    | cons y ys =>
      have hl' : xs.length = ys.length := by simpa using hl
      cases j with
      | zero =>
        simp only [List.zipWith_cons_cons, addRow, Option.map_some', Option.some.injEq]
        refine ⟨by congr 1; ring, ?_⟩
        intro z hz
        rw [← hz]
        simp
      | succ j =>
        obtain ⟨h1, h2⟩ := ih ys hl' j
        simp only [List.zipWith_cons_cons, addRow]
        rw [h1]
        refine ⟨?_, ?_⟩
        · cases addRow xs j v with
          | none => rfl
          | some w => simp
        · intro z hz
          cases hw : addRow xs j v with
          | none => rw [hw] at hz; simp at hz
          | some w =>
            rw [hw] at hz
            simp only [Option.map_some', Option.some.injEq] at hz
            rw [← hz]
            simp [h2 w hw]

theorem addTowerNat_add (g h : Towers) (hs : g.map List.length = h.map List.length)
    (i j : Nat) (v : ℚ) :
    addTowerNat (gridAdd g h) i j v = (addTowerNat g i j v).map (fun x => gridAdd x h) ∧
    ∀ x, addTowerNat g i j v = some x → x.map List.length = g.map List.length := by
  induction g generalizing h i with
  | nil =>
    cases h with
    | nil => simp [addTowerNat, gridAdd]
    | cons y ys => simp at hs
  | cons r rs ih =>
    cases h with
    | nil => simp at hs
    | cons r' rs' =>
      simp only [List.map_cons, List.cons.injEq] at hs
      obtain ⟨hr, hrs⟩ := hs
      cases i with
      | zero =>
        obtain ⟨h1, h2⟩ := addRow_add r r' hr j v
        simp only [gridAdd, List.zipWith_cons_cons, addTowerNat]
        rw [h1]
        refine ⟨?_, ?_⟩
        · cases addRow r j v with
          | none => rfl
          | some w => simp
        · intro z hz
          cases hw : addRow r j v with
          | none => rw [hw] at hz; simp at hz
          | some w =>
            rw [hw] at hz
            simp only [Option.map_some', Option.some.injEq] at hz
            rw [← hz]
            simp [h2 w hw]
      | succ i =>
        obtain ⟨h1, h2⟩ := ih rs' hrs i
        simp only [gridAdd, List.zipWith_cons_cons, addTowerNat] at h1 ⊢
        rw [h1]
        refine ⟨?_, ?_⟩
        · cases addTowerNat rs i j v with
          | none => rfl
          | some w => simp
        · intro z hz
          cases hw : addTowerNat rs i j v with
          | none => rw [hw] at hz; simp at hz
          | some w =>
            rw [hw] at hz
            simp only [Option.map_some', Option.some.injEq] at hz
            rw [← hz]
            simp [h2 w hw]

/-- A fold of steps that commute with `φ` on the states satisfying `P` commutes
with `φ`. -/
theorem foldlM_option_comm {σ ι : Type} (P : σ → Prop) (φ : σ → σ) (f : σ → ι → Option σ)
    (hf : ∀ s x, P s → f (φ s) x = (f s x).map φ ∧ ∀ s', f s x = some s' → P s')
    (l : List ι) (s : σ) (hs : P s) :
    l.foldlM f (φ s) = (l.foldlM f s).map φ ∧ ∀ s', l.foldlM f s = some s' → P s' := by
  induction l generalizing s with
  | nil =>
    refine ⟨rfl, ?_⟩
    intro s' h
    simp only [List.foldlM_nil] at h
    cases h
    exact hs
  | cons x xs ih =>
    obtain ⟨h1, h2⟩ := hf s x hs
    rw [List.foldlM_cons, List.foldlM_cons, h1]
    cases hx : f s x with
    | none => exact ⟨rfl, fun s' h => by cases h⟩
    | some s1 => exact ih s1 (h2 s1 hx)

theorem deposit_add (t : CaloTowerTool) (s : GridPhiEta) (fill : Bool)
    (cell : CalorimeterHit) (iEta iPhi : Int) (h : Towers) (st : Towers × CellsInTowers)
    (hs : st.1.map List.length = h.map List.length) :
    t.deposit s fill cell iEta iPhi (gridAdd st.1 h, st.2)
        = (t.deposit s fill cell iEta iPhi st).map (fun st => (gridAdd st.1 h, st.2)) ∧
    ∀ st', t.deposit s fill cell iEta iPhi st = some st' →
      st'.1.map List.length = h.map List.length := by
  unfold CaloTowerTool.deposit addTower
  by_cases hneg : iEta < 0
  · simp only [if_pos hneg]
    exact ⟨rfl, fun s' h' => by cases h'⟩
  · simp only [if_neg hneg]
    obtain ⟨h1, h2⟩ := addTowerNat_add st.1 h hs iEta.toNat (t.phiNeighbour iPhi)
      (cell.energy / t.cosh (s.eta cell.cellID) * t.ratioEta s cell.cellID iEta
        * t.ratioPhi s cell.cellID iPhi)
    rw [h1]
    cases hw : addTowerNat st.1 iEta.toNat (t.phiNeighbour iPhi)
      (cell.energy / t.cosh (s.eta cell.cellID) * t.ratioEta s cell.cellID iEta
        * t.ratioPhi s cell.cellID iPhi) with
    | none => exact ⟨rfl, fun s' h' => by cases h'⟩
    | some w =>
      refine ⟨rfl, ?_⟩
      intro s' h'
      simp only [Option.some.injEq] at h'
      rw [← h']
      exact (h2 w hw).trans hs

theorem towerLoop_add (t : CaloTowerTool) (s : GridPhiEta) (fill : Bool)
    (cell : CalorimeterHit) (h : Towers) (st : Towers × CellsInTowers)
    (hs : st.1.map List.length = h.map List.length) :
    t.towerLoop s fill cell (gridAdd st.1 h, st.2)
        = (t.towerLoop s fill cell st).map (fun st => (gridAdd st.1 h, st.2)) ∧
    ∀ st', t.towerLoop s fill cell st = some st' →
      st'.1.map List.length = h.map List.length := by
  unfold CaloTowerTool.towerLoop
  refine foldlM_option_comm (fun st => st.1.map List.length = h.map List.length)
    (fun st => (gridAdd st.1 h, st.2)) _ ?_ _ st hs
  intro s1 iEta hs1
  unfold CaloTowerTool.phiLoop
  refine foldlM_option_comm (fun st => st.1.map List.length = h.map List.length)
    (fun st => (gridAdd st.1 h, st.2)) _ ?_ _ s1 hs1
  intro s2 iPhi hs2
  exact deposit_add t s fill cell iEta iPhi h s2 hs2

theorem CellsIntoTowers_add (t : CaloTowerTool) (seg : Segmentation) (fill : Bool)
    (cells : List CalorimeterHit) (h : Towers) (st : Towers × CellsInTowers)
    (hs : st.1.map List.length = h.map List.length) :
    t.CellsIntoTowers cells seg fill (gridAdd st.1 h, st.2)
        = (t.CellsIntoTowers cells seg fill st).map (fun st => (gridAdd st.1 h, st.2)) ∧
    ∀ st', t.CellsIntoTowers cells seg fill st = some st' →
      st'.1.map List.length = h.map List.length := by
  unfold CaloTowerTool.CellsIntoTowers
  refine foldlM_option_comm (fun st => st.1.map List.length = h.map List.length)
    (fun st => (gridAdd st.1 h, st.2)) _ ?_ _ st hs
  intro s1 cell hs1
  split_ifs
  · exact towerLoop_add t _ fill cell h s1 hs1
  · refine ⟨rfl, ?_⟩
    intro s' h'
    cases h'
    exact hs1

theorem buildTowers_add (t : CaloTowerTool) (segs : Partitions (Option Segmentation))
    (cells : Partitions (List CalorimeterHit)) (fill : Bool) (g h : Towers)
    (m : CellsInTowers) (hs : g.map List.length = h.map List.length) :
    t.buildTowers segs cells fill (gridAdd g h, m)
      = (t.buildTowers segs cells fill (g, m)).map
          (fun r => ((gridAdd r.1.1 h, r.1.2), r.2)) := by
  unfold CaloTowerTool.buildTowers
  refine (foldlM_option_comm
    (fun (acc : (Towers × CellsInTowers) × Nat) => acc.1.1.map List.length = h.map List.length)
    (fun acc => ((gridAdd acc.1.1 h, acc.1.2), acc.2)) _ ?_ _
    ((g, m.map (fun towerInMap => (towerInMap.1, []))), 0) hs).1
  intro acc p hacc
  unfold CaloTowerTool.buildStep
  cases hseg : p.1 with
  | none =>
    refine ⟨rfl, ?_⟩
    intro s' h'
    cases h'
    exact hacc
  | some seg =>
    dsimp only
    obtain ⟨h1, h2⟩ := CellsIntoTowers_add t seg fill p.2 h acc.1 hacc
    rw [h1]
    cases hw : t.CellsIntoTowers p.2 seg fill acc.1 with
    | none => exact ⟨rfl, fun s' h' => by cases h'⟩
    | some w =>
      refine ⟨rfl, ?_⟩
      intro s' h'
      cases h'
      exact h2 w hw

theorem gridAdd_zero (h : Towers) (nEta nPhi : Nat) (hd : GridDims h nEta nPhi) :
    gridAdd (zeroTowers nEta nPhi) h = h ∧
    (zeroTowers nEta nPhi).map List.length = h.map List.length := by
  obtain ⟨h1, h2⟩ := hd
  induction h generalizing nEta with
  | nil =>
    simp only [List.length_nil] at h1
    subst h1
    simp [gridAdd, zeroTowers]
  | cons r rs ih =>
    cases nEta with
    | zero => simp at h1
    | succ n =>
      have hr : r.length = nPhi := h2 r (List.mem_cons_self _ _)
      obtain ⟨i1, i2⟩ := ih n (by simpa using h1) (fun x hx => h2 x (List.mem_cons_of_mem _ hx))
      have hrow : ∀ (l : List ℚ), List.zipWith (fun x y => x + y) (List.replicate l.length 0) l
          = l := by
        intro l
        induction l with
        | nil => rfl
        | cons a as iha => simp [List.replicate_succ, iha]
      unfold gridAdd zeroTowers at i1 ⊢
      unfold zeroTowers at i2
      simp only [List.replicate_succ, List.zipWith_cons_cons, List.map_cons, List.length_replicate]
      rw [i1, ← hr, hrow r]
      refine ⟨rfl, ?_⟩
      rw [← hr] at i2
      rw [i2]

/-- C16 (as amended). `CaloTowerTool::buildTowers` does not clear the tower grid: for
every input, every state of the index and every grid `h` of `nEta` by `nPhi` towers,
the build started on `h` ends as the build started on the zero grid does, and the energy
of every tower after the call is the energy it held before the call plus the energy the
build puts into it. -/
theorem buildTowers_adds_to_grid (t : CaloTowerTool)
    (segs : Partitions (Option Segmentation)) (cells : Partitions (List CalorimeterHit))
    (fill : Bool) (h : Towers) (m : CellsInTowers) (nEta nPhi : Nat)
    (hd : GridDims h nEta nPhi) :
    t.buildTowers segs cells fill (h, m)
      = (t.buildTowers segs cells fill (zeroTowers nEta nPhi, m)).map
          (fun r => ((gridAdd r.1.1 h, r.1.2), r.2)) := by
  obtain ⟨e1, e2⟩ := gridAdd_zero h nEta nPhi hd
  have := buildTowers_add t segs cells fill (zeroTowers nEta nPhi) h m e2
  rw [e1] at this
  exact this

theorem buildTowers_adds_to_grid_witness :
    GridDims usedTowers 2 4 ∧
    quarterTurnTool.buildTowers barrelOnly barrelCells true (usedTowers, filledIndex)
      = (quarterTurnTool.buildTowers barrelOnly barrelCells true (zeroTowers 2 4, filledIndex)).map
          (fun r => ((gridAdd r.1.1 usedTowers, r.1.2), r.2)) ∧
    (quarterTurnTool.buildTowers barrelOnly barrelCells true (zeroTowers 2 4, filledIndex)).map
      (fun r => r.1.1) = some [[0, 0, 0, 0], [0, 0, 8, 0]] :=
  ⟨by decide,
    buildTowers_adds_to_grid quarterTurnTool barrelOnly barrelCells true usedTowers filledIndex
      2 4 (by decide),
    by decide!⟩

/-- C16 (as stated) fails: the same input built on a zero grid and on a grid holding the
energy 7 in the tower `(0, 0)` leaves different energies in that tower, the grid not
being cleared by `buildTowers`. -/
theorem buildTowers_keeps_prior_energy :
    (quarterTurnTool.buildTowers barrelOnly barrelCells true (zeroTowers 2 4, [])).map
        (fun r => r.1.1) = some [[0, 0, 0, 0], [0, 0, 8, 0]] ∧
    (quarterTurnTool.buildTowers barrelOnly barrelCells true (usedTowers, [])).map
        (fun r => r.1.1) = some [[7, 0, 0, 0], [0, 0, 8, 0]] := by
  decide!

/-! ## Cell attachment (`attachCells`) -/

theorem keepNew_cons (seen : List Nat) (c : CalorimeterHit) (cs : List CalorimeterHit) :
    keepNew seen (c :: cs)
      = if c.cellID ∈ seen then keepNew seen cs else c :: keepNew (seen ++ [c.cellID]) cs := by
  rw [keepNew]

theorem keepNew_append (seen : List Nat) (xs ys : List CalorimeterHit) :
    keepNew seen (xs ++ ys)
      = keepNew seen xs ++ keepNew (seen ++ (keepNew seen xs).map (fun c => c.cellID)) ys := by
  induction xs generalizing seen with
  | nil => simp [keepNew]
  | cons c cs ih =>
    rw [List.cons_append, keepNew_cons, keepNew_cons]
    split_ifs with h
    · exact ih seen
    · rw [ih (seen ++ [c.cellID])]
      simp

theorem keepNew_spec (seen : List Nat) (l : List CalorimeterHit) :
    ((keepNew seen l).map (fun c => c.cellID)).Nodup ∧
    (∀ c ∈ keepNew seen l, c.cellID ∉ seen) ∧
    (∀ c ∈ l, c.cellID ∈ seen ∨ c.cellID ∈ (keepNew seen l).map (fun c => c.cellID)) ∧
    (keepNew seen l).Sublist l := by
  induction l generalizing seen with
  | nil => simp [keepNew]
  | cons c cs ih =>
    rw [keepNew_cons]
    split_ifs with h
    · obtain ⟨h1, h2, h3, h4⟩ := ih seen
      refine ⟨h1, h2, ?_, h4.cons _⟩
      intro x hx
      rcases List.mem_cons.1 hx with rfl | hx
      · exact Or.inl h
      · exact h3 x hx
    · obtain ⟨h1, h2, h3, h4⟩ := ih (seen ++ [c.cellID])
      refine ⟨?_, ?_, ?_, h4.cons₂ _⟩
      · rw [List.map_cons, List.nodup_cons]
        refine ⟨?_, h1⟩
        intro hmem
        obtain ⟨x, hx, hxc⟩ := List.mem_map.1 hmem
        exact h2 x hx (by rw [hxc]; simp)
      · intro x hx
        rcases List.mem_cons.1 hx with rfl | hx
        · exact h
        · intro hs
          exact h2 x hx (List.mem_append_left _ hs)
      · intro x hx
        rcases List.mem_cons.1 hx with rfl | hx
        · right; simp
        · rcases h3 x hx with h5 | h5
          · rcases List.mem_append.1 h5 with h6 | h6
            · exact Or.inl h6
            · right
              rw [List.mem_singleton.1 h6]
              simp
          · right
            exact List.mem_cons_of_mem _ h5

theorem foldl_attachCell (l : List CalorimeterHit) (st : CaloTowerTool.Attached) :
    (l.foldl CaloTowerTool.attachCell st).cellsInTowers = st.cellsInTowers ∧
    (l.foldl CaloTowerTool.attachCell st).seen_cellIDs
      = st.seen_cellIDs ++ (keepNew st.seen_cellIDs l).map (fun c => c.cellID) ∧
    (l.foldl CaloTowerTool.attachCell st).edmClusterCells
      = st.edmClusterCells ++ keepNew st.seen_cellIDs l ∧
    (l.foldl CaloTowerTool.attachCell st).hits = st.hits ++ keepNew st.seen_cellIDs l := by
  induction l generalizing st with
  | nil => simp [keepNew]
  | cons c cs ih =>
    rw [List.foldl_cons]
    obtain ⟨h1, h2, h3, h4⟩ := ih (CaloTowerTool.attachCell st c)
    rw [h1, h2, h3, h4, keepNew_cons]
    unfold CaloTowerTool.attachCell
    split_ifs with h
    · exact ⟨rfl, rfl, rfl, rfl⟩
    · simp

theorem mapFind_mapInsert {κ α : Type} [DecidableEq κ] (lt : κ → κ → Bool) (m : List (κ × α))
    (k k' : κ) (v : α) (hk : mapFind m k = none) :
    mapFind (mapInsert lt m k v) k' = if k = k' then some v else mapFind m k' := by
  induction m with
  | nil => simp [mapInsert, mapFind]
  | cons p m ih =>
    obtain ⟨k1, v1⟩ := p
    unfold mapFind at hk
    split_ifs at hk with h1
    unfold mapInsert
    split_ifs with h2 h3 h3
    · simp [mapFind, h3]
    · simp [mapFind, h3]
    · subst h3
      simp [mapFind, h1, ih hk]
    · simp only [mapFind, ih hk, if_neg h3]

theorem mapGet_mapEmplace_nil {κ α : Type} [DecidableEq κ] (lt : κ → κ → Bool)
    (m : List (κ × List α)) (k k' : κ) :
    mapGet (mapEmplace lt m k []) k' [] = mapGet m k' [] := by
  unfold mapEmplace
  cases hf : mapFind m k with
  | some w => rfl
  | none =>
    unfold mapGet
    rw [mapFind_mapInsert lt m k k' [] hf]
    split_ifs with h
    · rw [← h, hf]
      rfl
    · rfl

/-- The loop over a list of towers, each taken when `cond` holds: the cells appended are
the first cells of every identifier not seen before, and the cell lists of the map are
unchanged. -/
theorem foldl_attachTower (t : CaloTowerTool) (m : CellsInTowers) (cond : Int × Int → Bool)
    (ps : List (Int × Int)) (st : CaloTowerTool.Attached)
    (hm : ∀ key, mapGet st.cellsInTowers key [] = mapGet m key []) :
    (∀ key, mapGet (ps.foldl (fun st p => if cond p then t.attachTower st p.1 p.2 else st)
        st).cellsInTowers key [] = mapGet m key []) ∧
    (ps.foldl (fun st p => if cond p then t.attachTower st p.1 p.2 else st) st).seen_cellIDs
      = st.seen_cellIDs ++ (keepNew st.seen_cellIDs
          ((ps.filter cond).flatMap (towerCells t m))).map (fun c => c.cellID) ∧
    (ps.foldl (fun st p => if cond p then t.attachTower st p.1 p.2 else st) st).edmClusterCells
      = st.edmClusterCells ++ keepNew st.seen_cellIDs
          ((ps.filter cond).flatMap (towerCells t m)) ∧
    (ps.foldl (fun st p => if cond p then t.attachTower st p.1 p.2 else st) st).hits
      = st.hits ++ keepNew st.seen_cellIDs ((ps.filter cond).flatMap (towerCells t m)) := by
  induction ps generalizing st with
  | nil => simp [keepNew, hm]
  | cons p ps ih =>
    rw [List.foldl_cons]
    by_cases hc : cond p = true
    · rw [if_pos hc, List.filter_cons_of_pos hc, List.flatMap_cons, keepNew_append]
      obtain ⟨a1, a2, a3, a4⟩ := foldl_attachCell
        (mapGet st.cellsInTowers (toUInt p.1, t.phiNeighbour p.2) [])
        { st with cellsInTowers :=
            mapEmplace pairLt st.cellsInTowers (toUInt p.1, t.phiNeighbour p.2) [] }
      have hget : mapGet st.cellsInTowers (toUInt p.1, t.phiNeighbour p.2) []
          = towerCells t m p := hm _
      have hm' : ∀ key, mapGet (t.attachTower st p.1 p.2).cellsInTowers key []
          = mapGet m key [] := by
        intro key
        unfold CaloTowerTool.attachTower
        rw [a1]
        simp only
        rw [mapGet_mapEmplace_nil]
        exact hm key
      obtain ⟨b1, b2, b3, b4⟩ := ih (t.attachTower st p.1 p.2) hm'
      refine ⟨b1, ?_, ?_, ?_⟩
      · rw [b2]
        unfold CaloTowerTool.attachTower
        rw [a2]
        simp only [hget, List.map_append, List.append_assoc]
      · rw [b3]
        unfold CaloTowerTool.attachTower
        rw [a2, a3]
        simp only [hget, List.append_assoc]
      · rw [b4]
        unfold CaloTowerTool.attachTower
        rw [a2, a4]
        simp only [hget, List.append_assoc]
    · rw [if_neg hc, List.filter_cons_of_neg hc]
      exact ih st hm

theorem foldl_nested {σ α β : Type} (f : σ → α × β → σ) (as : List α) (bs : List β) (s : σ) :
    as.foldl (fun st a => bs.foldl (fun st b => f st (a, b)) st) s
      = (as.flatMap (fun a => bs.map (fun b => (a, b)))).foldl f s := by
  induction as generalizing s with
  | nil => rfl
  | cons a as ih =>
    rw [List.foldl_cons, List.flatMap_cons, List.foldl_append, ih, List.foldl_map]

theorem inEllipse_eq (etaId phiId : Int) (halfEta halfPhi : Nat) (p : Int × Int) :
    CaloTowerTool.inEllipse etaId phiId halfEta halfPhi p.1 p.2
      = offsetsInEllipse etaId phiId halfEta halfPhi p := by
  unfold CaloTowerTool.inEllipse offsetsInEllipse
  have e1 : (((etaId - p.1 : Int) : ℚ) / ((halfEta : ℚ) + 1 / 2)) ^ 2
      = (((p.1 - etaId : Int) : ℚ) / ((halfEta : ℚ) + 1 / 2)) ^ 2 := by
    push_cast
    ring
  have e2 : (((phiId - p.2 : Int) : ℚ) / ((halfPhi : ℚ) + 1 / 2)) ^ 2
      = (((p.2 - phiId : Int) : ℚ) / ((halfPhi : ℚ) + 1 / 2)) ^ 2 := by
    push_cast
    ring
  rw [e1, e2]

/-- The loops of `attachCells` go through the towers of the rectangular window, taking a
tower when `aEllipse` is not set or the tower passes the test of the ellipse. -/
theorem attachCells_eq (t : CaloTowerTool) (eta phi : ℚ) (halfEta halfPhi : Nat)
    (aEllipse : Bool) (m : CellsInTowers) (cells0 hits0 : List CalorimeterHit)
    (hEtaLo : IsInt32 (toInt (t.idEta eta) - halfEta))
    (hEtaHi : IsInt32 (toInt (t.idEta eta) + halfEta))
    (hPhiLo : IsInt32 (toInt (t.idPhi phi) - halfPhi))
    (hPhiHi : IsInt32 (toInt (t.idPhi phi) + halfPhi)) :
    t.attachCells eta phi halfEta halfPhi aEllipse m cells0 hits0
      = (windowTowers (toInt (t.idEta eta)) (toInt (t.idPhi phi)) halfEta halfPhi).foldl
          (fun st p =>
            if (!aEllipse || offsetsInEllipse (toInt (t.idEta eta)) (toInt (t.idPhi phi))
                halfEta halfPhi p) then t.attachTower st p.1 p.2 else st)
          { cellsInTowers := m, seen_cellIDs := [], edmClusterCells := cells0, hits := hits0 } := by
  unfold CaloTowerTool.attachCells windowTowers
  simp only [toInt_toUInt hEtaLo, toInt_toUInt hEtaHi, toInt_toUInt hPhiLo, toInt_toUInt hPhiHi]
  rw [← foldl_nested]
  congr 1
  funext st iEta
  congr 1
  funext st' iPhi
  cases aEllipse with
  | false => simp
  | true =>
    have := inEllipse_eq (toInt (t.idEta eta)) (toInt (t.idPhi phi)) halfEta halfPhi (iEta, iPhi)
    simp only at this
    simp [this]

/-- C19. Attacher window and deduplication (rectangle): for every cluster centre and
half sizes (the bounds of the window being `int` values), `attachCells` with
`aEllipse = false` appends to the output collection the first cell of every cell
identifier found in the cell lists of the towers `(iEta, phiNeighbour(iPhi))` with
`iEta` in `[etaId - halfEta, etaId + halfEta]` and `iPhi` in
`[phiId - halfPhi, phiId + halfPhi]`: every identifier found is appended, none twice,
every appended cell is one found, and the same cells are added to the hits of the
cluster in the same order. -/
theorem attachCells_rectangle (t : CaloTowerTool) (eta phi : ℚ) (halfEta halfPhi : Nat)
    (m : CellsInTowers) (cells0 hits0 : List CalorimeterHit)
    (hEtaLo : IsInt32 (toInt (t.idEta eta) - halfEta))
    (hEtaHi : IsInt32 (toInt (t.idEta eta) + halfEta))
    (hPhiLo : IsInt32 (toInt (t.idPhi phi) - halfPhi))
    (hPhiHi : IsInt32 (toInt (t.idPhi phi) + halfPhi)) :
    ∃ attached : List CalorimeterHit,
      (t.attachCells eta phi halfEta halfPhi false m cells0 hits0).edmClusterCells
        = cells0 ++ attached ∧
      (t.attachCells eta phi halfEta halfPhi false m cells0 hits0).hits = hits0 ++ attached ∧
      (attached.map (fun c => c.cellID)).Nodup ∧
      (∀ c ∈ windowCells t m (toInt (t.idEta eta)) (toInt (t.idPhi phi)) halfEta halfPhi,
        c.cellID ∈ attached.map (fun c => c.cellID)) ∧
      attached.Sublist
        (windowCells t m (toInt (t.idEta eta)) (toInt (t.idPhi phi)) halfEta halfPhi) := by
  rw [attachCells_eq t eta phi halfEta halfPhi false m cells0 hits0 hEtaLo hEtaHi hPhiLo hPhiHi]
  obtain ⟨_, _, h3, h4⟩ := foldl_attachTower t m
    (fun p => (!false || offsetsInEllipse (toInt (t.idEta eta)) (toInt (t.idPhi phi))
      halfEta halfPhi p))
    (windowTowers (toInt (t.idEta eta)) (toInt (t.idPhi phi)) halfEta halfPhi)
    { cellsInTowers := m, seen_cellIDs := [], edmClusterCells := cells0, hits := hits0 }
    (fun _ => rfl)
  obtain ⟨k1, _, k3, k4⟩ := keepNew_spec []
    (windowCells t m (toInt (t.idEta eta)) (toInt (t.idPhi phi)) halfEta halfPhi)
  have hfil : (windowTowers (toInt (t.idEta eta)) (toInt (t.idPhi phi)) halfEta halfPhi).filter
      (fun p => (!false || offsetsInEllipse (toInt (t.idEta eta)) (toInt (t.idPhi phi))
        halfEta halfPhi p))
      = windowTowers (toInt (t.idEta eta)) (toInt (t.idPhi phi)) halfEta halfPhi := by
    simp
  rw [hfil] at h3 h4
  refine ⟨_, h3, h4, k1, ?_, k4⟩
  intro c hc
  rcases k3 c hc with h | h
  · simp at h
  · exact h

theorem attachCells_rectangle_witness :
    ∃ attached : List CalorimeterHit,
      (quarterTurnTool.attachCells (1 / 2) (3 * M_PI / 4) 1 1 false wideIndex [cellNine]
        []).edmClusterCells = [cellNine] ++ attached ∧
      (quarterTurnTool.attachCells (1 / 2) (3 * M_PI / 4) 1 1 false wideIndex [cellNine]
        []).hits = [] ++ attached ∧
      (attached.map (fun c => c.cellID)).Nodup ∧
      (∀ c ∈ windowCells quarterTurnTool wideIndex (toInt (quarterTurnTool.idEta (1 / 2)))
          (toInt (quarterTurnTool.idPhi (3 * M_PI / 4))) 1 1,
        c.cellID ∈ attached.map (fun c => c.cellID)) ∧
      attached.Sublist
        (windowCells quarterTurnTool wideIndex (toInt (quarterTurnTool.idEta (1 / 2)))
          (toInt (quarterTurnTool.idPhi (3 * M_PI / 4))) 1 1) :=
  attachCells_rectangle quarterTurnTool (1 / 2) (3 * M_PI / 4) 1 1 wideIndex [cellNine] []
    (by decide!) (by decide!) (by decide!) (by decide!)

/-- C20. Elliptical window: `attachCells` with `aEllipse = true` (the bounds of the
window being `int` values) takes cells from exactly those towers of the rectangular
index window whose index offsets `(dEta, dPhi)` from the centre tower satisfy
`(dEta / (halfEta + 0.5))^2 + (dPhi / (halfPhi + 0.5))^2 < 1`: the cells appended, and
added to the hits, are the first cells of every identifier found in the cell lists of
these towers, and of no other tower. -/
theorem attachCells_ellipse (t : CaloTowerTool) (eta phi : ℚ) (halfEta halfPhi : Nat)
    (m : CellsInTowers) (cells0 hits0 : List CalorimeterHit)
    (hEtaLo : IsInt32 (toInt (t.idEta eta) - halfEta))
    (hEtaHi : IsInt32 (toInt (t.idEta eta) + halfEta))
    (hPhiLo : IsInt32 (toInt (t.idPhi phi) - halfPhi))
    (hPhiHi : IsInt32 (toInt (t.idPhi phi) + halfPhi)) :
    ∃ attached : List CalorimeterHit,
      (t.attachCells eta phi halfEta halfPhi true m cells0 hits0).edmClusterCells
        = cells0 ++ attached ∧
      (t.attachCells eta phi halfEta halfPhi true m cells0 hits0).hits = hits0 ++ attached ∧
      (attached.map (fun c => c.cellID)).Nodup ∧
      (∀ c ∈ ellipseCells t m (toInt (t.idEta eta)) (toInt (t.idPhi phi)) halfEta halfPhi,
        c.cellID ∈ attached.map (fun c => c.cellID)) ∧
      attached.Sublist
        (ellipseCells t m (toInt (t.idEta eta)) (toInt (t.idPhi phi)) halfEta halfPhi) := by
  rw [attachCells_eq t eta phi halfEta halfPhi true m cells0 hits0 hEtaLo hEtaHi hPhiLo hPhiHi]
  obtain ⟨_, _, h3, h4⟩ := foldl_attachTower t m
    (fun p => (!true || offsetsInEllipse (toInt (t.idEta eta)) (toInt (t.idPhi phi))
      halfEta halfPhi p))
    (windowTowers (toInt (t.idEta eta)) (toInt (t.idPhi phi)) halfEta halfPhi)
    { cellsInTowers := m, seen_cellIDs := [], edmClusterCells := cells0, hits := hits0 }
    (fun _ => rfl)
  obtain ⟨k1, _, k3, k4⟩ := keepNew_spec []
    (ellipseCells t m (toInt (t.idEta eta)) (toInt (t.idPhi phi)) halfEta halfPhi)
  have hfil : (windowTowers (toInt (t.idEta eta)) (toInt (t.idPhi phi)) halfEta halfPhi).filter
      (fun p => (!true || offsetsInEllipse (toInt (t.idEta eta)) (toInt (t.idPhi phi))
        halfEta halfPhi p))
      = (windowTowers (toInt (t.idEta eta)) (toInt (t.idPhi phi)) halfEta halfPhi).filter
          (offsetsInEllipse (toInt (t.idEta eta)) (toInt (t.idPhi phi)) halfEta halfPhi) := by
    simp
  rw [hfil] at h3 h4
  refine ⟨_, h3, h4, k1, ?_, k4⟩
  intro c hc
  rcases k3 c hc with h | h
  · simp at h
  · exact h

theorem attachCells_ellipse_witness :
    ∃ attached : List CalorimeterHit,
      (quarterTurnTool.attachCells (1 / 2) (3 * M_PI / 4) 2 2 true wideIndex [cellNine]
        []).edmClusterCells = [cellNine] ++ attached ∧
      (quarterTurnTool.attachCells (1 / 2) (3 * M_PI / 4) 2 2 true wideIndex [cellNine]
        []).hits = [] ++ attached ∧
      (attached.map (fun c => c.cellID)).Nodup ∧
      (∀ c ∈ ellipseCells quarterTurnTool wideIndex (toInt (quarterTurnTool.idEta (1 / 2)))
          (toInt (quarterTurnTool.idPhi (3 * M_PI / 4))) 2 2,
        c.cellID ∈ attached.map (fun c => c.cellID)) ∧
      attached.Sublist
        (ellipseCells quarterTurnTool wideIndex (toInt (quarterTurnTool.idEta (1 / 2)))
          (toInt (quarterTurnTool.idPhi (3 * M_PI / 4))) 2 2) :=
  attachCells_ellipse quarterTurnTool (1 / 2) (3 * M_PI / 4) 2 2 wideIndex [cellNine] []
    (by decide!) (by decide!) (by decide!) (by decide!)

/-! ## Seed classification -/

/-- C12. Confirmed seeds are local maxima: not so when the neighbour of higher energy
comes late in the neighbour list. In `unequalSeedCluster` the seed cell 2 (energy 9) is a
neighbour of the seed candidate 1 (energy 5). Listed after five cells of type 2 it only
ends the loop over the neighbours (`break`), the count 5 reached before is still tested,
and the cell 1 is confirmed as a new seed; listed first, the cell 1 is not confirmed. -/
theorem higher_neighbour_seed_confirmed :
    2 ∈ lateSeedSplitter.neighbours 1 ∧
    lateSeedSplitter.typeOf (SplitClusters.cellsType unequalSeedCluster.hits) 2 = 1 ∧
    lateSeedSplitter.energyOf (SplitClusters.cellsEnergy unequalSeedCluster.hits) 2 = 9 ∧
    lateSeedSplitter.energyOf (SplitClusters.cellsEnergy unequalSeedCluster.hits) 1 = 5 ∧
    lateSeedSplitter.countNeighbours (SplitClusters.cellsType unequalSeedCluster.hits)
      (SplitClusters.cellsEnergy unequalSeedCluster.hits) 5 (lateSeedSplitter.neighbours 1) 0 = 5 ∧
    lateSeedSplitter.newSeeds unequalSeedCluster.hits = [(1, 5), (2, 9)] ∧
    earlySeedSplitter.newSeeds unequalSeedCluster.hits = [(2, 9)] := by
  decide!

/-- C13. Seed confirmation rule: neighbours outside the cluster can be counted. The seed
candidate 1 of `smallSeedCluster` has three neighbours in the cluster, all of type 2, and
the neighbours 100 and 101 outside the cluster. The type of a neighbour is read through
the iterator returned by `cellsType.find` without a test against `end()`: when that read
yields 2 the two neighbours outside the cluster are counted and the cell is confirmed
with the count 5; when it yields 0 the count is 3. -/
theorem stray_neighbours_counted :
    mapFind (SplitClusters.cellsType smallSeedCluster.hits) 100 = none ∧
    mapFind (SplitClusters.cellsType smallSeedCluster.hits) 101 = none ∧
    (strayReadSplitter 2).countNeighbours (SplitClusters.cellsType smallSeedCluster.hits)
      (SplitClusters.cellsEnergy smallSeedCluster.hits) 5 ((strayReadSplitter 2).neighbours 1) 0
      = 5 ∧
    (strayReadSplitter 2).newSeeds smallSeedCluster.hits = [(1, 5)] ∧
    (strayReadSplitter 0).countNeighbours (SplitClusters.cellsType smallSeedCluster.hits)
      (SplitClusters.cellsEnergy smallSeedCluster.hits) 5 ((strayReadSplitter 0).neighbours 1) 0
      = 3 ∧
    (strayReadSplitter 0).newSeeds smallSeedCluster.hits = [] := by
  decide!

/-! ## The rounds of the growth loop -/

theorem appendFrontier_length (vv vv' : List (List (Nat × Nat))) (i : Nat)
    (vec : List (Nat × Nat)) (h : SplitClusters.appendFrontier vv i vec = some vv') :
    vv'.length = vv.length := by
  induction vv generalizing i vv' with
  | nil => simp [SplitClusters.appendFrontier] at h
  | cons f fs ih =>
    cases i with
    | zero =>
      simp only [SplitClusters.appendFrontier, Option.some.injEq] at h
      rw [← h]
      rfl
    | succ i =>
      simp only [SplitClusters.appendFrontier] at h
      cases hr : SplitClusters.appendFrontier fs i vec with
      | none => rw [hr] at h; cases h
      | some r =>
        rw [hr] at h
        simp only [Option.map_some', Option.some.injEq] at h
        rw [← h, List.length_cons, List.length_cons, ih r i hr]

theorem appendFrontier_none (vv : List (List (Nat × Nat))) (i : Nat) (vec : List (Nat × Nat))
    (h : vv.length ≤ i) : SplitClusters.appendFrontier vv i vec = none := by
  induction vv generalizing i with
  | nil => rfl
  | cons f fs ih =>
    cases i with
    | zero => simp at h
    | succ i =>
      simp only [SplitClusters.appendFrontier]
      rw [ih i (by simpa using h)]
      rfl

theorem mem_mapEmplace {κ α : Type} [DecidableEq κ] (lt : κ → κ → Bool) (m : List (κ × α))
    (k : κ) (v : α) (e : κ × α) (h : e ∈ mapEmplace lt m k v) : e ∈ m ∨ e = (k, v) := by
  unfold mapEmplace at h
  cases hf : mapFind m k with
  | some w =>
    rw [hf] at h
    exact Or.inl h
  | none =>
    rw [hf] at h
    rcases List.mem_cons.1 ((mapInsert_perm lt m k v).subset h) with h | h
    · right; exact h
    · left; exact h

theorem mapGet_length_allocated (mv : List (Nat × List (List (Nat × Nat)))) (cid : Nat)
    (h : FrontiersAllocated mv) :
    (mapGet mv cid []).length = 1001 ∨ mapGet mv cid [] = [] := by
  unfold mapGet
  cases hf : mapFind mv cid with
  | none => right; rfl
  | some vv =>
    left
    exact h (cid, vv) (mapFind_some_mem_pair mv cid vv hf)

theorem iteration0_allocated (a : SplitClusters) (ct : List (Nat × Int))
    (cp : List (Nat × TLorentzVector)) (seeds : List (Nat × ℚ)) (b : SplitClusters.Building)
    (h : FrontiersAllocated b.mapVecNextNeighbours) :
    FrontiersAllocated (seeds.foldl (a.startSeed ct cp) b).mapVecNextNeighbours := by
  induction seeds generalizing b with
  | nil => exact h
  | cons s ss ih =>
    rw [List.foldl_cons]
    apply ih
    intro e he
    unfold SplitClusters.startSeed at he
    rcases mem_mapEmplace _ _ _ _ _ he with he | he
    · exact h e he
    · rw [he]
      show (_ :: List.replicate 1000 _).length = 1001
      rw [List.length_cons, List.length_replicate]

theorem expandCell_allocated (a : SplitClusters) (ct : List (Nat × Int))
    (cp : List (Nat × TLorentzVector)) (iter cid : Nat)
    (st st' : SplitClusters.Growth × List (Nat × List (List (Nat × Nat)))) (id : Nat × Nat)
    (h : FrontiersAllocated st.2)
    (he : a.expandCell ct cp iter cid st id = Except.ok st') : FrontiersAllocated st'.2 := by
  unfold SplitClusters.expandCell at he
  split_ifs at he
  cases hap : SplitClusters.appendFrontier (mapGet st.2 cid []) iter
      (a.searchForNeighbours id.1 cid ct cp st.1).2 with
  | none => simp only [hap] at he; cases he
  | some vecVec =>
    simp only [hap] at he
    cases he
    intro e hmem
    rcases mem_mapAssign _ _ _ _ _ hmem with hmem | hmem
    · exact h e hmem
    · rw [hmem]
      show vecVec.length = 1001
      rw [appendFrontier_length _ _ _ _ hap]
      rcases mapGet_length_allocated st.2 cid h with h1 | h1
      · exact h1
      · rw [h1] at hap
        simp [SplitClusters.appendFrontier] at hap

theorem expandCell_at_limit (a : SplitClusters) (ct : List (Nat × Int))
    (cp : List (Nat × TLorentzVector)) (iter cid : Nat)
    (st : SplitClusters.Growth × List (Nat × List (List (Nat × Nat)))) (id : Nat × Nat)
    (h : FrontiersAllocated st.2) (hi : 1001 ≤ iter) :
    ∃ e, a.expandCell ct cp iter cid st id = Except.error e := by
  unfold SplitClusters.expandCell
  split_ifs
  · exact ⟨_, rfl⟩
  · exact ⟨_, rfl⟩
  · have hap : SplitClusters.appendFrontier (mapGet st.2 cid []) iter
        (a.searchForNeighbours id.1 cid ct cp st.1).2 = none := by
      apply appendFrontier_none
      rcases mapGet_length_allocated st.2 cid h with h1 | h1
      · rw [h1]; exact hi
      · rw [h1]; simp
    simp only [hap]
    exact ⟨_, rfl⟩

theorem expandCluster_allocated (a : SplitClusters) (ct : List (Nat × Int))
    (cp : List (Nat × TLorentzVector)) (iter : Nat)
    (st st' : (SplitClusters.Growth × List (Nat × List (List (Nat × Nat)))) × Bool) (cid : Nat)
    (h : FrontiersAllocated st.1.2)
    (he : a.expandCluster ct cp iter st cid = Except.ok st') :
    FrontiersAllocated st'.1.2 ∧ (1001 ≤ iter → st'.2 = st.2) := by
  unfold SplitClusters.expandCluster at he
  cases hg : (mapGet st.1.2 cid []).get? (iter - 1) with
  | none => simp only [hg] at he; cases he
  | some frontier =>
    simp only [hg] at he
    split_ifs at he with hl
    · cases hf : frontier.foldlM (a.expandCell ct cp iter cid) st.1 with
      | error e => simp only [hf] at he; cases he
      | ok s1 =>
        simp only [hf] at he
        cases he
        refine ⟨?_, ?_⟩
        · exact foldlM_except_inv (fun s => FrontiersAllocated s.2) _
            (fun s x s' hs hx => expandCell_allocated a ct cp iter cid s s' x hs hx)
            frontier st.1 s1 h hf
        · intro hi
          exfalso
          cases frontier with
          | nil => simp at hl
          | cons x xs =>
            obtain ⟨e, hx⟩ := expandCell_at_limit a ct cp iter cid st.1 x h hi
            rw [List.foldlM_cons, hx] at hf
            cases hf
    · cases he
      exact ⟨h, fun _ => rfl⟩

theorem growthRound_allocated (a : SplitClusters) (ct : List (Nat × Int))
    (cp : List (Nat × TLorentzVector)) (nClusters nSeeds iter : Nat)
    (st : SplitClusters.Growth × List (Nat × List (List (Nat × Nat))))
    (st' : (SplitClusters.Growth × List (Nat × List (List (Nat × Nat)))) × Bool)
    (h : FrontiersAllocated st.2)
    (he : a.growthRound ct cp nClusters nSeeds iter st = Except.ok st') :
    FrontiersAllocated st'.1.2 ∧ (1001 ≤ iter → st'.2 = false) := by
  unfold SplitClusters.growthRound at he
  exact foldlM_except_inv
    (fun (s : (SplitClusters.Growth × List (Nat × List (List (Nat × Nat)))) × Bool) =>
      FrontiersAllocated s.1.2 ∧ (1001 ≤ iter → s.2 = false)) _
    (fun s x s' hs hx =>
      ⟨(expandCluster_allocated a ct cp iter s s' x hs.1 hx).1,
        fun hi => ((expandCluster_allocated a ct cp iter s s' x hs.1 hx).2 hi).trans (hs.2 hi)⟩)
    _ (st, false) st' ⟨h, fun _ => rfl⟩ he

/-- From a state with 1001 frontier vectors per sub-cluster, the rounds from `iter` on
end at the latest in round 1001: more fuel than that changes nothing, and a round the
loop stops at is at most 1001. -/
theorem stoppedAt_bounded (a : SplitClusters) (ct : List (Nat × Int))
    (cp : List (Nat × TLorentzVector)) (nClusters nSeeds : Nat) (k : Nat) :
    ∀ (iter fuel : Nat) (st : SplitClusters.Growth × List (Nat × List (List (Nat × Nat)))),
      FrontiersAllocated st.2 → iter + k = 1001 → k + 1 ≤ fuel →
      a.stoppedAt ct cp nClusters nSeeds fuel iter st
          = a.stoppedAt ct cp nClusters nSeeds (k + 1) iter st ∧
      a.growthLoop ct cp nClusters nSeeds fuel iter st
          = a.growthLoop ct cp nClusters nSeeds (k + 1) iter st ∧
      ∀ r, a.stoppedAt ct cp nClusters nSeeds (k + 1) iter st = Except.ok r → r ≤ 1001 := by
  induction k with
  | zero =>
    intro iter fuel st hst hi hf
    obtain ⟨f, rfl⟩ : ∃ f, fuel = f + 1 := ⟨fuel - 1, by omega⟩
    unfold SplitClusters.stoppedAt SplitClusters.growthLoop
    cases hr : a.growthRound ct cp nClusters nSeeds iter st with
    | error e => exact ⟨rfl, rfl, fun r h => by cases h⟩
    | ok s1 =>
      obtain ⟨s, flag⟩ := s1
      have hflag := (growthRound_allocated a ct cp nClusters nSeeds iter st (s, flag) hst hr).2
        (by omega)
      simp only at hflag
      subst hflag
      refine ⟨rfl, rfl, ?_⟩
      intro r h
      simp only [Except.ok.injEq] at h
      omega
  | succ k ih =>
    intro iter fuel st hst hi hf
    obtain ⟨f, rfl⟩ : ∃ f, fuel = f + 1 := ⟨fuel - 1, by omega⟩
    rw [SplitClusters.stoppedAt, SplitClusters.growthLoop]
    rw [show k + 1 + 1 = (k + 1) + 1 from rfl, SplitClusters.stoppedAt, SplitClusters.growthLoop]
    cases hr : a.growthRound ct cp nClusters nSeeds iter st with
    | error e => exact ⟨rfl, rfl, fun r h => by cases h⟩
    | ok s1 =>
      obtain ⟨s, flag⟩ := s1
      have hs := (growthRound_allocated a ct cp nClusters nSeeds iter st (s, flag) hst hr).1
      cases flag with
      | false =>
        refine ⟨rfl, rfl, ?_⟩
        intro r h
        simp only [Except.ok.injEq] at h
        omega
      | true =>
        obtain ⟨i1, i2, i3⟩ := ih (iter + 1) f s hs (by omega) (by omega)
        exact ⟨i1, i2, i3⟩


/-! ## Two separated seeds -/

theorem mapFind_mapEmplace {κ α : Type} [DecidableEq κ] (lt : κ → κ → Bool) (m : List (κ × α))
    (k k' : κ) (v : α) (hf : mapFind m k = none) :
    mapFind (mapEmplace lt m k v) k' = if k = k' then some v else mapFind m k' := by
  unfold mapEmplace
  rw [hf]
  exact mapFind_mapInsert lt m k k' v hf

theorem mapEmplace_present {κ α : Type} [DecidableEq κ] (lt : κ → κ → Bool) (m : List (κ × α))
    (k : κ) (v w : α) (hf : mapFind m k = some w) : mapEmplace lt m k v = m := by
  unfold mapEmplace
  rw [hf]

theorem mapReplace_self {κ α : Type} [DecidableEq κ] (m : List (κ × α)) (k : κ) (v : α)
    (h : mapFind m k = some v) : mapReplace m k v = m := by
  induction m with
  | nil => rfl
  | cons p m ih =>
    obtain ⟨k', v'⟩ := p
    unfold mapFind at h
    unfold mapReplace
    split_ifs at h ⊢ with hk
    · cases h
      rfl
    · rw [ih h]

theorem mapAssign_self {κ α : Type} [DecidableEq κ] (lt : κ → κ → Bool) (m : List (κ × α))
    (k : κ) (v : α) (h : mapFind m k = some v) : mapAssign lt m k v = m := by
  unfold mapAssign
  rw [h]
  exact mapReplace_self m k v h

theorem mapFind_of_mem_nodup {κ α : Type} [DecidableEq κ] (m : List (κ × α)) (k : κ) (v : α)
    (hn : (m.map Prod.fst).Nodup) (h : (k, v) ∈ m) : mapFind m k = some v := by
  induction m with
  | nil => cases h
  | cons p m ih =>
    obtain ⟨k', v'⟩ := p
    rw [List.map_cons, List.nodup_cons] at hn
    unfold mapFind
    rcases List.mem_cons.1 h with h | h
    · cases h
      simp
    · have hne : k' ≠ k := by
        intro e
        exact hn.1 (List.mem_map.2 ⟨(k, v), h, e.symm⟩)
      rw [if_neg hne]
      exact ih hn.2 h

theorem appendFrontier_nil (vv : List (List (Nat × Nat))) (i : Nat) (h : i < vv.length) :
    SplitClusters.appendFrontier vv i [] = some vv := by
  induction vv generalizing i with
  | nil => simp at h
  | cons f fs ih =>
    cases i with
    | zero => simp [SplitClusters.appendFrontier]
    | succ i =>
      simp only [SplitClusters.appendFrontier]
      rw [ih i (by simpa using h)]
      rfl

/-- A visit of a neighbour that belongs to the visiting sub-cluster never meets a cell
of another sub-cluster: the assignment stays as `ω` has it, no assigned cell is lost,
the neighbour is assigned if it is a cell of the cluster, and the only pair that may be
added is the neighbour with the visiting sub-cluster. -/
theorem visitNeighbour_owned (a : SplitClusters) (cid : Nat) (ct : List (Nat × Int))
    (cp : List (Nat × TLorentzVector)) (ω : Nat → Nat)
    (st : SplitClusters.Growth × List (Nat × Nat)) (nb : Nat)
    (hown : Owned ω st.1.clusterOfCell) (hnb : mapFind ct nb ≠ none → ω nb = cid) :
    Owned ω (a.visitNeighbour cid ct cp st nb).1.clusterOfCell ∧
    (∀ k, mapFind st.1.clusterOfCell k ≠ none →
      mapFind (a.visitNeighbour cid ct cp st nb).1.clusterOfCell k ≠ none) ∧
    (mapFind ct nb ≠ none →
      mapFind (a.visitNeighbour cid ct cp st nb).1.clusterOfCell nb ≠ none) ∧
    (∀ e ∈ (a.visitNeighbour cid ct cp st nb).2, e ∈ st.2 ∨ e = (nb, cid)) ∧
    (mapFind st.1.clusterOfCell nb ≠ none → a.visitNeighbour cid ct cp st nb = st) := by
  unfold SplitClusters.visitNeighbour
  cases hct : mapFind ct nb with
  | none =>
    exact ⟨hown, fun _ h => h, fun h => absurd rfl h, fun e he => Or.inl he, fun _ => rfl⟩
  | some ty =>
    have hω : ω nb = cid := hnb (by rw [hct]; simp)
    cases hcoc : mapFind st.1.clusterOfCell nb with
    | none =>
      simp only
      refine ⟨?_, ?_, ?_, ?_, ?_⟩
      · intro k v hk
        rw [mapFind_mapEmplace _ _ _ _ _ hcoc] at hk
        split_ifs at hk with h
        · cases hk
          rw [← h, hω]
        · exact hown k v hk
      · intro k hk
        rw [mapFind_mapEmplace _ _ _ _ _ hcoc]
        split_ifs with h
        · simp
        · exact hk
      · intro _
        rw [mapFind_mapEmplace _ _ _ _ _ hcoc, if_pos rfl]
        simp
      · intro e he
        rcases List.mem_append.1 he with he | he
        · exact Or.inl he
        · exact Or.inr (List.mem_singleton.1 he)
      · intro h
        exact absurd rfl h
    | some w =>
      have hw : ¬ (w ≠ cid) := not_not.2 ((hown nb w hcoc).trans hω)
      dsimp only
      rw [if_neg hw]
      exact ⟨hown, fun _ h => h, fun _ => (by rw [hcoc]; simp), fun e he => Or.inl he,
        fun _ => rfl⟩

theorem foldl_visitNeighbour_owned (a : SplitClusters) (cid : Nat) (ct : List (Nat × Int))
    (cp : List (Nat × TLorentzVector)) (ω : Nat → Nat) (nbs : List Nat)
    (st : SplitClusters.Growth × List (Nat × Nat))
    (hown : Owned ω st.1.clusterOfCell)
    (hnb : ∀ nb ∈ nbs, mapFind ct nb ≠ none → ω nb = cid) :
    Owned ω (nbs.foldl (a.visitNeighbour cid ct cp) st).1.clusterOfCell ∧
    (∀ k, mapFind st.1.clusterOfCell k ≠ none →
      mapFind (nbs.foldl (a.visitNeighbour cid ct cp) st).1.clusterOfCell k ≠ none) ∧
    (∀ nb ∈ nbs, mapFind ct nb ≠ none →
      mapFind (nbs.foldl (a.visitNeighbour cid ct cp) st).1.clusterOfCell nb ≠ none) ∧
    (∀ e ∈ (nbs.foldl (a.visitNeighbour cid ct cp) st).2,
      e ∈ st.2 ∨ (e.1 ∈ nbs ∧ e.2 = cid)) := by
  induction nbs generalizing st with
  | nil =>
    exact ⟨hown, fun _ h => h, fun _ h _ => (by cases h), fun e he => Or.inl he⟩
  | cons nb nbs ih =>
    rw [List.foldl_cons]
    obtain ⟨v1, v2, v3, v4, -⟩ := visitNeighbour_owned a cid ct cp ω st nb hown
      (hnb nb (List.mem_cons_self _ _))
    obtain ⟨i1, i2, i3, i4⟩ := ih (a.visitNeighbour cid ct cp st nb) v1
      (fun x hx => hnb x (List.mem_cons_of_mem _ hx))
    refine ⟨i1, fun k hk => i2 k (v2 k hk), ?_, ?_⟩
    · intro x hx hxc
      rcases List.mem_cons.1 hx with rfl | hx
      · exact i2 _ (v3 hxc)
      · exact i3 x hx hxc
    · intro e he
      rcases i4 e he with h | h
      · rcases v4 e h with h | h
        · exact Or.inl h
        · right
          rw [h]
          exact ⟨List.mem_cons_self _ _, rfl⟩
      · exact Or.inr ⟨List.mem_cons_of_mem _ h.1, h.2⟩

/-- Once every cell is assigned as `ω` has it, a search from a cell whose neighbours in
the cluster belong to the searching sub-cluster changes nothing and returns no cell. -/
theorem searchForNeighbours_fixed (a : SplitClusters) (id cid : Nat) (ct : List (Nat × Int))
    (cp : List (Nat × TLorentzVector)) (ω : Nat → Nat) (g : SplitClusters.Growth)
    (hown : Owned ω g.clusterOfCell) (hall : Assigned ct g.clusterOfCell)
    (hne : a.neighbours id ≠ [])
    (hnb : ∀ m ∈ a.neighbours id, mapFind ct m ≠ none → ω m = cid) :
    a.searchForNeighbours id cid ct cp g = (g, []) := by
  unfold SplitClusters.searchForNeighbours
  rw [if_neg (by simpa using hne)]
  have key : ∀ (l : List Nat), (∀ m ∈ l, mapFind ct m ≠ none → ω m = cid) →
      l.foldl (a.visitNeighbour cid ct cp) (g, []) = (g, []) := by
    intro l
    induction l with
    | nil => intro _; rfl
    | cons m ms ih =>
      intro hl
      rw [List.foldl_cons]
      have hfix : a.visitNeighbour cid ct cp (g, []) m = (g, []) := by
        by_cases hm : mapFind ct m = none
        · unfold SplitClusters.visitNeighbour
          rw [hm]
        · exact (visitNeighbour_owned a cid ct cp ω (g, []) m hown
            (hl m (List.mem_cons_self _ _))).2.2.2.2 (hall m hm)
      rw [hfix]
      exact ih (fun x hx => hl x (List.mem_cons_of_mem _ hx))
  exact key _ hnb

/-- Iteration 0 for a seed whose neighbours in the cluster belong to its sub-cluster:
the assignment stays as `ω` has it, the seed and its neighbours in the cluster are
assigned, and the first frontier holds neighbours of the seed only. -/
theorem startSeed_owned (a : SplitClusters) (ct : List (Nat × Int))
    (cp : List (Nat × TLorentzVector)) (ω : Nat → Nat) (b : SplitClusters.Building)
    (seed : Nat × ℚ) (hown : Owned ω b.growth.clusterOfCell) (hseed : ω seed.1 = b.clusterID)
    (hne : a.neighbours seed.1 ≠ [])
    (hnb : ∀ nb ∈ a.neighbours seed.1, mapFind ct nb ≠ none → ω nb = b.clusterID) :
    Owned ω (a.startSeed ct cp b seed).growth.clusterOfCell ∧
    (∀ k, mapFind b.growth.clusterOfCell k ≠ none →
      mapFind (a.startSeed ct cp b seed).growth.clusterOfCell k ≠ none) ∧
    mapFind (a.startSeed ct cp b seed).growth.clusterOfCell seed.1 ≠ none ∧
    (∀ nb ∈ a.neighbours seed.1, mapFind ct nb ≠ none →
      mapFind (a.startSeed ct cp b seed).growth.clusterOfCell nb ≠ none) ∧
    ∃ f, (a.startSeed ct cp b seed).mapVecNextNeighbours
        = mapEmplace natLt b.mapVecNextNeighbours b.clusterID (f :: List.replicate 1000 []) ∧
      ∀ e ∈ f, e.1 ∈ a.neighbours seed.1 ∧ e.2 = b.clusterID := by
  have hown0 : Owned ω (mapEmplace natLt b.growth.clusterOfCell seed.1 b.clusterID) := by
    intro k v hk
    cases hf : mapFind b.growth.clusterOfCell seed.1 with
    | none =>
      rw [mapFind_mapEmplace _ _ _ _ _ hf] at hk
      split_ifs at hk with h
      · cases hk
        rw [← h, hseed]
      · exact hown k v hk
    | some w =>
      rw [mapEmplace_present _ _ _ _ w hf] at hk
      exact hown k v hk
  have hmono0 : ∀ k, mapFind b.growth.clusterOfCell k ≠ none →
      mapFind (mapEmplace natLt b.growth.clusterOfCell seed.1 b.clusterID) k ≠ none := by
    intro k hk
    cases hf : mapFind b.growth.clusterOfCell seed.1 with
    | none =>
      rw [mapFind_mapEmplace _ _ _ _ _ hf]
      split_ifs
      · simp
      · exact hk
    | some w =>
      rw [mapEmplace_present _ _ _ _ w hf]
      exact hk
  have hseed0 : mapFind (mapEmplace natLt b.growth.clusterOfCell seed.1 b.clusterID) seed.1
      ≠ none := by
    cases hf : mapFind b.growth.clusterOfCell seed.1 with
    | none =>
      rw [mapFind_mapEmplace _ _ _ _ _ hf, if_pos rfl]
      simp
    | some w =>
      rw [mapEmplace_present _ _ _ _ w hf, hf]
      simp
  obtain ⟨f1, f2, f3, f4⟩ := foldl_visitNeighbour_owned a b.clusterID ct cp ω
    (a.neighbours seed.1)
    ({ clusterOfCell := mapEmplace natLt b.growth.clusterOfCell seed.1 b.clusterID,
       clusterPositions := mapEmplace natLt b.growth.clusterPositions b.clusterID
         (mapGet cp seed.1 0) }, []) hown0 hnb
  unfold SplitClusters.startSeed SplitClusters.searchForNeighbours
  simp only [if_neg (show ¬ (a.neighbours seed.1).length = 0 by simpa using hne)]
  refine ⟨f1, fun k hk => f2 k (hmono0 k hk), f2 _ hseed0, f3, _, rfl, ?_⟩
  intro e he
  rcases f4 e he with h | h
  · cases h
  · exact h

theorem foldlM_except_fixed {σ ι : Type} (f : σ → ι → Except Abort σ) (l : List ι) (s : σ)
    (h : ∀ x ∈ l, f s x = Except.ok s) : l.foldlM f s = Except.ok s := by
  induction l with
  | nil => rfl
  | cons x xs ih =>
    rw [List.foldlM_cons, h x (List.mem_cons_self _ _)]
    exact ih (fun y hy => h y (List.mem_cons_of_mem _ hy))

/-- A sub-cluster whose frontier cells find nothing new leaves the state of the growth
as it is; the flag is set when the frontier is not empty. -/
theorem expandCluster_fixed (a : SplitClusters) (ct : List (Nat × Int))
    (cp : List (Nat × TLorentzVector)) (iter cid : Nat) (g : SplitClusters.Growth)
    (mv : List (Nat × List (List (Nat × Nat)))) (V : List (List (Nat × Nat)))
    (f : List (Nat × Nat)) (flag : Bool) (hV : mapFind mv cid = some V)
    (hget : V.get? (iter - 1) = some f) (hlen : iter < V.length)
    (hfix : ∀ e ∈ f, e.1 ≠ 0 ∧ e.2 = cid ∧ a.searchForNeighbours e.1 cid ct cp g = (g, [])) :
    ∃ flag', a.expandCluster ct cp iter ((g, mv), flag) cid = Except.ok ((g, mv), flag') ∧
      (f = [] → flag' = flag) := by
  have hmg : mapGet mv cid [] = V := by
    unfold mapGet
    rw [hV]
    rfl
  unfold SplitClusters.expandCluster
  simp only [hmg, hget]
  by_cases hl : f.length > 0
  · rw [if_pos hl]
    have hfold : f.foldlM (a.expandCell ct cp iter cid) (g, mv) = Except.ok (g, mv) := by
      apply foldlM_except_fixed
      intro e he
      obtain ⟨e0, e1, e2⟩ := hfix e he
      unfold SplitClusters.expandCell
      rw [if_neg e0, if_neg (not_not.2 e1)]
      simp only [e2, hmg, appendFrontier_nil V iter hlen, mapAssign_self natLt mv cid V hV]
    rw [hfold]
    refine ⟨true, rfl, ?_⟩
    intro hf
    rw [hf] at hl
    simp at hl
  · rw [if_neg hl]
    exact ⟨flag, rfl, fun _ => rfl⟩

/-- With two sub-clusters whose first frontiers find nothing new, the growth loop stops
in round 1 or 2 and leaves the state of iteration 0. -/
theorem growthLoop_two_fixed (a : SplitClusters) (ct : List (Nat × Int))
    (cp : List (Nat × TLorentzVector)) (n : Nat) (g : SplitClusters.Growth)
    (f1 f2 : List (Nat × Nat))
    (hfix1 : ∀ e ∈ f1, e.1 ≠ 0 ∧ e.2 = n + 1 ∧
      a.searchForNeighbours e.1 (n + 1) ct cp g = (g, []))
    (hfix2 : ∀ e ∈ f2, e.1 ≠ 0 ∧ e.2 = n + 2 ∧
      a.searchForNeighbours e.1 (n + 2) ct cp g = (g, [])) :
    a.growthLoop ct cp n 2 1002 1
        (g, [(n + 1, f1 :: List.replicate 1000 []), (n + 2, f2 :: List.replicate 1000 [])])
      = Except.ok
        (g, [(n + 1, f1 :: List.replicate 1000 []), (n + 2, f2 :: List.replicate 1000 [])]) := by
  have hV1 : mapFind [(n + 1, f1 :: List.replicate 1000 ([] : List (Nat × Nat))),
      (n + 2, f2 :: List.replicate 1000 [])] (n + 1)
      = some (f1 :: List.replicate 1000 []) := by
    unfold mapFind
    rw [if_pos rfl]
  have hV2 : mapFind [(n + 1, f1 :: List.replicate 1000 ([] : List (Nat × Nat))),
      (n + 2, f2 :: List.replicate 1000 [])] (n + 2)
      = some (f2 :: List.replicate 1000 []) := by
    unfold mapFind
    rw [if_neg (by omega)]
    unfold mapFind
    rw [if_pos rfl]
  have hrep : ∀ (f : List (Nat × Nat)),
      (f :: List.replicate 1000 ([] : List (Nat × Nat))).get? (2 - 1) = some [] := by
    intro f
    show (List.replicate 1000 ([] : List (Nat × Nat))).get? 0 = some []
    rw [List.get?_eq_getElem?, List.getElem?_replicate]
    rfl
  have hlen : ∀ (f : List (Nat × Nat)),
      (f :: List.replicate 1000 ([] : List (Nat × Nat))).length = 1001 := by
    intro f
    rw [List.length_cons, List.length_replicate]
  have hids : (List.range 2).map (fun k => n + (k + 1)) = [n + 1, n + 2] := by
    rfl
  have round : ∀ (iter : Nat) (l1 l2 : List (Nat × Nat)),
      (f1 :: List.replicate 1000 ([] : List (Nat × Nat))).get? (iter - 1) = some l1 →
      (f2 :: List.replicate 1000 ([] : List (Nat × Nat))).get? (iter - 1) = some l2 →
      iter < 1001 →
      (∀ e ∈ l1, e.1 ≠ 0 ∧ e.2 = n + 1 ∧ a.searchForNeighbours e.1 (n + 1) ct cp g = (g, [])) →
      (∀ e ∈ l2, e.1 ≠ 0 ∧ e.2 = n + 2 ∧ a.searchForNeighbours e.1 (n + 2) ct cp g = (g, [])) →
      ∃ flag, a.growthRound ct cp n 2 iter
          (g, [(n + 1, f1 :: List.replicate 1000 []), (n + 2, f2 :: List.replicate 1000 [])])
        = Except.ok ((g, [(n + 1, f1 :: List.replicate 1000 []),
            (n + 2, f2 :: List.replicate 1000 [])]), flag) ∧
        (l1 = [] → l2 = [] → flag = false) := by
    intro iter l1 l2 g1 g2 hi x1 x2
    obtain ⟨fl1, r1, r1'⟩ := expandCluster_fixed a ct cp iter (n + 1) g _ _ l1 false hV1 g1
      (by rw [hlen]; exact hi) x1
    obtain ⟨fl2, r2, r2'⟩ := expandCluster_fixed a ct cp iter (n + 2) g _ _ l2 fl1 hV2 g2
      (by rw [hlen]; exact hi) x2
    refine ⟨fl2, ?_, fun e1 e2 => (r2' e2).trans (r1' e1)⟩
    have h2 : [n + 2].foldlM (a.expandCluster ct cp iter)
        ((g, [(n + 1, f1 :: List.replicate 1000 []), (n + 2, f2 :: List.replicate 1000 [])]),
          fl1)
        = Except.ok ((g, [(n + 1, f1 :: List.replicate 1000 []),
            (n + 2, f2 :: List.replicate 1000 [])]), fl2) := by
      rw [List.foldlM_cons, r2]
      rfl
    unfold SplitClusters.growthRound
    rw [hids, List.foldlM_cons, r1]
    exact h2
  obtain ⟨fl, hr1, -⟩ := round 1 f1 f2 rfl rfl (by norm_num) hfix1 hfix2
  obtain ⟨fl', hr2, hfl'⟩ := round 2 [] [] (hrep f1) (hrep f2) (by norm_num)
    (fun e he => by cases he) (fun e he => by cases he)
  have hfl2 : fl' = false := hfl' rfl rfl
  subst hfl2
  rw [show (1002 : Nat) = 1000 + 1 + 1 from rfl, SplitClusters.growthLoop, hr1]
  cases fl with
  | false => rfl
  | true =>
    show a.growthLoop ct cp n 2 (1000 + 1) (1 + 1) _ = _
    rw [SplitClusters.growthLoop, hr2]

theorem mapEmplace_two {α : Type} (n : Nat) (V1 V2 : α) :
    mapEmplace natLt (mapEmplace natLt [] (n + 1) V1) (n + 2) V2 = [(n + 1, V1), (n + 2, V2)] := by
  simp [mapEmplace, mapFind, mapInsert, natLt]

/-- Iteration 0 for two seeds whose neighbours in the cluster belong to their own
sub-clusters. -/
theorem iteration0_two (a : SplitClusters) (ct : List (Nat × Int))
    (cp : List (Nat × TLorentzVector)) (ω : Nat → Nat) (n : Nat) (p1 p2 : Nat × ℚ)
    (h1 : ω p1.1 = n + 1) (h2 : ω p2.1 = n + 2)
    (hn1 : a.neighbours p1.1 ≠ []) (hn2 : a.neighbours p2.1 ≠ [])
    (hnb1 : ∀ nb ∈ a.neighbours p1.1, mapFind ct nb ≠ none → ω nb = n + 1)
    (hnb2 : ∀ nb ∈ a.neighbours p2.1, mapFind ct nb ≠ none → ω nb = n + 2) :
    ∃ f1 f2,
      Owned ω ([p1, p2].foldl (a.startSeed ct cp)
        { growth := { clusterOfCell := [], clusterPositions := [] },
          preClusterCollection := [], mapVecNextNeighbours := [],
          clusterID := n + 1 }).growth.clusterOfCell ∧
      (∀ k, (k = p1.1 ∨ k = p2.1 ∨ k ∈ a.neighbours p1.1 ∨ k ∈ a.neighbours p2.1) →
        mapFind ct k ≠ none →
        mapFind ([p1, p2].foldl (a.startSeed ct cp)
          { growth := { clusterOfCell := [], clusterPositions := [] },
            preClusterCollection := [], mapVecNextNeighbours := [],
            clusterID := n + 1 }).growth.clusterOfCell k ≠ none) ∧
      ([p1, p2].foldl (a.startSeed ct cp)
        { growth := { clusterOfCell := [], clusterPositions := [] },
          preClusterCollection := [], mapVecNextNeighbours := [],
          clusterID := n + 1 }).preClusterCollection = [(n + 1, []), (n + 2, [])] ∧
      ([p1, p2].foldl (a.startSeed ct cp)
        { growth := { clusterOfCell := [], clusterPositions := [] },
          preClusterCollection := [], mapVecNextNeighbours := [],
          clusterID := n + 1 }).mapVecNextNeighbours
        = [(n + 1, f1 :: List.replicate 1000 []), (n + 2, f2 :: List.replicate 1000 [])] ∧
      (∀ e ∈ f1, e.1 ∈ a.neighbours p1.1 ∧ e.2 = n + 1) ∧
      (∀ e ∈ f2, e.1 ∈ a.neighbours p2.1 ∧ e.2 = n + 2) := by
  obtain ⟨a1, -, a3, a4, f1, a5, a6⟩ := startSeed_owned a ct cp ω
    { growth := { clusterOfCell := [], clusterPositions := [] },
      preClusterCollection := [], mapVecNextNeighbours := [], clusterID := n + 1 } p1
    (fun k v hk => by simp [mapFind] at hk) h1 hn1 hnb1
  obtain ⟨b1, b2, b3, b4, f2, b5, b6⟩ := startSeed_owned a ct cp ω
    (a.startSeed ct cp
      { growth := { clusterOfCell := [], clusterPositions := [] },
        preClusterCollection := [], mapVecNextNeighbours := [], clusterID := n + 1 } p1) p2
    a1 h2 hn2 hnb2
  refine ⟨f1, f2, b1, ?_, ?_, ?_, a6, b6⟩
  · intro k hk hct
    rcases hk with rfl | rfl | hk | hk
    · exact b2 _ a3
    · exact b3
    · exact b2 _ (a4 k hk hct)
    · exact b4 k hk hct
  · exact mapEmplace_two n [] []
  · rw [List.foldl_cons, List.foldl_cons, List.foldl_nil, b5, a5]
    exact mapEmplace_two n _ _

theorem mapFind_mapReplace_ne_none {κ α : Type} [DecidableEq κ] (m : List (κ × α)) (k k' : κ)
    (v : α) (h : mapFind m k' ≠ none) : mapFind (mapReplace m k v) k' ≠ none := by
  intro hn
  apply h
  rw [mapFind_eq_none] at hn ⊢
  rw [mapReplace_keys] at hn
  exact hn

/-- The loop over `clusterOfCell` keeps the keys of the pre-clusters when every cell is
assigned to a sub-cluster that has a pre-cluster. -/
theorem collectCell_keys (coc : List (Nat × Nat)) (c0 : SplitClusters.Collected)
    (h : ∀ i ∈ coc, mapFind c0.preClusterCollection i.2 ≠ none) :
    (coc.foldl SplitClusters.collectCell c0).preClusterCollection.map Prod.fst
      = c0.preClusterCollection.map Prod.fst := by
  induction coc generalizing c0 with
  | nil => rfl
  | cons i is ih =>
    rw [List.foldl_cons]
    have hi := h i (List.mem_cons_self _ _)
    have hstep : (SplitClusters.collectCell c0 i).preClusterCollection
        = mapReplace c0.preClusterCollection i.2
            (mapGet c0.preClusterCollection i.2 [] ++ [(i.1, mapGet c0.allCells i.1 0)]) := by
      unfold SplitClusters.collectCell mapAssign
      cases hf : mapFind c0.preClusterCollection i.2 with
      | none => exact absurd hf hi
      | some w => rfl
    rw [ih (SplitClusters.collectCell c0 i), hstep, mapReplace_keys]
    intro j hj
    rw [hstep]
    exact mapFind_mapReplace_ne_none _ _ _ _ (h j (List.mem_cons_of_mem _ hj))

/-- When every hit is assigned, no left-over cluster is emitted: the clusters are the
sub-clusters of the pre-clusters and the cells are their cells. -/
theorem emitSplit_no_leftover (a : SplitClusters) (cluster : Cluster) (all : List (Nat × Int))
    (pre : List (Nat × List (Nat × Int))) (coc : List (Nat × Nat))
    (hlen : coc.length = cluster.hits.length) :
    (a.emitSplit cluster all pre coc).clusters
      = (((coc.foldl SplitClusters.collectCell
            { preClusterCollection := pre, cellsType := SplitClusters.cellsType cluster.hits,
              allCells := all, allClusteredCells := 0 }).preClusterCollection.map
          (fun i => a.subClusterSums (SplitClusters.cellsEnergy cluster.hits) i.2)).map
        SplitClusters.subCluster) ∧
    (a.emitSplit cluster all pre coc).cells
      = ((coc.foldl SplitClusters.collectCell
            { preClusterCollection := pre, cellsType := SplitClusters.cellsType cluster.hits,
              allCells := all, allClusteredCells := 0 }).preClusterCollection.map
          (fun i => a.subClusterSums (SplitClusters.cellsEnergy cluster.hits) i.2)).flatMap
        (fun s => s.cells) := by
  obtain ⟨-, c2, -⟩ := foldl_collectCell coc
    { preClusterCollection := pre, cellsType := SplitClusters.cellsType cluster.hits,
      allCells := all, allClusteredCells := 0 }
  have hdec : decide ((coc.foldl SplitClusters.collectCell
      { preClusterCollection := pre, cellsType := SplitClusters.cellsType cluster.hits,
        allCells := all, allClusteredCells := 0 }).allClusteredCells ≠ cluster.hits.length)
      = false := by
    rw [c2]; simp [hlen]
  unfold SplitClusters.emitSplit
  dsimp only
  simp only [hdec, Bool.false_eq_true, if_false, List.nil_append]
  exact ⟨trivial, trivial⟩

theorem mem_foldl_emplace (hits : List CalorimeterHit) (m : List (Nat × Int)) :
    (∀ e ∈ m, e ∈ hits.foldl (fun m cell => mapEmplace natLt m cell.cellID cell.type) m) ∧
    ((hits.map (fun c => c.cellID)).Nodup →
      (∀ c ∈ hits, mapFind m c.cellID = none) →
      ∀ c ∈ hits, (c.cellID, c.type)
        ∈ hits.foldl (fun m cell => mapEmplace natLt m cell.cellID cell.type) m) := by
  induction hits generalizing m with
  | nil => exact ⟨fun e he => he, fun _ _ c hc => by cases hc⟩
  | cons x xs ih =>
    obtain ⟨i1, i2⟩ := ih (mapEmplace natLt m x.cellID x.type)
    have hmono : ∀ e ∈ m, e ∈ mapEmplace natLt m x.cellID x.type := by
      intro e he
      unfold mapEmplace
      cases hf : mapFind m x.cellID with
      | some w => exact he
      | none =>
        have hin := (mapInsert_perm natLt m x.cellID x.type).symm.subset
          (List.mem_cons_of_mem _ he)
        exact hin
    refine ⟨fun e he => i1 e (hmono e he), ?_⟩
    intro hd hm c hc
    rw [List.map_cons, List.nodup_cons] at hd
    rw [List.foldl_cons]
    rcases List.mem_cons.1 hc with rfl | hc
    · apply i1
      unfold mapEmplace
      rw [hm c (List.mem_cons_self _ _)]
      exact (mapInsert_perm natLt m c.cellID c.type).symm.subset (List.mem_cons_self _ _)
    · apply i2 hd.2 _ c hc
      intro c' hc'
      rw [mapFind_mapEmplace _ _ _ _ _ (hm x (List.mem_cons_self _ _))]
      have hne : x.cellID ≠ c'.cellID := by
        intro e
        exact hd.1 (List.mem_map.2 ⟨c', hc', e.symm⟩)
      rw [if_neg hne]
      exact hm c' (List.mem_cons_of_mem _ hc')

/-- With pairwise distinct identifiers, `cellsType` holds the type of every hit. -/
theorem cellsType_hit (hits : List CalorimeterHit) (hd : (hits.map (fun c => c.cellID)).Nodup)
    (c : CalorimeterHit) (hc : c ∈ hits) :
    mapFind (SplitClusters.cellsType hits) c.cellID = some c.type := by
  apply mapFind_of_mem_nodup _ _ _ (nodup_keys_cellsType hits)
  unfold SplitClusters.cellsType
  exact (mem_foldl_emplace hits []).2 hd (fun _ _ => rfl) c hc

theorem typeOf_hit (a : SplitClusters) (hits : List CalorimeterHit)
    (hd : (hits.map (fun c => c.cellID)).Nodup) (c : CalorimeterHit) (hc : c ∈ hits) :
    a.typeOf (SplitClusters.cellsType hits) c.cellID = c.type := by
  unfold SplitClusters.typeOf
  rw [cellsType_hit hits hd c hc]

theorem countNeighbours_all_two (a : SplitClusters) (ct : List (Nat × Int))
    (ce : List (Nat × ℚ)) (energy : ℚ) (l : List Nat) (n : Nat)
    (h : ∀ nb ∈ l, a.typeOf ct nb = 2) :
    a.countNeighbours ct ce energy l n = n + l.length := by
  induction l generalizing n with
  | nil => rfl
  | cons nb nbs ih =>
    unfold SplitClusters.countNeighbours
    rw [if_pos (h nb (List.mem_cons_self _ _)),
      ih (n + 1) (fun x hx => h x (List.mem_cons_of_mem _ hx)), List.length_cons]
    omega

theorem perm_pair {α : Type} (l : List α) (x y : α) (hxy : x ≠ y) (h : l.Perm [x, y]) :
    l = [x, y] ∨ l = [y, x] := by
  have hlen := h.length_eq
  have hnd : l.Nodup := h.symm.nodup_iff.1 (by simp [hxy])
  match l, hlen, hnd, h with
  | [u, v], _, hnd, h =>
    have hu : u ∈ [x, y] := h.subset (List.mem_cons_self _ _)
    have hv : v ∈ [x, y] := h.subset (List.mem_cons_of_mem _ (List.mem_cons_self _ _))
    have huv : u ≠ v := by
      intro e
      rw [e] at hnd
      simp at hnd
    simp only [List.mem_cons, List.mem_singleton, List.not_mem_nil, or_false] at hu hv
    rcases hu with rfl | rfl <;> rcases hv with rfl | rfl
    · exact absurd rfl huv
    · exact Or.inl rfl
    · exact Or.inr rfl
    · exact absurd rfl huv

/-- Two hits with the same identifier are the same hit. -/
theorem hit_of_id (hits : List CalorimeterHit) (hd : (hits.map (fun c => c.cellID)).Nodup)
    (c c' : CalorimeterHit) (hc : c ∈ hits) (hc' : c' ∈ hits) (h : c.cellID = c'.cellID) :
    c = c' :=
  List.inj_on_of_nodup_map hd hc hc' h

/-- The confirmed seeds of a cluster with exactly two cells of seed type, each above the
threshold and having at least 5 neighbours, all of them cells of type 2 of the cluster:
the two cells, in one order or the other. -/
theorem newSeeds_two (a : SplitClusters) (hits : List CalorimeterHit)
    (sA sB : CalorimeterHit) (hd : (hits.map (fun c => c.cellID)).Nodup)
    (hA : sA ∈ hits) (hB : sB ∈ hits) (hAB : sA.cellID ≠ sB.cellID)
    (htA : sA.type = 1 ∧ sA.energy > a.threshold) (htB : sB.type = 1 ∧ sB.energy > a.threshold)
    (hrest : ∀ c ∈ hits, c = sA ∨ c = sB ∨ c.type = 2)
    (hnA : 5 ≤ (a.neighbours sA.cellID).length ∧
      ∀ nb ∈ a.neighbours sA.cellID, ∃ c ∈ hits, c.cellID = nb ∧ c.type = 2)
    (hnB : 5 ≤ (a.neighbours sB.cellID).length ∧
      ∀ nb ∈ a.neighbours sB.cellID, ∃ c ∈ hits, c.cellID = nb ∧ c.type = 2) :
    a.newSeeds hits = [(sA.cellID, sA.energy), (sB.cellID, sB.energy)] ∨
    a.newSeeds hits = [(sB.cellID, sB.energy), (sA.cellID, sA.energy)] := by
  have hseed : ∀ s ∈ hits, s.type = 1 ∧ s.energy > a.threshold →
      (5 ≤ (a.neighbours s.cellID).length ∧
        ∀ nb ∈ a.neighbours s.cellID, ∃ c ∈ hits, c.cellID = nb ∧ c.type = 2) →
      a.isNewSeed (SplitClusters.cellsType hits) (SplitClusters.cellsEnergy hits)
        (s.cellID, s.energy) = true := by
    intro s hs ht hn
    unfold SplitClusters.isNewSeed
    have hcount := countNeighbours_all_two a (SplitClusters.cellsType hits)
      (SplitClusters.cellsEnergy hits) s.energy (a.neighbours s.cellID) 0
      (fun nb hnb => by
        obtain ⟨c, hc, hcid, hcty⟩ := hn.2 nb hnb
        rw [← hcid, typeOf_hit a hits hd c hc, hcty])
    simp only [typeOf_hit a hits hd s hs, ht.1, hcount, Bool.and_eq_true, decide_eq_true_eq,
      true_and]
    exact ⟨ht.2, by omega⟩
  have hother : ∀ c ∈ hits, a.isNewSeed (SplitClusters.cellsType hits)
      (SplitClusters.cellsEnergy hits) (c.cellID, c.energy) = true → c = sA ∨ c = sB := by
    intro c hc hp
    rcases hrest c hc with h | h | h
    · exact Or.inl h
    · exact Or.inr h
    · exfalso
      unfold SplitClusters.isNewSeed at hp
      simp only [typeOf_hit a hits hd c hc, h, Bool.and_eq_true, decide_eq_true_eq] at hp
      exact absurd hp.1.1 (by norm_num)
  have hnd : (hits.map (fun cell => (cell.cellID, cell.energy))).Nodup := by
    apply List.Nodup.of_map Prod.fst
    rw [List.map_map]
    exact hd
  have hperm : (a.newSeeds hits).Perm [(sA.cellID, sA.energy), (sB.cellID, sB.energy)] := by
    unfold SplitClusters.newSeeds
    refine ((cellsEnergy_perm hits).filter _).trans ?_
    apply (List.perm_ext_iff_of_nodup (hnd.filter _) (by simp [hAB])).2
    intro x
    simp only [List.mem_filter, List.mem_map, List.mem_cons, List.mem_singleton,
      List.not_mem_nil, or_false]
    constructor
    · rintro ⟨⟨c, hc, rfl⟩, hp⟩
      rcases hother c hc hp with rfl | rfl
      · exact Or.inl rfl
      · exact Or.inr rfl
    · rintro (rfl | rfl)
      · exact ⟨⟨sA, hA, rfl⟩, hseed sA hA htA hnA⟩
      · exact ⟨⟨sB, hB, rfl⟩, hseed sB hB htB hnB⟩
  exact perm_pair _ _ _ (fun e => hAB (congrArg Prod.fst e)) hperm

/-- The two seeds in the order of `newSeeds`: the splitter returns two sub-clusters that
share all the cells and the energy of the cluster. -/
theorem two_seeds_core (a : SplitClusters) (n : Nat) (allCells : List (Nat × Int))
    (cluster : Cluster) (s1 s2 : CalorimeterHit)
    (hd : (cluster.hits.map (fun c => c.cellID)).Nodup)
    (hE : cluster.energy = (cluster.hits.map (fun c => c.energy)).sum)
    (h0 : ∀ c ∈ cluster.hits, c.cellID ≠ 0)
    (hseeds : a.newSeeds cluster.hits = [(s1.cellID, s1.energy), (s2.cellID, s2.energy)])
    (h1 : s1 ∈ cluster.hits) (h2 : s2 ∈ cluster.hits) (h12 : s1.cellID ≠ s2.cellID)
    (ht1 : s1.type = 1) (ht2 : s2.type = 1)
    (hrest : ∀ c ∈ cluster.hits, c = s1 ∨ c = s2 ∨
      (c.type = 2 ∧ (c.cellID ∈ a.neighbours s1.cellID ∨ c.cellID ∈ a.neighbours s2.cellID)))
    (hs1 : SeparatedSeed a cluster.hits s1.cellID)
    (hs2 : SeparatedSeed a cluster.hits s2.cellID)
    (hdisj : ∀ nb ∈ a.neighbours s1.cellID, nb ∉ a.neighbours s2.cellID) :
    ∃ out c1 c2, a.splitCluster n allCells cluster = Except.ok out ∧
      out.clusters = [c1, c2] ∧ c1.type = 2 ∧ c2.type = 2 ∧
      out.cells = c1.hits ++ c2.hits ∧
      c1.hits.length + c2.hits.length = cluster.hits.length ∧
      c1.energy + c2.energy = cluster.energy := by
  have memct : ∀ k, mapFind (SplitClusters.cellsType cluster.hits) k ≠ none →
      k ∈ cluster.hits.map (fun c => c.cellID) := by
    intro k hk
    rw [← mem_keys_cellsType]
    by_contra hn
    exact hk ((mapFind_eq_none _ k).2 hn)
  have hw1 : (fun k => if k = s1.cellID ∨ k ∈ a.neighbours s1.cellID then n + 1 else n + 2)
      s1.cellID = n + 1 := by
    simp
  have hwN1 : ∀ nb ∈ a.neighbours s1.cellID,
      (fun k => if k = s1.cellID ∨ k ∈ a.neighbours s1.cellID then n + 1 else n + 2) nb
        = n + 1 := by
    intro nb h
    simp [h]
  have hnotseed : ∀ (s : Nat) (s' : CalorimeterHit), s' ∈ cluster.hits → s'.type = 1 →
      SeparatedSeed a cluster.hits s → s'.cellID ∉ a.neighbours s := by
    intro s s' hs' hty hs hin
    obtain ⟨c, hc, hcid, hcty⟩ := (hs.2 _ hin).1
    have := hit_of_id cluster.hits hd c s' hc hs' hcid
    rw [this, hty] at hcty
    norm_num at hcty
  have hw2 : (fun k => if k = s1.cellID ∨ k ∈ a.neighbours s1.cellID then n + 1 else n + 2)
      s2.cellID = n + 2 := by
    have := hnotseed s1.cellID s2 h2 ht2 hs1
    simp [Ne.symm h12, this]
  have hwN2 : ∀ nb ∈ a.neighbours s2.cellID,
      (fun k => if k = s1.cellID ∨ k ∈ a.neighbours s1.cellID then n + 1 else n + 2) nb
        = n + 2 := by
    intro nb h
    have ne1 : nb ≠ s1.cellID := by
      intro e
      rw [e] at h
      exact hnotseed s2.cellID s1 h1 ht1 hs2 h
    have nn : nb ∉ a.neighbours s1.cellID := fun h' => hdisj nb h' h
    simp [ne1, nn]
  have hside1 : ∀ nb ∈ a.neighbours s1.cellID, ∀ m ∈ a.neighbours nb,
      mapFind (SplitClusters.cellsType cluster.hits) m ≠ none →
      (fun k => if k = s1.cellID ∨ k ∈ a.neighbours s1.cellID then n + 1 else n + 2) m
        = n + 1 := by
    intro nb hnb m hm hct
    rcases (hs1.2 nb hnb).2.2 m hm (memct m hct) with h | h
    · rw [h]; exact hw1
    · exact hwN1 m h
  have hside2 : ∀ nb ∈ a.neighbours s2.cellID, ∀ m ∈ a.neighbours nb,
      mapFind (SplitClusters.cellsType cluster.hits) m ≠ none →
      (fun k => if k = s1.cellID ∨ k ∈ a.neighbours s1.cellID then n + 1 else n + 2) m
        = n + 2 := by
    intro nb hnb m hm hct
    rcases (hs2.2 nb hnb).2.2 m hm (memct m hct) with h | h
    · rw [h]; exact hw2
    · exact hwN2 m h
  have hne : ∀ s, SeparatedSeed a cluster.hits s → a.neighbours s ≠ [] := by
    intro s hs e
    have := hs.1
    rw [e] at this
    simp at this
  obtain ⟨f1, f2, own, asg, hpre, hmv, hf1, hf2⟩ := iteration0_two a
    (SplitClusters.cellsType cluster.hits) (a.cellsPosition cluster.hits)
    (fun k => if k = s1.cellID ∨ k ∈ a.neighbours s1.cellID then n + 1 else n + 2) n
    (s1.cellID, s1.energy) (s2.cellID, s2.energy) hw1 hw2 (hne _ hs1) (hne _ hs2)
    (fun nb h _ => hwN1 nb h) (fun nb h _ => hwN2 nb h)
  obtain ⟨hK, -⟩ := foldl_startSeed_keys a (SplitClusters.cellsType cluster.hits)
    (a.cellsPosition cluster.hits) [(s1.cellID, s1.energy), (s2.cellID, s2.energy)]
    (fun s hs => by
      rw [mem_keys_cellsType]
      rcases List.mem_cons.1 hs with rfl | hs
      · exact List.mem_map_of_mem _ h1
      · rw [List.mem_singleton.1 hs]
        exact List.mem_map_of_mem _ h2)
    { growth := { clusterOfCell := [], clusterPositions := [] },
      preClusterCollection := [], mapVecNextNeighbours := [], clusterID := n + 1 }
    ⟨keysWithin_nil _, fun _ h => by cases h⟩
  have hsplit : a.splitCluster n allCells cluster
      = Except.ok (a.emitSplit cluster (SplitClusters.allCellsAfterRead allCells cluster.hits)
          ([(s1.cellID, s1.energy), (s2.cellID, s2.energy)].foldl
            (a.startSeed (SplitClusters.cellsType cluster.hits) (a.cellsPosition cluster.hits))
            { growth := { clusterOfCell := [], clusterPositions := [] },
              preClusterCollection := [], mapVecNextNeighbours := [],
              clusterID := n + 1 }).preClusterCollection
          ([(s1.cellID, s1.energy), (s2.cellID, s2.energy)].foldl
            (a.startSeed (SplitClusters.cellsType cluster.hits) (a.cellsPosition cluster.hits))
            { growth := { clusterOfCell := [], clusterPositions := [] },
              preClusterCollection := [], mapVecNextNeighbours := [],
              clusterID := n + 1 }).growth.clusterOfCell) := by
    have hAsg : Assigned (SplitClusters.cellsType cluster.hits)
        ([(s1.cellID, s1.energy), (s2.cellID, s2.energy)].foldl
          (a.startSeed (SplitClusters.cellsType cluster.hits) (a.cellsPosition cluster.hits))
          { growth := { clusterOfCell := [], clusterPositions := [] },
            preClusterCollection := [], mapVecNextNeighbours := [],
            clusterID := n + 1 }).growth.clusterOfCell := by
      intro k hk
      obtain ⟨c, hc, hck⟩ := List.mem_map.1 (memct k hk)
      subst hck
      rcases hrest c hc with h | h | ⟨_, h | h⟩
      · exact asg _ (Or.inl (by rw [h])) hk
      · exact asg _ (Or.inr (Or.inl (by rw [h]))) hk
      · exact asg _ (Or.inr (Or.inr (Or.inl h))) hk
      · exact asg _ (Or.inr (Or.inr (Or.inr h))) hk
    have fix1 : ∀ e ∈ f1, e.1 ≠ 0 ∧ e.2 = n + 1 ∧
        a.searchForNeighbours e.1 (n + 1) (SplitClusters.cellsType cluster.hits)
          (a.cellsPosition cluster.hits)
          ([(s1.cellID, s1.energy), (s2.cellID, s2.energy)].foldl
            (a.startSeed (SplitClusters.cellsType cluster.hits) (a.cellsPosition cluster.hits))
            { growth := { clusterOfCell := [], clusterPositions := [] },
              preClusterCollection := [], mapVecNextNeighbours := [],
              clusterID := n + 1 }).growth
        = (([(s1.cellID, s1.energy), (s2.cellID, s2.energy)].foldl
            (a.startSeed (SplitClusters.cellsType cluster.hits) (a.cellsPosition cluster.hits))
            { growth := { clusterOfCell := [], clusterPositions := [] },
              preClusterCollection := [], mapVecNextNeighbours := [],
              clusterID := n + 1 }).growth, []) := by
      intro e he
      obtain ⟨hin, hcid⟩ := hf1 e he
      obtain ⟨⟨c, hc, hcid', -⟩, hnn, -⟩ := hs1.2 e.1 hin
      exact ⟨by rw [← hcid']; exact h0 c hc, hcid,
        searchForNeighbours_fixed a e.1 (n + 1) _ _ _ _ own hAsg hnn (hside1 e.1 hin)⟩
    have fix2 : ∀ e ∈ f2, e.1 ≠ 0 ∧ e.2 = n + 2 ∧
        a.searchForNeighbours e.1 (n + 2) (SplitClusters.cellsType cluster.hits)
          (a.cellsPosition cluster.hits)
          ([(s1.cellID, s1.energy), (s2.cellID, s2.energy)].foldl
            (a.startSeed (SplitClusters.cellsType cluster.hits) (a.cellsPosition cluster.hits))
            { growth := { clusterOfCell := [], clusterPositions := [] },
              preClusterCollection := [], mapVecNextNeighbours := [],
              clusterID := n + 1 }).growth
        = (([(s1.cellID, s1.energy), (s2.cellID, s2.energy)].foldl
            (a.startSeed (SplitClusters.cellsType cluster.hits) (a.cellsPosition cluster.hits))
            { growth := { clusterOfCell := [], clusterPositions := [] },
              preClusterCollection := [], mapVecNextNeighbours := [],
              clusterID := n + 1 }).growth, []) := by
      intro e he
      obtain ⟨hin, hcid⟩ := hf2 e he
      obtain ⟨⟨c, hc, hcid', -⟩, hnn, -⟩ := hs2.2 e.1 hin
      exact ⟨by rw [← hcid']; exact h0 c hc, hcid,
        searchForNeighbours_fixed a e.1 (n + 2) _ _ _ _ own hAsg hnn (hside2 e.1 hin)⟩
    have hloop := growthLoop_two_fixed a (SplitClusters.cellsType cluster.hits)
      (a.cellsPosition cluster.hits) n _ f1 f2 fix1 fix2
    unfold SplitClusters.splitCluster
    dsimp only
    rw [hseeds, if_pos (by simp), hmv]
    rw [show [(s1.cellID, s1.energy), (s2.cellID, s2.energy)].length = 2 from rfl, hloop]
  -- the output
  have hlen : ([(s1.cellID, s1.energy), (s2.cellID, s2.energy)].foldl
      (a.startSeed (SplitClusters.cellsType cluster.hits) (a.cellsPosition cluster.hits))
      { growth := { clusterOfCell := [], clusterPositions := [] },
        preClusterCollection := [], mapVecNextNeighbours := [],
        clusterID := n + 1 }).growth.clusterOfCell.length = cluster.hits.length := by
    have hp := (List.perm_ext_iff_of_nodup hK.1 (nodup_keys_cellsType cluster.hits)).2
      (fun k => ⟨hK.2 k, fun hk => by
        by_contra hn
        have hk' : mapFind (SplitClusters.cellsType cluster.hits) k ≠ none :=
          fun e => (mapFind_eq_none _ k).1 e hk
        obtain ⟨c, hc, hck⟩ := List.mem_map.1 (memct k hk')
        subst hck
        have hin : mapFind ([(s1.cellID, s1.energy), (s2.cellID, s2.energy)].foldl
            (a.startSeed (SplitClusters.cellsType cluster.hits) (a.cellsPosition cluster.hits))
            { growth := { clusterOfCell := [], clusterPositions := [] },
              preClusterCollection := [], mapVecNextNeighbours := [],
              clusterID := n + 1 }).growth.clusterOfCell c.cellID ≠ none := by
          rcases hrest c hc with h | h | ⟨_, h | h⟩
          · exact asg _ (Or.inl (by rw [h])) hk'
          · exact asg _ (Or.inr (Or.inl (by rw [h]))) hk'
          · exact asg _ (Or.inr (Or.inr (Or.inl h))) hk'
          · exact asg _ (Or.inr (Or.inr (Or.inr h))) hk'
        exact hin ((mapFind_eq_none _ _).2 hn)⟩)
    have h3 := hp.length_eq
    have h4 := (keys_cellsType_perm cluster.hits hd).length_eq
    simp only [List.length_map] at h3 h4
    rw [h3, h4]
  rw [hpre] at hsplit
  generalize ([(s1.cellID, s1.energy), (s2.cellID, s2.energy)].foldl
      (a.startSeed (SplitClusters.cellsType cluster.hits) (a.cellsPosition cluster.hits))
      { growth := { clusterOfCell := [], clusterPositions := [] },
        preClusterCollection := [], mapVecNextNeighbours := [],
        clusterID := n + 1 }).growth.clusterOfCell = coc at own hK hlen hsplit
  obtain ⟨e1, e2⟩ := emitSplit_no_leftover a cluster
    (SplitClusters.allCellsAfterRead allCells cluster.hits) [(n + 1, []), (n + 2, [])] coc hlen
  obtain ⟨p1, -, p3, -, p5, -⟩ := emitSplit_spec a cluster
    (SplitClusters.allCellsAfterRead allCells cluster.hits) [(n + 1, []), (n + 2, [])] coc hd hK
    (fun p hp => by
      rcases List.mem_cons.1 hp with rfl | hp
      · rfl
      · rw [List.mem_singleton.1 hp])
  have hkeys := collectCell_keys coc
    { preClusterCollection := [(n + 1, []), (n + 2, [])],
      cellsType := SplitClusters.cellsType cluster.hits,
      allCells := SplitClusters.allCellsAfterRead allCells cluster.hits,
      allClusteredCells := 0 }
    (fun i hi => by
      have hfi := mapFind_of_mem_nodup coc i.1 i.2 hK.1 hi
      have hω := own i.1 i.2 hfi
      simp only at hω
      show mapFind [(n + 1, []), (n + 2, [])] i.2 ≠ none
      rw [hω]
      split_ifs <;> simp [mapFind])
  simp only [List.map_cons, List.map_nil] at hkeys
  obtain ⟨x, y, hxy⟩ : ∃ x y, (coc.foldl SplitClusters.collectCell
      { preClusterCollection := [(n + 1, []), (n + 2, [])],
        cellsType := SplitClusters.cellsType cluster.hits,
        allCells := SplitClusters.allCellsAfterRead allCells cluster.hits,
        allClusteredCells := 0 }).preClusterCollection = [x, y] := by
    have hl := congrArg List.length hkeys
    simp only [List.length_map, List.length_cons, List.length_nil] at hl
    match (coc.foldl SplitClusters.collectCell
      { preClusterCollection := [(n + 1, []), (n + 2, [])],
        cellsType := SplitClusters.cellsType cluster.hits,
        allCells := SplitClusters.allCellsAfterRead allCells cluster.hits,
        allClusteredCells := 0 }).preClusterCollection, hl with
    | [x, y], _ => exact ⟨x, y, rfl⟩
  rw [hxy] at e1 e2
  simp only [List.map_cons, List.map_nil, List.flatMap_cons, List.flatMap_nil,
    List.append_nil] at e1 e2
  have hcells : ((a.emitSplit cluster (SplitClusters.allCellsAfterRead allCells cluster.hits)
      [(n + 1, []), (n + 2, [])] coc).cells.map (fun c => c.energy)).sum = cluster.energy := by
    have q : (a.emitSplit cluster (SplitClusters.allCellsAfterRead allCells cluster.hits)
        [(n + 1, []), (n + 2, [])] coc).cells.map (fun c => c.energy)
        = ((a.emitSplit cluster (SplitClusters.allCellsAfterRead allCells cluster.hits)
            [(n + 1, []), (n + 2, [])] coc).cells.map (fun c => c.cellID)).map
            (a.energyOf (SplitClusters.cellsEnergy cluster.hits)) := by
      rw [List.map_map]
      apply List.map_congr_left
      intro c hc
      exact p5 c hc
    rw [q, (p1.map _).sum_eq, sum_energyOf_ids a cluster.hits hd, hE]
  refine ⟨_, _, _, hsplit, e1, rfl, rfl, e2, ?_, ?_⟩
  · have hl := p1.length_eq
    rw [e2] at hl
    simpa using hl
  · rw [← hcells, ← p3, e1]
    simp

/-- C11 (as amended). Two separated seeds: for every cluster with pairwise distinct,
non-zero cell identifiers whose energy is the sum of the energies of its cells,
consisting of exactly two cells of seed type above the threshold and of cells of type 2
each of which is a neighbour of one of the seeds, where each seed has at least 5
neighbours, all of them cells of type 2 of the cluster, where every such neighbour has
neighbours itself and none in the cluster outside the neighbourhood of its own seed,
and where the two neighbourhoods are disjoint: the splitter returns, emitting exactly
two clusters, both of type 2, whose hits are all the emitted cells, whose cell counts
sum to the input cell count and whose energies sum to the input energy; no left-over
cluster is emitted. -/
theorem two_separated_seeds (a : SplitClusters) (nClusters : Nat) (allCells : List (Nat × Int))
    (cluster : Cluster) (sA sB : CalorimeterHit)
    (hd : (cluster.hits.map (fun c => c.cellID)).Nodup)
    (hE : cluster.energy = (cluster.hits.map (fun c => c.energy)).sum)
    (h0 : ∀ c ∈ cluster.hits, c.cellID ≠ 0)
    (hA : sA ∈ cluster.hits) (hB : sB ∈ cluster.hits) (hAB : sA.cellID ≠ sB.cellID)
    (htA : sA.type = 1 ∧ sA.energy > a.threshold) (htB : sB.type = 1 ∧ sB.energy > a.threshold)
    (hrest : ∀ c ∈ cluster.hits, c = sA ∨ c = sB ∨
      (c.type = 2 ∧ (c.cellID ∈ a.neighbours sA.cellID ∨ c.cellID ∈ a.neighbours sB.cellID)))
    (hsA : SeparatedSeed a cluster.hits sA.cellID)
    (hsB : SeparatedSeed a cluster.hits sB.cellID)
    (hdisj : ∀ nb ∈ a.neighbours sA.cellID, nb ∉ a.neighbours sB.cellID) :
    ∃ out c1 c2, a.splitCluster nClusters allCells cluster = Except.ok out ∧
      out.clusters = [c1, c2] ∧ c1.type = 2 ∧ c2.type = 2 ∧
      out.cells = c1.hits ++ c2.hits ∧
      c1.hits.length + c2.hits.length = cluster.hits.length ∧
      c1.energy + c2.energy = cluster.energy := by
  rcases newSeeds_two a cluster.hits sA sB hd hA hB hAB htA htB
    (fun c hc => by
      rcases hrest c hc with h | h | h
      · exact Or.inl h
      · exact Or.inr (Or.inl h)
      · exact Or.inr (Or.inr h.1))
    ⟨hsA.1, fun nb hnb => (hsA.2 nb hnb).1⟩ ⟨hsB.1, fun nb hnb => (hsB.2 nb hnb).1⟩ with h | h
  · exact two_seeds_core a nClusters allCells cluster sA sB hd hE h0 h hA hB hAB htA.1 htB.1
      hrest hsA hsB hdisj
  · exact two_seeds_core a nClusters allCells cluster sB sA hd hE h0 h hB hA (Ne.symm hAB)
      htB.1 htA.1
      (fun c hc => by
        rcases hrest c hc with h | h | ⟨h3, h4⟩
        · exact Or.inr (Or.inl h)
        · exact Or.inl h
        · exact Or.inr (Or.inr ⟨h3, h4.symm⟩))
      hsB hsA (fun nb hnb hnb' => hdisj nb hnb' hnb)

theorem two_separated_seeds_witness :
    ∃ out c1 c2, apartSplitter.splitCluster 1 [] apartCluster = Except.ok out ∧
      out.clusters = [c1, c2] ∧ c1.type = 2 ∧ c2.type = 2 ∧
      out.cells = c1.hits ++ c2.hits ∧
      c1.hits.length + c2.hits.length = apartCluster.hits.length ∧
      c1.energy + c2.energy = apartCluster.energy :=
  two_separated_seeds apartSplitter 1 [] apartCluster ⟨1, 5, 1⟩ ⟨2, 6, 1⟩ (by decide)
    (by decide!) (by decide) (by decide!) (by decide!) (by decide) (by decide!) (by decide!)
    (by decide!) (by decide!) (by decide!) (by decide)

/-- C11 (as stated) fails: `apartCluster` consists of two seed cells above the threshold
and of ten cells of type 2, five of them the neighbours of the seed 1 and the other five
the neighbours of the seed 2. With a neighbour tool that knows no neighbour of these ten
cells both seeds are confirmed, and the growth stops in round 2 with
`StatusCode::FAILURE`: no cluster is emitted. -/
theorem separated_seeds_growth_fails :
    oneWaySplitter.neighbours 1 = [3, 4, 5, 6, 7] ∧
    oneWaySplitter.neighbours 2 = [8, 9, 10, 11, 12] ∧
    (apartCluster.hits.map (fun c => (c.cellID, c.type)))
      = [(1, 1), (2, 1), (3, 2), (4, 2), (5, 2), (6, 2), (7, 2), (8, 2), (9, 2), (10, 2),
         (11, 2), (12, 2)] ∧
    oneWaySplitter.newSeeds apartCluster.hits = [(1, 5), (2, 6)] ∧
    abortOf (oneWaySplitter.splitCluster 1 [] apartCluster) = some Abort.failure := by
  decide!

/-! ## The tower indices and fractions of a cell along one coordinate -/

theorem axis_upper_on_boundary (M d : ℚ) (i : Int) (hd : epsilon < d) :
    ⌊(((i : ℚ) + 1 / 2) * d - M + d / 2 - epsilon + M) / d⌋ = i := by
  have heps : (0 : ℚ) < epsilon := by unfold epsilon; norm_num
  apply floor_div_eq _ _ _ (by linarith)
  · linarith
  · linarith

theorem axis_lower_on_boundary (M d : ℚ) (i : Int) (hd : epsilon < d) :
    ⌊(((i : ℚ) + 1 / 2) * d - M + d / 2 + epsilon + M) / d⌋ = i + 1 := by
  have heps : (0 : ℚ) < epsilon := by unfold epsilon; norm_num
  apply floor_div_eq _ _ _ (by linarith)
  · push_cast; linarith
  · push_cast; linarith

theorem axis_extents (lo hi M d : ℚ) (hd : 0 < d) :
    epsilon ≤ |((⌊(lo + epsilon + M) / d⌋ : ℚ) + 1 / 2) * d - M + 1 / 2 * d - lo| ∧
    epsilon ≤ |hi - (((⌊(hi - epsilon + M) / d⌋ : ℚ) + 1 / 2) * d - M) + 1 / 2 * d| := by
  have h1 : (lo + epsilon + M) / d < (⌊(lo + epsilon + M) / d⌋ : ℚ) + 1 := Int.lt_floor_add_one _
  have h2 : (⌊(hi - epsilon + M) / d⌋ : ℚ) ≤ (hi - epsilon + M) / d := Int.floor_le _
  rw [div_lt_iff₀ hd] at h1
  rw [le_div_iff₀ hd] at h2
  constructor
  · exact le_trans (by linarith) (le_abs_self _)
  · exact le_trans (by linarith) (le_abs_self _)

theorem axis_overlap (lo hi M d w : ℚ) (iMin iMax : Int) (fmin fmax fmid : ℚ)
    (hd : 0 < d) (hw : 0 < w) (hwid : hi - lo = w)
    (hMin : iMin = ⌊(lo + epsilon + M) / d⌋) (hMax : iMax = ⌊(hi - epsilon + M) / d⌋)
    (hlt : iMin < iMax)
    (hlo : (iMin : ℚ) * d - M ≤ lo) (hhi : hi ≤ ((iMax : ℚ) + 1) * d - M)
    (hfmin : fmin = |((iMin : ℚ) + 1 / 2) * d - M + 1 / 2 * d - lo| / w)
    (hfmax : fmax = |hi - (((iMax : ℚ) + 1 / 2) * d - M) + 1 / 2 * d| / w)
    (hfmid : fmid = if iMax - iMin - 1 ≠ 0 then
        (1 - fmin - fmax) / ((iMax - iMin - 1 : Int) : ℚ) else 0) :
    (∀ i : Int, iMin ≤ i → i ≤ iMax →
      (if i = iMin then fmin else if i = iMax then fmax else fmid)
        = overlap lo hi (((i : ℚ) + 1 / 2) * d - M - d / 2) (((i : ℚ) + 1 / 2) * d - M + d / 2)
            / w) ∧
    (iMin + 1 < iMax → fmid = d / w) := by
  have heps : (0 : ℚ) < epsilon := by unfold epsilon; norm_num
  have h1 : (lo + epsilon + M) / d < (iMin : ℚ) + 1 := by
    rw [hMin]; exact Int.lt_floor_add_one _
  have h2 : (iMax : ℚ) ≤ (hi - epsilon + M) / d := by
    rw [hMax]; exact Int.floor_le _
  rw [div_lt_iff₀ hd] at h1
  rw [le_div_iff₀ hd] at h2
  have hq : (iMin : ℚ) + 1 ≤ (iMax : ℚ) := by exact_mod_cast hlt
  have hqd : ((iMin : ℚ) + 1) * d ≤ (iMax : ℚ) * d := mul_le_mul_of_nonneg_right hq (le_of_lt hd)
  have emin : fmin = (((iMin : ℚ) + 1) * d - M - lo) / w := by
    rw [hfmin, abs_of_nonneg (by linarith)]; congr 1; ring
  have emax : fmax = (hi - ((iMax : ℚ) * d - M)) / w := by
    rw [hfmax, abs_of_nonneg (by linarith)]; congr 1; ring
  have hmid : iMin + 1 < iMax → fmid = d / w := by
    intro h
    have hk : iMax - iMin - 1 ≠ 0 := by omega
    have hkq : ((iMax - iMin - 1 : Int) : ℚ) ≠ 0 := by exact_mod_cast hk
    rw [hfmid, if_pos hk, emin, emax]
    have hwne : w ≠ 0 := ne_of_gt hw
    rw [div_eq_div_iff hkq hwne]
    field_simp
    rw [← hwid]
    ring
  refine ⟨?_, hmid⟩
  intro i hi1 hi2
  unfold overlap
  by_cases ha : i = iMin
  · rw [if_pos ha, emin, ha]
    congr 1
    have e1 : min hi (((iMin : ℚ) + 1 / 2) * d - M + d / 2) = ((iMin : ℚ) + 1 / 2) * d - M + d / 2 :=
      min_eq_right (by linarith)
    have e2 : max lo (((iMin : ℚ) + 1 / 2) * d - M - d / 2) = lo := max_eq_left (by linarith)
    rw [e1, e2, max_eq_right (by linarith)]
    ring
  · rw [if_neg ha]
    have hi1' : iMin + 1 ≤ i := by omega
    have hiq : (iMin : ℚ) + 1 ≤ (i : ℚ) := by exact_mod_cast hi1'
    have hiqd : ((iMin : ℚ) + 1) * d ≤ (i : ℚ) * d := mul_le_mul_of_nonneg_right hiq (le_of_lt hd)
    by_cases hb : i = iMax
    · rw [if_pos hb, emax, hb]
      congr 1
      have e1 : min hi (((iMax : ℚ) + 1 / 2) * d - M + d / 2) = hi := min_eq_left (by linarith)
      have e2 : max lo (((iMax : ℚ) + 1 / 2) * d - M - d / 2)
          = ((iMax : ℚ) + 1 / 2) * d - M - d / 2 := max_eq_right (by linarith)
      rw [e1, e2, max_eq_right (by linarith)]
      ring
    · rw [if_neg hb]
      have hi2' : i + 1 ≤ iMax := by omega
      have hjq : (i : ℚ) + 1 ≤ (iMax : ℚ) := by exact_mod_cast hi2'
      have hjqd : ((i : ℚ) + 1) * d ≤ (iMax : ℚ) * d :=
        mul_le_mul_of_nonneg_right hjq (le_of_lt hd)
      rw [hmid (by omega)]
      congr 1
      have e1 : min hi (((i : ℚ) + 1 / 2) * d - M + d / 2) = ((i : ℚ) + 1 / 2) * d - M + d / 2 :=
        min_eq_right (by linarith)
      have e2 : max lo (((i : ℚ) + 1 / 2) * d - M - d / 2) = ((i : ℚ) + 1 / 2) * d - M - d / 2 :=
        max_eq_right (by linarith)
      rw [e1, e2, max_eq_right (by linarith)]
      ring

theorem fracEta_extents (t : CaloTowerTool) (s : GridPhiEta) (c : Nat)
    (hd : 0 < t.deltaEtaTower) (hw : 0 < s.gridSizeEta)
    (h1 : IsInt32 ⌊(CaloTowerTool.etaCellMin s c + epsilon + t.etaMax) / t.deltaEtaTower⌋)
    (h2 : IsInt32 ⌊(CaloTowerTool.etaCellMax s c - epsilon + t.etaMax) / t.deltaEtaTower⌋)
    (hne : t.iEtaMin s c ≠ t.iEtaMax s c) :
    epsilon ≤ t.fracEtaMin s c * s.gridSizeEta ∧ epsilon ≤ t.fracEtaMax s c * s.gridSizeEta := by
  have h := axis_extents (CaloTowerTool.etaCellMin s c) (CaloTowerTool.etaCellMax s c)
    t.etaMax t.deltaEtaTower hd
  unfold CaloTowerTool.fracEtaMin CaloTowerTool.fracEtaMax
  rw [if_pos hne, if_pos hne, div_mul_cancel₀ _ (ne_of_gt hw), div_mul_cancel₀ _ (ne_of_gt hw)]
  unfold CaloTowerTool.eta
  rw [iEtaMin_eq t s c h1, iEtaMax_eq t s c h2]
  exact h

theorem fracPhi_extents (t : CaloTowerTool) (s : GridPhiEta) (c : Nat)
    (hd : 0 < t.deltaPhiTower) (hw : 0 < 2 * M_PI / (s.phiBins : ℚ))
    (h1 : IsInt32 ⌊(CaloTowerTool.phiCellMin s c + epsilon + t.phiMax) / t.deltaPhiTower⌋)
    (h2 : IsInt32 ⌊(CaloTowerTool.phiCellMax s c - epsilon + t.phiMax) / t.deltaPhiTower⌋)
    (hne : t.iPhiMin s c ≠ t.iPhiMax s c) :
    epsilon ≤ t.fracPhiMin s c * (2 * M_PI / (s.phiBins : ℚ)) ∧
    epsilon ≤ t.fracPhiMax s c * (2 * M_PI / (s.phiBins : ℚ)) := by
  have h := axis_extents (CaloTowerTool.phiCellMin s c) (CaloTowerTool.phiCellMax s c)
    t.phiMax t.deltaPhiTower hd
  unfold CaloTowerTool.fracPhiMin CaloTowerTool.fracPhiMax
  rw [if_pos hne, if_pos hne, div_mul_cancel₀ _ (ne_of_gt hw), div_mul_cancel₀ _ (ne_of_gt hw)]
  unfold CaloTowerTool.phi
  rw [iPhiMin_eq t s c h1, iPhiMax_eq t s c h2]
  exact h

/-- C25: boundary resolution by the nudge. For a tool whose tower size exceeds `epsilon`:
a cell whose upper edge is the boundary between the towers `i` and `i + 1` has the last
tower index `i`, and a cell whose lower edge is the boundary between the towers `j` and
`j + 1` has the first tower index `j + 1`; when the first and last tower indices of a cell
differ, the extents `frac * cellWidth` given to the first and to the last tower are at
least `epsilon`. Both coordinates. -/
theorem boundary_resolved_by_nudge (t : CaloTowerTool) (s : GridPhiEta) (c : Nat) (i j : Int)
    (hi : IsInt32 i) (hj : IsInt32 (j + 1)) :
    (epsilon < t.deltaEtaTower →
      (CaloTowerTool.etaCellMax s c = t.eta i + t.deltaEtaTower / 2 → t.iEtaMax s c = i) ∧
      (CaloTowerTool.etaCellMin s c = t.eta j + t.deltaEtaTower / 2 → t.iEtaMin s c = j + 1) ∧
      (0 < s.gridSizeEta →
        IsInt32 ⌊(CaloTowerTool.etaCellMin s c + epsilon + t.etaMax) / t.deltaEtaTower⌋ →
        IsInt32 ⌊(CaloTowerTool.etaCellMax s c - epsilon + t.etaMax) / t.deltaEtaTower⌋ →
        t.iEtaMin s c ≠ t.iEtaMax s c →
        epsilon ≤ t.fracEtaMin s c * s.gridSizeEta ∧
        epsilon ≤ t.fracEtaMax s c * s.gridSizeEta)) ∧
    (epsilon < t.deltaPhiTower →
      (CaloTowerTool.phiCellMax s c = t.phi i + t.deltaPhiTower / 2 → t.iPhiMax s c = i) ∧
      (CaloTowerTool.phiCellMin s c = t.phi j + t.deltaPhiTower / 2 → t.iPhiMin s c = j + 1) ∧
      (0 < 2 * M_PI / (s.phiBins : ℚ) →
        IsInt32 ⌊(CaloTowerTool.phiCellMin s c + epsilon + t.phiMax) / t.deltaPhiTower⌋ →
        IsInt32 ⌊(CaloTowerTool.phiCellMax s c - epsilon + t.phiMax) / t.deltaPhiTower⌋ →
        t.iPhiMin s c ≠ t.iPhiMax s c →
        epsilon ≤ t.fracPhiMin s c * (2 * M_PI / (s.phiBins : ℚ)) ∧
        epsilon ≤ t.fracPhiMax s c * (2 * M_PI / (s.phiBins : ℚ)))) := by
  have heps : (0 : ℚ) < epsilon := by unfold epsilon; norm_num
  refine ⟨fun hd => ⟨?_, ?_, ?_⟩, fun hd => ⟨?_, ?_, ?_⟩⟩
  · intro h
    unfold CaloTowerTool.iEtaMax CaloTowerTool.idEta
    rw [h]
    unfold CaloTowerTool.eta
    rw [axis_upper_on_boundary t.etaMax t.deltaEtaTower i hd]
    exact toInt_toUInt hi
  · intro h
    unfold CaloTowerTool.iEtaMin CaloTowerTool.idEta
    rw [h]
    unfold CaloTowerTool.eta
    rw [axis_lower_on_boundary t.etaMax t.deltaEtaTower j hd]
    exact toInt_toUInt hj
  · intro hw h1 h2 hne
    exact fracEta_extents t s c (lt_trans heps hd) hw h1 h2 hne
  · intro h
    unfold CaloTowerTool.iPhiMax CaloTowerTool.idPhi
    rw [h]
    unfold CaloTowerTool.phi
    rw [axis_upper_on_boundary t.phiMax t.deltaPhiTower i hd]
    exact toInt_toUInt hi
  · intro h
    unfold CaloTowerTool.iPhiMin CaloTowerTool.idPhi
    rw [h]
    unfold CaloTowerTool.phi
    rw [axis_lower_on_boundary t.phiMax t.deltaPhiTower j hd]
    exact toInt_toUInt hj
  · intro hw h1 h2 hne
    exact fracPhi_extents t s c (lt_trans heps hd) hw h1 h2 hne

theorem boundary_resolved_by_nudge_witness :
    (sixPhiTool.iEtaMax tripleGrid 1 = 3 ∧ sixPhiTool.iEtaMin tripleGrid 1 = 0 + 1 ∧
      epsilon ≤ sixPhiTool.fracEtaMin tripleGrid 1 * tripleGrid.gridSizeEta ∧
      epsilon ≤ sixPhiTool.fracEtaMax tripleGrid 1 * tripleGrid.gridSizeEta) ∧
    (sixPhiTool.iPhiMax tripleGrid 1 = 4 ∧ sixPhiTool.iPhiMin tripleGrid 1 = 1 + 1 ∧
      epsilon ≤ sixPhiTool.fracPhiMin tripleGrid 1 * (2 * M_PI / (tripleGrid.phiBins : ℚ)) ∧
      epsilon ≤ sixPhiTool.fracPhiMax tripleGrid 1 * (2 * M_PI / (tripleGrid.phiBins : ℚ))) :=
  ⟨⟨((boundary_resolved_by_nudge sixPhiTool tripleGrid 1 3 0 (by decide) (by decide)).1
        (by decide!)).1 (by decide!),
    ((boundary_resolved_by_nudge sixPhiTool tripleGrid 1 3 0 (by decide) (by decide)).1
        (by decide!)).2.1 (by decide!),
    ((boundary_resolved_by_nudge sixPhiTool tripleGrid 1 3 0 (by decide) (by decide)).1
        (by decide!)).2.2 (by decide!) (by decide!) (by decide!) (by decide!)⟩,
   ⟨((boundary_resolved_by_nudge sixPhiTool tripleGrid 1 4 1 (by decide) (by decide)).2
        (by decide!)).1 (by decide!),
    ((boundary_resolved_by_nudge sixPhiTool tripleGrid 1 4 1 (by decide) (by decide)).2
        (by decide!)).2.1 (by decide!),
    ((boundary_resolved_by_nudge sixPhiTool tripleGrid 1 4 1 (by decide) (by decide)).2
        (by decide!)).2.2 (by decide!) (by decide!) (by decide!) (by decide!)⟩⟩

/-- C29: per-axis fractions sum to one. For a tool of positive tower size, a grid of
positive cell size and a cell whose edge indices are `int` values: whenever the first
tower index is at most the last, the fractions given to the towers `iMin..iMax` sum to
exactly 1; the single fraction is 1 when `iMin = iMax`, and when `iMax = iMin + 1` the
middle fraction is 0 and the first and last fractions sum to 1. Both coordinates. -/
theorem axis_fractions_sum_to_one (t : CaloTowerTool) (s : GridPhiEta) (c : Nat) :
    (0 < t.deltaEtaTower → 0 < s.gridSizeEta →
      IsInt32 ⌊(CaloTowerTool.etaCellMin s c + epsilon + t.etaMax) / t.deltaEtaTower⌋ →
      IsInt32 ⌊(CaloTowerTool.etaCellMax s c - epsilon + t.etaMax) / t.deltaEtaTower⌋ →
      t.iEtaMin s c ≤ t.iEtaMax s c →
      ((intRange (t.iEtaMin s c) (t.iEtaMax s c)).map (fun i => t.ratioEta s c i)).sum = 1 ∧
      (t.iEtaMin s c = t.iEtaMax s c → t.ratioEta s c (t.iEtaMin s c) = 1) ∧
      (t.iEtaMax s c = t.iEtaMin s c + 1 →
        t.fracEtaMiddle s c = 0 ∧ t.fracEtaMin s c + t.fracEtaMax s c = 1)) ∧
    (0 < t.deltaPhiTower → 0 < 2 * M_PI / (s.phiBins : ℚ) →
      IsInt32 ⌊(CaloTowerTool.phiCellMin s c + epsilon + t.phiMax) / t.deltaPhiTower⌋ →
      IsInt32 ⌊(CaloTowerTool.phiCellMax s c - epsilon + t.phiMax) / t.deltaPhiTower⌋ →
      t.iPhiMin s c ≤ t.iPhiMax s c →
      ((intRange (t.iPhiMin s c) (t.iPhiMax s c)).map (fun i => t.ratioPhi s c i)).sum = 1 ∧
      (t.iPhiMin s c = t.iPhiMax s c → t.ratioPhi s c (t.iPhiMin s c) = 1) ∧
      (t.iPhiMax s c = t.iPhiMin s c + 1 →
        t.fracPhiMiddle s c = 0 ∧ t.fracPhiMin s c + t.fracPhiMax s c = 1)) := by
  constructor
  · intro hd hw h1 h2 hle
    have hsum := ratioEta_sum t s c hd hw h1 h2 hle
    refine ⟨hsum, ?_, ?_⟩
    · intro h
      unfold CaloTowerTool.ratioEta CaloTowerTool.fracEtaMin
      rw [if_pos rfl, if_neg (not_not.2 h)]
    · intro h
      have hne : t.iEtaMin s c ≠ t.iEtaMax s c := by omega
      constructor
      · unfold CaloTowerTool.fracEtaMiddle
        rw [if_pos hne, if_neg (not_not.2 (by omega))]
      · rw [h, intRange_succ] at hsum
        unfold CaloTowerTool.ratioEta at hsum
        rw [h] at hsum
        simpa using hsum
  · intro hd hw h1 h2 hle
    have hsum := ratioPhi_sum t s c hd hw h1 h2 hle
    refine ⟨hsum, ?_, ?_⟩
    · intro h
      unfold CaloTowerTool.ratioPhi CaloTowerTool.fracPhiMin
      rw [if_pos rfl, if_neg (not_not.2 h)]
    · intro h
      have hne : t.iPhiMin s c ≠ t.iPhiMax s c := by omega
      constructor
      · unfold CaloTowerTool.fracPhiMiddle
        rw [if_pos hne, if_neg (not_not.2 (by omega))]
      · rw [h, intRange_succ] at hsum
        unfold CaloTowerTool.ratioPhi at hsum
        rw [h] at hsum
        simpa using hsum

theorem axis_fractions_sum_to_one_witness :
    (((intRange (sixPhiTool.iEtaMin shiftedTripleGrid 1)
          (sixPhiTool.iEtaMax shiftedTripleGrid 1)).map
        (fun i => sixPhiTool.ratioEta shiftedTripleGrid 1 i)).sum = 1 ∧
      quarterTurnTool.ratioEta quarterTurnGrid 1 (quarterTurnTool.iEtaMin quarterTurnGrid 1) = 1 ∧
      (quarterTurnTool.fracEtaMiddle doubleGrid 1 = 0 ∧
        quarterTurnTool.fracEtaMin doubleGrid 1 + quarterTurnTool.fracEtaMax doubleGrid 1 = 1)) ∧
    (((intRange (sixPhiTool.iPhiMin shiftedTripleGrid 1)
          (sixPhiTool.iPhiMax shiftedTripleGrid 1)).map
        (fun i => sixPhiTool.ratioPhi shiftedTripleGrid 1 i)).sum = 1 ∧
      quarterTurnTool.ratioPhi quarterTurnGrid 1 (quarterTurnTool.iPhiMin quarterTurnGrid 1) = 1 ∧
      (quarterTurnTool.fracPhiMiddle doubleGrid 1 = 0 ∧
        quarterTurnTool.fracPhiMin doubleGrid 1 + quarterTurnTool.fracPhiMax doubleGrid 1 = 1)) :=
  ⟨⟨((axis_fractions_sum_to_one sixPhiTool shiftedTripleGrid 1).1
        (by decide!) (by decide!) (by decide!) (by decide!) (by decide!)).1,
    ((axis_fractions_sum_to_one quarterTurnTool quarterTurnGrid 1).1
        (by decide!) (by decide!) (by decide!) (by decide!) (by decide!)).2.1 (by decide!),
    ((axis_fractions_sum_to_one quarterTurnTool doubleGrid 1).1
        (by decide!) (by decide!) (by decide!) (by decide!) (by decide!)).2.2 (by decide!)⟩,
   ⟨((axis_fractions_sum_to_one sixPhiTool shiftedTripleGrid 1).2
        (by decide!) (by decide!) (by decide!) (by decide!) (by decide!)).1,
    ((axis_fractions_sum_to_one quarterTurnTool quarterTurnGrid 1).2
        (by decide!) (by decide!) (by decide!) (by decide!) (by decide!)).2.1 (by decide!),
    ((axis_fractions_sum_to_one quarterTurnTool doubleGrid 1).2
        (by decide!) (by decide!) (by decide!) (by decide!) (by decide!)).2.2 (by decide!)⟩⟩

/-- C30: the fractions are the exact 1-D overlap. For a tool of positive tower size, a
grid of positive cell size and a cell whose edge indices are `int` values, whose first and
last tower indices differ, whose lower edge is not below its first tower and whose upper
edge is not above its last tower: the fraction given to each tower of `iMin..iMax` is the
length of the intersection of the cell interval with the tower interval divided by the
cell width, and with a tower strictly between the first and the last one the middle
fraction is `towerSize / cellWidth`. Both coordinates. -/
theorem fractions_are_overlaps (t : CaloTowerTool) (s : GridPhiEta) (c : Nat) :
    (0 < t.deltaEtaTower → 0 < s.gridSizeEta →
      IsInt32 ⌊(CaloTowerTool.etaCellMin s c + epsilon + t.etaMax) / t.deltaEtaTower⌋ →
      IsInt32 ⌊(CaloTowerTool.etaCellMax s c - epsilon + t.etaMax) / t.deltaEtaTower⌋ →
      t.iEtaMin s c < t.iEtaMax s c →
      t.eta (t.iEtaMin s c) - t.deltaEtaTower / 2 ≤ CaloTowerTool.etaCellMin s c →
      CaloTowerTool.etaCellMax s c ≤ t.eta (t.iEtaMax s c) + t.deltaEtaTower / 2 →
      (intRange (t.iEtaMin s c) (t.iEtaMax s c)).map (fun i => t.ratioEta s c i)
        = (intRange (t.iEtaMin s c) (t.iEtaMax s c)).map (fun i =>
            overlap (CaloTowerTool.etaCellMin s c) (CaloTowerTool.etaCellMax s c)
              (t.eta i - t.deltaEtaTower / 2) (t.eta i + t.deltaEtaTower / 2) / s.gridSizeEta) ∧
      (t.iEtaMin s c + 1 < t.iEtaMax s c →
        t.fracEtaMiddle s c = t.deltaEtaTower / s.gridSizeEta)) ∧
    (0 < t.deltaPhiTower → 0 < 2 * M_PI / (s.phiBins : ℚ) →
      IsInt32 ⌊(CaloTowerTool.phiCellMin s c + epsilon + t.phiMax) / t.deltaPhiTower⌋ →
      IsInt32 ⌊(CaloTowerTool.phiCellMax s c - epsilon + t.phiMax) / t.deltaPhiTower⌋ →
      t.iPhiMin s c < t.iPhiMax s c →
      t.phi (t.iPhiMin s c) - t.deltaPhiTower / 2 ≤ CaloTowerTool.phiCellMin s c →
      CaloTowerTool.phiCellMax s c ≤ t.phi (t.iPhiMax s c) + t.deltaPhiTower / 2 →
      (intRange (t.iPhiMin s c) (t.iPhiMax s c)).map (fun i => t.ratioPhi s c i)
        = (intRange (t.iPhiMin s c) (t.iPhiMax s c)).map (fun i =>
            overlap (CaloTowerTool.phiCellMin s c) (CaloTowerTool.phiCellMax s c)
              (t.phi i - t.deltaPhiTower / 2) (t.phi i + t.deltaPhiTower / 2)
              / (2 * M_PI / (s.phiBins : ℚ))) ∧
      (t.iPhiMin s c + 1 < t.iPhiMax s c →
        t.fracPhiMiddle s c = t.deltaPhiTower / (2 * M_PI / (s.phiBins : ℚ)))) := by
  constructor
  · intro hd hw h1 h2 hlt hlo hhi
    have hne : t.iEtaMin s c ≠ t.iEtaMax s c := ne_of_lt hlt
    have key := axis_overlap (CaloTowerTool.etaCellMin s c) (CaloTowerTool.etaCellMax s c)
      t.etaMax t.deltaEtaTower s.gridSizeEta (t.iEtaMin s c) (t.iEtaMax s c)
      (t.fracEtaMin s c) (t.fracEtaMax s c) (t.fracEtaMiddle s c) hd hw
      (by unfold CaloTowerTool.etaCellMin CaloTowerTool.etaCellMax; ring)
      (iEtaMin_eq t s c h1) (iEtaMax_eq t s c h2) hlt
      (by unfold CaloTowerTool.eta at hlo; linarith)
      (by unfold CaloTowerTool.eta at hhi; linarith)
      (by unfold CaloTowerTool.fracEtaMin CaloTowerTool.eta; rw [if_pos hne])
      (by unfold CaloTowerTool.fracEtaMax CaloTowerTool.eta; rw [if_pos hne])
      (by unfold CaloTowerTool.fracEtaMiddle; rw [if_pos hne])
    refine ⟨?_, key.2⟩
    apply List.map_congr_left
    intro i hi
    have hb := mem_intRange hi
    unfold CaloTowerTool.ratioEta CaloTowerTool.eta
    exact key.1 i hb.1 hb.2
  · intro hd hw h1 h2 hlt hlo hhi
    have hne : t.iPhiMin s c ≠ t.iPhiMax s c := ne_of_lt hlt
    have key := axis_overlap (CaloTowerTool.phiCellMin s c) (CaloTowerTool.phiCellMax s c)
      t.phiMax t.deltaPhiTower (2 * M_PI / (s.phiBins : ℚ)) (t.iPhiMin s c) (t.iPhiMax s c)
      (t.fracPhiMin s c) (t.fracPhiMax s c) (t.fracPhiMiddle s c) hd hw
      (by unfold CaloTowerTool.phiCellMin CaloTowerTool.phiCellMax; ring)
      (iPhiMin_eq t s c h1) (iPhiMax_eq t s c h2) hlt
      (by unfold CaloTowerTool.phi at hlo; linarith)
      (by unfold CaloTowerTool.phi at hhi; linarith)
      (by unfold CaloTowerTool.fracPhiMin CaloTowerTool.phi; rw [if_pos hne])
      (by unfold CaloTowerTool.fracPhiMax CaloTowerTool.phi; rw [if_pos hne])
      (by unfold CaloTowerTool.fracPhiMiddle; rw [if_pos hne])
    refine ⟨?_, key.2⟩
    apply List.map_congr_left
    intro i hi
    have hb := mem_intRange hi
    unfold CaloTowerTool.ratioPhi CaloTowerTool.phi
    exact key.1 i hb.1 hb.2

theorem fractions_are_overlaps_witness :
    ((intRange (sixPhiTool.iEtaMin shiftedTripleGrid 1)
          (sixPhiTool.iEtaMax shiftedTripleGrid 1)).map
        (fun i => sixPhiTool.ratioEta shiftedTripleGrid 1 i)
        = (intRange (sixPhiTool.iEtaMin shiftedTripleGrid 1)
            (sixPhiTool.iEtaMax shiftedTripleGrid 1)).map (fun i =>
            overlap (CaloTowerTool.etaCellMin shiftedTripleGrid 1)
              (CaloTowerTool.etaCellMax shiftedTripleGrid 1)
              (sixPhiTool.eta i - sixPhiTool.deltaEtaTower / 2)
              (sixPhiTool.eta i + sixPhiTool.deltaEtaTower / 2)
              / shiftedTripleGrid.gridSizeEta) ∧
      sixPhiTool.fracEtaMiddle shiftedTripleGrid 1
        = sixPhiTool.deltaEtaTower / shiftedTripleGrid.gridSizeEta) ∧
    ((intRange (sixPhiTool.iPhiMin shiftedTripleGrid 1)
          (sixPhiTool.iPhiMax shiftedTripleGrid 1)).map
        (fun i => sixPhiTool.ratioPhi shiftedTripleGrid 1 i)
        = (intRange (sixPhiTool.iPhiMin shiftedTripleGrid 1)
            (sixPhiTool.iPhiMax shiftedTripleGrid 1)).map (fun i =>
            overlap (CaloTowerTool.phiCellMin shiftedTripleGrid 1)
              (CaloTowerTool.phiCellMax shiftedTripleGrid 1)
              (sixPhiTool.phi i - sixPhiTool.deltaPhiTower / 2)
              (sixPhiTool.phi i + sixPhiTool.deltaPhiTower / 2)
              / (2 * M_PI / (shiftedTripleGrid.phiBins : ℚ))) ∧
      sixPhiTool.fracPhiMiddle shiftedTripleGrid 1
        = sixPhiTool.deltaPhiTower / (2 * M_PI / (shiftedTripleGrid.phiBins : ℚ))) :=
  ⟨⟨((fractions_are_overlaps sixPhiTool shiftedTripleGrid 1).1 (by decide!) (by decide!)
        (by decide!) (by decide!) (by decide!) (by decide!) (by decide!)).1,
    ((fractions_are_overlaps sixPhiTool shiftedTripleGrid 1).1 (by decide!) (by decide!)
        (by decide!) (by decide!) (by decide!) (by decide!) (by decide!)).2 (by decide!)⟩,
   ⟨((fractions_are_overlaps sixPhiTool shiftedTripleGrid 1).2 (by decide!) (by decide!)
        (by decide!) (by decide!) (by decide!) (by decide!) (by decide!)).1,
    ((fractions_are_overlaps sixPhiTool shiftedTripleGrid 1).2 (by decide!) (by decide!)
        (by decide!) (by decide!) (by decide!) (by decide!) (by decide!)).2 (by decide!)⟩⟩

/-! ## The layered tool: layer restriction and cell attachment -/

theorem foldlM_option_const {σ ι : Type} (f : σ → ι → Option σ) (l : List ι) (s : σ)
    (hf : ∀ s x, f s x = some s) : l.foldlM f s = some s := by
  induction l with
  | nil => rfl
  | cons x xs ih => rw [List.foldlM_cons, hf]; exact ih

theorem layered_towerLoop_outside (t : LayeredCaloTowerTool) (r : LayeredReadout)
    (cell : CalorimeterHit) (g : Towers) (h : r.addLayerRestriction = 1)
    (hout : ¬ (r.minimumLayer ≤ ((r.layer cell.cellID : Int) : ℚ)
      ∧ ((r.layer cell.cellID : Int) : ℚ) ≤ r.maximumLayer)) :
    t.towerLoop r cell g = some g := by
  unfold LayeredCaloTowerTool.towerLoop
  apply foldlM_option_const
  intro g iEta
  apply foldlM_option_const
  intro g iPhi
  unfold LayeredCaloTowerTool.deposit
  rw [if_pos h, if_neg (fun hc => hout ⟨hc.1, hc.2⟩)]

theorem layered_towerLoop_inside (t : LayeredCaloTowerTool) (r : LayeredReadout)
    (cell : CalorimeterHit) (g : Towers) (h : r.addLayerRestriction = 1)
    (hin : r.minimumLayer ≤ ((r.layer cell.cellID : Int) : ℚ)
      ∧ ((r.layer cell.cellID : Int) : ℚ) ≤ r.maximumLayer) :
    t.towerLoop r cell g = t.towerLoop { r with addLayerRestriction := 0 } cell g := by
  unfold LayeredCaloTowerTool.towerLoop
  have e : ∀ iEta iPhi g, t.deposit r cell iEta iPhi g
      = t.deposit { r with addLayerRestriction := 0 } cell iEta iPhi g := by
    intro iEta iPhi g
    unfold LayeredCaloTowerTool.deposit
    rw [if_pos h, if_pos ⟨hin.1, hin.2⟩, if_neg (by norm_num)]
  simp only [e]

theorem layered_cells_prefilter (t : LayeredCaloTowerTool) (r : LayeredReadout)
    (cells : List CalorimeterHit) (g : Towers) (h : r.addLayerRestriction = 1) :
    cells.foldlM (fun g cell => t.towerLoop r cell g) g
      = (cellsInLayerRange r cells).foldlM
          (fun g cell => t.towerLoop { r with addLayerRestriction := 0 } cell g) g := by
  induction cells generalizing g with
  | nil => rfl
  | cons c cs ih =>
    unfold cellsInLayerRange
    rw [List.foldlM_cons]
    by_cases hin : r.minimumLayer ≤ ((r.layer c.cellID : Int) : ℚ)
        ∧ ((r.layer c.cellID : Int) : ℚ) ≤ r.maximumLayer
    · rw [List.filter_cons_of_pos (by simpa using hin), List.foldlM_cons,
        layered_towerLoop_inside t r c g h hin]
      cases t.towerLoop { r with addLayerRestriction := 0 } c g with
      | none => rfl
      | some g' => exact ih g'
    · rw [List.filter_cons_of_neg (by simpa using hin), layered_towerLoop_outside t r c g h hin]
      exact ih g

theorem layered_buildTowers_grid (t : LayeredCaloTowerTool) (r : LayeredReadout)
    (cells : List CalorimeterHit) (g : Towers) :
    (t.buildTowers r cells g).map Prod.fst
      = cells.foldlM (fun g cell => t.towerLoop r cell g) g := by
  unfold LayeredCaloTowerTool.buildTowers
  cases cells.foldlM (fun g cell => t.towerLoop r cell g) g <;> rfl

/-- C26: the layer-range filter is a pre-filter. With the layer restriction active, the
tower grid produced by `LayeredCaloTowerTool::buildTowers` from an input collection is the
grid the build without restriction produces from the cells whose layer lies in the
inclusive range from `minimumLayer` to `maximumLayer` (both builds are defined or
undefined together); a cell whose layer equals `minimumLayer` or `maximumLayer` of a
non-empty range contributes as without restriction, a cell outside the range leaves the
grid as it is. -/
theorem layer_filter_is_prefilter (t : LayeredCaloTowerTool) (r : LayeredReadout)
    (cells : List CalorimeterHit) (aTowers : Towers) (h : r.addLayerRestriction = 1) :
    (t.buildTowers r cells aTowers).map Prod.fst = buildTowersPrefiltered t r cells aTowers ∧
    (∀ cell : CalorimeterHit, r.minimumLayer ≤ r.maximumLayer →
      (((r.layer cell.cellID : Int) : ℚ) = r.minimumLayer
        ∨ ((r.layer cell.cellID : Int) : ℚ) = r.maximumLayer) →
      (t.buildTowers r [cell] aTowers).map Prod.fst
        = (t.buildTowers { r with addLayerRestriction := 0 } [cell] aTowers).map Prod.fst) ∧
    (∀ cell : CalorimeterHit,
      (((r.layer cell.cellID : Int) : ℚ) < r.minimumLayer
        ∨ r.maximumLayer < ((r.layer cell.cellID : Int) : ℚ)) →
      (t.buildTowers r [cell] aTowers).map Prod.fst = some aTowers) := by
  have main : ∀ cs : List CalorimeterHit,
      (t.buildTowers r cs aTowers).map Prod.fst = buildTowersPrefiltered t r cs aTowers := by
    intro cs
    unfold buildTowersPrefiltered
    rw [layered_buildTowers_grid, layered_buildTowers_grid]
    exact layered_cells_prefilter t r cs aTowers h
  refine ⟨main cells, ?_, ?_⟩
  · intro cell hle hb
    rw [main [cell]]
    unfold buildTowersPrefiltered cellsInLayerRange
    have hin : r.minimumLayer ≤ ((r.layer cell.cellID : Int) : ℚ)
        ∧ ((r.layer cell.cellID : Int) : ℚ) ≤ r.maximumLayer := by
      rcases hb with hb | hb
      · rw [hb]; exact ⟨le_refl _, hle⟩
      · rw [hb]; exact ⟨hle, le_refl _⟩
    rw [List.filter_cons_of_pos (by simpa using hin)]
    rfl
  · intro cell hout
    rw [main [cell]]
    unfold buildTowersPrefiltered cellsInLayerRange
    have hnot : ¬ (r.minimumLayer ≤ ((r.layer cell.cellID : Int) : ℚ)
        ∧ ((r.layer cell.cellID : Int) : ℚ) ≤ r.maximumLayer) := by
      rintro ⟨h1, h2⟩
      rcases hout with h3 | h3
      · exact absurd h1 (not_le.2 h3)
      · exact absurd h2 (not_le.2 h3)
    rw [List.filter_cons_of_neg (by simpa using hnot)]
    rfl

theorem layer_filter_is_prefilter_witness :
    (quarterTurnLayeredTool.buildTowers idLayerReadout [cellFive, cellNine, cellThree]
        (zeroTowers 2 4)).map Prod.fst
      = buildTowersPrefiltered quarterTurnLayeredTool idLayerReadout
          [cellFive, cellNine, cellThree] (zeroTowers 2 4) ∧
    (quarterTurnLayeredTool.buildTowers idLayerReadout [cellThree] (zeroTowers 2 4)).map Prod.fst
      = (quarterTurnLayeredTool.buildTowers { idLayerReadout with addLayerRestriction := 0 }
          [cellThree] (zeroTowers 2 4)).map Prod.fst ∧
    (quarterTurnLayeredTool.buildTowers idLayerReadout [cellNine] (zeroTowers 2 4)).map Prod.fst
      = some (zeroTowers 2 4) ∧
    buildTowersPrefiltered quarterTurnLayeredTool idLayerReadout
        [cellFive, cellNine, cellThree] (zeroTowers 2 4)
      = some [[0, 0, 0, 0], [0, 0, 8, 0]] :=
  ⟨(layer_filter_is_prefilter quarterTurnLayeredTool idLayerReadout
      [cellFive, cellNine, cellThree] (zeroTowers 2 4) (by decide!)).1,
   (layer_filter_is_prefilter quarterTurnLayeredTool idLayerReadout
      [cellFive, cellNine, cellThree] (zeroTowers 2 4) (by decide!)).2.1 cellThree
      (by decide!) (Or.inr (by decide!)),
   (layer_filter_is_prefilter quarterTurnLayeredTool idLayerReadout
      [cellFive, cellNine, cellThree] (zeroTowers 2 4) (by decide!)).2.2 cellNine
      (Or.inr (by decide!)),
   by decide!⟩

/-- C27: `LayeredCaloTowerTool::attachCells` compares the phi tower indices without
wraparound. With four phi towers, a cluster centre in the phi tower 0 and `halfPhiFin = 1`,
the cell 3 sits in the phi tower `nPhiTower - 1 = 3`, which `phiNeighbour` gives as the
neighbour `0 - 1` of the tower 0, and it is not attached: the layered tool attaches the
cells 0 and 1 only, while `CaloTowerTool::attachCells` on the towers built from the same
cells attaches the cells 3, 0 and 1. -/
theorem layered_attach_without_wraparound :
    fourPhiLayeredTool.nPhiTower = 4 ∧
    fourPhiLayeredTool.idPhi (-3 / 2) = 0 ∧
    fourPhiLayeredTool.idPhi (ringGrid.phi 3) = 3 ∧
    fourPhiLayeredTool.idEta (ringGrid.eta 3) = fourPhiLayeredTool.idEta (1 / 2) ∧
    fourPhiLayeredTool.phiNeighbour (0 - 1) = 3 ∧
    fourPhiLayeredTool.inWindow ringGrid (1 / 2) (-3 / 2) 0 1 ⟨3, 1, 0⟩ = false ∧
    fourPhiLayeredTool.attachCells ringGrid ringCells (1 / 2) (-3 / 2) 0 1 [] []
      = ([⟨0, 1, 0⟩, ⟨1, 1, 0⟩], [⟨0, 1, 0⟩, ⟨1, 1, 0⟩]) ∧
    (fourPhiTool.CellsIntoTowers ringCells (Segmentation.kPhiEta ringGrid) true
        (zeroTowers 2 4, [])).map
      (fun st => (fourPhiTool.attachCells (1 / 2) (-3 / 2) 0 1 false st.2 [] []).hits)
      = some [⟨3, 1, 0⟩, ⟨0, 1, 0⟩, ⟨1, 1, 0⟩] := by
  decide!

/-! ## The content of the tower-to-cells index -/

theorem mapFind_mapReplace {κ α : Type} [DecidableEq κ] (m : List (κ × α)) (k k' : κ) (v : α) :
    mapFind (mapReplace m k v) k'
      = if k = k' then (mapFind m k).map (fun _ => v) else mapFind m k' := by
  induction m with
  | nil => simp [mapReplace, mapFind]
  | cons e m ih =>
    obtain ⟨a, w⟩ := e
    unfold mapReplace
    by_cases h1 : a = k
    · rw [if_pos h1]
      unfold mapFind
      by_cases h2 : k = k'
      · rw [if_pos h2, if_pos (h1.trans h2), if_pos h1]; rfl
      · rw [if_neg h2, if_neg (fun h => h2 (h1.symm.trans h)), if_neg (fun h => h2 (h1.symm.trans h))]
    · rw [if_neg h1]
      unfold mapFind
      by_cases h3 : a = k'
      · rw [if_pos h3, if_pos h3, if_neg (fun h => h1 (h3.trans h.symm))]
      · rw [if_neg h3, if_neg h3, if_neg h1]
        exact ih

theorem mapFind_mapAssign {κ α : Type} [DecidableEq κ] (lt : κ → κ → Bool) (m : List (κ × α))
    (k k' : κ) (v : α) :
    mapFind (mapAssign lt m k v) k' = if k = k' then some v else mapFind m k' := by
  unfold mapAssign
  cases h : mapFind m k with
  | none => exact mapFind_mapInsert lt m k k' v h
  | some w =>
    dsimp only
    rw [mapFind_mapReplace, h]
    rfl

theorem mapGet_pushCell (m : CellsInTowers) (key key' : Nat × Nat) (cell : CalorimeterHit) :
    mapGet (CaloTowerTool.pushCell m key cell) key' []
      = mapGet m key' [] ++ (if key = key' then [cell] else []) := by
  unfold CaloTowerTool.pushCell mapGet
  rw [mapFind_mapAssign]
  by_cases h : key = key'
  · rw [if_pos h, if_pos h, h]; rfl
  · rw [if_neg h, if_neg h, List.append_nil]

theorem mapGet_cleared (m : CellsInTowers) (key : Nat × Nat) :
    mapGet (m.map (fun towerInMap => (towerInMap.1, ([] : List CalorimeterHit)))) key [] = [] := by
  unfold mapGet
  induction m with
  | nil => rfl
  | cons e m ih =>
    rw [List.map_cons]
    unfold mapFind
    by_cases h : e.1 = key
    · rw [if_pos h]; rfl
    · rw [if_neg h]; exact ih

theorem foldlM_option_acc {σ ι α : Type} (g : σ → List α) (h : ι → List α)
    (f : σ → ι → Option σ) (l : List ι)
    (hf : ∀ x ∈ l, ∀ s s', f s x = some s' → g s' = g s ++ h x) (s s' : σ)
    (hs : l.foldlM f s = some s') : g s' = g s ++ l.flatMap h := by
  induction l generalizing s with
  | nil =>
    have e : s = s' := by simpa using hs
    rw [e, List.flatMap_nil, List.append_nil]
  | cons x xs ih =>
    rw [List.foldlM_cons] at hs
    cases hx : f s x with
    | none => rw [hx] at hs; cases hs
    | some s1 =>
      rw [hx] at hs
      have h1 := hf x (List.mem_cons_self _ _) s s1 hx
      have h2 := ih (fun y hy => hf y (List.mem_cons_of_mem _ hy)) s1 hs
      rw [h2, h1, List.flatMap_cons, List.append_assoc]

theorem flatMap_ite_map {ι κ α : Type} [DecidableEq κ] (l : List ι) (f : ι → κ) (key : κ)
    (c : α) :
    l.flatMap (fun x => if f x = key then [c] else [])
      = ((l.map f).filter (fun k => decide (k = key))).map (fun _ => c) := by
  induction l with
  | nil => rfl
  | cons x xs ih =>
    rw [List.flatMap_cons, ih, List.map_cons]
    by_cases h : f x = key
    · rw [if_pos h, List.filter_cons_of_pos (by simpa using h)]; rfl
    · rw [if_neg h, List.filter_cons_of_neg (by simpa using h)]; rfl

theorem filter_map_flatMap {ι κ α : Type} (l : List ι) (f : ι → List κ) (p : κ → Bool) (c : α) :
    ((l.flatMap f).filter p).map (fun _ => c)
      = l.flatMap (fun x => ((f x).filter p).map (fun _ => c)) := by
  induction l with
  | nil => rfl
  | cons x xs ih =>
    rw [List.flatMap_cons, List.flatMap_cons, List.filter_append, List.map_append, ih]

theorem deposit_index (t : CaloTowerTool) (s : GridPhiEta) (cell : CalorimeterHit)
    (iEta iPhi : Int) (key : Nat × Nat) (st st' : Towers × CellsInTowers)
    (h : t.deposit s true cell iEta iPhi st = some st') :
    mapGet st'.2 key [] = mapGet st.2 key []
      ++ (if (toUInt iEta, t.phiNeighbour iPhi) = key then [cell] else []) := by
  unfold CaloTowerTool.deposit at h
  cases hg : addTower st.1 iEta (t.phiNeighbour iPhi)
      (cell.energy / t.cosh (s.eta cell.cellID) * t.ratioEta s cell.cellID iEta
        * t.ratioPhi s cell.cellID iPhi) with
  | none => rw [hg] at h; cases h
  | some g =>
    rw [hg] at h
    have e : st' = (g, CaloTowerTool.pushCell st.2 (toUInt iEta, t.phiNeighbour iPhi) cell) := by
      simpa using h.symm
    rw [e]
    exact mapGet_pushCell st.2 _ key cell

theorem towerLoop_index (t : CaloTowerTool) (s : GridPhiEta) (cell : CalorimeterHit)
    (key : Nat × Nat) (st st' : Towers × CellsInTowers)
    (h : t.towerLoop s true cell st = some st') :
    mapGet st'.2 key [] = mapGet st.2 key []
      ++ (((intRange (t.iEtaMin s cell.cellID) (t.iEtaMax s cell.cellID)).flatMap (fun iEta =>
            (intRange (t.iPhiMin s cell.cellID) (t.iPhiMax s cell.cellID)).map (fun iPhi =>
              (toUInt iEta, t.phiNeighbour iPhi)))).filter (fun k => decide (k = key))).map
          (fun _ => cell) := by
  unfold CaloTowerTool.towerLoop at h
  have e := foldlM_option_acc (fun st : Towers × CellsInTowers => mapGet st.2 key [])
    (fun iEta => (((intRange (t.iPhiMin s cell.cellID) (t.iPhiMax s cell.cellID)).map
      (fun iPhi => (toUInt iEta, t.phiNeighbour iPhi))).filter (fun k => decide (k = key))).map
        (fun _ => cell))
    (fun st iEta => t.phiLoop s true cell iEta st) _
    (by
      intro iEta _ s1 s2 h12
      unfold CaloTowerTool.phiLoop at h12
      have e2 := foldlM_option_acc (fun st : Towers × CellsInTowers => mapGet st.2 key [])
        (fun iPhi => if (toUInt iEta, t.phiNeighbour iPhi) = key then [cell] else [])
        (fun st iPhi => t.deposit s true cell iEta iPhi st) _
        (by
          intro iPhi _ s3 s4 h34
          exact deposit_index t s cell iEta iPhi key s3 s4 h34)
        s1 s2 h12
      dsimp only at e2 ⊢
      rw [e2, flatMap_ite_map])
    st st' h
  dsimp only at e
  rw [e, filter_map_flatMap]

theorem CellsIntoTowers_index (t : CaloTowerTool) (seg : Segmentation)
    (cells : List CalorimeterHit) (key : Nat × Nat) (st st' : Towers × CellsInTowers)
    (h : t.CellsIntoTowers cells seg true st = some st') :
    mapGet st'.2 key [] = mapGet st.2 key []
      ++ cellsOfTower t (cells.map (fun cell => (seg.forCell cell.cellID, cell))) key := by
  unfold CaloTowerTool.CellsIntoTowers at h
  have e := foldlM_option_acc (fun st : Towers × CellsInTowers => mapGet st.2 key [])
    (fun cell => ((t.towersOfCell (seg.forCell cell.cellID) cell).filter
      (fun k => decide (k = key))).map (fun _ => cell))
    _ _
    (by
      intro cell _ s1 s2 h12
      unfold CaloTowerTool.towersOfCell
      dsimp only at h12 ⊢
      by_cases hp : t.pass cell = true
      · rw [if_pos hp] at h12
        rw [if_pos hp]
        exact towerLoop_index t _ cell key s1 s2 h12
      · rw [if_neg hp] at h12
        rw [if_neg hp]
        have e : s1 = s2 := by simpa using h12
        rw [e]
        simp)
    st st' h
  dsimp only at e
  rw [e]
  unfold cellsOfTower
  rw [List.flatMap_map]

theorem buildTowers_index (t : CaloTowerTool) (segmentations : Partitions (Option Segmentation))
    (cells : Partitions (List CalorimeterHit)) (st : Towers × CellsInTowers)
    (res : (Towers × CellsInTowers) × Nat)
    (h : t.buildTowers segmentations cells true st = some res) (key : Nat × Nat) :
    mapGet res.1.2 key [] = cellsOfTower t (inputCells segmentations cells) key := by
  unfold CaloTowerTool.buildTowers at h
  have e := foldlM_option_acc
    (fun acc : (Towers × CellsInTowers) × Nat => mapGet acc.1.2 key [])
    (fun p => cellsOfTower t (gridCells p) key)
    _ _
    (by
      intro p _ s1 s2 h12
      dsimp only
      rcases buildStep_some t true s1 s2 p h12 with ⟨hn, he⟩ | ⟨seg, st1, hs, hc, he⟩
      · rw [he]
        unfold gridCells cellsOfTower
        rw [hn]
        simp
      · rw [he]
        unfold gridCells
        rw [hs]
        exact CellsIntoTowers_index t seg p.2 key s1.1 st1 hc)
    _ res h
  dsimp only at e
  rw [e, mapGet_cleared, List.nil_append]
  unfold inputCells cellsOfTower
  rw [List.flatMap_assoc]

theorem filter_key_sublist {κ α : Type} [DecidableEq κ] (l : List κ) (key : κ) (c : α)
    (hn : l.Nodup) : ((l.filter (fun k => decide (k = key))).map (fun _ => c)).Sublist [c] := by
  induction l with
  | nil => exact List.nil_sublist _
  | cons x xs ih =>
    by_cases h : x = key
    · rw [List.filter_cons_of_pos (by simpa using h)]
      have hx : key ∉ xs := h ▸ (List.nodup_cons.1 hn).1
      have e : xs.filter (fun k => decide (k = key)) = [] := by
        rw [List.filter_eq_nil_iff]
        intro a ha hak
        have hk : a = key := by simpa using hak
        exact hx (hk ▸ ha)
      rw [e]
      exact List.Sublist.refl _
    · rw [List.filter_cons_of_neg (by simpa using h)]
      exact ih (List.nodup_cons.1 hn).2

theorem cellsOfTower_sublist (t : CaloTowerTool) (inputs : List (GridPhiEta × CalorimeterHit))
    (key : Nat × Nat) (hn : ∀ p ∈ inputs, (t.towersOfCell p.1 p.2).Nodup) :
    (cellsOfTower t inputs key).Sublist (inputs.map Prod.snd) := by
  induction inputs with
  | nil => exact List.Sublist.refl _
  | cons p ps ih =>
    unfold cellsOfTower
    rw [List.flatMap_cons, List.map_cons]
    have h := (filter_key_sublist (t.towersOfCell p.1 p.2) key p.2
      (hn p (List.mem_cons_self _ _))).append (ih (fun q hq => hn q (List.mem_cons_of_mem _ hq)))
    exact h

/-- C28: content of the tower-to-cells index. After a `CaloTowerTool::buildTowers` with
`fillTowersCells = true` that returns, the list of every tower holds, in input order
(partition by partition, each collection in its order), the input cells to which the
loops of the build gave this tower, that is the towers `(iEta, phiNeighbour(iPhi))` with
`iEta` in `[iEtaMin, iEtaMax]` and `iPhi` in `[iPhiMin, iPhiMax]` of a cell that passes the
depth filter; so a cell is in the list of a tower exactly when it is an input cell with
this tower among its towers, and when no cell reaches a tower twice the list of a tower is
a sub-sequence of the input. -/
theorem index_holds_contributing_cells (t : CaloTowerTool)
    (segmentations : Partitions (Option Segmentation)) (cells : Partitions (List CalorimeterHit))
    (st : Towers × CellsInTowers) (res : (Towers × CellsInTowers) × Nat)
    (h : t.buildTowers segmentations cells true st = some res) :
    (∀ key, mapGet res.1.2 key [] = cellsOfTower t (inputCells segmentations cells) key) ∧
    (∀ key cell, cell ∈ mapGet res.1.2 key [] ↔
      ∃ p ∈ inputCells segmentations cells, p.2 = cell ∧ key ∈ t.towersOfCell p.1 p.2) ∧
    (∀ key, (∀ p ∈ inputCells segmentations cells, (t.towersOfCell p.1 p.2).Nodup) →
      (mapGet res.1.2 key []).Sublist ((inputCells segmentations cells).map Prod.snd)) := by
  have main := buildTowers_index t segmentations cells st res h
  refine ⟨main, ?_, ?_⟩
  · intro key cell
    rw [main key]
    unfold cellsOfTower
    simp only [List.mem_flatMap, List.mem_map, List.mem_filter, decide_eq_true_eq]
    constructor
    · rintro ⟨p, hp, k, ⟨hk, rfl⟩, rfl⟩
      exact ⟨p, hp, rfl, hk⟩
    · rintro ⟨p, hp, rfl, hk⟩
      exact ⟨p, hp, key, ⟨hk, rfl⟩, rfl⟩
  · intro key hn
    rw [main key]
    exact cellsOfTower_sublist t _ key hn

theorem index_holds_contributing_cells_witness :
    ∃ res, sixPhiTool.buildTowers tripleBarrel barrelCells true (zeroTowers 4 6, filledIndex)
        = some res ∧
      (∀ key, mapGet res.1.2 key []
        = cellsOfTower sixPhiTool (inputCells tripleBarrel barrelCells) key) ∧
      (∀ key cell, cell ∈ mapGet res.1.2 key [] ↔
        ∃ p ∈ inputCells tripleBarrel barrelCells,
          p.2 = cell ∧ key ∈ sixPhiTool.towersOfCell p.1 p.2) ∧
      (∀ key, (mapGet res.1.2 key []).Sublist
        ((inputCells tripleBarrel barrelCells).map Prod.snd)) ∧
      sixPhiTool.towersOfCell tripleGrid cellFive
        = [(1, 2), (1, 3), (1, 4), (2, 2), (2, 3), (2, 4), (3, 2), (3, 3), (3, 4)] ∧
      cellsOfTower sixPhiTool (inputCells tripleBarrel barrelCells) (2, 3)
        = [cellFive, cellThree] ∧
      cellsOfTower sixPhiTool (inputCells tripleBarrel barrelCells) (1, 5) = [] :=
  (option_some_of_isSome
    (sixPhiTool.buildTowers tripleBarrel barrelCells true (zeroTowers 4 6, filledIndex))
    (by decide!)).elim
    (fun res h => ⟨res, h,
      (index_holds_contributing_cells sixPhiTool tripleBarrel barrelCells
        (zeroTowers 4 6, filledIndex) res h).1,
      (index_holds_contributing_cells sixPhiTool tripleBarrel barrelCells
        (zeroTowers 4 6, filledIndex) res h).2.1,
      fun key => (index_holds_contributing_cells sixPhiTool tripleBarrel barrelCells
        (zeroTowers 4 6, filledIndex) res h).2.2 key (by decide!),
      by decide!, by decide!, by decide!⟩)

/-! ## The clusters emitted for a split cluster -/

theorem splitCluster_run (a : SplitClusters) (nClusters : Nat) (allCells : List (Nat × Int))
    (cluster : Cluster) (out : SplitClusters.Emitted)
    (hseeds : 2 ≤ (a.newSeeds cluster.hits).length)
    (hok : a.splitCluster nClusters allCells cluster = Except.ok out) :
    ∃ st, a.growthLoop (SplitClusters.cellsType cluster.hits)
        (SplitClusters.cellsPosition a cluster.hits) nClusters (a.newSeeds cluster.hits).length
        1002 1 ((a.iteration0 nClusters cluster).growth,
          (a.iteration0 nClusters cluster).mapVecNextNeighbours) = Except.ok st ∧
      out = a.emitSplit cluster (SplitClusters.allCellsAfterRead allCells cluster.hits)
        (a.iteration0 nClusters cluster).preClusterCollection st.1.clusterOfCell := by
  unfold SplitClusters.splitCluster at hok
  dsimp only at hok
  rw [if_pos (by omega)] at hok
  unfold SplitClusters.iteration0
  cases hg : a.growthLoop (SplitClusters.cellsType cluster.hits)
      (SplitClusters.cellsPosition a cluster.hits) nClusters (a.newSeeds cluster.hits).length
      1002 1
      (((a.newSeeds cluster.hits).foldl
          (a.startSeed (SplitClusters.cellsType cluster.hits)
            (SplitClusters.cellsPosition a cluster.hits))
          { growth := { clusterOfCell := [], clusterPositions := [] },
            preClusterCollection := [], mapVecNextNeighbours := [],
            clusterID := nClusters + 1 }).growth,
        ((a.newSeeds cluster.hits).foldl
          (a.startSeed (SplitClusters.cellsType cluster.hits)
            (SplitClusters.cellsPosition a cluster.hits))
          { growth := { clusterOfCell := [], clusterPositions := [] },
            preClusterCollection := [], mapVecNextNeighbours := [],
            clusterID := nClusters + 1 }).mapVecNextNeighbours) with
  | error e =>
    rw [hg] at hok
    cases hok
  | ok st =>
    rw [hg] at hok
    cases hok
    exact ⟨st, rfl, rfl⟩

theorem foldl_addCell_pos (a : SplitClusters) (ce : List (Nat × ℚ)) (ty : Nat × Int → Int)
    (cells : List (Nat × Int)) (s0 : SplitClusters.Sums) :
    (cells.foldl (fun s p => a.addCell ce s p.1 (ty p)) s0).posX
        = s0.posX + (cells.map (fun p => (a.posCell p.1).x * a.energyOf ce p.1)).sum ∧
    (cells.foldl (fun s p => a.addCell ce s p.1 (ty p)) s0).posY
        = s0.posY + (cells.map (fun p => (a.posCell p.1).y * a.energyOf ce p.1)).sum ∧
    (cells.foldl (fun s p => a.addCell ce s p.1 (ty p)) s0).posZ
        = s0.posZ + (cells.map (fun p => (a.posCell p.1).z * a.energyOf ce p.1)).sum := by
  induction cells generalizing s0 with
  | nil => simp
  | cons p ps ih =>
    obtain ⟨h1, h2, h3⟩ := ih (a.addCell ce s0 p.1 (ty p))
    rw [List.foldl_cons]
    refine ⟨?_, ?_, ?_⟩
    · rw [h1]
      unfold SplitClusters.addCell
      simp only [List.map_cons, List.sum_cons]
      ring
    · rw [h2]
      unfold SplitClusters.addCell
      simp only [List.map_cons, List.sum_cons]
      ring
    · rw [h3]
      unfold SplitClusters.addCell
      simp only [List.map_cons, List.sum_cons]
      ring

theorem subCluster_centroid (a : SplitClusters) (ce : List (Nat × ℚ)) (cells : List (Nat × Int)) :
    (SplitClusters.subCluster (a.subClusterSums ce cells)).type = 2 ∧
    (SplitClusters.subCluster (a.subClusterSums ce cells)).hits
      = cells.map (fun p =>
          ({ cellID := p.1, energy := a.energyOf ce p.1, type := p.2 } : CalorimeterHit)) ∧
    (SplitClusters.subCluster (a.subClusterSums ce cells)).energy
      = ((SplitClusters.subCluster (a.subClusterSums ce cells)).hits.map (fun c => c.energy)).sum ∧
    (SplitClusters.subCluster (a.subClusterSums ce cells)).position
      = ⟨divide
          (((SplitClusters.subCluster (a.subClusterSums ce cells)).hits.map
            (fun c => (a.posCell c.cellID).x * c.energy)).sum)
          (SplitClusters.subCluster (a.subClusterSums ce cells)).energy,
         divide
          (((SplitClusters.subCluster (a.subClusterSums ce cells)).hits.map
            (fun c => (a.posCell c.cellID).y * c.energy)).sum)
          (SplitClusters.subCluster (a.subClusterSums ce cells)).energy,
         divide
          (((SplitClusters.subCluster (a.subClusterSums ce cells)).hits.map
            (fun c => (a.posCell c.cellID).z * c.energy)).sum)
          (SplitClusters.subCluster (a.subClusterSums ce cells)).energy⟩ := by
  obtain ⟨h1, h2⟩ := subClusterSums_spec a ce cells
  obtain ⟨p1, p2, p3⟩ := foldl_addCell_pos a ce (fun p => p.2) cells ⟨0, 0, 0, 0, []⟩
  have hE : (a.subClusterSums ce cells).energy
      = ((a.subClusterSums ce cells).cells.map (fun c => c.energy)).sum := by
    rw [h2, h1, List.map_map]; rfl
  refine ⟨rfl, h1, hE, ?_⟩
  unfold SplitClusters.subCluster
  dsimp only
  rw [h1, List.map_map, List.map_map, List.map_map]
  unfold SplitClusters.subClusterSums
  rw [p1, p2, p3]
  simp only [zero_add]
  rfl

theorem energyOf_mem (a : SplitClusters) (hits : List CalorimeterHit) (id : Nat)
    (h : id ∈ hits.map (fun c => c.cellID)) :
    ∃ c ∈ hits, c.cellID = id ∧ c.energy = a.energyOf (SplitClusters.cellsEnergy hits) id := by
  unfold SplitClusters.energyOf
  cases hf : (SplitClusters.cellsEnergy hits).find? (fun elem => decide (elem.1 = id)) with
  | none =>
    exfalso
    rw [List.find?_eq_none] at hf
    obtain ⟨c, hc, rfl⟩ := List.mem_map.1 h
    have hm : (c.cellID, c.energy) ∈ SplitClusters.cellsEnergy hits :=
      (cellsEnergy_perm hits).symm.subset (List.mem_map.2 ⟨c, hc, rfl⟩)
    exact hf _ hm (by simp)
  | some elem =>
    have hm := List.mem_of_find?_eq_some hf
    have hp := List.find?_some hf
    have hm2 := (cellsEnergy_perm hits).subset hm
    obtain ⟨c, hc, he⟩ := List.mem_map.1 hm2
    refine ⟨c, hc, ?_, ?_⟩
    · have : elem.1 = id := by simpa using hp
      rw [← this, ← he]
    · rw [← he]

theorem collected_ids (coc : List (Nat × Nat)) (c0 : SplitClusters.Collected)
    (hP : PreEmpty c0.preClusterCollection) :
    ∀ i ∈ (coc.foldl SplitClusters.collectCell c0).preClusterCollection,
      ∀ p ∈ i.2, p.1 ∈ coc.map Prod.fst := by
  intro i hi p hp
  obtain ⟨_, _, c3⟩ := foldl_collectCell coc c0
  have flat0 : c0.preClusterCollection.flatMap (fun i => i.2) = [] := by
    rw [List.flatMap_eq_nil_iff]
    exact hP
  rw [flat0, List.map_nil, List.nil_append] at c3
  apply c3.subset
  exact List.mem_map.2 ⟨p, List.mem_flatMap.2 ⟨i, hi, hp⟩, rfl⟩

/-- C23: output centroid. Every sub-cluster (cluster of type 2) emitted for an input
cluster has as energy the sum of the energies of its hits; when this sum is not zero its
position is the sum of `energy * position` over its hits divided by the sum of their
energies, the position of a cell being the one of the position tools (when the sum is
zero the division gives no number); and every hit carries the identifier and the energy
of a cell of the input cluster. -/
theorem subcluster_energy_and_centroid (a : SplitClusters) (nClusters : Nat)
    (allCells : List (Nat × Int)) (cluster : Cluster) (out : SplitClusters.Emitted)
    (hok : a.splitCluster nClusters allCells cluster = Except.ok out) :
    ∀ cl ∈ out.clusters, cl.type = 2 →
      cl.energy = (cl.hits.map (fun c => c.energy)).sum ∧
      ((cl.hits.map (fun c => c.energy)).sum ≠ 0 →
        cl.position = ⟨some (centroid a cl.hits).x, some (centroid a cl.hits).y,
          some (centroid a cl.hits).z⟩) ∧
      ((cl.hits.map (fun c => c.energy)).sum = 0 → cl.position = ⟨none, none, none⟩) ∧
      ∀ c ∈ cl.hits, ∃ c' ∈ cluster.hits, c'.cellID = c.cellID ∧ c'.energy = c.energy := by
  intro cl hcl hty
  by_cases hseeds : 2 ≤ (a.newSeeds cluster.hits).length
  · obtain ⟨pre, coc, hK, hP, rfl⟩ := splitCluster_split a nClusters allCells cluster out hseeds hok
    unfold SplitClusters.emitSplit at hcl
    dsimp only at hcl
    rcases List.mem_append.1 hcl with hl | hs
    · exfalso
      split_ifs at hl
      · have e := List.mem_singleton.1 hl
        rw [e] at hty
        unfold SplitClusters.leftoverCluster at hty
        simp at hty
      · cases hl
    · obtain ⟨s, hs1, rfl⟩ := List.mem_map.1 hs
      obtain ⟨i, hi, rfl⟩ := List.mem_map.1 hs1
      obtain ⟨_, h2, h3, h4⟩ := subCluster_centroid a (SplitClusters.cellsEnergy cluster.hits) i.2
      refine ⟨h3, ?_, ?_, ?_⟩
      · intro hne
        rw [h4, h3]
        unfold divide centroid
        rw [if_neg hne, if_neg hne, if_neg hne]
      · intro h0
        rw [h4, h3]
        unfold divide
        rw [if_pos h0, if_pos h0, if_pos h0]
      · intro c hc
        rw [h2] at hc
        obtain ⟨p, hp, rfl⟩ := List.mem_map.1 hc
        have hin := collected_ids coc
          { preClusterCollection := pre, cellsType := SplitClusters.cellsType cluster.hits,
            allCells := SplitClusters.allCellsAfterRead allCells cluster.hits,
            allClusteredCells := 0 } hP i hi p hp
        have hid : p.1 ∈ cluster.hits.map (fun c => c.cellID) :=
          (mem_keys_cellsType cluster.hits p.1).1 (hK.2 p.1 hin)
        exact energyOf_mem a cluster.hits p.1 hid
  · exfalso
    obtain ⟨out', h1, h2, _⟩ := unsplit_pass_through a nClusters allCells cluster (by omega)
    rw [h1] at hok
    cases hok
    rw [h2] at hcl
    have e : cl = _ := List.mem_singleton.1 hcl
    rw [e] at hty
    simp at hty

theorem subcluster_energy_and_centroid_witness :
    (∃ out, lineSplitter.splitCluster 1 [] strayCellCluster = Except.ok out ∧
      (∃ cl ∈ out.clusters, cl.type = 2) ∧
      ∀ cl ∈ out.clusters, cl.type = 2 →
        cl.energy = (cl.hits.map (fun c => c.energy)).sum ∧
        ((cl.hits.map (fun c => c.energy)).sum ≠ 0 →
          cl.position = ⟨some (centroid lineSplitter cl.hits).x,
            some (centroid lineSplitter cl.hits).y, some (centroid lineSplitter cl.hits).z⟩) ∧
        ((cl.hits.map (fun c => c.energy)).sum = 0 → cl.position = ⟨none, none, none⟩) ∧
        ∀ c ∈ cl.hits, ∃ c' ∈ strayCellCluster.hits,
          c'.cellID = c.cellID ∧ c'.energy = c.energy) ∧
    (lineSplitter.splitCluster 1 [] strayCellCluster).toOption.map
        (fun o => (o.clusters.filter (fun cl => decide (cl.type = 2))).map
          (fun cl => (cl.energy, cl.position, cl.hits.map (fun c => c.cellID))))
      = some [(16, ⟨some (43 / 16), some 0, some 0⟩, [1, 2, 3, 4, 7]),
              (4, ⟨some (11 / 2), some 0, some 0⟩, [5, 6])] ∧
    (adjacentSeedSplitter.splitCluster 1 [] adjacentSeedCluster).toOption.map
        (fun o => (o.clusters.filter (fun cl => decide (cl.type = 2))).map
          (fun cl => (cl.energy, cl.position, cl.hits.map (fun c => c.cellID))))
      = some [(20, ⟨some 1, some (1 / 4), some 0⟩, [1, 2, 3, 4, 5, 6, 7]),
              (0, ⟨none, none, none⟩, [])] :=
  ⟨(except_ok_of_isOk (lineSplitter.splitCluster 1 [] strayCellCluster) (by decide!)).elim
    (fun out h => ⟨out, h,
      by
        have e : (match lineSplitter.splitCluster 1 [] strayCellCluster with
            | Except.ok o => o.clusters.map (fun cl => cl.type)
            | Except.error _ => []) = [3, 2, 2] := by decide!
        rw [h] at e
        have e' : out.clusters.map (fun cl => cl.type) = [3, 2, 2] := e
        have hm : (2 : Int) ∈ out.clusters.map (fun cl => cl.type) := by
          rw [e']; decide
        obtain ⟨cl, hcl, hty⟩ := List.mem_map.1 hm
        exact ⟨cl, hcl, hty⟩,
      subcluster_energy_and_centroid lineSplitter 1 [] strayCellCluster out h⟩),
   by decide!, by decide!⟩

/-! ## The sub-cluster identifiers used by the growth -/

theorem valuesIn_emplace (lo hi : Nat) (coc : List (Nat × Nat)) (k v : Nat)
    (h : ValuesIn lo hi coc) (hv : lo < v ∧ v ≤ hi) :
    ValuesIn lo hi (mapEmplace natLt coc k v) := by
  intro e he
  rcases mem_mapEmplace natLt coc k v e he with h1 | h1
  · exact h e h1
  · rw [h1]; exact hv

theorem valuesIn_assign (lo hi : Nat) (coc : List (Nat × Nat)) (k v : Nat)
    (h : ValuesIn lo hi coc) (hv : lo < v ∧ v ≤ hi) :
    ValuesIn lo hi (mapAssign natLt coc k v) := by
  intro e he
  rcases mem_mapAssign natLt coc k v e he with h1 | h1
  · exact h e h1
  · rw [h1]; exact hv

theorem visitNeighbour_values (a : SplitClusters) (lo hi cid : Nat) (ct : List (Nat × Int))
    (cp : List (Nat × TLorentzVector)) (st : SplitClusters.Growth × List (Nat × Nat)) (nb : Nat)
    (hc : lo < cid ∧ cid ≤ hi) (h : ValuesIn lo hi st.1.clusterOfCell) :
    ValuesIn lo hi (a.visitNeighbour cid ct cp st nb).1.clusterOfCell := by
  unfold SplitClusters.visitNeighbour
  cases hf : mapFind ct nb with
  | none => exact h
  | some ty =>
    cases hown : mapFind st.1.clusterOfCell nb with
    | none => exact valuesIn_emplace lo hi _ nb cid h hc
    | some owner =>
      have ho := h _ (mapFind_some_mem_pair _ _ _ hown)
      simp only
      split_ifs
      · exact valuesIn_assign lo hi _ nb cid h hc
      · exact valuesIn_assign lo hi _ nb owner h ho
      · exact h

theorem searchForNeighbours_values (a : SplitClusters) (lo hi id cid : Nat)
    (ct : List (Nat × Int)) (cp : List (Nat × TLorentzVector)) (g : SplitClusters.Growth)
    (hc : lo < cid ∧ cid ≤ hi) (h : ValuesIn lo hi g.clusterOfCell) :
    ValuesIn lo hi (a.searchForNeighbours id cid ct cp g).1.clusterOfCell := by
  unfold SplitClusters.searchForNeighbours
  split_ifs
  · exact h
  · have key : ∀ (nbs : List Nat) (st : SplitClusters.Growth × List (Nat × Nat)),
        ValuesIn lo hi st.1.clusterOfCell →
        ValuesIn lo hi (nbs.foldl (a.visitNeighbour cid ct cp) st).1.clusterOfCell := by
      intro nbs
      induction nbs with
      | nil => intro st hst; exact hst
      | cons nb nbs ih =>
        intro st hst
        exact ih _ (visitNeighbour_values a lo hi cid ct cp st nb hc hst)
    exact key _ (g, []) h

theorem foldl_startSeed_values (a : SplitClusters) (lo hi : Nat) (ct : List (Nat × Int))
    (cp : List (Nat × TLorentzVector)) (seeds : List (Nat × ℚ)) (b : SplitClusters.Building)
    (h1 : lo < b.clusterID) (h2 : b.clusterID + seeds.length ≤ hi + 1)
    (h : ValuesIn lo hi b.growth.clusterOfCell) :
    ValuesIn lo hi (seeds.foldl (a.startSeed ct cp) b).growth.clusterOfCell := by
  induction seeds generalizing b with
  | nil => exact h
  | cons s ss ih =>
    rw [List.foldl_cons]
    rw [List.length_cons] at h2
    have hc : lo < b.clusterID ∧ b.clusterID ≤ hi := ⟨h1, by omega⟩
    apply ih
    · show lo < b.clusterID + 1
      omega
    · show b.clusterID + 1 + ss.length ≤ hi + 1
      omega
    · unfold SplitClusters.startSeed
      exact searchForNeighbours_values a lo hi _ _ ct cp _ hc
        (valuesIn_emplace lo hi _ _ _ h hc)

theorem foldlM_except_inv_mem {σ ι : Type} (P : σ → Prop) (f : σ → ι → Except Abort σ)
    (l : List ι) (hf : ∀ x ∈ l, ∀ s s', P s → f s x = Except.ok s' → P s') (s s' : σ)
    (hs : P s) (h : l.foldlM f s = Except.ok s') : P s' := by
  induction l generalizing s with
  | nil =>
    simp only [List.foldlM_nil] at h
    cases h
    exact hs
  | cons x xs ih =>
    rw [List.foldlM_cons] at h
    cases hx : f s x with
    | error e =>
      rw [hx] at h
      cases h
    | ok s1 =>
      rw [hx] at h
      exact ih (fun y hy => hf y (List.mem_cons_of_mem _ hy)) s1
        (hf x (List.mem_cons_self _ _) s s1 hs hx) h

theorem expandCluster_values (a : SplitClusters) (lo hi : Nat) (ct : List (Nat × Int))
    (cp : List (Nat × TLorentzVector)) (iter : Nat)
    (st st' : (SplitClusters.Growth × List (Nat × List (List (Nat × Nat)))) × Bool) (cid : Nat)
    (hc : lo < cid ∧ cid ≤ hi) (h : ValuesIn lo hi st.1.1.clusterOfCell)
    (he : a.expandCluster ct cp iter st cid = Except.ok st') :
    ValuesIn lo hi st'.1.1.clusterOfCell := by
  unfold SplitClusters.expandCluster at he
  cases hg : (mapGet st.1.2 cid []).get? (iter - 1) with
  | none => simp only [hg] at he; cases he
  | some frontier =>
    simp only [hg] at he
    split_ifs at he
    · cases hfold : frontier.foldlM (a.expandCell ct cp iter cid) st.1 with
      | error e => simp only [hfold] at he; cases he
      | ok s1 =>
        simp only [hfold] at he
        cases he
        refine foldlM_except_inv (fun s => ValuesIn lo hi s.1.clusterOfCell) _ ?_ frontier st.1 s1
          h hfold
        intro s x s' hs hx
        unfold SplitClusters.expandCell at hx
        split_ifs at hx
        cases hap : SplitClusters.appendFrontier (mapGet s.2 cid []) iter
            (a.searchForNeighbours x.1 cid ct cp s.1).2 with
        | none => simp only [hap] at hx; cases hx
        | some vv =>
          simp only [hap] at hx
          cases hx
          exact searchForNeighbours_values a lo hi _ _ ct cp _ hc hs
    · cases he
      exact h

theorem growthLoop_values (a : SplitClusters) (ct : List (Nat × Int))
    (cp : List (Nat × TLorentzVector)) (nClusters nSeeds fuel iter : Nat)
    (st st' : SplitClusters.Growth × List (Nat × List (List (Nat × Nat))))
    (h : ValuesIn nClusters (nClusters + nSeeds) st.1.clusterOfCell)
    (he : a.growthLoop ct cp nClusters nSeeds fuel iter st = Except.ok st') :
    ValuesIn nClusters (nClusters + nSeeds) st'.1.clusterOfCell := by
  induction fuel generalizing iter st with
  | zero =>
    unfold SplitClusters.growthLoop at he
    cases he
  | succ fuel ih =>
    unfold SplitClusters.growthLoop at he
    cases hr : a.growthRound ct cp nClusters nSeeds iter st with
    | error e => simp only [hr] at he; cases he
    | ok r =>
      obtain ⟨s1, found⟩ := r
      have hk : ValuesIn nClusters (nClusters + nSeeds) s1.1.clusterOfCell := by
        unfold SplitClusters.growthRound at hr
        refine foldlM_except_inv_mem
          (fun s => ValuesIn nClusters (nClusters + nSeeds) s.1.1.clusterOfCell) _ _ ?_
          (st, false) (s1, found) h hr
        intro cid hcid s s' hs hx
        obtain ⟨k, hk, rfl⟩ := List.mem_map.1 hcid
        have hk' := List.mem_range.1 hk
        exact expandCluster_values a _ _ ct cp iter s s' _ ⟨by omega, by omega⟩ hs hx
      cases found with
      | true =>
        simp only [hr] at he
        exact ih (iter + 1) s1 hk he
      | false =>
        simp only [hr] at he
        cases he
        exact hk

theorem foldl_startSeed_pre (a : SplitClusters) (ct : List (Nat × Int))
    (cp : List (Nat × TLorentzVector)) (seeds : List (Nat × ℚ)) (b : SplitClusters.Building)
    (hlt : ∀ k ∈ b.preClusterCollection.map Prod.fst, k < b.clusterID) :
    ((seeds.foldl (a.startSeed ct cp) b).preClusterCollection.map Prod.fst).Perm
      (b.preClusterCollection.map Prod.fst
        ++ (List.range seeds.length).map (fun j => b.clusterID + j)) := by
  induction seeds generalizing b with
  | nil => simp
  | cons s ss ih =>
    rw [List.foldl_cons]
    have hnone : mapFind b.preClusterCollection b.clusterID = none := by
      rw [mapFind_eq_none]
      intro hm
      exact absurd (hlt _ hm) (lt_irrefl _)
    have hpre : ((a.startSeed ct cp b s).preClusterCollection.map Prod.fst).Perm
        (b.clusterID :: b.preClusterCollection.map Prod.fst) := by
      unfold SplitClusters.startSeed
      dsimp only
      unfold mapEmplace
      rw [hnone]
      exact (mapInsert_perm natLt _ _ _).map Prod.fst
    have hid : (a.startSeed ct cp b s).clusterID = b.clusterID + 1 := rfl
    have hlt' : ∀ k ∈ (a.startSeed ct cp b s).preClusterCollection.map Prod.fst,
        k < (a.startSeed ct cp b s).clusterID := by
      intro k hk
      rw [hid]
      rcases List.mem_cons.1 (hpre.subset hk) with h1 | h1
      · omega
      · have := hlt k h1
        omega
    refine (ih _ hlt').trans ?_
    rw [hid, List.length_cons, List.range_succ_eq_map, List.map_cons, List.map_map]
    refine (List.Perm.append_right _ hpre).trans ?_
    rw [List.cons_append]
    refine List.perm_middle.symm.trans ?_
    apply List.Perm.append_left
    apply List.Perm.of_eq
    congr 1
    apply List.map_congr_left
    intro j _
    simp only [Function.comp]
    omega

theorem iteration0_pre (a : SplitClusters) (nClusters : Nat) (cluster : Cluster) :
    (a.iteration0 nClusters cluster).preClusterCollection.length
      = (a.newSeeds cluster.hits).length ∧
    (∀ v, nClusters < v → v ≤ nClusters + (a.newSeeds cluster.hits).length →
      mapFind (a.iteration0 nClusters cluster).preClusterCollection v ≠ none) ∧
    ValuesIn nClusters (nClusters + (a.newSeeds cluster.hits).length)
      (a.iteration0 nClusters cluster).growth.clusterOfCell ∧
    KeysWithin (SplitClusters.cellsType cluster.hits)
      (a.iteration0 nClusters cluster).growth.clusterOfCell ∧
    PreEmpty (a.iteration0 nClusters cluster).preClusterCollection := by
  have hp := foldl_startSeed_pre a (SplitClusters.cellsType cluster.hits)
    (SplitClusters.cellsPosition a cluster.hits) (a.newSeeds cluster.hits)
    { growth := { clusterOfCell := [], clusterPositions := [] },
      preClusterCollection := [], mapVecNextNeighbours := [], clusterID := nClusters + 1 }
    (fun k hk => by cases hk)
  have hv := foldl_startSeed_values a nClusters (nClusters + (a.newSeeds cluster.hits).length)
    (SplitClusters.cellsType cluster.hits)
    (SplitClusters.cellsPosition a cluster.hits) (a.newSeeds cluster.hits)
    { growth := { clusterOfCell := [], clusterPositions := [] },
      preClusterCollection := [], mapVecNextNeighbours := [], clusterID := nClusters + 1 }
    (by show nClusters < nClusters + 1; omega)
    (by show nClusters + 1 + (a.newSeeds cluster.hits).length ≤ _; omega)
    (fun e he => by cases he)
  obtain ⟨hk0, hp0⟩ := foldl_startSeed_keys a (SplitClusters.cellsType cluster.hits)
    (SplitClusters.cellsPosition a cluster.hits) (a.newSeeds cluster.hits)
    (fun s hs => newSeeds_mem_keys a cluster.hits s hs)
    { growth := { clusterOfCell := [], clusterPositions := [] },
      preClusterCollection := [], mapVecNextNeighbours := [], clusterID := nClusters + 1 }
    ⟨keysWithin_nil _, fun _ h => by cases h⟩
  simp only [List.map_nil, List.nil_append] at hp
  refine ⟨?_, ?_, hv, hk0, hp0⟩
  · have := hp.length_eq
    simpa [SplitClusters.iteration0] using this
  · intro v h1 h2 hnone
    rw [mapFind_eq_none] at hnone
    apply hnone
    apply hp.symm.subset
    apply List.mem_map.2
    exact ⟨v - (nClusters + 1), List.mem_range.2 (by omega), by omega⟩

/-! ## The left-over cluster and the number of clusters -/

theorem emitSplit_clusters (a : SplitClusters) (cluster : Cluster) (all : List (Nat × Int))
    (pre : List (Nat × List (Nat × Int))) (coc : List (Nat × Nat)) :
    (a.emitSplit cluster all pre coc).clusters
      = (if coc.length ≠ cluster.hits.length then
          [SplitClusters.leftoverCluster (a.leftoverSums (SplitClusters.cellsEnergy cluster.hits)
            ((SplitClusters.cellsType cluster.hits).filter
              (fun p => decide (p.1 ∉ coc.map Prod.fst))))]
        else [])
        ++ (coc.foldl SplitClusters.collectCell
            { preClusterCollection := pre, cellsType := SplitClusters.cellsType cluster.hits,
              allCells := all, allClusteredCells := 0 }).preClusterCollection.map
          (fun i => SplitClusters.subCluster
            (a.subClusterSums (SplitClusters.cellsEnergy cluster.hits) i.2)) ∧
    (a.emitSplit cluster all pre coc).cells
      = (if coc.length ≠ cluster.hits.length then
          (a.leftoverSums (SplitClusters.cellsEnergy cluster.hits)
            ((SplitClusters.cellsType cluster.hits).filter
              (fun p => decide (p.1 ∉ coc.map Prod.fst)))).cells
        else [])
        ++ (a.emitSplit cluster all pre coc).clusters.flatMap (fun cl => cl.hits) := by
  obtain ⟨c1, c2, _⟩ := foldl_collectCell coc
    { preClusterCollection := pre, cellsType := SplitClusters.cellsType cluster.hits,
      allCells := all, allClusteredCells := 0 }
  obtain ⟨_, _, _, _, s5, _⟩ := subs_spec a (SplitClusters.cellsEnergy cluster.hits)
    (coc.foldl SplitClusters.collectCell
      { preClusterCollection := pre, cellsType := SplitClusters.cellsType cluster.hits,
        allCells := all, allClusteredCells := 0 }).preClusterCollection
  simp only [zero_add] at c2
  unfold SplitClusters.emitSplit
  dsimp only
  rw [c1, c2]
  by_cases hlen : coc.length = cluster.hits.length
  · simp only [hlen, ne_eq, not_true_eq_false, decide_False, Bool.false_eq_true, if_false,
      List.nil_append, List.map_map]
    refine ⟨rfl, ?_⟩
    rw [← List.map_map, s5]
  · simp only [hlen, ne_eq, not_false_eq_true, decide_True, if_true, List.map_map,
      List.flatMap_append, List.flatMap_cons, List.flatMap_nil, List.append_nil]
    refine ⟨rfl, ?_⟩
    rw [← List.map_map, s5]
    rfl

theorem claimed_perm (a : SplitClusters) (cluster : Cluster) (all : List (Nat × Int))
    (pre : List (Nat × List (Nat × Int))) (coc : List (Nat × Nat)) (hP : PreEmpty pre) :
    (claimedIds (a.emitSplit cluster all pre coc).clusters).Perm (coc.map Prod.fst) := by
  obtain ⟨_, _, c3⟩ := foldl_collectCell coc
    { preClusterCollection := pre, cellsType := SplitClusters.cellsType cluster.hits,
      allCells := all, allClusteredCells := 0 }
  obtain ⟨s1, _, _, _, s5, _⟩ := subs_spec a (SplitClusters.cellsEnergy cluster.hits)
    (coc.foldl SplitClusters.collectCell
      { preClusterCollection := pre, cellsType := SplitClusters.cellsType cluster.hits,
        allCells := all, allClusteredCells := 0 }).preClusterCollection
  have flat0 : pre.flatMap (fun i => i.2) = [] := by
    rw [List.flatMap_eq_nil_iff]
    exact hP
  simp only [flat0, List.map_nil, List.nil_append] at c3
  unfold claimedIds
  rw [(emitSplit_clusters a cluster all pre coc).1, List.filter_append]
  have hL : (if coc.length ≠ cluster.hits.length then
          [SplitClusters.leftoverCluster (a.leftoverSums (SplitClusters.cellsEnergy cluster.hits)
            ((SplitClusters.cellsType cluster.hits).filter
              (fun p => decide (p.1 ∉ coc.map Prod.fst))))]
        else []).filter (fun cl => decide (cl.type = 2)) = [] := by
    split_ifs
    · rfl
    · rfl
  have hS : ((coc.foldl SplitClusters.collectCell
            { preClusterCollection := pre, cellsType := SplitClusters.cellsType cluster.hits,
              allCells := all, allClusteredCells := 0 }).preClusterCollection.map
          (fun i => SplitClusters.subCluster
            (a.subClusterSums (SplitClusters.cellsEnergy cluster.hits) i.2))).filter
        (fun cl => decide (cl.type = 2))
      = (coc.foldl SplitClusters.collectCell
            { preClusterCollection := pre, cellsType := SplitClusters.cellsType cluster.hits,
              allCells := all, allClusteredCells := 0 }).preClusterCollection.map
          (fun i => SplitClusters.subCluster
            (a.subClusterSums (SplitClusters.cellsEnergy cluster.hits) i.2)) := by
    rw [List.filter_eq_self]
    intro cl hcl
    obtain ⟨i, _, rfl⟩ := List.mem_map.1 hcl
    rfl
  rw [hL, hS, List.nil_append]
  have e : ((coc.foldl SplitClusters.collectCell
            { preClusterCollection := pre, cellsType := SplitClusters.cellsType cluster.hits,
              allCells := all, allClusteredCells := 0 }).preClusterCollection.map
          (fun i => SplitClusters.subCluster
            (a.subClusterSums (SplitClusters.cellsEnergy cluster.hits) i.2))).flatMap
        (fun cl => cl.hits.map (fun c => c.cellID))
      = ((((coc.foldl SplitClusters.collectCell
            { preClusterCollection := pre, cellsType := SplitClusters.cellsType cluster.hits,
              allCells := all, allClusteredCells := 0 }).preClusterCollection.map
          (fun i => a.subClusterSums (SplitClusters.cellsEnergy cluster.hits) i.2)).map
            SplitClusters.subCluster).flatMap (fun cl => cl.hits)).map (fun c => c.cellID) := by
    rw [List.map_flatMap, List.map_map]
    rfl
  rw [e, s5, s1]
  exact c3

theorem unclaimed_eq (a : SplitClusters) (cluster : Cluster) (all : List (Nat × Int))
    (pre : List (Nat × List (Nat × Int))) (coc : List (Nat × Nat)) (hP : PreEmpty pre) :
    unclaimedCells cluster.hits (a.emitSplit cluster all pre coc).clusters
      = cluster.hits.filter (fun c => decide (c.cellID ∉ coc.map Prod.fst)) := by
  unfold unclaimedCells
  apply List.filter_congr
  intro c _
  exact decide_eq_decide.2 (not_congr (claimed_perm a cluster all pre coc hP).mem_iff)

theorem leftover_iff (hits : List CalorimeterHit) (coc : List (Nat × Nat))
    (hd : (hits.map (fun c => c.cellID)).Nodup)
    (hK : KeysWithin (SplitClusters.cellsType hits) coc) :
    coc.length ≠ hits.length ↔
      hits.filter (fun c => decide (c.cellID ∉ coc.map Prod.fst)) ≠ [] := by
  have hp := filter_keys_perm (hits.map (fun c => c.cellID)) (coc.map Prod.fst) hd hK.1
    (fun k hk => (mem_keys_cellsType hits k).1 (hK.2 k hk))
  have hl := hp.length_eq
  rw [List.length_append, List.length_map, List.length_map, List.filter_map,
    List.length_map] at hl
  have e : (hits.filter ((fun k => decide (k ∉ coc.map Prod.fst)) ∘ fun c => c.cellID))
      = hits.filter (fun c => decide (c.cellID ∉ coc.map Prod.fst)) := rfl
  rw [e] at hl
  rw [Ne, Ne, ← List.length_eq_zero]
  omega

theorem leftover_cells_perm (a : SplitClusters) (hits : List CalorimeterHit) (C : List Nat)
    (hd : (hits.map (fun c => c.cellID)).Nodup) :
    (((SplitClusters.cellsType hits).filter (fun p => decide (p.1 ∉ C))).map (fun p =>
        ({ cellID := p.1, energy := a.energyOf (SplitClusters.cellsEnergy hits) p.1, type := 4 }
          : CalorimeterHit))).Perm
      ((hits.filter (fun c => decide (c.cellID ∉ C))).map (fun c => { c with type := 4 })) := by
  have e1 : ((SplitClusters.cellsType hits).filter (fun p => decide (p.1 ∉ C))).map (fun p =>
        ({ cellID := p.1, energy := a.energyOf (SplitClusters.cellsEnergy hits) p.1, type := 4 }
          : CalorimeterHit))
      = (((SplitClusters.cellsType hits).map Prod.fst).filter (fun k => decide (k ∉ C))).map
          (fun k => (⟨k, a.energyOf (SplitClusters.cellsEnergy hits) k, 4⟩ : CalorimeterHit)) := by
    rw [← map_fst_filter_keys, List.map_map]
    rfl
  have e2 : (hits.filter (fun c => decide (c.cellID ∉ C))).map (fun c => { c with type := 4 })
      = (((hits.map (fun c => c.cellID)).filter (fun k => decide (k ∉ C))).map
          (fun k => (⟨k, a.energyOf (SplitClusters.cellsEnergy hits) k, 4⟩ : CalorimeterHit))) := by
    rw [List.filter_map, List.map_map]
    apply List.map_congr_left
    intro c hc
    have hm := (List.mem_filter.1 hc).1
    simp only [Function.comp]
    rw [energyOf_hit a hits hd c hm]
  rw [e1, e2]
  exact ((keys_cellsType_perm hits hd).filter _).map _

theorem leftover_energy (a : SplitClusters) (hits : List CalorimeterHit) (C : List Nat)
    (hd : (hits.map (fun c => c.cellID)).Nodup) :
    (a.leftoverSums (SplitClusters.cellsEnergy hits)
        ((SplitClusters.cellsType hits).filter (fun p => decide (p.1 ∉ C)))).energy
      = ((hits.filter (fun c => decide (c.cellID ∉ C))).map (fun c => c.energy)).sum := by
  obtain ⟨l1, l2⟩ := leftoverSums_spec a (SplitClusters.cellsEnergy hits)
    ((SplitClusters.cellsType hits).filter (fun p => decide (p.1 ∉ C)))
  have hp := (leftover_cells_perm a hits C hd).map (fun c => c.energy)
  have hs := hp.sum_eq
  rw [List.map_map, List.map_map] at hs
  rw [l2]
  exact hs

/-- C21: the left-over cluster. For an input cluster with pairwise distinct cell
identifiers, 2 or more confirmed seeds and a growth that completes: a cluster of type 3 is
emitted exactly when some cell of the input cluster is in the hit list of no sub-cluster;
its energy is the sum of the energies of these cells, and these cells are emitted into
the cell collection with type 4, before the hits of the clusters; but the hit list of the
cluster of type 3 is empty: the cells are not attached to it. -/
theorem leftover_cluster_without_hits (a : SplitClusters) (nClusters : Nat)
    (allCells : List (Nat × Int)) (cluster : Cluster) (out : SplitClusters.Emitted)
    (hd : (cluster.hits.map (fun c => c.cellID)).Nodup)
    (hseeds : 2 ≤ (a.newSeeds cluster.hits).length)
    (hok : a.splitCluster nClusters allCells cluster = Except.ok out) :
    ((∃ cl ∈ out.clusters, cl.type = 3) ↔ unclaimedCells cluster.hits out.clusters ≠ []) ∧
    (∀ cl ∈ out.clusters, cl.type = 3 →
      cl.energy = ((unclaimedCells cluster.hits out.clusters).map (fun c => c.energy)).sum ∧
      cl.hits = []) ∧
    (∃ lo, out.cells = lo ++ out.clusters.flatMap (fun cl => cl.hits) ∧
      lo.Perm ((unclaimedCells cluster.hits out.clusters).map
        (fun c => { c with type := 4 }))) := by
  obtain ⟨pre, coc, hK, hP, rfl⟩ := splitCluster_split a nClusters allCells cluster out hseeds hok
  have hU := unclaimed_eq a cluster (SplitClusters.allCellsAfterRead allCells cluster.hits)
    pre coc hP
  have hiff := leftover_iff cluster.hits coc hd hK
  obtain ⟨ecl, ecells⟩ := emitSplit_clusters a cluster
    (SplitClusters.allCellsAfterRead allCells cluster.hits) pre coc
  rw [hU]
  have hsub : ∀ cl ∈ (coc.foldl SplitClusters.collectCell
        { preClusterCollection := pre, cellsType := SplitClusters.cellsType cluster.hits,
          allCells := SplitClusters.allCellsAfterRead allCells cluster.hits,
          allClusteredCells := 0 }).preClusterCollection.map
        (fun i => SplitClusters.subCluster
          (a.subClusterSums (SplitClusters.cellsEnergy cluster.hits) i.2)),
      cl.type ≠ 3 := by
    intro cl hcl hty
    obtain ⟨i, _, rfl⟩ := List.mem_map.1 hcl
    simp [SplitClusters.subCluster] at hty
  refine ⟨⟨?_, ?_⟩, ?_, ?_⟩
  · rintro ⟨cl, hcl, hty⟩
    rw [ecl] at hcl
    rcases List.mem_append.1 hcl with h | h
    · by_cases hlen : coc.length ≠ cluster.hits.length
      · exact hiff.1 hlen
      · rw [if_neg hlen] at h
        cases h
    · exact absurd hty (hsub cl h)
  · intro hne
    have hlen := hiff.2 hne
    refine ⟨SplitClusters.leftoverCluster (a.leftoverSums (SplitClusters.cellsEnergy cluster.hits)
      ((SplitClusters.cellsType cluster.hits).filter
        (fun p => decide (p.1 ∉ coc.map Prod.fst)))), ?_, rfl⟩
    rw [ecl, if_pos hlen]
    exact List.mem_append_left _ (List.mem_singleton.2 rfl)
  · intro cl hcl hty
    rw [ecl] at hcl
    rcases List.mem_append.1 hcl with h | h
    · by_cases hlen : coc.length ≠ cluster.hits.length
      · rw [if_pos hlen] at h
        rw [List.mem_singleton.1 h]
        exact ⟨leftover_energy a cluster.hits _ hd, rfl⟩
      · rw [if_neg hlen] at h
        cases h
    · exact absurd hty (hsub cl h)
  · refine ⟨_, ecells, ?_⟩
    by_cases hlen : coc.length ≠ cluster.hits.length
    · rw [if_pos hlen, (leftoverSums_spec a _ _).1]
      exact leftover_cells_perm a cluster.hits _ hd
    · rw [if_neg hlen]
      have e : cluster.hits.filter (fun c => decide (c.cellID ∉ coc.map Prod.fst)) = [] := by
        by_contra hne
        exact hlen (hiff.2 hne)
      rw [e]
      exact List.Perm.refl _

theorem leftover_cluster_without_hits_witness :
    ∃ out, lineSplitter.splitCluster 1 [] strayCellCluster = Except.ok out ∧
      unclaimedCells strayCellCluster.hits out.clusters = [⟨9, 3, 2⟩] ∧
      ((∃ cl ∈ out.clusters, cl.type = 3) ↔
        unclaimedCells strayCellCluster.hits out.clusters ≠ []) ∧
      (∀ cl ∈ out.clusters, cl.type = 3 →
        cl.energy
          = ((unclaimedCells strayCellCluster.hits out.clusters).map (fun c => c.energy)).sum ∧
        cl.hits = []) ∧
      (∃ lo, out.cells = lo ++ out.clusters.flatMap (fun cl => cl.hits) ∧
        lo.Perm ((unclaimedCells strayCellCluster.hits out.clusters).map
          (fun c => { c with type := 4 }))) :=
  (except_ok_of_isOk (lineSplitter.splitCluster 1 [] strayCellCluster) (by decide!)).elim
    (fun out h => ⟨out, h,
      by
        have e : (match lineSplitter.splitCluster 1 [] strayCellCluster with
            | Except.ok o => unclaimedCells strayCellCluster.hits o.clusters
            | Except.error _ => []) = [⟨9, 3, 2⟩] := by decide!
        rw [h] at e
        exact e,
      leftover_cluster_without_hits lineSplitter 1 [] strayCellCluster out
        (by decide) (by decide!) h⟩)

/-- C22: number of outputs. For an input cluster with pairwise distinct cell identifiers,
`k ≥ 2` confirmed seeds and a growth that completes, the splitter emits exactly `k`
clusters of type 2, and besides them one cluster (of type 3) when some cell of the input
cluster is in the hit list of no sub-cluster, and none otherwise. -/
theorem split_emits_one_cluster_per_seed (a : SplitClusters) (nClusters : Nat)
    (allCells : List (Nat × Int)) (cluster : Cluster) (out : SplitClusters.Emitted)
    (hd : (cluster.hits.map (fun c => c.cellID)).Nodup)
    (hseeds : 2 ≤ (a.newSeeds cluster.hits).length)
    (hok : a.splitCluster nClusters allCells cluster = Except.ok out) :
    (out.clusters.filter (fun cl => decide (cl.type = 2))).length
      = (a.newSeeds cluster.hits).length ∧
    (out.clusters.filter (fun cl => decide (cl.type ≠ 2))).length
      = (if unclaimedCells cluster.hits out.clusters = [] then 0 else 1) ∧
    (∀ cl ∈ out.clusters, cl.type ≠ 2 → cl.type = 3) := by
  obtain ⟨st, hg, rfl⟩ := splitCluster_run a nClusters allCells cluster out hseeds hok
  obtain ⟨hlen0, hfind, hv0, hk0, hp0⟩ := iteration0_pre a nClusters cluster
  have hv := growthLoop_values a _ _ nClusters _ 1002 1 _ st hv0 hg
  have hK := growthLoop_keys a _ _ nClusters _ 1002 1 _ st hk0 hg
  have hkeys := collectCell_keys st.1.clusterOfCell
    { preClusterCollection := (a.iteration0 nClusters cluster).preClusterCollection,
      cellsType := SplitClusters.cellsType cluster.hits,
      allCells := SplitClusters.allCellsAfterRead allCells cluster.hits,
      allClusteredCells := 0 }
    (fun i hi => hfind i.2 (hv i hi).1 (hv i hi).2)
  have hlen : (st.1.clusterOfCell.foldl SplitClusters.collectCell
      { preClusterCollection := (a.iteration0 nClusters cluster).preClusterCollection,
        cellsType := SplitClusters.cellsType cluster.hits,
        allCells := SplitClusters.allCellsAfterRead allCells cluster.hits,
        allClusteredCells := 0 }).preClusterCollection.length
      = (a.newSeeds cluster.hits).length := by
    have := congrArg List.length hkeys
    rw [List.length_map, List.length_map] at this
    rw [this]
    exact hlen0
  have hU := unclaimed_eq a cluster (SplitClusters.allCellsAfterRead allCells cluster.hits)
    (a.iteration0 nClusters cluster).preClusterCollection st.1.clusterOfCell hp0
  have hiff := leftover_iff cluster.hits st.1.clusterOfCell hd hK
  obtain ⟨ecl, _⟩ := emitSplit_clusters a cluster
    (SplitClusters.allCellsAfterRead allCells cluster.hits)
    (a.iteration0 nClusters cluster).preClusterCollection st.1.clusterOfCell
  rw [hU, ecl]
  have hS2 : ∀ cl ∈ (st.1.clusterOfCell.foldl SplitClusters.collectCell
        { preClusterCollection := (a.iteration0 nClusters cluster).preClusterCollection,
          cellsType := SplitClusters.cellsType cluster.hits,
          allCells := SplitClusters.allCellsAfterRead allCells cluster.hits,
          allClusteredCells := 0 }).preClusterCollection.map
        (fun i => SplitClusters.subCluster
          (a.subClusterSums (SplitClusters.cellsEnergy cluster.hits) i.2)),
      cl.type = 2 := by
    intro cl hcl
    obtain ⟨i, _, rfl⟩ := List.mem_map.1 hcl
    rfl
  have hSa : ((st.1.clusterOfCell.foldl SplitClusters.collectCell
        { preClusterCollection := (a.iteration0 nClusters cluster).preClusterCollection,
          cellsType := SplitClusters.cellsType cluster.hits,
          allCells := SplitClusters.allCellsAfterRead allCells cluster.hits,
          allClusteredCells := 0 }).preClusterCollection.map
        (fun i => SplitClusters.subCluster
          (a.subClusterSums (SplitClusters.cellsEnergy cluster.hits) i.2))).filter
        (fun cl => decide (cl.type = 2))
      = (st.1.clusterOfCell.foldl SplitClusters.collectCell
        { preClusterCollection := (a.iteration0 nClusters cluster).preClusterCollection,
          cellsType := SplitClusters.cellsType cluster.hits,
          allCells := SplitClusters.allCellsAfterRead allCells cluster.hits,
          allClusteredCells := 0 }).preClusterCollection.map
        (fun i => SplitClusters.subCluster
          (a.subClusterSums (SplitClusters.cellsEnergy cluster.hits) i.2)) := by
    rw [List.filter_eq_self]
    intro cl hcl
    simpa using hS2 cl hcl
  have hSb : ((st.1.clusterOfCell.foldl SplitClusters.collectCell
        { preClusterCollection := (a.iteration0 nClusters cluster).preClusterCollection,
          cellsType := SplitClusters.cellsType cluster.hits,
          allCells := SplitClusters.allCellsAfterRead allCells cluster.hits,
          allClusteredCells := 0 }).preClusterCollection.map
        (fun i => SplitClusters.subCluster
          (a.subClusterSums (SplitClusters.cellsEnergy cluster.hits) i.2))).filter
        (fun cl => decide (cl.type ≠ 2)) = [] := by
    rw [List.filter_eq_nil_iff]
    intro cl hcl
    simpa using hS2 cl hcl
  refine ⟨?_, ?_, ?_⟩
  · rw [List.filter_append, hSa, List.length_append, List.length_map, hlen]
    split_ifs <;> simp [SplitClusters.leftoverCluster]
  · rw [List.filter_append, hSb, List.append_nil]
    by_cases hne : st.1.clusterOfCell.length ≠ cluster.hits.length
    · rw [if_pos hne, if_neg (hiff.1 hne)]
      simp [SplitClusters.leftoverCluster]
    · rw [if_neg hne]
      have e : cluster.hits.filter
          (fun c => decide (c.cellID ∉ st.1.clusterOfCell.map Prod.fst)) = [] := by
        by_contra hcon
        exact hne (hiff.2 hcon)
      rw [if_pos e]
      rfl
  · intro cl hcl hty
    rcases List.mem_append.1 hcl with h | h
    · by_cases hne : st.1.clusterOfCell.length ≠ cluster.hits.length
      · rw [if_pos hne] at h
        rw [List.mem_singleton.1 h]
        rfl
      · rw [if_neg hne] at h
        cases h
    · exact absurd (hS2 cl h) hty

theorem split_emits_one_cluster_per_seed_witness :
    (∃ out, lineSplitter.splitCluster 1 [] strayCellCluster = Except.ok out ∧
      (lineSplitter.newSeeds strayCellCluster.hits).length = 2 ∧
      unclaimedCells strayCellCluster.hits out.clusters ≠ [] ∧
      (out.clusters.filter (fun cl => decide (cl.type = 2))).length
        = (lineSplitter.newSeeds strayCellCluster.hits).length ∧
      (out.clusters.filter (fun cl => decide (cl.type ≠ 2))).length
        = (if unclaimedCells strayCellCluster.hits out.clusters = [] then 0 else 1) ∧
      (∀ cl ∈ out.clusters, cl.type ≠ 2 → cl.type = 3)) ∧
    (∃ out, lineSplitter.splitCluster 1 [] twoSeedCluster = Except.ok out ∧
      unclaimedCells twoSeedCluster.hits out.clusters = [] ∧
      (out.clusters.filter (fun cl => decide (cl.type = 2))).length
        = (lineSplitter.newSeeds twoSeedCluster.hits).length ∧
      (out.clusters.filter (fun cl => decide (cl.type ≠ 2))).length
        = (if unclaimedCells twoSeedCluster.hits out.clusters = [] then 0 else 1) ∧
      (∀ cl ∈ out.clusters, cl.type ≠ 2 → cl.type = 3)) :=
  ⟨(except_ok_of_isOk (lineSplitter.splitCluster 1 [] strayCellCluster) (by decide!)).elim
    (fun out h => ⟨out, h, by decide!,
      by
        have e : (match lineSplitter.splitCluster 1 [] strayCellCluster with
            | Except.ok o => unclaimedCells strayCellCluster.hits o.clusters
            | Except.error _ => []) = [⟨9, 3, 2⟩] := by decide!
        rw [h] at e
        have e' : unclaimedCells strayCellCluster.hits out.clusters = [⟨9, 3, 2⟩] := e
        rw [e']
        exact List.cons_ne_nil _ _,
      split_emits_one_cluster_per_seed lineSplitter 1 [] strayCellCluster out
        (by decide) (by decide!) h⟩),
   (except_ok_of_isOk (lineSplitter.splitCluster 1 [] twoSeedCluster) (by decide!)).elim
    (fun out h => ⟨out, h,
      by
        have e : (match lineSplitter.splitCluster 1 [] twoSeedCluster with
            | Except.ok o => unclaimedCells twoSeedCluster.hits o.clusters
            | Except.error _ => [⟨0, 0, 0⟩]) = [] := by decide!
        rw [h] at e
        exact e,
      split_emits_one_cluster_per_seed lineSplitter 1 [] twoSeedCluster out
        (by decide) (by decide!) h⟩)⟩

/-! ## An empty neighbour list stops the execution -/

theorem appendFrontier_get (vv vv' : List (List (Nat × Nat))) (i : Nat)
    (vec : List (Nat × Nat)) (h : SplitClusters.appendFrontier vv i vec = some vv') :
    ∃ old, vv.get? i = some old ∧ vv'.get? i = some (old ++ vec) ∧
      ∀ i', i' ≠ i → vv'.get? i' = vv.get? i' := by
  induction vv generalizing i vv' with
  | nil => simp [SplitClusters.appendFrontier] at h
  | cons f fs ih =>
    cases i with
    | zero =>
      simp only [SplitClusters.appendFrontier, Option.some.injEq] at h
      rw [← h]
      refine ⟨f, rfl, rfl, ?_⟩
      intro i' hi'
      cases i' with
      | zero => exact absurd rfl hi'
      | succ i' => rfl
    | succ i =>
      simp only [SplitClusters.appendFrontier] at h
      cases hr : SplitClusters.appendFrontier fs i vec with
      | none => rw [hr] at h; cases h
      | some r =>
        rw [hr] at h
        simp only [Option.map_some', Option.some.injEq] at h
        rw [← h]
        obtain ⟨old, h1, h2, h3⟩ := ih r i hr
        refine ⟨old, h1, h2, ?_⟩
        intro i' hi'
        cases i' with
        | zero => rfl
        | succ i' => exact h3 i' (fun e => hi' (by rw [e]))

theorem appendFrontier_some (vv : List (List (Nat × Nat))) (i : Nat) (vec : List (Nat × Nat))
    (h : i < vv.length) : ∃ vv', SplitClusters.appendFrontier vv i vec = some vv' := by
  induction vv generalizing i with
  | nil => simp at h
  | cons f fs ih =>
    cases i with
    | zero => exact ⟨_, rfl⟩
    | succ i =>
      obtain ⟨r, hr⟩ := ih i (by simpa using h)
      simp only [SplitClusters.appendFrontier]
      rw [hr]
      exact ⟨_, rfl⟩

theorem mapGet_mapAssign {α : Type} (m : List (Nat × α)) (k k' : Nat) (v d : α) :
    mapGet (mapAssign natLt m k v) k' d = if k = k' then v else mapGet m k' d := by
  unfold mapGet
  rw [mapFind_mapAssign]
  by_cases h : k = k'
  · rw [if_pos h, if_pos h]; rfl
  · rw [if_neg h, if_neg h]

theorem expandCell_entry (a : SplitClusters) (ct : List (Nat × Int))
    (cp : List (Nat × TLorentzVector)) (iter cid : Nat)
    (st st' : SplitClusters.Growth × Frontiers) (id : Nat × Nat)
    (he : a.expandCell ct cp iter cid st id = Except.ok st') :
    id.1 ≠ 0 ∧ id.2 = cid ∧
    (∀ c, c ≠ cid → mapGet st'.2 c [] = mapGet st.2 c []) ∧
    (mapGet st'.2 cid []).length = (mapGet st.2 cid []).length ∧
    ∃ old, (mapGet st.2 cid []).get? iter = some old ∧
      (mapGet st'.2 cid []).get? iter
        = some (old ++ (a.searchForNeighbours id.1 cid ct cp st.1).2) ∧
      ∀ i', i' ≠ iter → (mapGet st'.2 cid []).get? i' = (mapGet st.2 cid []).get? i' := by
  unfold SplitClusters.expandCell at he
  by_cases h1 : id.1 = 0
  · rw [if_pos h1] at he; cases he
  · rw [if_neg h1] at he
    by_cases h2 : id.2 ≠ cid
    · rw [if_pos h2] at he; cases he
    · rw [if_neg h2] at he
      cases hap : SplitClusters.appendFrontier (mapGet st.2 cid []) iter
          (a.searchForNeighbours id.1 cid ct cp st.1).2 with
      | none => simp only [hap] at he; cases he
      | some vv =>
        simp only [hap] at he
        cases he
        have hself : mapGet (mapAssign natLt st.2 cid vv) cid [] = vv := by
          rw [mapGet_mapAssign, if_pos rfl]
        refine ⟨h1, not_not.1 h2, ?_, ?_, ?_⟩
        · intro c hc
          show mapGet (mapAssign natLt st.2 cid vv) c [] = _
          rw [mapGet_mapAssign, if_neg (fun e => hc e.symm)]
        · show (mapGet (mapAssign natLt st.2 cid vv) cid []).length = _
          rw [hself]
          exact appendFrontier_length _ _ _ _ hap
        · show ∃ old, _ ∧ (mapGet (mapAssign natLt st.2 cid vv) cid []).get? iter = _ ∧
            ∀ i', i' ≠ iter → (mapGet (mapAssign natLt st.2 cid vv) cid []).get? i' = _
          rw [hself]
          exact appendFrontier_get _ _ _ _ hap

theorem expandCell_marked (a : SplitClusters) (ct : List (Nat × Int))
    (cp : List (Nat × TLorentzVector)) (iter cid c : Nat)
    (st st' : SplitClusters.Growth × Frontiers) (id : Nat × Nat)
    (hm : Marked c iter st.2)
    (he : a.expandCell ct cp iter cid st id = Except.ok st') : Marked c iter st'.2 := by
  obtain ⟨_, _, hoth, _, old, h1, h2, _⟩ := expandCell_entry a ct cp iter cid st st' id he
  obtain ⟨f, hf, hmem⟩ := hm
  by_cases hc : c = cid
  · subst hc
    rw [h1] at hf
    cases hf
    exact ⟨_, h2, List.mem_append_left _ hmem⟩
  · exact ⟨f, by rw [hoth c hc]; exact hf, hmem⟩

theorem expandCell_ready (a : SplitClusters) (ct : List (Nat × Int))
    (cp : List (Nat × TLorentzVector)) (nClusters nSeeds iter cid : Nat)
    (st st' : SplitClusters.Growth × Frontiers) (id : Nat × Nat)
    (hr : FrontiersReady nClusters nSeeds st.2)
    (he : a.expandCell ct cp iter cid st id = Except.ok st') :
    FrontiersReady nClusters nSeeds st'.2 := by
  obtain ⟨_, _, hoth, hlen, _⟩ := expandCell_entry a ct cp iter cid st st' id he
  intro j hj
  by_cases hc : nClusters + (j + 1) = cid
  · rw [hc, hlen, ← hc]
    exact hr j hj
  · rw [hoth _ hc]
    exact hr j hj

/-- The fold over a frontier that holds a cell without neighbours, or the pair written
for one: it stops the execution, or it writes the pair `(0, 0)` into the next frontier. -/
theorem frontier_fold_marks (a : SplitClusters) (ct : List (Nat × Int))
    (cp : List (Nat × TLorentzVector)) (iter cid : Nat) (f : List (Nat × Nat))
    (id : Nat × Nat) (hid : id ∈ f) (hn : id.1 = 0 ∨ a.neighbours id.1 = [])
    (st st' : SplitClusters.Growth × Frontiers)
    (he : f.foldlM (a.expandCell ct cp iter cid) st = Except.ok st') :
    id.1 ≠ 0 ∧ Marked cid iter st'.2 := by
  induction f generalizing st with
  | nil => cases hid
  | cons x xs ih =>
    rw [List.foldlM_cons] at he
    cases hx : a.expandCell ct cp iter cid st x with
    | error e => rw [hx] at he; cases he
    | ok s1 =>
      rw [hx] at he
      rcases List.mem_cons.1 hid with h | h
      · subst h
        obtain ⟨h0, _, _, _, old, h1, h2, _⟩ := expandCell_entry a ct cp iter cid st s1 id hx
        have hnb : a.neighbours id.1 = [] := by
          rcases hn with h | h
          · exact absurd h h0
          · exact h
        have hfound : (a.searchForNeighbours id.1 cid ct cp st.1).2 = [(0, 0)] := by
          unfold SplitClusters.searchForNeighbours
          rw [if_pos (by rw [hnb]; rfl)]
        rw [hfound] at h2
        have hm1 : Marked cid iter s1.2 := ⟨_, h2, by simp⟩
        refine ⟨h0, ?_⟩
        exact foldlM_except_inv (fun s => Marked cid iter s.2) _
          (fun s y s' hs hy => expandCell_marked a ct cp iter cid cid s s' y hs hy) xs s1 st'
          hm1 he
      · exact ih h s1 he

theorem expandCluster_other (a : SplitClusters) (ct : List (Nat × Int))
    (cp : List (Nat × TLorentzVector)) (iter cid c : Nat)
    (st st' : (SplitClusters.Growth × Frontiers) × Bool) (hc : c ≠ cid)
    (he : a.expandCluster ct cp iter st cid = Except.ok st') :
    mapGet st'.1.2 c [] = mapGet st.1.2 c [] := by
  unfold SplitClusters.expandCluster at he
  cases hg : (mapGet st.1.2 cid []).get? (iter - 1) with
  | none => simp only [hg] at he; cases he
  | some frontier =>
    simp only [hg] at he
    split_ifs at he
    · cases hfold : frontier.foldlM (a.expandCell ct cp iter cid) st.1 with
      | error e => simp only [hfold] at he; cases he
      | ok s1 =>
        simp only [hfold] at he
        cases he
        exact foldlM_except_inv (fun s => mapGet s.2 c [] = mapGet st.1.2 c []) _
          (fun s y s' hs hy =>
            ((expandCell_entry a ct cp iter cid s s' y hy).2.2.1 c hc).trans hs)
          frontier st.1 s1 rfl hfold
    · cases he
      rfl

theorem expandCluster_marked (a : SplitClusters) (ct : List (Nat × Int))
    (cp : List (Nat × TLorentzVector)) (iter cid c : Nat)
    (st st' : (SplitClusters.Growth × Frontiers) × Bool)
    (hm : Marked c iter st.1.2 ∧ st.2 = true)
    (he : a.expandCluster ct cp iter st cid = Except.ok st') :
    Marked c iter st'.1.2 ∧ st'.2 = true := by
  unfold SplitClusters.expandCluster at he
  cases hg : (mapGet st.1.2 cid []).get? (iter - 1) with
  | none => simp only [hg] at he; cases he
  | some frontier =>
    simp only [hg] at he
    split_ifs at he
    · cases hfold : frontier.foldlM (a.expandCell ct cp iter cid) st.1 with
      | error e => simp only [hfold] at he; cases he
      | ok s1 =>
        simp only [hfold] at he
        cases he
        exact ⟨foldlM_except_inv (fun s => Marked c iter s.2) _
          (fun s y s' hs hy => expandCell_marked a ct cp iter cid c s s' y hs hy)
          frontier st.1 s1 hm.1 hfold, rfl⟩
    · cases he
      exact hm

theorem expandCluster_marks (a : SplitClusters) (ct : List (Nat × Int))
    (cp : List (Nat × TLorentzVector)) (iter cid : Nat)
    (st st' : (SplitClusters.Growth × Frontiers) × Bool)
    (f : List (Nat × Nat)) (id : Nat × Nat)
    (hf : (mapGet st.1.2 cid []).get? (iter - 1) = some f) (hid : id ∈ f)
    (hn : id.1 = 0 ∨ a.neighbours id.1 = [])
    (he : a.expandCluster ct cp iter st cid = Except.ok st') :
    id.1 ≠ 0 ∧ Marked cid iter st'.1.2 ∧ st'.2 = true := by
  unfold SplitClusters.expandCluster at he
  simp only [hf] at he
  have hpos : f.length > 0 := List.length_pos_of_mem hid
  rw [if_pos hpos] at he
  cases hfold : f.foldlM (a.expandCell ct cp iter cid) st.1 with
  | error e => simp only [hfold] at he; cases he
  | ok s1 =>
    simp only [hfold] at he
    cases he
    obtain ⟨h0, hm⟩ := frontier_fold_marks a ct cp iter cid f id hid hn st.1 s1 hfold
    exact ⟨h0, hm, rfl⟩

theorem clusters_fold_marks (a : SplitClusters) (ct : List (Nat × Int))
    (cp : List (Nat × TLorentzVector)) (iter c : Nat) (f : List (Nat × Nat)) (id : Nat × Nat)
    (hid : id ∈ f) (hn : id.1 = 0 ∨ a.neighbours id.1 = []) (l : List Nat) (hc : c ∈ l)
    (st st' : (SplitClusters.Growth × Frontiers) × Bool)
    (hf : (mapGet st.1.2 c []).get? (iter - 1) = some f)
    (he : l.foldlM (a.expandCluster ct cp iter) st = Except.ok st') :
    id.1 ≠ 0 ∧ Marked c iter st'.1.2 ∧ st'.2 = true := by
  induction l generalizing st with
  | nil => cases hc
  | cons x xs ih =>
    rw [List.foldlM_cons] at he
    cases hx : a.expandCluster ct cp iter st x with
    | error e => rw [hx] at he; cases he
    | ok s1 =>
      rw [hx] at he
      by_cases hxc : x = c
      · subst hxc
        obtain ⟨h0, hm, hfl⟩ := expandCluster_marks a ct cp iter x st s1 f id hf hid hn hx
        have := foldlM_except_inv (fun s => Marked x iter s.1.2 ∧ s.2 = true) _
          (fun s y s' hs hy => expandCluster_marked a ct cp iter y x s s' hs hy) xs s1 st'
          ⟨hm, hfl⟩ he
        exact ⟨h0, this.1, this.2⟩
      · have hc' : c ∈ xs := by
          rcases List.mem_cons.1 hc with h | h
          · exact absurd h.symm hxc
          · exact h
        have hsame := expandCluster_other a ct cp iter x c st s1 (fun e => hxc e.symm) hx
        exact ih hc' s1 (by rw [hsame]; exact hf) he

theorem growthRound_marks (a : SplitClusters) (ct : List (Nat × Int))
    (cp : List (Nat × TLorentzVector)) (nClusters nSeeds iter j : Nat)
    (st : SplitClusters.Growth × Frontiers) (st' : (SplitClusters.Growth × Frontiers) × Bool)
    (f : List (Nat × Nat)) (id : Nat × Nat) (hj : j < nSeeds)
    (hf : (mapGet st.2 (nClusters + (j + 1)) []).get? (iter - 1) = some f) (hid : id ∈ f)
    (hn : id.1 = 0 ∨ a.neighbours id.1 = [])
    (he : a.growthRound ct cp nClusters nSeeds iter st = Except.ok st') :
    id.1 ≠ 0 ∧ Marked (nClusters + (j + 1)) iter st'.1.2 ∧ st'.2 = true := by
  unfold SplitClusters.growthRound at he
  exact clusters_fold_marks a ct cp iter (nClusters + (j + 1)) f id hid hn _
    (List.mem_map.2 ⟨j, List.mem_range.2 hj, rfl⟩) (st, false) st' hf he

theorem foldlM_except_error {σ ι : Type} (P : σ → Prop) (f : σ → ι → Except Abort σ)
    (l : List ι)
    (hf : ∀ x ∈ l, ∀ s, P s →
      (∀ s', f s x = Except.ok s' → P s') ∧ (∀ e, f s x = Except.error e → e = Abort.failure))
    (s : σ) (hs : P s) (e : Abort) (h : l.foldlM f s = Except.error e) :
    e = Abort.failure := by
  induction l generalizing s with
  | nil => simp only [List.foldlM_nil] at h; cases h
  | cons x xs ih =>
    rw [List.foldlM_cons] at h
    cases hx : f s x with
    | error e' =>
      rw [hx] at h
      cases h
      exact (hf x (List.mem_cons_self _ _) s hs).2 e hx
    | ok s1 =>
      rw [hx] at h
      exact ih (fun y hy => hf y (List.mem_cons_of_mem _ hy)) s1
        ((hf x (List.mem_cons_self _ _) s hs).1 s1 hx) h

theorem expandCell_error (a : SplitClusters) (ct : List (Nat × Int))
    (cp : List (Nat × TLorentzVector)) (iter cid : Nat)
    (st : SplitClusters.Growth × Frontiers) (id : Nat × Nat) (e : Abort)
    (hlen : iter < (mapGet st.2 cid []).length)
    (he : a.expandCell ct cp iter cid st id = Except.error e) : e = Abort.failure := by
  unfold SplitClusters.expandCell at he
  by_cases h1 : id.1 = 0
  · rw [if_pos h1] at he; cases he; rfl
  · rw [if_neg h1] at he
    by_cases h2 : id.2 ≠ cid
    · rw [if_pos h2] at he; cases he; rfl
    · rw [if_neg h2] at he
      obtain ⟨vv, hvv⟩ := appendFrontier_some (mapGet st.2 cid []) iter
        (a.searchForNeighbours id.1 cid ct cp st.1).2 hlen
      simp only [hvv] at he
      cases he

theorem expandCluster_ready (a : SplitClusters) (ct : List (Nat × Int))
    (cp : List (Nat × TLorentzVector)) (nClusters nSeeds iter cid : Nat)
    (st : (SplitClusters.Growth × Frontiers) × Bool)
    (hr : FrontiersReady nClusters nSeeds st.1.2) :
    (∀ st', a.expandCluster ct cp iter st cid = Except.ok st' →
      FrontiersReady nClusters nSeeds st'.1.2) ∧
    (∀ j < nSeeds, cid = nClusters + (j + 1) → 1 ≤ iter → iter ≤ 1000 →
      ∀ e, a.expandCluster ct cp iter st cid = Except.error e → e = Abort.failure) := by
  constructor
  · intro st' he
    unfold SplitClusters.expandCluster at he
    cases hg : (mapGet st.1.2 cid []).get? (iter - 1) with
    | none => simp only [hg] at he; cases he
    | some frontier =>
      simp only [hg] at he
      split_ifs at he
      · cases hfold : frontier.foldlM (a.expandCell ct cp iter cid) st.1 with
        | error e => simp only [hfold] at he; cases he
        | ok s1 =>
          simp only [hfold] at he
          cases he
          exact foldlM_except_inv (fun s => FrontiersReady nClusters nSeeds s.2) _
            (fun s y s' hs hy => expandCell_ready a ct cp nClusters nSeeds iter cid s s' y hs hy)
            frontier st.1 s1 hr hfold
      · cases he
        exact hr
  · intro j hj hcid h1 h2 e he
    unfold SplitClusters.expandCluster at he
    have hlen := hr j hj
    rw [← hcid] at hlen
    cases hg : (mapGet st.1.2 cid []).get? (iter - 1) with
    | none =>
      exfalso
      rw [List.get?_eq_none] at hg
      omega
    | some frontier =>
      simp only [hg] at he
      split_ifs at he
      cases hfold : frontier.foldlM (a.expandCell ct cp iter cid) st.1 with
      | ok s1 => simp only [hfold] at he; cases he
      | error e' =>
        simp only [hfold] at he
        cases he
        refine foldlM_except_error
          (fun s => (mapGet s.2 cid []).length = 1001) _ frontier ?_ st.1 hlen e hfold
        intro y _ s hs
        constructor
        · intro s' hy
          rw [(expandCell_entry a ct cp iter cid s s' y hy).2.2.2.1]
          exact hs
        · intro e' hy
          exact expandCell_error a ct cp iter cid s y e' (by rw [hs]; omega) hy

theorem growthRound_ready (a : SplitClusters) (ct : List (Nat × Int))
    (cp : List (Nat × TLorentzVector)) (nClusters nSeeds iter : Nat)
    (st : SplitClusters.Growth × Frontiers) (hr : FrontiersReady nClusters nSeeds st.2) :
    (∀ st', a.growthRound ct cp nClusters nSeeds iter st = Except.ok st' →
      FrontiersReady nClusters nSeeds st'.1.2) ∧
    (1 ≤ iter → iter ≤ 1000 →
      ∀ e, a.growthRound ct cp nClusters nSeeds iter st = Except.error e → e = Abort.failure) := by
  unfold SplitClusters.growthRound
  constructor
  · intro st' he
    exact foldlM_except_inv (fun s => FrontiersReady nClusters nSeeds s.1.2) _
      (fun s x s' hs hx => (expandCluster_ready a ct cp nClusters nSeeds iter x s hs).1 s' hx)
      _ (st, false) st' hr he
  · intro h1 h2 e he
    refine foldlM_except_error (fun s => FrontiersReady nClusters nSeeds s.1.2) _ _ ?_
      (st, false) hr e he
    intro x hx s hs
    obtain ⟨j, hj, rfl⟩ := List.mem_map.1 hx
    exact ⟨(expandCluster_ready a ct cp nClusters nSeeds iter _ s hs).1,
      (expandCluster_ready a ct cp nClusters nSeeds iter _ s hs).2 j (List.mem_range.1 hj) rfl
        h1 h2⟩

theorem growthLoop_succ (a : SplitClusters) (ct : List (Nat × Int))
    (cp : List (Nat × TLorentzVector)) (nClusters nSeeds fuel iter : Nat)
    (st : SplitClusters.Growth × Frontiers) :
    a.growthLoop ct cp nClusters nSeeds (fuel + 1) iter st
      = match a.growthRound ct cp nClusters nSeeds iter st with
        | Except.error e => Except.error e
        | Except.ok (st', true) => a.growthLoop ct cp nClusters nSeeds fuel (iter + 1) st'
        | Except.ok (st', false) => Except.ok st' := by
  rfl

theorem reachedRound_spec (a : SplitClusters) (ct : List (Nat × Int))
    (cp : List (Nat × TLorentzVector)) (nClusters nSeeds k : Nat) :
    ∀ (iter : Nat) (st0 st : SplitClusters.Growth × Frontiers),
      reachedRound a ct cp nClusters nSeeds k iter st0 = some st →
      (FrontiersReady nClusters nSeeds st0.2 → FrontiersReady nClusters nSeeds st.2) ∧
      ∀ fuel, a.growthLoop ct cp nClusters nSeeds (k + fuel) iter st0
        = a.growthLoop ct cp nClusters nSeeds fuel (iter + k) st := by
  induction k with
  | zero =>
    intro iter st0 st h
    unfold reachedRound at h
    cases h
    refine ⟨fun hr => hr, fun fuel => ?_⟩
    rw [Nat.zero_add, Nat.add_zero]
  | succ k ih =>
    intro iter st0 st h
    unfold reachedRound at h
    cases hr : a.growthRound ct cp nClusters nSeeds iter st0 with
    | error e => simp only [hr] at h; cases h
    | ok r =>
      obtain ⟨s1, found⟩ := r
      cases found with
      | false => simp only [hr] at h; cases h
      | true =>
        simp only [hr] at h
        obtain ⟨i1, i2⟩ := ih (iter + 1) s1 st h
        refine ⟨fun hrdy => i1 ((growthRound_ready a ct cp nClusters nSeeds iter st0 hrdy).1 _ hr),
          fun fuel => ?_⟩
        have e : k + 1 + fuel = (k + fuel) + 1 := by omega
        rw [e, growthLoop_succ]
        simp only [hr]
        rw [i2 fuel]
        have e2 : iter + 1 + k = iter + (k + 1) := by omega
        rw [e2]

theorem foldl_startSeed_ready (a : SplitClusters) (ct : List (Nat × Int))
    (cp : List (Nat × TLorentzVector)) (seeds : List (Nat × ℚ)) (b : SplitClusters.Building)
    (hnone : ∀ k, b.clusterID ≤ k → mapFind b.mapVecNextNeighbours k = none) :
    ∀ c, (c < b.clusterID →
        mapGet (seeds.foldl (a.startSeed ct cp) b).mapVecNextNeighbours c []
          = mapGet b.mapVecNextNeighbours c []) ∧
      (b.clusterID ≤ c → c < b.clusterID + seeds.length →
        (mapGet (seeds.foldl (a.startSeed ct cp) b).mapVecNextNeighbours c []).length = 1001) := by
  induction seeds generalizing b with
  | nil =>
    intro c
    exact ⟨fun _ => rfl, fun h1 h2 => by simp at h2; omega⟩
  | cons s ss ih =>
    intro c
    rw [List.foldl_cons]
    have hfind : ∀ k', mapFind (a.startSeed ct cp b s).mapVecNextNeighbours k'
        = if b.clusterID = k' then
            some ((a.searchForNeighbours s.1 b.clusterID ct cp
              { clusterOfCell := mapEmplace natLt b.growth.clusterOfCell s.1 b.clusterID,
                clusterPositions := mapEmplace natLt b.growth.clusterPositions b.clusterID
                  (mapGet cp s.1 0) }).2 :: List.replicate 1000 [])
          else mapFind b.mapVecNextNeighbours k' := by
      intro k'
      unfold SplitClusters.startSeed
      exact mapFind_mapEmplace natLt _ _ k' _ (hnone _ (le_refl _))
    have hid : (a.startSeed ct cp b s).clusterID = b.clusterID + 1 := rfl
    have hnone' : ∀ k, (a.startSeed ct cp b s).clusterID ≤ k →
        mapFind (a.startSeed ct cp b s).mapVecNextNeighbours k = none := by
      intro k hk
      rw [hid] at hk
      rw [hfind, if_neg (by omega)]
      exact hnone k (by omega)
    obtain ⟨i1, i2⟩ := ih (a.startSeed ct cp b s) hnone' c
    rw [hid] at i1 i2
    constructor
    · intro hlt
      rw [i1 (by omega)]
      unfold mapGet
      rw [hfind, if_neg (by omega)]
    · intro h1 h2
      rw [List.length_cons] at h2
      by_cases hc : c = b.clusterID
      · rw [i1 (by omega)]
        unfold mapGet
        rw [hfind, if_pos hc.symm]
        show (_ :: List.replicate 1000 []).length = 1001
        rw [List.length_cons, List.length_replicate]
      · exact i2 (by omega) (by omega)

theorem iteration0_ready (a : SplitClusters) (nClusters : Nat) (cluster : Cluster) :
    FrontiersReady nClusters (a.newSeeds cluster.hits).length
      (a.iteration0 nClusters cluster).mapVecNextNeighbours := by
  intro j hj
  have := (foldl_startSeed_ready a (SplitClusters.cellsType cluster.hits)
    (SplitClusters.cellsPosition a cluster.hits) (a.newSeeds cluster.hits)
    { growth := { clusterOfCell := [], clusterPositions := [] },
      preClusterCollection := [], mapVecNextNeighbours := [], clusterID := nClusters + 1 }
    (fun _ _ => rfl) (nClusters + (j + 1))).2
  exact this (by show nClusters + 1 ≤ _; omega) (by show _ < nClusters + 1 + _; omega)

theorem growthLoop_doomed (a : SplitClusters) (ct : List (Nat × Int))
    (cp : List (Nat × TLorentzVector)) (nClusters nSeeds iter j : Nat)
    (st : SplitClusters.Growth × Frontiers) (f : List (Nat × Nat)) (id : Nat × Nat)
    (hj : j < nSeeds)
    (hf : (mapGet st.2 (nClusters + (j + 1)) []).get? (iter - 1) = some f) (hid : id ∈ f)
    (hn : a.neighbours id.1 = []) (fuel : Nat) :
    (∃ e, a.growthLoop ct cp nClusters nSeeds fuel iter st = Except.error e) ∧
    (FrontiersReady nClusters nSeeds st.2 → 1 ≤ iter → iter ≤ 999 → 2 ≤ fuel →
      a.growthLoop ct cp nClusters nSeeds fuel iter st = Except.error Abort.failure) := by
  cases fuel with
  | zero => exact ⟨⟨_, rfl⟩, fun _ _ _ h => absurd h (by omega)⟩
  | succ fuel =>
    rw [growthLoop_succ]
    cases hr : a.growthRound ct cp nClusters nSeeds iter st with
    | error e =>
      refine ⟨⟨e, rfl⟩, fun hrdy h1 h2 _ => ?_⟩
      rw [(growthRound_ready a ct cp nClusters nSeeds iter st hrdy).2 h1 (by omega) e hr]
    | ok r =>
      obtain ⟨s1, found⟩ := r
      obtain ⟨_, hm, hfl⟩ := growthRound_marks a ct cp nClusters nSeeds iter j st (s1, found)
        f id hj hf hid (Or.inr hn) hr
      have hfl' : found = true := hfl
      subst hfl'
      dsimp only
      obtain ⟨f', hf', hmem'⟩ := hm
      have hstop : ∀ r2, a.growthRound ct cp nClusters nSeeds (iter + 1) s1 ≠ Except.ok r2 := by
        intro r2 hr2
        have := growthRound_marks a ct cp nClusters nSeeds (iter + 1) j s1 r2 f' (0, 0) hj
          (by rw [Nat.add_sub_cancel]; exact hf') hmem' (Or.inl rfl) hr2
        exact this.1 rfl
      cases fuel with
      | zero => exact ⟨⟨_, rfl⟩, fun _ _ _ h => absurd h (by omega)⟩
      | succ fuel =>
        rw [growthLoop_succ]
        cases hr2 : a.growthRound ct cp nClusters nSeeds (iter + 1) s1 with
        | ok r2 => exact absurd hr2 (hstop r2)
        | error e =>
          refine ⟨⟨e, rfl⟩, fun hrdy h1 h2 _ => ?_⟩
          have hrdy1 := (growthRound_ready a ct cp nClusters nSeeds iter st hrdy).1 _ hr
          rw [(growthRound_ready a ct cp nClusters nSeeds (iter + 1) s1 hrdy1).2 (by omega)
            (by omega) e hr2]

theorem splitCluster_doomed (a : SplitClusters) (nClusters : Nat) (cluster : Cluster)
    (k j : Nat) (st : SplitClusters.Growth × Frontiers) (f : List (Nat × Nat)) (id : Nat × Nat)
    (hseeds : 2 ≤ (a.newSeeds cluster.hits).length)
    (hreach : reachedRound a (SplitClusters.cellsType cluster.hits)
      (a.cellsPosition cluster.hits) nClusters (a.newSeeds cluster.hits).length k 1
      ((a.iteration0 nClusters cluster).growth,
        (a.iteration0 nClusters cluster).mapVecNextNeighbours) = some st)
    (hj : j < (a.newSeeds cluster.hits).length)
    (hf : (mapGet st.2 (nClusters + (j + 1)) []).get? k = some f)
    (hid : id ∈ f) (hn : a.neighbours id.1 = []) (allCells : List (Nat × Int)) :
    (∃ e, a.splitCluster nClusters allCells cluster = Except.error e) ∧
    (k + 1 ≤ 999 → a.splitCluster nClusters allCells cluster = Except.error Abort.failure) := by
  obtain ⟨hrdy, hloop⟩ := reachedRound_spec a _ _ nClusters _ k 1 _ st hreach
  have hready := hrdy (iteration0_ready a nClusters cluster)
  have hk : k < 1001 := by
    have h1 := hready j hj
    have h2 : k < (mapGet st.2 (nClusters + (j + 1)) []).length := by
      by_contra hcon
      rw [List.get?_eq_none.2 (by omega)] at hf
      cases hf
    omega
  have hfuel : 1002 = k + (1002 - k) := by omega
  obtain ⟨⟨e, he⟩, hexact⟩ := growthLoop_doomed a (SplitClusters.cellsType cluster.hits)
    (a.cellsPosition cluster.hits) nClusters (a.newSeeds cluster.hits).length (1 + k) j st f id
    hj (by rw [Nat.add_sub_cancel_left]; exact hf) hid hn (1002 - k)
  have hrun : ∀ e', a.growthLoop (SplitClusters.cellsType cluster.hits)
      (a.cellsPosition cluster.hits) nClusters (a.newSeeds cluster.hits).length 1002 1
      ((a.iteration0 nClusters cluster).growth,
        (a.iteration0 nClusters cluster).mapVecNextNeighbours) = Except.error e' →
      a.splitCluster nClusters allCells cluster = Except.error e' := by
    intro e' hg
    unfold SplitClusters.iteration0 at hg
    unfold SplitClusters.splitCluster
    dsimp only
    rw [if_pos (by omega)]
    simp only [hg]
  constructor
  · refine ⟨e, hrun e ?_⟩
    rw [hfuel, hloop]
    exact he
  · intro h999
    apply hrun
    rw [hfuel, hloop]
    exact hexact hready (by omega) (by omega) (by omega)

theorem execute_error_of_mem (a : SplitClusters) (n : Nat) (cluster : Cluster)
    (h : ∀ all, ∃ e, a.splitCluster n all cluster = Except.error e) (l : List Cluster)
    (hmem : cluster ∈ l) (ev : SplitClusters.Event) :
    ∃ e, l.foldlM
      (fun ev cluster =>
        match a.splitCluster n ev.allCells cluster with
        | Except.error e => Except.error e
        | Except.ok out =>
          Except.ok
            ({ edmClusters := ev.edmClusters ++ out.clusters,
               edmClusterCells := ev.edmClusterCells ++ out.cells,
               allCells := out.allCells,
               totCellsBefore := ev.totCellsBefore + cluster.hits.length,
               totCellsAfter := ev.totCellsAfter + out.cellsAfter,
               totEnergyBefore := ev.totEnergyBefore + cluster.energy,
               totEnergyAfter := ev.totEnergyAfter + out.energyAfter } : SplitClusters.Event))
      ev = Except.error e := by
  induction l generalizing ev with
  | nil => cases hmem
  | cons x xs ih =>
    rw [List.foldlM_cons]
    cases hx : a.splitCluster n ev.allCells x with
    | error e => exact ⟨e, rfl⟩
    | ok out =>
      rcases List.mem_cons.1 hmem with h1 | h1
      · subst h1
        obtain ⟨e, he⟩ := h ev.allCells
        rw [he] at hx
        cases hx
      · exact ih h1 _

theorem execute_error_source (a : SplitClusters) (n : Nat) (l : List Cluster)
    (ev : SplitClusters.Event) (e : Abort)
    (h : l.foldlM
      (fun ev cluster =>
        match a.splitCluster n ev.allCells cluster with
        | Except.error e => Except.error e
        | Except.ok out =>
          Except.ok
            ({ edmClusters := ev.edmClusters ++ out.clusters,
               edmClusterCells := ev.edmClusterCells ++ out.cells,
               allCells := out.allCells,
               totCellsBefore := ev.totCellsBefore + cluster.hits.length,
               totCellsAfter := ev.totCellsAfter + out.cellsAfter,
               totEnergyBefore := ev.totEnergyBefore + cluster.energy,
               totEnergyAfter := ev.totEnergyAfter + out.energyAfter } : SplitClusters.Event))
      ev = Except.error e) :
    ∃ c ∈ l, ∃ all, a.splitCluster n all c = Except.error e := by
  induction l generalizing ev with
  | nil => simp only [List.foldlM_nil] at h; cases h
  | cons x xs ih =>
    rw [List.foldlM_cons] at h
    cases hx : a.splitCluster n ev.allCells x with
    | error e' =>
      simp only [hx] at h
      cases h
      exact ⟨x, List.mem_cons_self _ _, ev.allCells, hx⟩
    | ok out =>
      simp only [hx] at h
      obtain ⟨c, hc, all, hall⟩ := ih _ h
      exact ⟨c, List.mem_cons_of_mem _ hc, all, hall⟩

/-- C24: an empty neighbour lookup is fatal. Let a cluster of the event have 2 or more
confirmed seeds, let its growth reach the round `k + 1` (the `k` rounds before it each
found a frontier that is not empty), and let the frontier which that round expands for one
of the sub-clusters hold a cell whose neighbour list is empty. Then `execute` does not
return `SUCCESS`: the splitting of this cluster stops, whatever `allCells` holds; up to
the round 999 it stops in `return StatusCode::FAILURE`, and so does `execute` when no
cluster of the event makes it leave a vector. -/
theorem empty_neighbour_lookup_is_fatal (a : SplitClusters) (clusters : List Cluster)
    (cluster : Cluster) (k j : Nat) (st : SplitClusters.Growth × Frontiers)
    (f : List (Nat × Nat)) (id : Nat × Nat)
    (hmem : cluster ∈ clusters)
    (hseeds : 2 ≤ (a.newSeeds cluster.hits).length)
    (hreach : reachedRound a (SplitClusters.cellsType cluster.hits)
      (a.cellsPosition cluster.hits) clusters.length (a.newSeeds cluster.hits).length k 1
      ((a.iteration0 clusters.length cluster).growth,
        (a.iteration0 clusters.length cluster).mapVecNextNeighbours) = some st)
    (hj : j < (a.newSeeds cluster.hits).length)
    (hf : (mapGet st.2 (clusters.length + (j + 1)) []).get? k = some f)
    (hid : id ∈ f) (hn : a.neighbours id.1 = []) :
    (∃ e, a.execute clusters = Except.error e) ∧
    (∀ allCells, ∃ e, a.splitCluster clusters.length allCells cluster = Except.error e) ∧
    (k + 1 ≤ 999 →
      (∀ allCells,
        a.splitCluster clusters.length allCells cluster = Except.error Abort.failure) ∧
      ((∀ c ∈ clusters, ∀ allCells,
          a.splitCluster clusters.length allCells c ≠ Except.error Abort.undefined) →
        a.execute clusters = Except.error Abort.failure)) := by
  have key := splitCluster_doomed a clusters.length cluster k j st f id hseeds hreach hj hf hid hn
  have hex : ∃ e, a.execute clusters = Except.error e :=
    execute_error_of_mem a clusters.length cluster (fun all => (key all).1) clusters hmem _
  refine ⟨hex, fun all => (key all).1, fun h999 => ⟨fun all => (key all).2 h999, ?_⟩⟩
  intro hundef
  obtain ⟨e, he⟩ := hex
  obtain ⟨c, hc, all, hall⟩ := execute_error_source a clusters.length clusters _ e he
  cases e with
  | failure => exact he
  | undefined => exact absurd hall (hundef c hc all)

theorem empty_neighbour_lookup_is_fatal_witness :
    (∃ st, reachedRound gapSplitter (SplitClusters.cellsType gapCluster.hits)
        (gapSplitter.cellsPosition gapCluster.hits) 1 2 1 1
        ((gapSplitter.iteration0 1 gapCluster).growth,
          (gapSplitter.iteration0 1 gapCluster).mapVecNextNeighbours) = some st ∧
      (mapGet st.2 2 []).get? 1 = some [(13, 2)]) ∧
    gapSplitter.neighbours 13 = [] ∧
    (∃ e, gapSplitter.execute [gapCluster] = Except.error e) ∧
    (∀ allCells, gapSplitter.splitCluster 1 allCells gapCluster = Except.error Abort.failure) ∧
    gapSplitter.execute [gapCluster] = Except.error Abort.failure :=
  (option_some_of_isSome
    (reachedRound gapSplitter (SplitClusters.cellsType gapCluster.hits)
      (gapSplitter.cellsPosition gapCluster.hits) 1 2 1 1
      ((gapSplitter.iteration0 1 gapCluster).growth,
        (gapSplitter.iteration0 1 gapCluster).mapVecNextNeighbours))
    (by decide!)).elim
    (fun st h =>
      have hf : (mapGet st.2 ([gapCluster].length + (0 + 1)) []).get? 1 = some [(13, 2)] := by
        have e : (reachedRound gapSplitter (SplitClusters.cellsType gapCluster.hits)
            (gapSplitter.cellsPosition gapCluster.hits) 1 2 1 1
            ((gapSplitter.iteration0 1 gapCluster).growth,
              (gapSplitter.iteration0 1 gapCluster).mapVecNextNeighbours)).map
            (fun st => (mapGet st.2 2 []).get? 1) = some (some [(13, 2)]) := by decide!
        rw [h] at e
        exact Option.some.inj e
      have key := empty_neighbour_lookup_is_fatal gapSplitter [gapCluster] gapCluster 1 0 st
        [(13, 2)] (13, 2) (List.mem_singleton.2 rfl) (by decide!) h (by decide!) hf
        (List.mem_singleton.2 rfl) rfl
      ⟨⟨st, h, hf⟩, rfl, key.1, (key.2.2 (by decide)).1,
        (key.2.2 (by decide)).2 (fun c hc all hcon => by
          rw [List.mem_singleton.1 hc, (key.2.2 (by decide)).1 all] at hcon
          cases hcon)⟩)

/-! ## The layer switch of the layered tool -/

theorem layered_towerLoop_off (t : LayeredCaloTowerTool) (r : LayeredReadout)
    (layer : Nat → Int) (cell : CalorimeterHit) (g : Towers) (h : r.addLayerRestriction ≠ 1) :
    t.towerLoop r cell g = t.towerLoop { r with layer := layer } cell g := by
  unfold LayeredCaloTowerTool.towerLoop
  have e : ∀ iEta iPhi g, t.deposit r cell iEta iPhi g
      = t.deposit { r with layer := layer } cell iEta iPhi g := by
    intro iEta iPhi g
    unfold LayeredCaloTowerTool.deposit
    rw [if_neg h, if_neg h]
  simp only [e]

theorem layered_buildTowers_off (t : LayeredCaloTowerTool) (r : LayeredReadout)
    (layer : Nat → Int) (cells : List CalorimeterHit) (g : Towers)
    (h : r.addLayerRestriction ≠ 1) :
    t.buildTowers r cells g = t.buildTowers { r with layer := layer } cells g := by
  unfold LayeredCaloTowerTool.buildTowers
  have e : (fun g cell => t.towerLoop r cell g)
      = (fun g cell => t.towerLoop { r with layer := layer } cell g) := by
    funext g cell
    exact layered_towerLoop_off t r layer cell g h
  rw [e]

/-- C34: the property `addLayerRestriction` does not switch the layer filter off.
`LayeredCaloTowerTool::initialize` assigns the member that holds the property: for a
readout with a field named `layer` it becomes `true`, whatever the property was set to,
and `buildTowers` then builds the grid from the cells in the layer range only; the member
is `false` after `initialize` only for a readout without that field. Whenever the member
is not `true` at the time of the build, the layers play no role: the build is the one of
any other layer decoding. -/
theorem layer_switch_overridden (t : LayeredCaloTowerTool) (r : LayeredReadout)
    (fields : List String) (cells : List CalorimeterHit) (aTowers : Towers)
    (h : "layer" ∈ fields) :
    (LayeredCaloTowerTool.initialise r fields).addLayerRestriction = 1 ∧
    (t.buildTowers (LayeredCaloTowerTool.initialise r fields) cells aTowers).map Prod.fst
      = buildTowersPrefiltered t r cells aTowers ∧
    (∀ cell : CalorimeterHit,
      (((r.layer cell.cellID : Int) : ℚ) < r.minimumLayer
        ∨ r.maximumLayer < ((r.layer cell.cellID : Int) : ℚ)) →
      (t.buildTowers (LayeredCaloTowerTool.initialise r fields) [cell] aTowers).map Prod.fst
        = some aTowers) ∧
    (∀ fields' : List String, "layer" ∉ fields' →
      (LayeredCaloTowerTool.initialise r fields').addLayerRestriction = 0) ∧
    (∀ (r' : LayeredReadout) (layer : Nat → Int), r'.addLayerRestriction ≠ 1 →
      t.buildTowers r' cells aTowers = t.buildTowers { r' with layer := layer } cells aTowers) := by
  have hi : LayeredCaloTowerTool.initialise r fields = { r with addLayerRestriction := 1 } := by
    unfold LayeredCaloTowerTool.initialise
    rw [if_neg (not_not.2 h)]
  have main : ∀ cs : List CalorimeterHit,
      (t.buildTowers { r with addLayerRestriction := 1 } cs aTowers).map Prod.fst
        = buildTowersPrefiltered t r cs aTowers := by
    intro cs
    unfold buildTowersPrefiltered
    rw [layered_buildTowers_grid, layered_buildTowers_grid]
    exact layered_cells_prefilter t { r with addLayerRestriction := 1 } cs aTowers rfl
  refine ⟨by rw [hi], by rw [hi]; exact main cells, ?_, ?_, ?_⟩
  · intro cell hout
    rw [hi, main [cell]]
    unfold buildTowersPrefiltered cellsInLayerRange
    have hnot : ¬ (r.minimumLayer ≤ ((r.layer cell.cellID : Int) : ℚ)
        ∧ ((r.layer cell.cellID : Int) : ℚ) ≤ r.maximumLayer) := by
      rintro ⟨h1, h2⟩
      rcases hout with h3 | h3
      · exact absurd h1 (not_le.2 h3)
      · exact absurd h2 (not_le.2 h3)
    rw [List.filter_cons_of_neg (by simpa using hnot)]
    rfl
  · intro fields' h'
    unfold LayeredCaloTowerTool.initialise
    rw [if_pos h']
  · intro r' layer h'
    exact layered_buildTowers_off t r' layer cells aTowers h'

theorem layer_switch_overridden_witness :
    deepReadoutOff.addLayerRestriction = 0 ∧
    "layer" ∈ layerFields ∧
    (LayeredCaloTowerTool.initialise deepReadoutOff layerFields).addLayerRestriction = 1 ∧
    (quarterTurnLayeredTool.buildTowers (LayeredCaloTowerTool.initialise deepReadoutOff layerFields)
        [cellFive] (zeroTowers 2 4)).map Prod.fst = some (zeroTowers 2 4) ∧
    (quarterTurnLayeredTool.buildTowers deepReadoutOff [cellFive] (zeroTowers 2 4)).map Prod.fst
      = some [[0, 0, 0, 0], [0, 0, 5, 0]] ∧
    (LayeredCaloTowerTool.initialise deepReadoutOff plainFields).addLayerRestriction = 0 :=
  ⟨by decide!, by decide,
   (layer_switch_overridden quarterTurnLayeredTool deepReadoutOff layerFields [cellFive]
      (zeroTowers 2 4) (by decide)).1,
   (layer_switch_overridden quarterTurnLayeredTool deepReadoutOff layerFields [cellFive]
      (zeroTowers 2 4) (by decide)).2.2.1 cellFive (Or.inr (by decide!)),
   by decide!,
   (layer_switch_overridden quarterTurnLayeredTool deepReadoutOff layerFields [cellFive]
      (zeroTowers 2 4) (by decide)).2.2.2.1 plainFields (by decide)⟩

/-! ## The depth filter of `CaloTowerTool` -/

theorem towerLoop_useHalfTower (t : CaloTowerTool) (b : Bool) (s : GridPhiEta)
    (fillTowersCells : Bool) (cell : CalorimeterHit) (st : Towers × CellsInTowers) :
    ({ t with useHalfTower := b } : CaloTowerTool).towerLoop s fillTowersCells cell st
      = t.towerLoop s fillTowersCells cell st := rfl

theorem pass_iff (t : CaloTowerTool) (cell : CalorimeterHit) (h : t.useHalfTower = true) :
    t.pass cell = decide (t.layer cell.cellID ≤ t.max_layer) := by
  unfold CaloTowerTool.pass
  rw [h]
  by_cases hl : t.layer cell.cellID ≤ t.max_layer
  · simp [hl, not_lt.2 hl]
  · simp [hl, not_le.1 hl]

theorem CellsIntoTowers_cons (t : CaloTowerTool) (seg : Segmentation) (fillTowersCells : Bool)
    (c : CalorimeterHit) (cs : List CalorimeterHit) (st : Towers × CellsInTowers) :
    t.CellsIntoTowers (c :: cs) seg fillTowersCells st
      = (if t.pass c then t.towerLoop (seg.forCell c.cellID) fillTowersCells c st
          else some st).bind (fun st' => t.CellsIntoTowers cs seg fillTowersCells st') := rfl

theorem cells_depth_filter (t : CaloTowerTool) (seg : Segmentation) (fillTowersCells : Bool)
    (cells : List CalorimeterHit) (st : Towers × CellsInTowers) (h : t.useHalfTower = true) :
    t.CellsIntoTowers cells seg fillTowersCells st
      = ({ t with useHalfTower := false } : CaloTowerTool).CellsIntoTowers
          (cellsUpToMaxLayer t cells) seg fillTowersCells st := by
  induction cells generalizing st with
  | nil => rfl
  | cons c cs ih =>
    unfold cellsUpToMaxLayer
    rw [CellsIntoTowers_cons, pass_iff t c h]
    by_cases hl : t.layer c.cellID ≤ t.max_layer
    · rw [List.filter_cons_of_pos (by simpa using hl), CellsIntoTowers_cons,
        if_pos (by simpa using hl), if_pos (by rfl), towerLoop_useHalfTower t false]
      cases t.towerLoop (seg.forCell c.cellID) fillTowersCells c st with
      | none => rfl
      | some st' => exact ih st'
    · rw [List.filter_cons_of_neg (by simpa using hl), if_neg (by simpa using hl)]
      exact ih st

theorem steps_depth_filter (t : CaloTowerTool) (fillTowersCells : Bool)
    (h : t.useHalfTower = true) (l : List (Option Segmentation × List CalorimeterHit))
    (st : Towers × CellsInTowers) (n n' : Nat) :
    (l.foldlM (t.buildStep fillTowersCells) (st, n)).map Prod.fst
      = ((l.map (fun p => (p.1, cellsUpToMaxLayer t p.2))).foldlM
          (({ t with useHalfTower := false } : CaloTowerTool).buildStep fillTowersCells)
          (st, n')).map Prod.fst := by
  induction l generalizing st n n' with
  | nil => rfl
  | cons p ps ih =>
    rw [List.map_cons, List.foldlM_cons, List.foldlM_cons]
    unfold CaloTowerTool.buildStep
    cases hp : p.1 with
    | none => exact ih st n n'
    | some seg =>
      dsimp only
      rw [cells_depth_filter t seg fillTowersCells p.2 st h]
      cases ({ t with useHalfTower := false } : CaloTowerTool).CellsIntoTowers
          (cellsUpToMaxLayer t p.2) seg fillTowersCells st with
      | none => rfl
      | some st' => exact ih st' _ _

theorem toList_map {α β : Type} (f : α → β) (p : Partitions α) :
    (p.map f).toList = p.toList.map f := rfl

/-- C33: the maximum-depth filter of `CaloTowerTool` is a pre-filter. With `halfTower`
enabled, the tower grid and the tower-to-cells index produced by `buildTowers` are those
of the build without depth filter over the cells whose decoded layer is at most
`max_layer` (both builds are defined or undefined together); in `CellsIntoTowers` a cell
with a layer up to `max_layer` is treated as without filter, and a cell with a larger
layer leaves the grid and the index as they are. -/
theorem depth_filter_is_prefilter (t : CaloTowerTool)
    (segmentations : Partitions (Option Segmentation)) (cells : Partitions (List CalorimeterHit))
    (fillTowersCells : Bool) (st : Towers × CellsInTowers) (h : t.useHalfTower = true) :
    (t.buildTowers segmentations cells fillTowersCells st).map Prod.fst
      = buildTowersUpToMaxLayer t segmentations cells fillTowersCells st ∧
    (∀ (seg : Segmentation) (cell : CalorimeterHit), t.layer cell.cellID ≤ t.max_layer →
      t.CellsIntoTowers [cell] seg fillTowersCells st
        = ({ t with useHalfTower := false } : CaloTowerTool).CellsIntoTowers [cell] seg
            fillTowersCells st) ∧
    (∀ (seg : Segmentation) (cell : CalorimeterHit), t.max_layer < t.layer cell.cellID →
      t.CellsIntoTowers [cell] seg fillTowersCells st = some st) := by
  refine ⟨?_, ?_, ?_⟩
  · unfold buildTowersUpToMaxLayer CaloTowerTool.buildTowers
    rw [steps_depth_filter t fillTowersCells h _ _ 0 0, toList_map, List.zip_map_right]
    rfl
  · intro seg cell hl
    rw [cells_depth_filter t seg fillTowersCells [cell] st h]
    unfold cellsUpToMaxLayer
    rw [List.filter_cons_of_pos (by simpa using hl)]
    rfl
  · intro seg cell hl
    rw [cells_depth_filter t seg fillTowersCells [cell] st h]
    unfold cellsUpToMaxLayer
    rw [List.filter_cons_of_neg (by simpa using hl)]
    rfl

theorem depth_filter_is_prefilter_witness :
    (idLayerHalfTool.buildTowers barrelOnly depthCells true (zeroTowers 2 4, [])).map Prod.fst
      = buildTowersUpToMaxLayer idLayerHalfTool barrelOnly depthCells true (zeroTowers 2 4, []) ∧
    buildTowersUpToMaxLayer idLayerHalfTool barrelOnly depthCells true (zeroTowers 2 4, [])
      = some ([[0, 0, 0, 0], [0, 0, 8, 0]], [((1, 2), [cellFive, cellThree])]) ∧
    idLayerHalfTool.CellsIntoTowers [cellNine] (Segmentation.kPhiEta quarterTurnGrid) true
        (zeroTowers 2 4, []) = some (zeroTowers 2 4, []) ∧
    (({ idLayerHalfTool with useHalfTower := false } : CaloTowerTool).CellsIntoTowers [cellNine]
        (Segmentation.kPhiEta quarterTurnGrid) true (zeroTowers 2 4, [])).map Prod.fst
      = some [[0, 0, 0, 0], [0, 0, 9, 0]] :=
  ⟨(depth_filter_is_prefilter idLayerHalfTool barrelOnly depthCells true (zeroTowers 2 4, [])
      rfl).1,
   by decide!,
   (depth_filter_is_prefilter idLayerHalfTool barrelOnly depthCells true (zeroTowers 2 4, [])
      rfl).2.2 (Segmentation.kPhiEta quarterTurnGrid) cellNine (by decide),
   by decide!⟩

/-! ## The two tower tools on one phi-eta segmentation -/

theorem foldlM_option_proj {σ τ ι : Type} (p : σ → τ) (f : σ → ι → Option σ)
    (f' : τ → ι → Option τ) (h : ∀ s x, (f s x).map p = f' (p s) x) (l : List ι) (s : σ) :
    (l.foldlM f s).map p = l.foldlM f' (p s) := by
  induction l generalizing s with
  | nil => rfl
  | cons x xs ih =>
    rw [List.foldlM_cons, List.foldlM_cons, ← h s x]
    cases f s x with
    | none => rfl
    | some s' => exact ih s'

theorem toLayered_ratioEta (t : CaloTowerTool) (s : GridPhiEta) (c : Nat) (iEta : Int) :
    t.toLayered.ratioEta s c iEta = t.ratioEta s c iEta := by
  have e1 : t.toLayered.iEtaMin s c = t.iEtaMin s c := rfl
  have e2 : t.toLayered.iEtaMax s c = t.iEtaMax s c := rfl
  unfold LayeredCaloTowerTool.ratioEta CaloTowerTool.ratioEta CaloTowerTool.fracEtaMiddle
    CaloTowerTool.fracEtaMin CaloTowerTool.fracEtaMax
  rw [e1, e2]
  by_cases h : t.iEtaMin s c ≠ t.iEtaMax s c
  · simp only [if_pos h]
    rfl
  · simp only [if_neg h]
    split_ifs <;> rfl

theorem toLayered_ratioPhi (t : CaloTowerTool) (s : GridPhiEta) (c : Nat) (iPhi : Int) :
    t.toLayered.ratioPhi s c iPhi = t.ratioPhi s c iPhi := by
  have e1 : t.toLayered.iPhiMin s c = t.iPhiMin s c := rfl
  have e2 : t.toLayered.iPhiMax s c = t.iPhiMax s c := rfl
  unfold LayeredCaloTowerTool.ratioPhi CaloTowerTool.ratioPhi CaloTowerTool.fracPhiMiddle
    CaloTowerTool.fracPhiMin CaloTowerTool.fracPhiMax
  rw [e1, e2]
  by_cases h : t.iPhiMin s c ≠ t.iPhiMax s c
  · simp only [if_pos h]
    rfl
  · simp only [if_neg h]
    split_ifs <;> rfl

theorem toLayered_deposit (t : CaloTowerTool) (r : LayeredReadout) (fillTowersCells : Bool)
    (cell : CalorimeterHit) (iEta iPhi : Int) (st : Towers × CellsInTowers)
    (hcosh : r.cosh = t.cosh) (hoff : r.addLayerRestriction ≠ 1) :
    (t.deposit r.segmentation fillTowersCells cell iEta iPhi st).map Prod.fst
      = t.toLayered.deposit r cell iEta iPhi st.1 := by
  unfold CaloTowerTool.deposit LayeredCaloTowerTool.deposit
  rw [if_neg hoff, toLayered_ratioEta, toLayered_ratioPhi, hcosh]
  have e : t.toLayered.phiNeighbour iPhi = t.phiNeighbour iPhi := rfl
  rw [e]
  cases addTower st.1 iEta (t.phiNeighbour iPhi)
    (cell.energy / t.cosh (r.segmentation.eta cell.cellID)
      * t.ratioEta r.segmentation cell.cellID iEta * t.ratioPhi r.segmentation cell.cellID iPhi) <;> rfl

theorem toLayered_towerLoop (t : CaloTowerTool) (r : LayeredReadout) (fillTowersCells : Bool)
    (cell : CalorimeterHit) (st : Towers × CellsInTowers)
    (hcosh : r.cosh = t.cosh) (hoff : r.addLayerRestriction ≠ 1) :
    (t.towerLoop r.segmentation fillTowersCells cell st).map Prod.fst
      = t.toLayered.towerLoop r cell st.1 := by
  unfold CaloTowerTool.towerLoop LayeredCaloTowerTool.towerLoop
  exact foldlM_option_proj Prod.fst _ _
    (fun st iEta => foldlM_option_proj Prod.fst _ _
      (fun st iPhi => toLayered_deposit t r fillTowersCells cell iEta iPhi st hcosh hoff) _ st) _ st

theorem toLayered_cells (t : CaloTowerTool) (r : LayeredReadout) (fillTowersCells : Bool)
    (cells : List CalorimeterHit) (st : Towers × CellsInTowers)
    (hcosh : r.cosh = t.cosh) (hoff : r.addLayerRestriction ≠ 1)
    (hhalf : t.useHalfTower = false) :
    (t.CellsIntoTowers cells (Segmentation.kPhiEta r.segmentation) fillTowersCells st).map Prod.fst
      = cells.foldlM (fun g cell => t.toLayered.towerLoop r cell g) st.1 := by
  unfold CaloTowerTool.CellsIntoTowers
  apply foldlM_option_proj Prod.fst
  intro st cell
  have hp : t.pass cell = true := by
    unfold CaloTowerTool.pass
    rw [hhalf]
    rfl
  rw [if_pos hp]
  exact toLayered_towerLoop t r fillTowersCells cell st hcosh hoff

theorem maxElement_single (k : Nat) (hk : k < 7) (v : ℚ) (hv : -1 < v) :
    maxElement ((singlePartition k v (-1)).toList.headD 0) (singlePartition k v (-1)).toList.tail
      = v := by
  have h1 : ¬ v < -1 := not_lt.2 (le_of_lt hv)
  have h2 : ¬ (-1 : ℚ) < -1 := lt_irrefl _
  interval_cases k <;>
    simp [singlePartition, Partitions.toList, maxElement, hv, h1]

theorem toList_map_single {α β : Type} (f : α → β) (k : Nat) (x dflt : α) :
    (singlePartition k x dflt).toList.map f = (singlePartition k (f x) (f dflt)).toList := by
  simp only [singlePartition, Partitions.toList, List.map_cons, List.map_nil, apply_ite f]

theorem towersNumber_single (t : CaloTowerTool) (s : GridPhiEta) (k : Nat) (hk : k < 7)
    (hsize : 0 < s.gridSizeEta) (hbins : 0 < s.phiBins) :
    ((t.towersNumber (singlePartition k (some (Segmentation.kPhiEta s)) none)).1.toLayered
      = (t.toLayered.towersNumber s).1) ∧
    (t.towersNumber (singlePartition k (some (Segmentation.kPhiEta s)) none)).2
      = (t.toLayered.towersNumber s).2 := by
  have hpi : (0 : ℚ) < M_PI := by unfold M_PI; norm_num
  have hb : (0 : ℚ) < (s.phiBins : ℚ) := by exact_mod_cast hbins
  have hvE : (-1 : ℚ) < |s.offsetEta| + s.gridSizeEta * (1 / 2) := by
    have := abs_nonneg s.offsetEta
    linarith
  have hvP : (-1 : ℚ) < |s.offsetPhi| + M_PI / (s.phiBins : ℚ) := by
    have := abs_nonneg s.offsetPhi
    have := div_pos hpi hb
    linarith
  have eP : maxElement
      (((singlePartition k (some (Segmentation.kPhiEta s)) none).toList.map
        (fun s => (CaloTowerTool.retrievePhiEtaExtrema s).1)).headD 0)
      ((singlePartition k (some (Segmentation.kPhiEta s)) none).toList.map
        (fun s => (CaloTowerTool.retrievePhiEtaExtrema s).1)).tail
        = |s.offsetPhi| + M_PI / (s.phiBins : ℚ) := by
    rw [toList_map_single]
    exact maxElement_single k hk _ hvP
  have eE : maxElement
      (((singlePartition k (some (Segmentation.kPhiEta s)) none).toList.map
        (fun s => (CaloTowerTool.retrievePhiEtaExtrema s).2)).headD 0)
      ((singlePartition k (some (Segmentation.kPhiEta s)) none).toList.map
        (fun s => (CaloTowerTool.retrievePhiEtaExtrema s).2)).tail
        = |s.offsetEta| + s.gridSizeEta * (1 / 2) := by
    rw [toList_map_single]
    exact maxElement_single k hk _ hvE
  unfold CaloTowerTool.towersNumber LayeredCaloTowerTool.towersNumber CaloTowerTool.toLayered
  simp only [eP, eE, and_self]

theorem buildTowers_single (t : CaloTowerTool) (seg : Segmentation) (k : Nat) (hk : k < 7)
    (cells : Partitions (List CalorimeterHit)) (fillTowersCells : Bool)
    (st : Towers × CellsInTowers) :
    t.buildTowers (singlePartition k (some seg) none) cells fillTowersCells st
      = (t.CellsIntoTowers (cells.toList.getD k []) seg fillTowersCells
          (st.1, st.2.map (fun towerInMap => (towerInMap.1, [])))).map
        (fun st' => (st', (cells.toList.getD k []).length % 4294967296)) := by
  unfold CaloTowerTool.buildTowers
  interval_cases k <;>
    simp only [singlePartition, Partitions.toList, List.zip_cons_cons, List.zip_nil_right,
      List.foldlM_cons, List.foldlM_nil, CaloTowerTool.buildStep, List.getD_cons_zero,
      List.getD_cons_succ, Nat.zero_add] <;>
    simp <;>
    cases t.CellsIntoTowers _ seg fillTowersCells
      (st.1, st.2.map (fun towerInMap => (towerInMap.1, []))) <;> rfl

theorem layered_towersNumber_sizes (l l' : LayeredCaloTowerTool) (s : GridPhiEta)
    (hEta : l.deltaEtaTower = l'.deltaEtaTower) (hPhi : l.deltaPhiTower = l'.deltaPhiTower) :
    l.towersNumber s = l'.towersNumber s := by
  unfold LayeredCaloTowerTool.towersNumber
  simp only [hEta, hPhi]

/-- C39: the two tower tools agree on a single plain phi-eta segmentation. Let the
segmentation of the layered tool (positive cell size in eta, positive number of phi bins)
be the only available partition of `CaloTowerTool`, whichever of the seven it is, let both
tools have the same tower sizes and the same `cosh`, the layer restriction of the layered
tool be off at the time of the build and `halfTower` be off. Then `towersNumber` writes
the same numbers of towers for both tools, and for every cell collection of that
partition (whatever the collections of the other partitions hold) and every initial grid
`buildTowers` of the two tools, called after `towersNumber`, is defined for the same
inputs and yields the same grid and the same returned number of cells. -/
theorem tower_tools_agree (t : CaloTowerTool) (l : LayeredCaloTowerTool) (r : LayeredReadout)
    (k : Nat) (cells : Partitions (List CalorimeterHit)) (fillTowersCells : Bool)
    (st : Towers × CellsInTowers) (hk : k < 7)
    (hEta : l.deltaEtaTower = t.deltaEtaTower) (hPhi : l.deltaPhiTower = t.deltaPhiTower)
    (hcosh : r.cosh = t.cosh) (hoff : r.addLayerRestriction ≠ 1)
    (hhalf : t.useHalfTower = false)
    (hsize : 0 < r.segmentation.gridSizeEta) (hbins : 0 < r.segmentation.phiBins) :
    (l.towersNumber r.segmentation).2
      = (t.towersNumber (singlePartition k (some (Segmentation.kPhiEta r.segmentation)) none)).2 ∧
    (l.towersNumber r.segmentation).1.buildTowers r (cells.toList.getD k []) st.1
      = ((t.towersNumber
            (singlePartition k (some (Segmentation.kPhiEta r.segmentation)) none)).1.buildTowers
          (singlePartition k (some (Segmentation.kPhiEta r.segmentation)) none) cells
          fillTowersCells st).map (fun res => (res.1.1, res.2)) := by
  have hl : l.towersNumber r.segmentation = t.toLayered.towersNumber r.segmentation :=
    layered_towersNumber_sizes l t.toLayered r.segmentation hEta hPhi
  have hn := towersNumber_single t r.segmentation k hk hsize hbins
  refine ⟨by rw [hl, hn.2], ?_⟩
  rw [hl, ← hn.1, buildTowers_single _ _ k hk]
  have hc := toLayered_cells
    (t.towersNumber (singlePartition k (some (Segmentation.kPhiEta r.segmentation)) none)).1 r
    fillTowersCells (cells.toList.getD k [])
    (st.1, st.2.map (fun towerInMap => (towerInMap.1, []))) hcosh hoff hhalf
  unfold LayeredCaloTowerTool.buildTowers
  rw [← hc]
  cases (t.towersNumber
      (singlePartition k (some (Segmentation.kPhiEta r.segmentation)) none)).1.CellsIntoTowers
    (cells.toList.getD k []) (Segmentation.kPhiEta r.segmentation) fillTowersCells
    (st.1, st.2.map (fun towerInMap => (towerInMap.1, []))) <;> rfl

theorem tower_tools_agree_witness :
    (freshLayeredTool.towersNumber plainReadout.segmentation).2 = (2, 2) ∧
    (freshLayeredTool.towersNumber plainReadout.segmentation).2
      = (freshTool.towersNumber
          (singlePartition 3 (some (Segmentation.kPhiEta plainReadout.segmentation)) none)).2 ∧
    (freshLayeredTool.towersNumber plainReadout.segmentation).1.buildTowers plainReadout
        [cellFive, cellThree] (zeroTowers 2 2) = some ([[0, 0], [0, 8]], 2) ∧
    (freshLayeredTool.towersNumber plainReadout.segmentation).1.buildTowers plainReadout
        ((singlePartition 3 [cellFive, cellThree] [cellNine]).toList.getD 3 []) (zeroTowers 2 2)
      = ((freshTool.towersNumber
            (singlePartition 3 (some (Segmentation.kPhiEta plainReadout.segmentation))
              none)).1.buildTowers
          (singlePartition 3 (some (Segmentation.kPhiEta plainReadout.segmentation)) none)
          (singlePartition 3 [cellFive, cellThree] [cellNine]) true (zeroTowers 2 2, [])).map
        (fun res => (res.1.1, res.2)) :=
  ⟨by decide!,
   (tower_tools_agree freshTool freshLayeredTool plainReadout 3
      (singlePartition 3 [cellFive, cellThree] [cellNine]) true (zeroTowers 2 2, [])
      (by decide) rfl rfl rfl (by decide!) rfl (by decide!) (by decide)).1,
   by decide!,
   (tower_tools_agree freshTool freshLayeredTool plainReadout 3
      (singlePartition 3 [cellFive, cellThree] [cellNine]) true (zeroTowers 2 2, [])
      (by decide) rfl rfl rfl (by decide!) rfl (by decide!) (by decide)).2⟩

/-! ## The neighbour search -/

theorem visitNeighbour_spec (a : SplitClusters) (cid : Nat) (ct : List (Nat × Int))
    (cp : List (Nat × TLorentzVector)) (st : SplitClusters.Growth × List (Nat × Nat))
    (nb : Nat) :
    (∀ k, k ≠ nb → mapFind (a.visitNeighbour cid ct cp st nb).1.clusterOfCell k
      = mapFind st.1.clusterOfCell k) ∧
    (takesNeighbour a cid ct cp st.1 nb = true →
      (a.visitNeighbour cid ct cp st nb).2 = st.2 ++ [(nb, cid)] ∧
      mapFind (a.visitNeighbour cid ct cp st nb).1.clusterOfCell nb = some cid) ∧
    (takesNeighbour a cid ct cp st.1 nb = false →
      (a.visitNeighbour cid ct cp st nb).2 = st.2 ∧
      mapFind (a.visitNeighbour cid ct cp st nb).1.clusterOfCell nb
        = mapFind st.1.clusterOfCell nb) := by
  unfold SplitClusters.visitNeighbour takesNeighbour
  cases hct : mapFind ct nb with
  | none => simp
  | some ty =>
    cases hcoc : mapFind st.1.clusterOfCell nb with
    | none =>
      simp only [Option.isSome_some, Bool.true_and]
      refine ⟨?_, ?_, ?_⟩
      · intro k hk
        rw [mapFind_mapEmplace _ _ _ _ _ hcoc, if_neg (fun h => hk h.symm)]
      · intro _
        refine ⟨by first | rfl | trivial, ?_⟩
        rw [mapFind_mapEmplace _ _ _ _ _ hcoc, if_pos rfl]
      · intro h
        cases h
    | some owner =>
      simp only [Option.isSome_some, Bool.true_and]
      by_cases h1 : owner ≠ cid
      · by_cases h2 : a.deltaR (mapGet st.1.clusterPositions cid 0) (mapGet cp nb 0)
            ≤ a.deltaR (mapGet st.1.clusterPositions owner 0) (mapGet cp nb 0)
        · rw [if_pos h1, if_pos h2]
          refine ⟨?_, ?_, ?_⟩
          · intro k hk
            simp only
            rw [mapFind_mapAssign, if_neg (fun h => hk h.symm)]
          · intro _
            refine ⟨rfl, ?_⟩
            simp only
            rw [mapFind_mapAssign, if_pos rfl]
          · intro h
            simp [h1, h2] at h
        · rw [if_pos h1, if_neg h2]
          refine ⟨?_, ?_, ?_⟩
          · intro k hk
            simp only
            rw [mapFind_mapAssign, if_neg (fun h => hk h.symm)]
          · intro h
            simp [h1, h2] at h
          · intro _
            refine ⟨rfl, ?_⟩
            simp only
            rw [mapFind_mapAssign, if_pos rfl]
      · rw [if_neg h1]
        refine ⟨fun k _ => rfl, ?_, fun _ => ⟨rfl, hcoc⟩⟩
        intro h
        simp [h1] at h

theorem takesNeighbour_facts (a : SplitClusters) (cid : Nat) (ct : List (Nat × Int))
    (cp : List (Nat × TLorentzVector)) (g : SplitClusters.Growth) (nb : Nat) :
    (takesNeighbour a cid ct cp g nb = true →
      mapFind ct nb ≠ none ∧ mapFind g.clusterOfCell nb ≠ some cid) ∧
    (mapFind ct nb ≠ none → mapFind g.clusterOfCell nb = none →
      takesNeighbour a cid ct cp g nb = true) := by
  unfold takesNeighbour
  cases hct : mapFind ct nb with
  | none => simp
  | some ty =>
    cases hcoc : mapFind g.clusterOfCell nb with
    | none => simp
    | some owner =>
      simp only [Option.isSome_some, Bool.true_and, ne_eq, reduceCtorEq, not_false_eq_true,
        true_and, Option.some.injEq, not_true_eq_false, false_implies, implies_true, and_true]
      intro h hc
      rw [hc] at h
      simp at h

theorem foldl_visitNeighbour_spec (a : SplitClusters) (cid : Nat) (ct : List (Nat × Int))
    (cp : List (Nat × TLorentzVector)) (g : SplitClusters.Growth) (nbs : List Nat) :
    (∀ e ∈ (nbs.foldl (a.visitNeighbour cid ct cp) (g, [])).2,
      e.2 = cid ∧ e.1 ∈ nbs ∧ mapFind ct e.1 ≠ none ∧ mapFind g.clusterOfCell e.1 ≠ some cid ∧
      mapFind (nbs.foldl (a.visitNeighbour cid ct cp) (g, [])).1.clusterOfCell e.1 = some cid) ∧
    (nbs.foldl (a.visitNeighbour cid ct cp) (g, [])).2.Nodup ∧
    (∀ k, mapFind ct k = none ∨ k ∉ nbs →
      mapFind (nbs.foldl (a.visitNeighbour cid ct cp) (g, [])).1.clusterOfCell k
        = mapFind g.clusterOfCell k) ∧
    (∀ k, mapFind g.clusterOfCell k = some cid →
      mapFind (nbs.foldl (a.visitNeighbour cid ct cp) (g, [])).1.clusterOfCell k = some cid) ∧
    (∀ nb ∈ nbs, mapFind ct nb ≠ none → mapFind g.clusterOfCell nb = none →
      (nb, cid) ∈ (nbs.foldl (a.visitNeighbour cid ct cp) (g, [])).2) ∧
    (∀ k, mapFind g.clusterOfCell k ≠ none →
      mapFind (nbs.foldl (a.visitNeighbour cid ct cp) (g, [])).1.clusterOfCell k ≠ none) ∧
    (∀ nb ∈ nbs, mapFind ct nb ≠ none →
      mapFind (nbs.foldl (a.visitNeighbour cid ct cp) (g, [])).1.clusterOfCell nb ≠ none) := by
  induction nbs using List.reverseRecOn with
  | nil =>
    refine ⟨?_, List.nodup_nil, fun _ _ => rfl, fun _ h => h, ?_, fun _ h => h, ?_⟩
    · intro e he
      cases he
    · intro nb hnb
      cases hnb
    · intro nb hnb
      cases hnb
  | append_singleton xs x ih =>
    rw [List.foldl_append, List.foldl_cons, List.foldl_nil]
    obtain ⟨hI, hN, hA, hB, hD, hM, hC⟩ := ih
    generalize xs.foldl (a.visitNeighbour cid ct cp) (g, []) = mid at hI hN hA hB hD hM hC ⊢
    obtain ⟨sOther, sTake, sLeave⟩ := visitNeighbour_spec a cid ct cp mid x
    obtain ⟨tTrue, tNone⟩ := takesNeighbour_facts a cid ct cp mid.1 x
    have hfind : ∀ k, mapFind mid.1.clusterOfCell k ≠ none →
        mapFind (a.visitNeighbour cid ct cp mid x).1.clusterOfCell k ≠ none := by
      intro k hk
      by_cases hkx : k = x
      · subst hkx
        cases ht : takesNeighbour a cid ct cp mid.1 k with
        | true => rw [(sTake ht).2]; simp
        | false => rw [(sLeave ht).2]; exact hk
      · rw [sOther k hkx]; exact hk
    have hkeep : ∀ k, mapFind mid.1.clusterOfCell k = some cid →
        mapFind (a.visitNeighbour cid ct cp mid x).1.clusterOfCell k = some cid := by
      intro k hk
      by_cases hkx : k = x
      · subst hkx
        cases ht : takesNeighbour a cid ct cp mid.1 k with
        | true => exact (sTake ht).2
        | false => rw [(sLeave ht).2]; exact hk
      · rw [sOther k hkx]; exact hk
    have hsub : ∀ e ∈ mid.2, e ∈ (a.visitNeighbour cid ct cp mid x).2 := by
      intro e he
      cases ht : takesNeighbour a cid ct cp mid.1 x with
      | true => rw [(sTake ht).1]; exact List.mem_append_left _ he
      | false => rw [(sLeave ht).1]; exact he
    refine ⟨?_, ?_, ?_, ?_, ?_, ?_, ?_⟩
    · intro e he
      have hold : e ∈ mid.2 → e.2 = cid ∧ e.1 ∈ xs ++ [x] ∧ mapFind ct e.1 ≠ none ∧
          mapFind g.clusterOfCell e.1 ≠ some cid ∧
          mapFind (a.visitNeighbour cid ct cp mid x).1.clusterOfCell e.1 = some cid := by
        intro he'
        obtain ⟨h1, h2, h3, h4, h5⟩ := hI e he'
        exact ⟨h1, List.mem_append_left _ h2, h3, h4, hkeep e.1 h5⟩
      cases ht : takesNeighbour a cid ct cp mid.1 x with
      | true =>
        rw [(sTake ht).1] at he
        rcases List.mem_append.1 he with he' | he'
        · exact hold he'
        · have e1 : e = (x, cid) := List.mem_singleton.1 he'
          subst e1
          refine ⟨rfl, List.mem_append_right _ (List.mem_singleton.2 rfl), (tTrue ht).1, ?_,
            (sTake ht).2⟩
          intro hg
          exact (tTrue ht).2 (hB x hg)
      | false =>
        rw [(sLeave ht).1] at he
        exact hold he
    · cases ht : takesNeighbour a cid ct cp mid.1 x with
      | true =>
        rw [(sTake ht).1]
        refine List.Nodup.append hN (List.nodup_singleton _) ?_
        intro e he he'
        have e1 : e = (x, cid) := List.mem_singleton.1 he'
        subst e1
        exact (tTrue ht).2 (hI _ he).2.2.2.2
      | false =>
        rw [(sLeave ht).1]
        exact hN
    · intro k hk
      have hk' : mapFind ct k = none ∨ k ∉ xs := by
        rcases hk with hk | hk
        · exact Or.inl hk
        · exact Or.inr (fun h => hk (List.mem_append_left _ h))
      rw [← hA k hk']
      by_cases hkx : k = x
      · subst hkx
        cases ht : takesNeighbour a cid ct cp mid.1 k with
        | true =>
          rcases hk with hk | hk
          · exact absurd hk (tTrue ht).1
          · exact absurd (List.mem_append_right _ (List.mem_singleton.2 rfl)) hk
        | false => exact (sLeave ht).2
      · exact sOther k hkx
    · intro k hk
      exact hkeep k (hB k hk)
    · intro nb hnb hct hg
      rcases List.mem_append.1 hnb with h | h
      · exact hsub _ (hD nb h hct hg)
      · have e1 : nb = x := List.mem_singleton.1 h
        subst e1
        by_cases hxs : nb ∈ xs
        · exact hsub _ (hD nb hxs hct hg)
        · have hmid : mapFind mid.1.clusterOfCell nb = none := by
            rw [hA nb (Or.inr hxs)]; exact hg
          have ht := tNone hct hmid
          rw [(sTake ht).1]
          exact List.mem_append_right _ (List.mem_singleton.2 rfl)
    · intro k hk
      exact hfind k (hM k hk)
    · intro nb hnb hct
      rcases List.mem_append.1 hnb with h | h
      · exact hfind nb (hC nb h hct)
      · have e1 : nb = x := List.mem_singleton.1 h
        subst e1
        cases ht : takesNeighbour a cid ct cp mid.1 nb with
        | true => rw [(sTake ht).2]; simp
        | false =>
          rw [(sLeave ht).2]
          intro hmid
          have := tNone hct hmid
          rw [ht] at this
          cases this

/-- C32: the neighbour search assigns only cells of the cluster. In the loop of
`searchForNeighbours` a neighbour is assigned to the growing sub-cluster and pushed to the
returned vector exactly when it is in the cell-type map of the cluster and either is not
assigned, or is assigned to another sub-cluster and wins the arbitration (the test `<=`
of the source); otherwise the returned vector and the assignment of the neighbour stay
as they are, and no other cell changes its assignment. For the whole call: every returned
pair is a neighbour of the cell that is in the cell-type map, was not owned by the growing
sub-cluster on entry and is owned by it on return, no pair is returned twice, and every
neighbour of the cluster that was unassigned on entry is returned; a cell identifier that
is not in the cell-type map is never added to the cluster-of-cell map; a cell owned by the
growing sub-cluster on entry stays so and is not returned. -/
theorem growth_assigns_only_cluster_cells (a : SplitClusters) (aCellId aClusterID : Nat)
    (aCellsType : List (Nat × Int)) (aCellPosition : List (Nat × TLorentzVector))
    (g : SplitClusters.Growth) :
    (∀ (st : SplitClusters.Growth × List (Nat × Nat)) (nb : Nat),
      (takesNeighbour a aClusterID aCellsType aCellPosition st.1 nb = true →
        (a.visitNeighbour aClusterID aCellsType aCellPosition st nb).2
          = st.2 ++ [(nb, aClusterID)] ∧
        mapFind (a.visitNeighbour aClusterID aCellsType aCellPosition st nb).1.clusterOfCell nb
          = some aClusterID) ∧
      (takesNeighbour a aClusterID aCellsType aCellPosition st.1 nb = false →
        (a.visitNeighbour aClusterID aCellsType aCellPosition st nb).2 = st.2 ∧
        mapFind (a.visitNeighbour aClusterID aCellsType aCellPosition st nb).1.clusterOfCell nb
          = mapFind st.1.clusterOfCell nb) ∧
      (∀ k, k ≠ nb →
        mapFind (a.visitNeighbour aClusterID aCellsType aCellPosition st nb).1.clusterOfCell k
          = mapFind st.1.clusterOfCell k)) ∧
    (a.neighbours aCellId ≠ [] →
      (∀ e ∈ (a.searchForNeighbours aCellId aClusterID aCellsType aCellPosition g).2,
        e.2 = aClusterID ∧ e.1 ∈ a.neighbours aCellId ∧ mapFind aCellsType e.1 ≠ none ∧
        mapFind g.clusterOfCell e.1 ≠ some aClusterID ∧
        mapFind (a.searchForNeighbours aCellId aClusterID aCellsType aCellPosition
          g).1.clusterOfCell e.1 = some aClusterID) ∧
      (a.searchForNeighbours aCellId aClusterID aCellsType aCellPosition g).2.Nodup ∧
      (∀ nb ∈ a.neighbours aCellId, mapFind aCellsType nb ≠ none →
        mapFind g.clusterOfCell nb = none →
        (nb, aClusterID)
          ∈ (a.searchForNeighbours aCellId aClusterID aCellsType aCellPosition g).2)) ∧
    (∀ k, mapFind aCellsType k = none →
      mapFind (a.searchForNeighbours aCellId aClusterID aCellsType aCellPosition
        g).1.clusterOfCell k = mapFind g.clusterOfCell k) ∧
    (∀ k, mapFind g.clusterOfCell k = some aClusterID →
      mapFind (a.searchForNeighbours aCellId aClusterID aCellsType aCellPosition
        g).1.clusterOfCell k = some aClusterID) := by
  obtain ⟨hI, hN, hA, hB, hD, _, _⟩ :=
    foldl_visitNeighbour_spec a aClusterID aCellsType aCellPosition g (a.neighbours aCellId)
  refine ⟨?_, ?_, ?_, ?_⟩
  · intro st nb
    obtain ⟨s1, s2, s3⟩ := visitNeighbour_spec a aClusterID aCellsType aCellPosition st nb
    exact ⟨s2, s3, s1⟩
  · intro hne
    have hlen : ¬ (a.neighbours aCellId).length = 0 := by
      intro h
      exact hne (List.length_eq_zero.1 h)
    unfold SplitClusters.searchForNeighbours
    rw [if_neg hlen]
    exact ⟨hI, hN, hD⟩
  · intro k hk
    unfold SplitClusters.searchForNeighbours
    split_ifs
    · rfl
    · exact hA k (Or.inl hk)
  · intro k hk
    unfold SplitClusters.searchForNeighbours
    split_ifs
    · exact hk
    · exact hB k hk

theorem growth_assigns_only_cluster_cells_witness :
    takesNeighbour tieSplitter 3 (SplitClusters.cellsType tieCluster.hits)
        (tieSplitter.cellsPosition tieCluster.hits) tieReached.1 7 = true ∧
    ((tieSplitter.visitNeighbour 3 (SplitClusters.cellsType tieCluster.hits)
          (tieSplitter.cellsPosition tieCluster.hits) tieReached 7).2
        = tieReached.2 ++ [(7, 3)] ∧
      mapFind (tieSplitter.visitNeighbour 3 (SplitClusters.cellsType tieCluster.hits)
          (tieSplitter.cellsPosition tieCluster.hits) tieReached 7).1.clusterOfCell 7
        = some 3) ∧
    tieSplitter.neighbours 7 ≠ [] ∧
    (tieSplitter.searchForNeighbours 7 3 (SplitClusters.cellsType tieCluster.hits)
        (tieSplitter.cellsPosition tieCluster.hits) tieReached.1).2.Nodup ∧
    (tieSplitter.searchForNeighbours 1 2 (SplitClusters.cellsType tieCluster.hits)
        (tieSplitter.cellsPosition tieCluster.hits)
        { clusterOfCell := [(1, 2)], clusterPositions := [] }).2
      = [(3, 2), (4, 2), (5, 2), (6, 2), (7, 2)] :=
  ⟨by decide!,
   ((growth_assigns_only_cluster_cells tieSplitter 7 3 (SplitClusters.cellsType tieCluster.hits)
      (tieSplitter.cellsPosition tieCluster.hits) tieReached.1).1 tieReached 7).1 (by decide!),
   by decide,
   ((growth_assigns_only_cluster_cells tieSplitter 7 3 (SplitClusters.cellsType tieCluster.hits)
      (tieSplitter.cellsPosition tieCluster.hits) tieReached.1).2.1 (by decide)).2.1,
   by decide!⟩

/-! ## The running centroids -/

theorem tlv_eq (u v : TLorentzVector) (hx : u.x = v.x) (hy : u.y = v.y) (hz : u.z = v.z)
    (he : u.e = v.e) : u = v := by
  cases u
  cases v
  simp only [TLorentzVector.mk.injEq]
  exact ⟨hx, hy, hz, he⟩

theorem tlv_add (u v : TLorentzVector) :
    u + v = ⟨u.x + v.x, u.y + v.y, u.z + v.z, u.e + v.e⟩ := rfl

theorem tlv_sub (u v : TLorentzVector) :
    u - v = ⟨u.x - v.x, u.y - v.y, u.z - v.z, u.e - v.e⟩ := rfl

theorem tlv_zero : (0 : TLorentzVector) = ⟨0, 0, 0, 0⟩ := rfl

theorem tlv_zero_add (u : TLorentzVector) : 0 + u = u := by
  apply tlv_eq <;> simp [tlv_add, tlv_zero]

theorem tlv_add_zero (u : TLorentzVector) : u + 0 = u := by
  apply tlv_eq <;> simp [tlv_add, tlv_zero]

theorem tlv_add_shift (s d p : TLorentzVector) : s + d + p = p + s + d := by
  apply tlv_eq <;> simp only [tlv_add] <;> ring

theorem tlv_sub_shift (s d p : TLorentzVector) : p + s + d - p = s + d := by
  apply tlv_eq <;> simp only [tlv_add, tlv_sub] <;> ring

theorem vectorSum_cons (v : TLorentzVector) (l : List TLorentzVector) :
    vectorSum (v :: l) = v + vectorSum l := by
  apply tlv_eq <;> simp [vectorSum, tlv_add]

theorem vectorSum_perm (l l' : List TLorentzVector) (h : l.Perm l') :
    vectorSum l = vectorSum l' := by
  unfold vectorSum
  rw [(h.map (fun v => v.x)).sum_eq, (h.map (fun v => v.y)).sum_eq,
    (h.map (fun v => v.z)).sum_eq, (h.map (fun v => v.e)).sum_eq]

theorem assignedSum_perm (cp : List (Nat × TLorentzVector)) (coc coc' : List (Nat × Nat))
    (c : Nat) (h : coc.Perm coc') : assignedSum cp coc c = assignedSum cp coc' c := by
  unfold assignedSum
  exact vectorSum_perm _ _ ((h.filter _).map _)

theorem assignedSum_cons (cp : List (Nat × TLorentzVector)) (coc : List (Nat × Nat))
    (k v c : Nat) :
    assignedSum cp ((k, v) :: coc) c
      = if v = c then mapGet cp k 0 + assignedSum cp coc c else assignedSum cp coc c := by
  unfold assignedSum
  by_cases h : v = c
  · rw [if_pos h, List.filter_cons_of_pos (by simpa using h), List.map_cons, vectorSum_cons]
  · rw [if_neg h, List.filter_cons_of_neg (by simpa using h)]

theorem assignedSum_insert (cp : List (Nat × TLorentzVector)) (coc : List (Nat × Nat))
    (k v c : Nat) :
    assignedSum cp (mapInsert natLt coc k v) c
      = if v = c then mapGet cp k 0 + assignedSum cp coc c else assignedSum cp coc c := by
  rw [assignedSum_perm cp _ _ c (mapInsert_perm natLt coc k v), assignedSum_cons]

theorem mapReplace_perm {κ α : Type} [DecidableEq κ] [DecidableEq α] (m : List (κ × α))
    (k : κ) (o v : α) (h : mapFind m k = some o) :
    (mapReplace m k v).Perm ((k, v) :: m.erase (k, o)) ∧ m.Perm ((k, o) :: m.erase (k, o)) := by
  induction m with
  | nil => cases h
  | cons e m ih =>
    obtain ⟨k', v'⟩ := e
    unfold mapFind at h
    unfold mapReplace
    by_cases hk : k' = k
    · rw [if_pos hk] at h
      rw [if_pos hk]
      cases h
      subst hk
      rw [List.erase_cons_head]
      exact ⟨List.Perm.refl _, List.Perm.refl _⟩
    · rw [if_neg hk] at h
      rw [if_neg hk]
      have hne : ((k', v') == (k, o)) = false := by
        simp [hk]
      rw [List.erase_cons_tail (by simp [hk])]
      obtain ⟨h1, h2⟩ := ih h
      exact ⟨(h1.cons _).trans (List.Perm.swap _ _ _), (h2.cons _).trans (List.Perm.swap _ _ _)⟩

theorem assignedSum_replace (cp : List (Nat × TLorentzVector)) (coc : List (Nat × Nat))
    (k o v c : Nat) (h : mapFind coc k = some o) :
    ∃ r, assignedSum cp coc c = (if o = c then mapGet cp k 0 + r else r) ∧
      assignedSum cp (mapReplace coc k v) c = (if v = c then mapGet cp k 0 + r else r) := by
  obtain ⟨h1, h2⟩ := mapReplace_perm coc k o v h
  refine ⟨assignedSum cp (coc.erase (k, o)) c, ?_, ?_⟩
  · rw [assignedSum_perm cp _ _ c h2, assignedSum_cons]
  · rw [assignedSum_perm cp _ _ c h1, assignedSum_cons]

/-- One visit of a neighbour keeps the difference between every running centroid and the
sum of the 4-vectors of the cells assigned to the sub-cluster. -/
theorem visitNeighbour_centroids (a : SplitClusters) (cid : Nat) (ct : List (Nat × Int))
    (cp : List (Nat × TLorentzVector)) (δ : Nat → TLorentzVector)
    (st : SplitClusters.Growth × List (Nat × Nat)) (nb : Nat)
    (h : ∀ c, mapGet st.1.clusterPositions c 0 = assignedSum cp st.1.clusterOfCell c + δ c) :
    ∀ c, mapGet (a.visitNeighbour cid ct cp st nb).1.clusterPositions c 0
      = assignedSum cp (a.visitNeighbour cid ct cp st nb).1.clusterOfCell c + δ c := by
  intro c
  unfold SplitClusters.visitNeighbour
  cases hct : mapFind ct nb with
  | none => exact h c
  | some ty =>
    cases hcoc : mapFind st.1.clusterOfCell nb with
    | none =>
      simp only
      unfold mapEmplace
      rw [hcoc, mapGet_mapAssign, assignedSum_insert]
      by_cases hc : cid = c
      · subst hc
        rw [if_pos rfl, if_pos rfl, h cid, tlv_add_shift]
      · rw [if_neg hc, if_neg hc, h c]
    | some owner =>
      simp only
      by_cases h1 : owner ≠ cid
      · rw [if_pos h1]
        by_cases h2 : a.deltaR (mapGet st.1.clusterPositions cid 0) (mapGet cp nb 0)
            ≤ a.deltaR (mapGet st.1.clusterPositions owner 0) (mapGet cp nb 0)
        · rw [if_pos h2]
          simp only
          have ea : mapAssign natLt st.1.clusterOfCell nb cid
              = mapReplace st.1.clusterOfCell nb cid := by
            unfold mapAssign
            rw [hcoc]
          obtain ⟨r, hr1, hr2⟩ := assignedSum_replace cp st.1.clusterOfCell nb owner cid c hcoc
          rw [ea, mapGet_mapAssign, mapGet_mapAssign, mapGet_mapAssign, hr2]
          by_cases hc : cid = c
          · subst hc
            rw [if_pos rfl, if_pos rfl, if_neg h1, h cid, hr1, if_neg h1, tlv_add_shift]
          · rw [if_neg hc, if_neg hc]
            by_cases ho : owner = c
            · subst ho
              rw [if_pos rfl, h owner, hr1, if_pos rfl, tlv_sub_shift]
            · rw [if_neg ho, h c, hr1, if_neg ho]
        · rw [if_neg h2]
          simp only
          rw [mapAssign_self natLt _ _ _ hcoc]
          exact h c
      · rw [if_neg h1]
        exact h c

theorem searchForNeighbours_centroids (a : SplitClusters) (id cid : Nat)
    (ct : List (Nat × Int)) (cp : List (Nat × TLorentzVector)) (δ : Nat → TLorentzVector)
    (g : SplitClusters.Growth)
    (h : ∀ c, mapGet g.clusterPositions c 0 = assignedSum cp g.clusterOfCell c + δ c) :
    ∀ c, mapGet (a.searchForNeighbours id cid ct cp g).1.clusterPositions c 0
      = assignedSum cp (a.searchForNeighbours id cid ct cp g).1.clusterOfCell c + δ c := by
  unfold SplitClusters.searchForNeighbours
  split_ifs
  · exact h
  · have key : ∀ (nbs : List Nat) (st : SplitClusters.Growth × List (Nat × Nat)),
        (∀ c, mapGet st.1.clusterPositions c 0
          = assignedSum cp st.1.clusterOfCell c + δ c) →
        ∀ c, mapGet (nbs.foldl (a.visitNeighbour cid ct cp) st).1.clusterPositions c 0
          = assignedSum cp (nbs.foldl (a.visitNeighbour cid ct cp) st).1.clusterOfCell c
            + δ c := by
      intro nbs
      induction nbs with
      | nil => intro st hst; exact hst
      | cons x xs ih =>
        intro st hst
        rw [List.foldl_cons]
        exact ih _ (visitNeighbour_centroids a cid ct cp δ st x hst)
    exact key _ (g, []) h

theorem centroidsMatch_nil (cp : List (Nat × TLorentzVector)) :
    CentroidsMatch cp { clusterOfCell := [], clusterPositions := [] } := fun _ => rfl

theorem startSeed_centroids (a : SplitClusters) (ct : List (Nat × Int))
    (cp : List (Nat × TLorentzVector)) (b : SplitClusters.Building) (seed : Nat × ℚ)
    (h : CentroidsMatch cp b.growth)
    (hfresh : mapFind b.growth.clusterPositions b.clusterID = none) :
    (mapFind b.growth.clusterOfCell seed.1 = none →
      CentroidsMatch cp (a.startSeed ct cp b seed).growth) ∧
    (mapFind b.growth.clusterOfCell seed.1 ≠ none →
      ∀ c, mapGet (a.startSeed ct cp b seed).growth.clusterPositions c 0
        = assignedSum cp (a.startSeed ct cp b seed).growth.clusterOfCell c
          + (if c = b.clusterID then mapGet cp seed.1 0 else 0)) := by
  have hzero : assignedSum cp b.growth.clusterOfCell b.clusterID = 0 := by
    rw [← h b.clusterID]
    unfold mapGet
    rw [hfresh]
    rfl
  have hpos : ∀ c, mapGet (mapEmplace natLt b.growth.clusterPositions b.clusterID
      (mapGet cp seed.1 0)) c 0
        = if b.clusterID = c then mapGet cp seed.1 0 else mapGet b.growth.clusterPositions c 0 := by
    intro c
    unfold mapGet
    rw [mapFind_mapEmplace _ _ _ _ _ hfresh]
    split_ifs <;> rfl
  constructor
  · intro hs
    have h1 : ∀ c, mapGet (mapEmplace natLt b.growth.clusterPositions b.clusterID
        (mapGet cp seed.1 0)) c 0
          = assignedSum cp (mapEmplace natLt b.growth.clusterOfCell seed.1 b.clusterID) c
            + (fun _ => (0 : TLorentzVector)) c := by
      intro c
      rw [hpos c, tlv_add_zero]
      unfold mapEmplace
      rw [hs, assignedSum_insert]
      by_cases hc : b.clusterID = c
      · subst hc
        rw [if_pos rfl, if_pos rfl, hzero, tlv_add_zero]
      · rw [if_neg hc, if_neg hc]
        exact h c
    intro c
    have := searchForNeighbours_centroids a seed.1 b.clusterID ct cp (fun _ => 0)
      { clusterOfCell := mapEmplace natLt b.growth.clusterOfCell seed.1 b.clusterID,
        clusterPositions := mapEmplace natLt b.growth.clusterPositions b.clusterID
          (mapGet cp seed.1 0) } h1 c
    rw [tlv_add_zero] at this
    exact this
  · intro hs
    obtain ⟨o, ho⟩ := Option.ne_none_iff_exists'.1 hs
    have h1 : ∀ c, mapGet (mapEmplace natLt b.growth.clusterPositions b.clusterID
        (mapGet cp seed.1 0)) c 0
          = assignedSum cp (mapEmplace natLt b.growth.clusterOfCell seed.1 b.clusterID) c
            + (fun c => if c = b.clusterID then mapGet cp seed.1 0 else 0) c := by
      intro c
      rw [hpos c, mapEmplace_present natLt _ _ _ _ ho]
      by_cases hc : b.clusterID = c
      · subst hc
        rw [if_pos rfl]
        simp only [if_true]
        rw [hzero, tlv_zero_add]
      · rw [if_neg hc]
        simp only [if_neg (fun hcc : c = b.clusterID => hc hcc.symm)]
        rw [tlv_add_zero]
        exact h c
    exact searchForNeighbours_centroids a seed.1 b.clusterID ct cp
      (fun c => if c = b.clusterID then mapGet cp seed.1 0 else 0)
      { clusterOfCell := mapEmplace natLt b.growth.clusterOfCell seed.1 b.clusterID,
        clusterPositions := mapEmplace natLt b.growth.clusterPositions b.clusterID
          (mapGet cp seed.1 0) } h1

/-- C31: the running centroid of a sub-cluster counts a seed that another sub-cluster
holds. Every call of `searchForNeighbours` keeps the invariant (each running centroid is
the sum of the 4-vectors of the cells assigned to the sub-cluster: a cell that moves is
subtracted from the loser and added to the winner), and iteration 0 for a seed keeps it
when the seed is not assigned yet. When the seed has been taken before as a neighbour by an
earlier seed, `clusterOfCell.emplace` leaves it with that sub-cluster while
`clusterPositions.emplace` starts the new centroid with the 4-vector of the seed: after
iteration 0 for this seed the centroid of the new sub-cluster is the sum over its cells
plus the 4-vector of the seed, which it does not hold. -/
theorem centroid_counts_taken_seed (a : SplitClusters) (aCellsType : List (Nat × Int))
    (aCellPosition : List (Nat × TLorentzVector)) (b : SplitClusters.Building)
    (seed : Nat × ℚ) (aCellId aClusterID : Nat) (g : SplitClusters.Growth) :
    (CentroidsMatch aCellPosition g →
      CentroidsMatch aCellPosition
        (a.searchForNeighbours aCellId aClusterID aCellsType aCellPosition g).1) ∧
    (CentroidsMatch aCellPosition b.growth →
      mapFind b.growth.clusterPositions b.clusterID = none →
      (mapFind b.growth.clusterOfCell seed.1 = none →
        CentroidsMatch aCellPosition (a.startSeed aCellsType aCellPosition b seed).growth) ∧
      (mapFind b.growth.clusterOfCell seed.1 ≠ none →
        (∀ c, c ≠ b.clusterID →
          mapGet (a.startSeed aCellsType aCellPosition b seed).growth.clusterPositions c 0
            = assignedSum aCellPosition
                (a.startSeed aCellsType aCellPosition b seed).growth.clusterOfCell c) ∧
        mapGet (a.startSeed aCellsType aCellPosition b seed).growth.clusterPositions
            b.clusterID 0
          = assignedSum aCellPosition
              (a.startSeed aCellsType aCellPosition b seed).growth.clusterOfCell b.clusterID
            + mapGet aCellPosition seed.1 0)) := by
  constructor
  · intro h c
    have h1 : ∀ c, mapGet g.clusterPositions c 0
        = assignedSum aCellPosition g.clusterOfCell c + (fun _ => (0 : TLorentzVector)) c := by
      intro c
      rw [tlv_add_zero]
      exact h c
    have := searchForNeighbours_centroids a aCellId aClusterID aCellsType aCellPosition
      (fun _ => 0) g h1 c
    rw [tlv_add_zero] at this
    exact this
  · intro h hfresh
    obtain ⟨s1, s2⟩ := startSeed_centroids a aCellsType aCellPosition b seed h hfresh
    refine ⟨s1, fun hs => ⟨?_, ?_⟩⟩
    · intro c hc
      rw [s2 hs c, if_neg hc, tlv_add_zero]
    · rw [s2 hs b.clusterID, if_pos rfl]

theorem centroid_counts_taken_seed_witness :
    adjacentSeedSplitter.newSeeds adjacentSeedCluster.hits = [(1, 5), (2, 5)] ∧
    (adjacentSeedSplitter.iteration0 1 adjacentSeedCluster).growth
      = (adjacentSeedSplitter.startSeed (SplitClusters.cellsType adjacentSeedCluster.hits)
          (adjacentSeedSplitter.cellsPosition adjacentSeedCluster.hits) adjacentSeedStarted
          (2, 5)).growth ∧
    mapFind adjacentSeedStarted.growth.clusterOfCell 2 = some 2 ∧
    adjacentSeedStarted.clusterID = 3 ∧
    CentroidsMatch (adjacentSeedSplitter.cellsPosition adjacentSeedCluster.hits)
      adjacentSeedStarted.growth ∧
    mapGet (adjacentSeedSplitter.iteration0 1 adjacentSeedCluster).growth.clusterPositions 3 0
      = assignedSum (adjacentSeedSplitter.cellsPosition adjacentSeedCluster.hits)
          (adjacentSeedSplitter.iteration0 1 adjacentSeedCluster).growth.clusterOfCell 3
        + mapGet (adjacentSeedSplitter.cellsPosition adjacentSeedCluster.hits) 2 0 ∧
    mapGet (adjacentSeedSplitter.cellsPosition adjacentSeedCluster.hits) 2 0 = ⟨1, 1, 0, 5⟩ ∧
    mapGet (adjacentSeedSplitter.iteration0 1 adjacentSeedCluster).growth.clusterPositions 3 0
      = ⟨1, 1, 0, 5⟩ ∧
    assignedSum (adjacentSeedSplitter.cellsPosition adjacentSeedCluster.hits)
        (adjacentSeedSplitter.iteration0 1 adjacentSeedCluster).growth.clusterOfCell 3
      = ⟨0, 0, 0, 0⟩ := by
  have h1 : CentroidsMatch (adjacentSeedSplitter.cellsPosition adjacentSeedCluster.hits)
      adjacentSeedStarted.growth :=
    ((centroid_counts_taken_seed adjacentSeedSplitter
      (SplitClusters.cellsType adjacentSeedCluster.hits)
      (adjacentSeedSplitter.cellsPosition adjacentSeedCluster.hits)
      { growth := { clusterOfCell := [], clusterPositions := [] },
        preClusterCollection := [], mapVecNextNeighbours := [], clusterID := 2 } (1, 5) 0 0
      { clusterOfCell := [], clusterPositions := [] }).2
      (centroidsMatch_nil _) rfl).1 rfl
  have e0 : (adjacentSeedSplitter.iteration0 1 adjacentSeedCluster).growth
      = (adjacentSeedSplitter.startSeed (SplitClusters.cellsType adjacentSeedCluster.hits)
          (adjacentSeedSplitter.cellsPosition adjacentSeedCluster.hits) adjacentSeedStarted
          (2, 5)).growth := by decide!
  have hfresh : mapFind adjacentSeedStarted.growth.clusterPositions
      adjacentSeedStarted.clusterID = none := by decide!
  have htaken : mapFind adjacentSeedStarted.growth.clusterOfCell (2, (5 : ℚ)).1 ≠ none := by
    decide!
  have h2 := (((centroid_counts_taken_seed adjacentSeedSplitter
      (SplitClusters.cellsType adjacentSeedCluster.hits)
      (adjacentSeedSplitter.cellsPosition adjacentSeedCluster.hits) adjacentSeedStarted (2, 5)
      0 0 { clusterOfCell := [], clusterPositions := [] }).2 h1 hfresh).2 htaken).2
  have e3 : adjacentSeedStarted.clusterID = 3 := by decide!
  rw [e3] at h2
  refine ⟨by decide!, e0, by decide!, e3, h1, ?_, by decide!, by decide!, by decide!⟩
  rw [e0]
  exact h2

/-! ## Growth along the neighbour relation -/

theorem searchForNeighbours_reach (a : SplitClusters) (id cid : Nat) (ct : List (Nat × Int))
    (cp : List (Nat × TLorentzVector)) (g : SplitClusters.Growth) :
    (∀ k, mapFind g.clusterOfCell k ≠ none →
      mapFind (a.searchForNeighbours id cid ct cp g).1.clusterOfCell k ≠ none) ∧
    Expanded a ct (a.searchForNeighbours id cid ct cp g).1.clusterOfCell id ∧
    (∀ k, mapFind g.clusterOfCell k = none →
      mapFind (a.searchForNeighbours id cid ct cp g).1.clusterOfCell k ≠ none →
      k ∈ a.neighbours id ∧ mapFind ct k ≠ none ∧
      k ∈ (a.searchForNeighbours id cid ct cp g).2.map Prod.fst) ∧
    (∀ e ∈ (a.searchForNeighbours id cid ct cp g).2, e.1 ≠ 0 →
      mapFind (a.searchForNeighbours id cid ct cp g).1.clusterOfCell e.1 ≠ none) ∧
    (∀ k, mapFind g.clusterOfCell k = some cid →
      mapFind (a.searchForNeighbours id cid ct cp g).1.clusterOfCell k = some cid) := by
  obtain ⟨hI, _, hA, hB, hD, hM, hC⟩ := foldl_visitNeighbour_spec a cid ct cp g (a.neighbours id)
  unfold SplitClusters.searchForNeighbours
  by_cases hlen : (a.neighbours id).length = 0
  · rw [if_pos hlen]
    have hnil : a.neighbours id = [] := List.length_eq_zero.1 hlen
    refine ⟨fun _ h => h, ?_, fun k h1 h2 => absurd h1 h2, ?_, fun _ h => h⟩
    · intro n hn
      rw [hnil] at hn
      cases hn
    · intro e he h0
      have e1 : e = (0, 0) := List.mem_singleton.1 he
      rw [e1] at h0
      exact absurd rfl h0
  · rw [if_neg hlen]
    refine ⟨hM, hC, ?_, ?_, hB⟩
    · intro k h1 h2
      have hk : ¬ (mapFind ct k = none ∨ k ∉ a.neighbours id) := by
        intro h
        rw [hA k h] at h2
        exact h2 h1
      have hct : mapFind ct k ≠ none := fun h => hk (Or.inl h)
      have hnb : k ∈ a.neighbours id := by
        by_contra h
        exact hk (Or.inr h)
      exact ⟨hnb, hct, List.mem_map.2 ⟨(k, cid), hD k hnb hct h1, rfl⟩⟩
    · intro e he _
      rw [(hI e he).2.2.2.2]
      simp

theorem expanded_mono (a : SplitClusters) (ct : List (Nat × Int)) (coc coc' : List (Nat × Nat))
    (k : Nat) (hm : ∀ n, mapFind coc n ≠ none → mapFind coc' n ≠ none)
    (h : Expanded a ct coc k) : Expanded a ct coc' k :=
  fun n hn hct => hm n (h n hn hct)

theorem foldlM_except_rest {σ ι : Type} (P : List ι → σ → Prop) (f : σ → ι → Except Abort σ)
    (hf : ∀ x xs s s', P (x :: xs) s → f s x = Except.ok s' → P xs s') :
    ∀ (l : List ι) (s s' : σ), P l s → l.foldlM f s = Except.ok s' → P [] s' := by
  intro l
  induction l with
  | nil =>
    intro s s' hs h
    have e : s = s' := by
      simpa [List.foldlM_nil, pure, Except.pure] using h
    rw [← e]
    exact hs
  | cons x xs ih =>
    intro s s' hs h
    rw [List.foldlM_cons] at h
    cases hx : f s x with
    | error e =>
      rw [hx] at h
      cases h
    | ok s1 =>
      rw [hx] at h
      exact ih s1 s' (hf x xs s s1 hs hx) h

theorem expandCell_growth (a : SplitClusters) (ct : List (Nat × Int))
    (cp : List (Nat × TLorentzVector)) (iter cid : Nat)
    (st st' : SplitClusters.Growth × Frontiers) (id : Nat × Nat)
    (he : a.expandCell ct cp iter cid st id = Except.ok st') :
    st'.1 = (a.searchForNeighbours id.1 cid ct cp st.1).1 := by
  unfold SplitClusters.expandCell at he
  split_ifs at he
  dsimp only at he
  cases hap : SplitClusters.appendFrontier (mapGet st.2 cid []) iter
      (a.searchForNeighbours id.1 cid ct cp st.1).2 with
  | none =>
    rw [hap] at he
    cases he
  | some vv =>
    rw [hap] at he
    cases he
    rfl

theorem expandCell_mid (a : SplitClusters) (ct : List (Nat × Int))
    (cp : List (Nat × TLorentzVector)) (seeds : List Nat) (nClusters nSeeds iter cid j : Nat)
    (hj : j < nSeeds) (hcid : cid = nClusters + (j + 1)) (hiter : 1 ≤ iter)
    (id : Nat × Nat) (pending : List (Nat × Nat)) (rest : List Nat)
    (st st' : SplitClusters.Growth × Frontiers)
    (h : MidInv a ct seeds nClusters nSeeds iter (id :: pending) rest st)
    (he : a.expandCell ct cp iter cid st id = Except.ok st') :
    MidInv a ct seeds nClusters nSeeds iter pending rest st' := by
  obtain ⟨hR, hS, hE, hF1, hF2, hF3, hN⟩ := h
  obtain ⟨hid0, _, hother, _, old, hold, hnew, hsame⟩ := expandCell_entry a ct cp iter cid st st' id he
  have hg := expandCell_growth a ct cp iter cid st st' id he
  obtain ⟨sm, sx, sn, sf, _⟩ := searchForNeighbours_reach a id.1 cid ct cp st.1
  rw [← hg] at sm sx sn sf
  have hprev : ∀ c, (mapGet st'.2 c []).get? (iter - 1) = (mapGet st.2 c []).get? (iter - 1) := by
    intro c
    by_cases hc : c = cid
    · rw [hc]
      exact hsame (iter - 1) (by omega)
    · rw [hother c hc]
  have hidA : mapFind st.1.clusterOfCell id.1 ≠ none :=
    hF1 id (List.mem_cons_self _ _) hid0
  have hfront : ∀ k, k ∈ (a.searchForNeighbours id.1 cid ct cp st.1).2.map Prod.fst →
      InFrontier nClusters nSeeds st'.2 iter k := by
    intro k hk
    refine ⟨j, hj, old ++ (a.searchForNeighbours id.1 cid ct cp st.1).2, ?_, ?_⟩
    · rw [← hcid]; exact hnew
    · rw [List.map_append]
      exact List.mem_append_right _ hk
  have hkeep : ∀ k, InFrontier nClusters nSeeds st.2 iter k →
      InFrontier nClusters nSeeds st'.2 iter k := by
    rintro k ⟨j', hj', f, hf, hkf⟩
    by_cases hc : nClusters + (j' + 1) = cid
    · refine ⟨j', hj', old ++ (a.searchForNeighbours id.1 cid ct cp st.1).2, ?_, ?_⟩
      · rw [hc]; exact hnew
      · rw [hc, hold] at hf
        cases hf
        rw [List.map_append]
        exact List.mem_append_left _ hkf
    · exact ⟨j', hj', f, by rw [hother _ hc]; exact hf, hkf⟩
  refine ⟨?_, ?_, ?_, ?_, ?_, ?_, ?_⟩
  · intro k hk
    by_cases hold' : mapFind st.1.clusterOfCell k = none
    · obtain ⟨h1, h2, _⟩ := sn k hold' hk
      exact Connected.step id.1 k (hR id.1 hidA) h1 h2
    · exact hR k hold'
  · intro s hs
    exact sm s (hS s hs)
  · intro k hk
    by_cases hkid : k = id.1
    · left
      rw [hkid]
      exact sx
    · by_cases hold' : mapFind st.1.clusterOfCell k = none
      · right; right; right
        exact hfront k (sn k hold' hk).2.2
      · rcases hE k hold' with h1 | h1 | h1 | h1
        · left
          exact expanded_mono a ct _ _ k sm h1
        · right; left
          rw [List.map_cons] at h1
          rcases List.mem_cons.1 h1 with h2 | h2
          · exact absurd h2 hkid
          · exact h2
        · right; right; left
          obtain ⟨c, hc, f, hf, hkf⟩ := h1
          exact ⟨c, hc, f, by rw [hprev c]; exact hf, hkf⟩
        · right; right; right
          exact hkeep k h1
  · intro e he' h0
    exact sm e.1 (hF1 e (List.mem_cons_of_mem _ he') h0)
  · intro c hc f hf e he' h0
    rw [hprev c] at hf
    exact sm e.1 (hF2 c hc f hf e he' h0)
  · intro j' hj' f hf e he' h0
    by_cases hc : nClusters + (j' + 1) = cid
    · rw [hc, hnew] at hf
      cases hf
      rcases List.mem_append.1 he' with h1 | h1
      · exact sm e.1 (hF3 j hj old (by rw [← hcid]; exact hold) e h1 h0)
      · rw [hg]
        exact (searchForNeighbours_reach a id.1 cid ct cp st.1).2.2.2.1 e h1 h0
    · rw [hother _ hc] at hf
      exact sm e.1 (hF3 j' hj' f hf e he' h0)
  · intro j' hj' i' hi' f hf
    by_cases hc : nClusters + (j' + 1) = cid
    · rw [hc, hsame i' (by omega), ← hc] at hf
      exact hN j' hj' i' hi' f hf
    · rw [hother _ hc] at hf
      exact hN j' hj' i' hi' f hf

theorem expandCluster_mid (a : SplitClusters) (ct : List (Nat × Int))
    (cp : List (Nat × TLorentzVector)) (seeds : List Nat) (nClusters nSeeds iter cid j : Nat)
    (hj : j < nSeeds) (hcid : cid = nClusters + (j + 1)) (hiter : 1 ≤ iter)
    (rest : List Nat) (acc acc' : (SplitClusters.Growth × Frontiers) × Bool)
    (h : MidInv a ct seeds nClusters nSeeds iter [] (cid :: rest) acc.1)
    (he : a.expandCluster ct cp iter acc cid = Except.ok acc') :
    MidInv a ct seeds nClusters nSeeds iter [] rest acc'.1 := by
  obtain ⟨hR, hS, hE, hF1, hF2, hF3, hN⟩ := h
  unfold SplitClusters.expandCluster at he
  cases hget : (mapGet acc.1.2 cid []).get? (iter - 1) with
  | none =>
    rw [hget] at he
    cases he
  | some f =>
    rw [hget] at he
    dsimp only at he
    have hstart : MidInv a ct seeds nClusters nSeeds iter f rest acc.1 := by
      refine ⟨hR, hS, ?_, ?_, ?_, hF3, hN⟩
      · intro k hk
        rcases hE k hk with h1 | h1 | h1 | h1
        · exact Or.inl h1
        · cases h1
        · obtain ⟨c, hc, f', hf', hkf⟩ := h1
          rcases List.mem_cons.1 hc with h2 | h2
          · rw [h2, hget] at hf'
            cases hf'
            exact Or.inr (Or.inl hkf)
          · exact Or.inr (Or.inr (Or.inl ⟨c, h2, f', hf', hkf⟩))
        · exact Or.inr (Or.inr (Or.inr h1))
      · intro e he' h0
        exact hF2 cid (List.mem_cons_self _ _) f hget e he' h0
      · intro c hc
        exact hF2 c (List.mem_cons_of_mem _ hc)
    by_cases hlen : f.length > 0
    · rw [if_pos hlen] at he
      cases hfold : f.foldlM (a.expandCell ct cp iter cid) acc.1 with
      | error e =>
        rw [hfold] at he
        cases he
      | ok st' =>
        rw [hfold] at he
        cases he
        exact foldlM_except_rest
          (fun pend st => MidInv a ct seeds nClusters nSeeds iter pend rest st)
          (a.expandCell ct cp iter cid)
          (fun x xs s s' hs hx =>
            expandCell_mid a ct cp seeds nClusters nSeeds iter cid j hj hcid hiter x xs rest
              s s' hs hx)
          f acc.1 st' hstart hfold
    · rw [if_neg hlen] at he
      cases he
      have hnil : f = [] := List.length_eq_zero.1 (by omega)
      rw [hnil] at hstart
      exact hstart

theorem growthRound_mid (a : SplitClusters) (ct : List (Nat × Int))
    (cp : List (Nat × TLorentzVector)) (seeds : List Nat) (nClusters nSeeds iter : Nat)
    (hiter : 1 ≤ iter) (st : SplitClusters.Growth × Frontiers)
    (acc' : (SplitClusters.Growth × Frontiers) × Bool)
    (h : GrowthInv a ct seeds nClusters nSeeds (iter - 1) st)
    (he : a.growthRound ct cp nClusters nSeeds iter st = Except.ok acc') :
    GrowthInv a ct seeds nClusters nSeeds iter acc'.1 := by
  obtain ⟨hR, hS, hE, hF, hN⟩ := h
  unfold SplitClusters.growthRound at he
  have hall : ∀ c ∈ (List.range nSeeds).map (fun k => nClusters + (k + 1)),
      ∃ j < nSeeds, c = nClusters + (j + 1) := by
    intro c hc
    obtain ⟨j, hj, e⟩ := List.mem_map.1 hc
    exact ⟨j, List.mem_range.1 hj, e.symm⟩
  have hstart : MidInv a ct seeds nClusters nSeeds iter []
      ((List.range nSeeds).map (fun k => nClusters + (k + 1))) st := by
    refine ⟨hR, hS, ?_, ?_, ?_, ?_, ?_⟩
    · intro k hk
      rcases hE k hk with h1 | h1
      · exact Or.inl h1
      · obtain ⟨j, hj, f, hf, hkf⟩ := h1
        exact Or.inr (Or.inr (Or.inl ⟨nClusters + (j + 1),
          List.mem_map.2 ⟨j, List.mem_range.2 hj, rfl⟩, f, hf, hkf⟩))
    · intro e he'
      cases he'
    · intro c hc f hf e he' h0
      obtain ⟨j, hj, e1⟩ := hall c hc
      rw [e1] at hf
      exact hF j hj f hf e he' h0
    · intro j hj f hf e he'
      rw [hN j hj iter (by omega) f hf] at he'
      cases he'
    · intro j hj i' hi' f hf
      exact hN j hj i' (by omega) f hf
  have hend := foldlM_except_rest
    (fun rest (acc : (SplitClusters.Growth × Frontiers) × Bool) =>
      (∀ c ∈ rest, ∃ j < nSeeds, c = nClusters + (j + 1)) ∧
        MidInv a ct seeds nClusters nSeeds iter [] rest acc.1)
    (a.expandCluster ct cp iter)
    (fun x xs s s' hs hx => by
      obtain ⟨j, hj, e1⟩ := hs.1 x (List.mem_cons_self _ _)
      exact ⟨fun c hc => hs.1 c (List.mem_cons_of_mem _ hc),
        expandCluster_mid a ct cp seeds nClusters nSeeds iter x j hj e1 hiter xs s s' hs.2 hx⟩)
    _ (st, false) acc' ⟨hall, hstart⟩ he
  obtain ⟨hR', hS', hE', _, _, hF3', hN'⟩ := hend.2
  refine ⟨hR', hS', ?_, hF3', hN'⟩
  intro k hk
  rcases hE' k hk with h1 | h1 | h1 | h1
  · exact Or.inl h1
  · cases h1
  · obtain ⟨c, hc, _⟩ := h1
    cases hc
  · exact Or.inr h1

theorem clusters_fold_quiet (a : SplitClusters) (ct : List (Nat × Int))
    (cp : List (Nat × TLorentzVector)) (iter : Nat) (l : List Nat) :
    ∀ (acc acc' : (SplitClusters.Growth × Frontiers) × Bool),
      l.foldlM (a.expandCluster ct cp iter) acc = Except.ok acc' → acc'.2 = false →
      acc'.1 = acc.1 ∧
      ∀ c ∈ l, ∀ f, (mapGet acc.1.2 c []).get? (iter - 1) = some f → f = [] := by
  induction l with
  | nil =>
    intro acc acc' h _
    have e : acc = acc' := by
      simpa [List.foldlM_nil, pure, Except.pure] using h
    rw [e]
    exact ⟨rfl, fun c hc => by cases hc⟩
  | cons x xs ih =>
    intro acc acc' h hflag
    rw [List.foldlM_cons] at h
    cases hx : a.expandCluster ct cp iter acc x with
    | error e =>
      rw [hx] at h
      cases h
    | ok mid =>
      rw [hx] at h
      obtain ⟨h1, h2⟩ := ih mid acc' h hflag
      have hmid : mid.2 = false → mid = acc ∧
          ∀ f, (mapGet acc.1.2 x []).get? (iter - 1) = some f → f = [] := by
        intro hm
        unfold SplitClusters.expandCluster at hx
        cases hget : (mapGet acc.1.2 x []).get? (iter - 1) with
        | none =>
          rw [hget] at hx
          cases hx
        | some f =>
          rw [hget] at hx
          dsimp only at hx
          by_cases hlen : f.length > 0
          · rw [if_pos hlen] at hx
            cases hfold : f.foldlM (a.expandCell ct cp iter x) acc.1 with
            | error e =>
              rw [hfold] at hx
              cases hx
            | ok st' =>
              rw [hfold] at hx
              cases hx
              cases hm
          · rw [if_neg hlen] at hx
            cases hx
            refine ⟨rfl, ?_⟩
            intro f' hf'
            cases hf'
            exact List.length_eq_zero.1 (by omega)
      have hm2 : mid.2 = false := by
        have hflags : ∀ (l : List Nat) (s s' : (SplitClusters.Growth × Frontiers) × Bool),
            l.foldlM (a.expandCluster ct cp iter) s = Except.ok s' → s.2 = true →
            s'.2 = true := by
          intro l
          induction l with
          | nil =>
            intro s s' hs ht
            have e : s = s' := by
              simpa [List.foldlM_nil, pure, Except.pure] using hs
            rw [← e]
            exact ht
          | cons y ys ihy =>
            intro s s' hs ht
            rw [List.foldlM_cons] at hs
            cases hy : a.expandCluster ct cp iter s y with
            | error e =>
              rw [hy] at hs
              cases hs
            | ok s1 =>
              rw [hy] at hs
              refine ihy s1 s' hs ?_
              unfold SplitClusters.expandCluster at hy
              cases hget : (mapGet s.1.2 y []).get? (iter - 1) with
              | none =>
                rw [hget] at hy
                cases hy
              | some f =>
                rw [hget] at hy
                dsimp only at hy
                by_cases hlen : f.length > 0
                · rw [if_pos hlen] at hy
                  cases hfold : f.foldlM (a.expandCell ct cp iter y) s.1 with
                  | error e =>
                    rw [hfold] at hy
                    cases hy
                  | ok st' =>
                    rw [hfold] at hy
                    cases hy
                    rfl
                · rw [if_neg hlen] at hy
                  cases hy
                  exact ht
        cases hmv : mid.2 with
        | false => rfl
        | true =>
          have := hflags xs mid acc' h hmv
          rw [hflag] at this
          cases this
      obtain ⟨e1, e2⟩ := hmid hm2
      rw [e1] at h1 h2
      refine ⟨h1, ?_⟩
      intro c hc
      rcases List.mem_cons.1 hc with h3 | h3
      · rw [h3]
        exact e2
      · exact h2 c h3

theorem closed_of_quiet (a : SplitClusters) (ct : List (Nat × Int)) (seeds : List Nat)
    (nClusters nSeeds i : Nat) (st : SplitClusters.Growth × Frontiers)
    (h : GrowthInv a ct seeds nClusters nSeeds i st)
    (hq : ∀ j < nSeeds, ∀ f, (mapGet st.2 (nClusters + (j + 1)) []).get? i = some f → f = []) :
    ∀ k, mapFind st.1.clusterOfCell k ≠ none ↔ Connected a ct seeds k := by
  obtain ⟨hR, hS, hE, _, _⟩ := h
  intro k
  constructor
  · exact hR k
  · intro hk
    induction hk with
    | seed s hs => exact hS s hs
    | step k n _ hn hct ih =>
      rcases hE k ih with h1 | h1
      · exact h1 n hn hct
      · obtain ⟨j, hj, f, hf, hkf⟩ := h1
        rw [hq j hj f hf] at hkf
        cases hkf

theorem growthLoop_connected (a : SplitClusters) (ct : List (Nat × Int))
    (cp : List (Nat × TLorentzVector)) (seeds : List Nat) (nClusters nSeeds : Nat) :
    ∀ (fuel iter : Nat) (st st' : SplitClusters.Growth × Frontiers), 1 ≤ iter →
      GrowthInv a ct seeds nClusters nSeeds (iter - 1) st →
      a.growthLoop ct cp nClusters nSeeds fuel iter st = Except.ok st' →
      ∀ k, mapFind st'.1.clusterOfCell k ≠ none ↔ Connected a ct seeds k := by
  intro fuel
  induction fuel with
  | zero =>
    intro iter st st' _ _ he
    unfold SplitClusters.growthLoop at he
    cases he
  | succ fuel ih =>
    intro iter st st' hiter h he
    rw [growthLoop_succ] at he
    cases hr : a.growthRound ct cp nClusters nSeeds iter st with
    | error e =>
      rw [hr] at he
      cases he
    | ok acc =>
      obtain ⟨st1, flag⟩ := acc
      rw [hr] at he
      cases flag with
      | true =>
        dsimp only at he
        have h1 := growthRound_mid a ct cp seeds nClusters nSeeds iter hiter st (st1, true) h hr
        exact ih (iter + 1) st1 st' (by omega) (by simpa using h1) he
      | false =>
        dsimp only at he
        cases he
        unfold SplitClusters.growthRound at hr
        obtain ⟨e1, e2⟩ := clusters_fold_quiet a ct cp iter _ (st, false) (st', false) hr rfl
        dsimp only at e1
        rw [e1]
        refine closed_of_quiet a ct seeds nClusters nSeeds (iter - 1) st h ?_
        intro j hj f hf
        exact e2 (nClusters + (j + 1)) (List.mem_map.2 ⟨j, List.mem_range.2 hj, rfl⟩) f hf

theorem mapFind_mapEmplace_ne_none {κ α : Type} [DecidableEq κ] (lt : κ → κ → Bool)
    (m : List (κ × α)) (k k' : κ) (v : α) :
    mapFind (mapEmplace lt m k v) k' ≠ none ↔ k = k' ∨ mapFind m k' ≠ none := by
  cases hf : mapFind m k with
  | none =>
    rw [mapFind_mapEmplace lt m k k' v hf]
    by_cases hk : k = k'
    · simp [hk]
    · simp [hk]
  | some w =>
    rw [mapEmplace_present lt m k v w hf]
    constructor
    · exact fun h => Or.inr h
    · rintro (h | h)
      · rw [← h, hf]
        simp
      · exact h

theorem mapFind_mapEmplace_own {κ α : Type} [DecidableEq κ] (lt : κ → κ → Bool)
    (m : List (κ × α)) (k : κ) (v : α) (hf : mapFind m k = none) :
    mapFind (mapEmplace lt m k v) k = some v := by
  rw [mapFind_mapEmplace lt m k k v hf, if_pos rfl]

theorem connected_mono (a : SplitClusters) (ct : List (Nat × Int)) (S S' : List Nat)
    (h : ∀ s ∈ S, s ∈ S') (k : Nat) (hk : Connected a ct S k) : Connected a ct S' k := by
  induction hk with
  | seed s hs => exact Connected.seed s (h s hs)
  | step k n _ hn hct ih => exact Connected.step k n ih hn hct

theorem foldl_startSeed_inv (a : SplitClusters) (ct : List (Nat × Int))
    (cp : List (Nat × TLorentzVector)) (nClusters : Nat) (l : List (Nat × ℚ)) :
    (l.foldl (a.startSeed ct cp)
      { growth := { clusterOfCell := [], clusterPositions := [] },
        preClusterCollection := [], mapVecNextNeighbours := [],
        clusterID := nClusters + 1 }).clusterID = nClusters + 1 + l.length ∧
    (∀ c, nClusters + 1 + l.length ≤ c →
      mapFind (l.foldl (a.startSeed ct cp)
        { growth := { clusterOfCell := [], clusterPositions := [] },
          preClusterCollection := [], mapVecNextNeighbours := [],
          clusterID := nClusters + 1 }).mapVecNextNeighbours c = none) ∧
    GrowthInv a ct (l.map Prod.fst) nClusters l.length 0
      ((l.foldl (a.startSeed ct cp)
        { growth := { clusterOfCell := [], clusterPositions := [] },
          preClusterCollection := [], mapVecNextNeighbours := [],
          clusterID := nClusters + 1 }).growth,
       (l.foldl (a.startSeed ct cp)
        { growth := { clusterOfCell := [], clusterPositions := [] },
          preClusterCollection := [], mapVecNextNeighbours := [],
          clusterID := nClusters + 1 }).mapVecNextNeighbours) := by
  induction l using List.reverseRecOn with
  | nil =>
    refine ⟨rfl, fun c _ => rfl, ?_, ?_, ?_, ?_, ?_⟩
    · intro k hk
      exact absurd rfl hk
    · intro s hs
      cases hs
    · intro k hk
      exact absurd rfl hk
    · intro j hj
      cases hj
    · intro j hj
      cases hj
  | append_singleton xs x ih =>
    rw [List.foldl_append, List.foldl_cons, List.foldl_nil]
    obtain ⟨hid, hfresh, hR, hS, hE, hF, hN⟩ := ih
    generalize xs.foldl (a.startSeed ct cp)
      { growth := { clusterOfCell := [], clusterPositions := [] },
        preClusterCollection := [], mapVecNextNeighbours := [],
        clusterID := nClusters + 1 } = bx at hid hfresh hR hS hE hF hN ⊢
    have hlen : (xs ++ [x]).length = xs.length + 1 := by simp
    have hget : ∀ c, mapGet (a.startSeed ct cp bx x).mapVecNextNeighbours c []
        = if bx.clusterID = c then
            (a.searchForNeighbours x.1 bx.clusterID ct cp
              { clusterOfCell := mapEmplace natLt bx.growth.clusterOfCell x.1 bx.clusterID,
                clusterPositions := mapEmplace natLt bx.growth.clusterPositions bx.clusterID
                  (mapGet cp x.1 0) }).2 :: List.replicate 1000 []
          else mapGet bx.mapVecNextNeighbours c [] := by
      intro c
      unfold SplitClusters.startSeed mapGet
      dsimp only
      rw [mapFind_mapEmplace _ _ _ _ _ (hfresh bx.clusterID (by omega))]
      split_ifs <;> rfl
    obtain ⟨sm, sx, sn, sf, _⟩ := searchForNeighbours_reach a x.1 bx.clusterID ct cp
      { clusterOfCell := mapEmplace natLt bx.growth.clusterOfCell x.1 bx.clusterID,
        clusterPositions := mapEmplace natLt bx.growth.clusterPositions bx.clusterID
          (mapGet cp x.1 0) }
    have hg : (a.startSeed ct cp bx x).growth
        = (a.searchForNeighbours x.1 bx.clusterID ct cp
          { clusterOfCell := mapEmplace natLt bx.growth.clusterOfCell x.1 bx.clusterID,
            clusterPositions := mapEmplace natLt bx.growth.clusterPositions bx.clusterID
              (mapGet cp x.1 0) }).1 := rfl
    have hmono : ∀ k, mapFind bx.growth.clusterOfCell k ≠ none →
        mapFind (a.startSeed ct cp bx x).growth.clusterOfCell k ≠ none := by
      intro k hk
      rw [hg]
      exact sm k ((mapFind_mapEmplace_ne_none natLt _ x.1 k bx.clusterID).2 (Or.inr hk))
    have hseed : mapFind (a.startSeed ct cp bx x).growth.clusterOfCell x.1 ≠ none := by
      rw [hg]
      exact sm x.1 ((mapFind_mapEmplace_ne_none natLt _ x.1 x.1 bx.clusterID).2 (Or.inl rfl))
    have hsub : ∀ s ∈ xs.map Prod.fst, s ∈ (xs ++ [x]).map Prod.fst := by
      intro s hs
      rw [List.map_append]
      exact List.mem_append_left _ hs
    have hxmem : x.1 ∈ (xs ++ [x]).map Prod.fst := by
      rw [List.map_append]
      exact List.mem_append_right _ (List.mem_singleton.2 rfl)
    have hnew : ∀ k, mapFind bx.growth.clusterOfCell k = none → k ≠ x.1 →
        mapFind (a.startSeed ct cp bx x).growth.clusterOfCell k ≠ none →
        k ∈ a.neighbours x.1 ∧ mapFind ct k ≠ none ∧
        k ∈ (a.searchForNeighbours x.1 bx.clusterID ct cp
          { clusterOfCell := mapEmplace natLt bx.growth.clusterOfCell x.1 bx.clusterID,
            clusterPositions := mapEmplace natLt bx.growth.clusterPositions bx.clusterID
              (mapGet cp x.1 0) }).2.map Prod.fst := by
      intro k h1 h2 h3
      rw [hg] at h3
      refine sn k ?_ h3
      by_contra hc
      rcases (mapFind_mapEmplace_ne_none natLt _ x.1 k bx.clusterID).1 hc with h4 | h4
      · exact h2 h4.symm
      · exact h4 h1
    have hold : ∀ j, j < xs.length →
        mapGet (a.startSeed ct cp bx x).mapVecNextNeighbours (nClusters + (j + 1)) []
          = mapGet bx.mapVecNextNeighbours (nClusters + (j + 1)) [] := by
      intro j hj
      rw [hget, if_neg (by omega)]
    have hlast : mapGet (a.startSeed ct cp bx x).mapVecNextNeighbours
        (nClusters + (xs.length + 1)) []
          = (a.searchForNeighbours x.1 bx.clusterID ct cp
              { clusterOfCell := mapEmplace natLt bx.growth.clusterOfCell x.1 bx.clusterID,
                clusterPositions := mapEmplace natLt bx.growth.clusterPositions bx.clusterID
                  (mapGet cp x.1 0) }).2 :: List.replicate 1000 [] := by
      rw [hget, if_pos (by omega)]
    refine ⟨?_, ?_, ?_, ?_, ?_, ?_, ?_⟩
    · show bx.clusterID + 1 = _
      rw [hlen]
      omega
    · intro c hc
      rw [hlen] at hc
      unfold SplitClusters.startSeed
      dsimp only
      rw [mapFind_mapEmplace _ _ _ _ _ (hfresh bx.clusterID (by omega)),
        if_neg (by omega)]
      exact hfresh c (by omega)
    · intro k hk
      by_cases hkx : k = x.1
      · rw [hkx]
        exact Connected.seed x.1 hxmem
      · by_cases hb : mapFind bx.growth.clusterOfCell k = none
        · obtain ⟨h1, h2, _⟩ := hnew k hb hkx hk
          exact Connected.step x.1 k (Connected.seed x.1 hxmem) h1 h2
        · exact connected_mono a ct _ _ hsub k (hR k hb)
    · intro s hs
      rw [List.map_append] at hs
      rcases List.mem_append.1 hs with h1 | h1
      · exact hmono s (hS s h1)
      · rw [List.mem_singleton.1 h1]
        exact hseed
    · intro k hk
      by_cases hkx : k = x.1
      · left
        rw [hkx, hg]
        exact sx
      · by_cases hb : mapFind bx.growth.clusterOfCell k = none
        · right
          refine ⟨xs.length, by rw [hlen]; omega, _, ?_, (hnew k hb hkx hk).2.2⟩
          rw [hlast]
          rfl
        · rcases hE k hb with h1 | h1
          · left
            exact expanded_mono a ct _ _ k hmono h1
          · right
            obtain ⟨j, hj, f, hf, hkf⟩ := h1
            exact ⟨j, by rw [hlen]; omega, f, by rw [hold j hj]; exact hf, hkf⟩
    · intro j hj f hf e he h0
      rw [hlen] at hj
      by_cases hjx : j = xs.length
      · rw [hjx, hlast] at hf
        cases hf
        rw [hg]
        exact sf e he h0
      · have hj' : j < xs.length := by omega
        rw [hold j hj'] at hf
        exact hmono e.1 (hF j hj' f hf e he h0)
    · intro j hj i' hi' f hf
      rw [hlen] at hj
      by_cases hjx : j = xs.length
      · rw [hjx, hlast] at hf
        obtain ⟨i'', rfl⟩ : ∃ i'', i' = i'' + 1 := ⟨i' - 1, by omega⟩
        rw [List.get?_cons_succ] at hf
        exact List.eq_of_mem_replicate (List.get?_mem hf)
      · have hj' : j < xs.length := by omega
        rw [hold j hj'] at hf
        exact hN j hj' i' hi' f hf

theorem claimed_iff_connected (a : SplitClusters) (nClusters : Nat)
    (allCells : List (Nat × Int)) (cluster : Cluster) (out : SplitClusters.Emitted)
    (hseeds : 2 ≤ (a.newSeeds cluster.hits).length)
    (hok : a.splitCluster nClusters allCells cluster = Except.ok out) :
    ∀ k, k ∈ claimedIds out.clusters ↔
      Connected a (SplitClusters.cellsType cluster.hits)
        ((a.newSeeds cluster.hits).map Prod.fst) k := by
  obtain ⟨st, hloop, hout⟩ := splitCluster_run a nClusters allCells cluster out hseeds hok
  have h0 := (foldl_startSeed_inv a (SplitClusters.cellsType cluster.hits)
    (a.cellsPosition cluster.hits) nClusters (a.newSeeds cluster.hits)).2.2
  have hc := growthLoop_connected a (SplitClusters.cellsType cluster.hits)
    (a.cellsPosition cluster.hits) ((a.newSeeds cluster.hits).map Prod.fst) nClusters
    (a.newSeeds cluster.hits).length 1002 1
    ((a.iteration0 nClusters cluster).growth,
      (a.iteration0 nClusters cluster).mapVecNextNeighbours) st (le_refl 1) h0 hloop
  have hP := (iteration0_pre a nClusters cluster).2.2.2.2
  have hperm := claimed_perm a cluster (SplitClusters.allCellsAfterRead allCells cluster.hits)
    (a.iteration0 nClusters cluster).preClusterCollection st.1.clusterOfCell hP
  intro k
  rw [hout, hperm.mem_iff, ← hc k]
  constructor
  · intro h1 h2
    exact (mapFind_eq_none _ k).1 h2 h1
  · intro h1
    by_contra h2
    exact h1 ((mapFind_eq_none _ k).2 h2)

theorem leftover_parts (a : SplitClusters) (nClusters : Nat)
    (allCells : List (Nat × Int)) (cluster : Cluster) (out : SplitClusters.Emitted)
    (hd : (cluster.hits.map (fun c => c.cellID)).Nodup)
    (hseeds : 2 ≤ (a.newSeeds cluster.hits).length)
    (hok : a.splitCluster nClusters allCells cluster = Except.ok out) :
    ((∃ cl ∈ out.clusters, cl.type = 3) ↔ unclaimedCells cluster.hits out.clusters ≠ []) ∧
    (∃ lo, out.cells = lo ++ out.clusters.flatMap (fun cl => cl.hits) ∧
      lo.Perm ((unclaimedCells cluster.hits out.clusters).map
        (fun c => { c with type := 4 }))) := by
  obtain ⟨pre, coc, hK, hP, rfl⟩ := splitCluster_split a nClusters allCells cluster out hseeds hok
  have hU := unclaimed_eq a cluster (SplitClusters.allCellsAfterRead allCells cluster.hits)
    pre coc hP
  have hiff := leftover_iff cluster.hits coc hd hK
  obtain ⟨ecl, ecells⟩ := emitSplit_clusters a cluster
    (SplitClusters.allCellsAfterRead allCells cluster.hits) pre coc
  rw [hU]
  have hsub : ∀ cl ∈ (coc.foldl SplitClusters.collectCell
        { preClusterCollection := pre, cellsType := SplitClusters.cellsType cluster.hits,
          allCells := SplitClusters.allCellsAfterRead allCells cluster.hits,
          allClusteredCells := 0 }).preClusterCollection.map
        (fun i => SplitClusters.subCluster
          (a.subClusterSums (SplitClusters.cellsEnergy cluster.hits) i.2)),
      cl.type ≠ 3 := by
    intro cl hcl hty
    obtain ⟨i, _, rfl⟩ := List.mem_map.1 hcl
    simp [SplitClusters.subCluster] at hty
  refine ⟨⟨?_, ?_⟩, ?_⟩
  · rintro ⟨cl, hcl, hty⟩
    rw [ecl] at hcl
    rcases List.mem_append.1 hcl with h | h
    · by_cases hlen : coc.length ≠ cluster.hits.length
      · exact hiff.1 hlen
      · rw [if_neg hlen] at h
        cases h
    · exact absurd hty (hsub cl h)
  · intro hne
    have hlen := hiff.2 hne
    refine ⟨SplitClusters.leftoverCluster (a.leftoverSums (SplitClusters.cellsEnergy cluster.hits)
      ((SplitClusters.cellsType cluster.hits).filter
        (fun p => decide (p.1 ∉ coc.map Prod.fst)))), ?_, rfl⟩
    rw [ecl, if_pos hlen]
    exact List.mem_append_left _ (List.mem_singleton.2 rfl)
  · refine ⟨_, ecells, ?_⟩
    by_cases hlen : coc.length ≠ cluster.hits.length
    · rw [if_pos hlen, (leftoverSums_spec a _ _).1]
      exact leftover_cells_perm a cluster.hits _ hd
    · rw [if_neg hlen]
      have e : cluster.hits.filter (fun c => decide (c.cellID ∉ coc.map Prod.fst)) = [] := by
        by_contra hne
        exact hlen (hiff.2 hne)
      rw [e]
      exact List.Perm.refl _

/-- C36: the growth is complete on connected cells. When the growth loop of a split
cluster has stopped and the splitter returns, a cell identifier is in the hit list of a
sub-cluster exactly when the cell is connected to a confirmed seed by a chain of
neighbouring cluster cells (each cell of the chain is a cell of the cluster and is listed
among the neighbours of the cell before it, the chain starting at a seed); so the
unclaimed cells are exactly the cluster cells that are not connected to any confirmed
seed and, for a cluster with pairwise distinct cell identifiers, a left-over cluster is
emitted exactly when such a cell exists, the left-over cells emitted being these cells
with type 4. -/
theorem growth_complete_on_connected (a : SplitClusters) (nClusters : Nat)
    (allCells : List (Nat × Int)) (cluster : Cluster) (out : SplitClusters.Emitted)
    (hseeds : 2 ≤ (a.newSeeds cluster.hits).length)
    (hok : a.splitCluster nClusters allCells cluster = Except.ok out) :
    (∀ k, k ∈ claimedIds out.clusters ↔
      Connected a (SplitClusters.cellsType cluster.hits)
        ((a.newSeeds cluster.hits).map Prod.fst) k) ∧
    (∀ c ∈ cluster.hits, c ∈ unclaimedCells cluster.hits out.clusters ↔
      ¬ Connected a (SplitClusters.cellsType cluster.hits)
        ((a.newSeeds cluster.hits).map Prod.fst) c.cellID) ∧
    ((cluster.hits.map (fun c => c.cellID)).Nodup →
      ((∃ cl ∈ out.clusters, cl.type = 3) ↔
        ∃ c ∈ cluster.hits, ¬ Connected a (SplitClusters.cellsType cluster.hits)
          ((a.newSeeds cluster.hits).map Prod.fst) c.cellID) ∧
      ∃ lo, out.cells = lo ++ out.clusters.flatMap (fun cl => cl.hits) ∧
        lo.Perm ((unclaimedCells cluster.hits out.clusters).map
          (fun c => { c with type := 4 }))) := by
  have hc := claimed_iff_connected a nClusters allCells cluster out hseeds hok
  have hu : ∀ c ∈ cluster.hits, c ∈ unclaimedCells cluster.hits out.clusters ↔
      ¬ Connected a (SplitClusters.cellsType cluster.hits)
        ((a.newSeeds cluster.hits).map Prod.fst) c.cellID := by
    intro c hcm
    unfold unclaimedCells
    rw [List.mem_filter, ← hc c.cellID]
    simp [hcm]
  refine ⟨hc, hu, ?_⟩
  intro hd
  obtain ⟨h1, h2⟩ := leftover_parts a nClusters allCells cluster out hd hseeds hok
  refine ⟨?_, h2⟩
  rw [h1]
  constructor
  · intro hne
    obtain ⟨c, hcm⟩ := List.exists_mem_of_ne_nil _ hne
    have hch : c ∈ cluster.hits := by
      unfold unclaimedCells at hcm
      exact (List.mem_filter.1 hcm).1
    exact ⟨c, hch, (hu c hch).1 hcm⟩
  · rintro ⟨c, hch, hn⟩
    exact List.ne_nil_of_mem ((hu c hch).2 hn)

theorem growth_complete_on_connected_witness :
    ∃ out, lineSplitter.splitCluster 1 [] strayCellCluster = Except.ok out ∧
      2 ≤ (lineSplitter.newSeeds strayCellCluster.hits).length ∧
      (strayCellCluster.hits.map (fun c => c.cellID)).Nodup ∧
      unclaimedCells strayCellCluster.hits out.clusters = [⟨9, 3, 2⟩] ∧
      Connected lineSplitter (SplitClusters.cellsType strayCellCluster.hits)
        ((lineSplitter.newSeeds strayCellCluster.hits).map Prod.fst) 7 ∧
      ¬ Connected lineSplitter (SplitClusters.cellsType strayCellCluster.hits)
        ((lineSplitter.newSeeds strayCellCluster.hits).map Prod.fst) 9 ∧
      ((∃ cl ∈ out.clusters, cl.type = 3) ↔
        ∃ c ∈ strayCellCluster.hits,
          ¬ Connected lineSplitter (SplitClusters.cellsType strayCellCluster.hits)
            ((lineSplitter.newSeeds strayCellCluster.hits).map Prod.fst) c.cellID) :=
  (except_ok_of_isOk (lineSplitter.splitCluster 1 [] strayCellCluster) (by decide!)).elim
    (fun out h =>
      have hs : 2 ≤ (lineSplitter.newSeeds strayCellCluster.hits).length := by decide!
      have hd : (strayCellCluster.hits.map (fun c => c.cellID)).Nodup := by decide
      have e : unclaimedCells strayCellCluster.hits out.clusters = [⟨9, 3, 2⟩] := by
        have e : (match lineSplitter.splitCluster 1 [] strayCellCluster with
            | Except.ok o => unclaimedCells strayCellCluster.hits o.clusters
            | Except.error _ => []) = [⟨9, 3, 2⟩] := by decide!
        rw [h] at e
        exact e
      have e7 : 7 ∈ claimedIds out.clusters := by
        have e : (match lineSplitter.splitCluster 1 [] strayCellCluster with
            | Except.ok o => decide (7 ∈ claimedIds o.clusters)
            | Except.error _ => false) = true := by decide!
        rw [h] at e
        exact of_decide_eq_true e
      ⟨out, h, hs, hd, e,
        ((growth_complete_on_connected lineSplitter 1 [] strayCellCluster out hs h).1 7).1 e7,
        ((growth_complete_on_connected lineSplitter 1 [] strayCellCluster out hs h).2.1
          ⟨9, 3, 2⟩ (by decide)).1 (by rw [e]; exact List.mem_singleton.2 rfl),
        ((growth_complete_on_connected lineSplitter 1 [] strayCellCluster out hs h).2.2 hd).1⟩)

/-! ## The seeds in the sub-clusters -/

/-- C38 (as stated) fails: a confirmed seed does not always stay in the sub-cluster
created for it. With the cluster `tieCluster` and the splitter `stolenSeedSplitter` the
seed 2 starts the sub-cluster 3 in iteration 0; in round 1 the sub-cluster 2 reaches it
from the cell 7 and wins the arbitration (its centroid is strictly closer), the growth
stops in round 3 and the seed 2 is emitted in the sub-cluster of the seed 1. -/
theorem seed_leaves_its_subcluster :
    stolenSeedSplitter.newSeeds tieCluster.hits = [(1, 5), (2, 6)] ∧
    mapFind (stolenSeedSplitter.iteration0 1 tieCluster).growth.clusterOfCell 2 = some 3 ∧
    (stolenSeedSplitter.stoppedAt (SplitClusters.cellsType tieCluster.hits)
        (stolenSeedSplitter.cellsPosition tieCluster.hits) 1 2 1002 1
        ((stolenSeedSplitter.iteration0 1 tieCluster).growth,
          (stolenSeedSplitter.iteration0 1 tieCluster).mapVecNextNeighbours)).toOption
      = some 3 ∧
    (stolenSeedSplitter.splitCluster 1 [] tieCluster).toOption.map
        (fun o => o.clusters.map (fun cl => (cl.type, cl.hits.map (fun c => c.cellID))))
      = some [(2, [1, 2, 3, 4, 5, 6, 7]), (2, [8, 9, 10, 11])] := by
  decide!

/-- C38 (as amended). A confirmed seed that is not assigned yet when its sub-cluster is
started is assigned to this sub-cluster at the end of iteration 0 for it; afterwards the
seeds are contested like every other cell, and when the growth has stopped and the
splitter returns, every confirmed seed is in the hit list of a sub-cluster (it is never a
left-over cell), not necessarily of the one created for it. -/
theorem seeds_stay_assigned (a : SplitClusters) (nClusters : Nat)
    (allCells : List (Nat × Int)) (cluster : Cluster) (out : SplitClusters.Emitted)
    (hseeds : 2 ≤ (a.newSeeds cluster.hits).length)
    (hok : a.splitCluster nClusters allCells cluster = Except.ok out) :
    (∀ seed ∈ a.newSeeds cluster.hits, seed.1 ∈ claimedIds out.clusters ∧
      ∀ c ∈ unclaimedCells cluster.hits out.clusters, c.cellID ≠ seed.1) ∧
    (∀ (b : SplitClusters.Building) (seed : Nat × ℚ),
      mapFind b.growth.clusterOfCell seed.1 = none →
      mapFind (a.startSeed (SplitClusters.cellsType cluster.hits)
          (a.cellsPosition cluster.hits) b seed).growth.clusterOfCell seed.1
        = some b.clusterID) := by
  have hc := claimed_iff_connected a nClusters allCells cluster out hseeds hok
  constructor
  · intro seed hs
    have h1 : seed.1 ∈ claimedIds out.clusters :=
      (hc seed.1).2 (Connected.seed seed.1 (List.mem_map.2 ⟨seed, hs, rfl⟩))
    refine ⟨h1, ?_⟩
    intro c hcu he
    unfold unclaimedCells at hcu
    have h2 := (List.mem_filter.1 hcu).2
    rw [he] at h2
    simp [h1] at h2
  · intro b seed hb
    exact (searchForNeighbours_reach a seed.1 b.clusterID (SplitClusters.cellsType cluster.hits)
      (a.cellsPosition cluster.hits)
      { clusterOfCell := mapEmplace natLt b.growth.clusterOfCell seed.1 b.clusterID,
        clusterPositions := mapEmplace natLt b.growth.clusterPositions b.clusterID
          (mapGet (a.cellsPosition cluster.hits) seed.1 0) }).2.2.2.2 seed.1
      (mapFind_mapEmplace_own natLt _ seed.1 b.clusterID hb)

theorem seeds_stay_assigned_witness :
    ∃ out, stolenSeedSplitter.splitCluster 1 [] tieCluster = Except.ok out ∧
      2 ≤ (stolenSeedSplitter.newSeeds tieCluster.hits).length ∧
      (∀ seed ∈ stolenSeedSplitter.newSeeds tieCluster.hits,
        seed.1 ∈ claimedIds out.clusters ∧
        ∀ c ∈ unclaimedCells tieCluster.hits out.clusters, c.cellID ≠ seed.1) ∧
      mapFind (stolenSeedSplitter.startSeed (SplitClusters.cellsType tieCluster.hits)
          (stolenSeedSplitter.cellsPosition tieCluster.hits)
          { growth := { clusterOfCell := [], clusterPositions := [] },
            preClusterCollection := [], mapVecNextNeighbours := [], clusterID := 2 }
          (1, 5)).growth.clusterOfCell 1 = some 2 :=
  (except_ok_of_isOk (stolenSeedSplitter.splitCluster 1 [] tieCluster) (by decide!)).elim
    (fun out h =>
      ⟨out, h, by decide!,
        (seeds_stay_assigned stolenSeedSplitter 1 [] tieCluster out (by decide!) h).1,
        (seeds_stay_assigned stolenSeedSplitter 1 [] tieCluster out (by decide!) h).2
          { growth := { clusterOfCell := [], clusterPositions := [] },
            preClusterCollection := [], mapVecNextNeighbours := [], clusterID := 2 }
          (1, 5) rfl⟩)

/-! ## The frontier storage -/

theorem foldlM_except_sim {σ τ ι : Type} (R : σ → τ → Prop) (f : σ → ι → Except Abort σ)
    (f' : τ → ι → Except Abort τ) (l : List ι)
    (h : ∀ x ∈ l, ∀ s t s', R s t → f s x = Except.ok s' →
      ∃ t', f' t x = Except.ok t' ∧ R s' t') :
    ∀ (s : σ) (t : τ) (s' : σ), R s t → l.foldlM f s = Except.ok s' →
      ∃ t', l.foldlM f' t = Except.ok t' ∧ R s' t' := by
  induction l with
  | nil =>
    intro s t s' hR hs
    have e : s = s' := by
      simpa [List.foldlM_nil, pure, Except.pure] using hs
    rw [← e]
    exact ⟨t, rfl, hR⟩
  | cons x xs ih =>
    intro s t s' hR hs
    rw [List.foldlM_cons] at hs
    cases hx : f s x with
    | error e =>
      rw [hx] at hs
      cases hs
    | ok s1 =>
      rw [hx] at hs
      obtain ⟨t1, ht1, hR1⟩ := h x (List.mem_cons_self _ _) s t s1 hR hx
      obtain ⟨t', ht', hR'⟩ := ih (fun y hy => h y (List.mem_cons_of_mem _ hy)) s1 t1 s' hR1 hs
      refine ⟨t', ?_, hR'⟩
      rw [List.foldlM_cons, ht1]
      exact ht'

theorem sim_expandCell (a : SplitClusters) (ct : List (Nat × Int))
    (cp : List (Nat × TLorentzVector)) (L : List Nat) (i1 i2 cid : Nat) (hi1 : 1 ≤ i1)
    (hi2 : 1 ≤ i2) (hcid : cid ∈ L) (s b s' : SplitClusters.Growth × Frontiers)
    (id : Nat × Nat) (hR : FrontiersAgree L i1 i2 s b)
    (he : a.expandCell ct cp i1 cid s id = Except.ok s') :
    ∃ b', a.expandCell ct cp i2 cid b id = Except.ok b' ∧ FrontiersAgree L i1 i2 s' b' := by
  obtain ⟨hid0, hid2, hother, _, old, hold, hnew, hsame⟩ :=
    expandCell_entry a ct cp i1 cid s s' id he
  have hg := expandCell_growth a ct cp i1 cid s s' id he
  obtain ⟨hgr, hfr⟩ := hR
  have hbold : (mapGet b.2 cid []).get? i2 = some old := by
    rw [← (hfr cid hcid).2]
    exact hold
  have hlen : i2 < (mapGet b.2 cid []).length := by
    by_contra hc
    rw [List.get?_eq_none.2 (by omega)] at hbold
    cases hbold
  obtain ⟨vb, hvb⟩ := appendFrontier_some (mapGet b.2 cid []) i2
    (a.searchForNeighbours id.1 cid ct cp b.1).2 hlen
  have hb : a.expandCell ct cp i2 cid b id
      = Except.ok ((a.searchForNeighbours id.1 cid ct cp b.1).1, mapAssign natLt b.2 cid vb) := by
    unfold SplitClusters.expandCell
    rw [if_neg hid0, if_neg (not_not.2 hid2)]
    dsimp only
    rw [hvb]
  refine ⟨_, hb, ?_⟩
  obtain ⟨_, _, hother', _, old', hold', hnew', hsame'⟩ :=
    expandCell_entry a ct cp i2 cid b _ id hb
  have eold : old' = old := by
    rw [hbold] at hold'
    cases hold'
    rfl
  refine ⟨?_, ?_⟩
  · rw [hg, hgr]
  · intro c hc
    by_cases hcc : c = cid
    · rw [hcc]
      refine ⟨?_, ?_⟩
      · rw [hsame (i1 - 1) (by omega), hsame' (i2 - 1) (by omega)]
        exact (hfr cid hcid).1
      · rw [hnew, hnew', eold, hgr]
    · rw [hother c hcc, hother' c hcc]
      exact hfr c hc

theorem sim_expandCluster (a : SplitClusters) (ct : List (Nat × Int))
    (cp : List (Nat × TLorentzVector)) (L : List Nat) (i1 i2 cid : Nat) (hi1 : 1 ≤ i1)
    (hi2 : 1 ≤ i2) (hcid : cid ∈ L)
    (s b s' : (SplitClusters.Growth × Frontiers) × Bool)
    (hR : FrontiersAgree L i1 i2 s.1 b.1 ∧ s.2 = b.2)
    (he : a.expandCluster ct cp i1 s cid = Except.ok s') :
    ∃ b', a.expandCluster ct cp i2 b cid = Except.ok b' ∧
      (FrontiersAgree L i1 i2 s'.1 b'.1 ∧ s'.2 = b'.2) := by
  obtain ⟨hA, hflag⟩ := hR
  unfold SplitClusters.expandCluster at he ⊢
  cases hget : (mapGet s.1.2 cid []).get? (i1 - 1) with
  | none =>
    rw [hget] at he
    cases he
  | some f =>
    rw [hget] at he
    rw [← (hA.2 cid hcid).1, hget]
    dsimp only at he ⊢
    by_cases hlen : f.length > 0
    · rw [if_pos hlen] at he
      rw [if_pos hlen]
      cases hfold : f.foldlM (a.expandCell ct cp i1 cid) s.1 with
      | error e =>
        rw [hfold] at he
        cases he
      | ok st' =>
        rw [hfold] at he
        cases he
        obtain ⟨bt, hbt, hRt⟩ := foldlM_except_sim (FrontiersAgree L i1 i2)
          (a.expandCell ct cp i1 cid) (a.expandCell ct cp i2 cid) f
          (fun x _ s0 t0 s1 hR0 hx =>
            sim_expandCell a ct cp L i1 i2 cid hi1 hi2 hcid s0 t0 s1 x hR0 hx)
          s.1 b.1 st' hA hfold
        rw [hbt]
        exact ⟨(bt, true), rfl, hRt, rfl⟩
    · rw [if_neg hlen] at he
      rw [if_neg hlen]
      cases he
      exact ⟨b, rfl, hA, hflag⟩

theorem sim_growthRound (a : SplitClusters) (ct : List (Nat × Int))
    (cp : List (Nat × TLorentzVector)) (nClusters nSeeds i1 i2 : Nat) (hi1 : 1 ≤ i1)
    (hi2 : 1 ≤ i2) (s b : SplitClusters.Growth × Frontiers)
    (s' : (SplitClusters.Growth × Frontiers) × Bool)
    (hR : FrontiersAgree ((List.range nSeeds).map (fun k => nClusters + (k + 1))) i1 i2 s b)
    (he : a.growthRound ct cp nClusters nSeeds i1 s = Except.ok s') :
    ∃ b', a.growthRound ct cp nClusters nSeeds i2 b = Except.ok b' ∧
      FrontiersAgree ((List.range nSeeds).map (fun k => nClusters + (k + 1))) i1 i2 s'.1 b'.1 ∧
      s'.2 = b'.2 := by
  unfold SplitClusters.growthRound at he ⊢
  exact foldlM_except_sim
    (fun (s b : (SplitClusters.Growth × Frontiers) × Bool) =>
      FrontiersAgree ((List.range nSeeds).map (fun k => nClusters + (k + 1))) i1 i2 s.1 b.1 ∧
        s.2 = b.2)
    (a.expandCluster ct cp i1) (a.expandCluster ct cp i2) _
    (fun x hx s0 t0 s1 hR0 hx0 =>
      sim_expandCluster a ct cp _ i1 i2 x hi1 hi2 hx s0 t0 s1 hR0 hx0)
    (s, false) (b, false) s' ⟨hR, rfl⟩ he

theorem round_from_outcome (a : SplitClusters) (ct : List (Nat × Int))
    (cp : List (Nat × TLorentzVector)) (seeds : List Nat) (iter : Nat)
    (b : SplitClusters.Growth × Frontiers)
    (X : SplitClusters.Growth × List (Nat × Nat) × List (Nat × Nat))
    (g : SplitClusters.Growth) (n2 n3 : List (Nat × Nat)) (flag : Bool)
    (hiter : 1 ≤ iter) (hlim : iter ≤ 1000) (hb : RoundStart a ct seeds iter X b)
    (ho : roundOutcome a ct cp X.1 X.2.1 X.2.2 = some (g, n2, n3, flag)) :
    ∃ b', a.growthRound ct cp 1 2 iter b = Except.ok (b', flag) ∧
      RoundStart a ct seeds (iter + 1) (g, n2, n3) b' := by
  obtain ⟨hinv, hready, hg, hf2, hf3⟩ := hb
  unfold roundOutcome at ho
  cases hr : a.growthRound ct cp 1 2 1 (roundState X.1 X.2.1 X.2.2) with
  | error e =>
    rw [hr] at ho
    cases ho
  | ok res =>
    obtain ⟨st, fl⟩ := res
    rw [hr] at ho
    dsimp only at ho
    cases h2 : (mapGet st.2 2 []).get? 1 with
    | none =>
      rw [h2] at ho
      cases ho
    | some m2 =>
      cases h3 : (mapGet st.2 3 []).get? 1 with
      | none =>
        rw [h2, h3] at ho
        cases ho
      | some m3 =>
        rw [h2, h3] at ho
        cases ho
        have hempty : ∀ j < 2, (mapGet b.2 (1 + (j + 1)) []).get? iter = some [] := by
          intro j hj
          have hl := hready j hj
          have hsome : ∃ f, (mapGet b.2 (1 + (j + 1)) []).get? iter = some f := by
            cases hq : (mapGet b.2 (1 + (j + 1)) []).get? iter with
            | none =>
              rw [List.get?_eq_none] at hq
              omega
            | some f => exact ⟨f, rfl⟩
          obtain ⟨f, hf⟩ := hsome
          rw [hf, hinv.2.2.2.2 j hj iter (by omega) f hf]
        have hagree : FrontiersAgree ((List.range 2).map (fun k => 1 + (k + 1))) 1 iter
            (roundState X.1 X.2.1 X.2.2) b := by
          refine ⟨hg.symm, ?_⟩
          intro c hc
          have hc' : c = 2 ∨ c = 3 := by
            simp [List.range_succ] at hc
            omega
          rcases hc' with rfl | rfl
          · exact ⟨hf2.symm, (hempty 0 (by omega)).symm⟩
          · exact ⟨hf3.symm, (hempty 1 (by omega)).symm⟩
        obtain ⟨b', hb', hA, hfl⟩ := sim_growthRound a ct cp 1 2 1 iter (le_refl 1) hiter
          (roundState X.1 X.2.1 X.2.2) b _ hagree hr
        obtain ⟨b1, fl1⟩ := b'
        dsimp only at hfl hA
        subst hfl
        refine ⟨b1, hb', ?_, ?_, ?_, ?_, ?_⟩
        · rw [Nat.add_sub_cancel]
          exact growthRound_mid a ct cp seeds 1 2 iter hiter b _ hinv hb'
        · exact (growthRound_ready a ct cp 1 2 iter b hready).1 _ hb'
        · exact hA.1.symm
        · rw [Nat.add_sub_cancel,
            ← (hA.2 2 (by simp [List.range_succ])).2]
          exact h2
        · rw [Nat.add_sub_cancel,
            ← (hA.2 3 (by simp [List.range_succ])).2]
          exact h3

theorem reach_of_rounds (a : SplitClusters) (ct : List (Nat × Int))
    (cp : List (Nat × TLorentzVector)) (seeds : List Nat) (k : Nat) :
    ∀ (iter : Nat) (b : SplitClusters.Growth × Frontiers)
      (X Y : SplitClusters.Growth × List (Nat × Nat) × List (Nat × Nat)),
      1 ≤ iter → iter + k ≤ 1001 → RoundStart a ct seeds iter X b →
      roundsFrom a ct cp k X = some Y →
      ∃ b', reachedRound a ct cp 1 2 k iter b = some b' ∧
        RoundStart a ct seeds (iter + k) Y b' := by
  induction k with
  | zero =>
    intro iter b X Y _ _ hb hY
    unfold roundsFrom at hY
    cases hY
    exact ⟨b, rfl, hb⟩
  | succ k ih =>
    intro iter b X Y hiter hlim hb hY
    unfold roundsFrom at hY
    cases ho : roundOutcome a ct cp X.1 X.2.1 X.2.2 with
    | none =>
      rw [ho] at hY
      cases hY
    | some res =>
      obtain ⟨g, n2, n3, flag⟩ := res
      rw [ho] at hY
      cases flag with
      | false => cases hY
      | true =>
        dsimp only at hY
        obtain ⟨b1, hb1, hs1⟩ := round_from_outcome a ct cp seeds iter b X g n2 n3 true hiter
          (by omega) hb ho
        obtain ⟨b', hb', hs'⟩ := ih (iter + 1) b1 (g, n2, n3) Y (by omega) (by omega) hs1 hY
        refine ⟨b', ?_, ?_⟩
        · unfold reachedRound
          rw [hb1]
          exact hb'
        · have e : iter + (k + 1) = iter + 1 + k := by omega
          rw [e]
          exact hs'

theorem roundsFrom_add (a : SplitClusters) (ct : List (Nat × Int))
    (cp : List (Nat × TLorentzVector)) (m n : Nat) :
    ∀ (X Y Z : SplitClusters.Growth × List (Nat × Nat) × List (Nat × Nat)),
      roundsFrom a ct cp m X = some Y → roundsFrom a ct cp n Y = some Z →
      roundsFrom a ct cp (m + n) X = some Z := by
  induction m with
  | zero =>
    intro X Y Z h1 h2
    unfold roundsFrom at h1
    cases h1
    rw [Nat.zero_add]
    exact h2
  | succ m ih =>
    intro X Y Z h1 h2
    rw [Nat.succ_add]
    unfold roundsFrom at h1 ⊢
    cases ho : roundOutcome a ct cp X.1 X.2.1 X.2.2 with
    | none =>
      rw [ho] at h1
      cases h1
    | some res =>
      obtain ⟨g, n2, n3, flag⟩ := res
      rw [ho] at h1
      cases flag with
      | false => cases h1
      | true =>
        dsimp only at h1 ⊢
        exact ih (g, n2, n3) Y Z h1 h2

theorem roundsFrom_period (a : SplitClusters) (ct : List (Nat × Int))
    (cp : List (Nat × TLorentzVector))
    (X : SplitClusters.Growth × List (Nat × Nat) × List (Nat × Nat))
    (h : roundsFrom a ct cp 2 X = some X) (m : Nat) :
    roundsFrom a ct cp (2 * m) X = some X := by
  induction m with
  | zero => rfl
  | succ m ih =>
    have e : 2 * (m + 1) = 2 + 2 * m := by omega
    rw [e]
    exact roundsFrom_add a ct cp 2 (2 * m) X X X h ih

theorem round_overflows (a : SplitClusters) (ct : List (Nat × Int))
    (cp : List (Nat × TLorentzVector)) (b : SplitClusters.Growth × Frontiers)
    (id : Nat × Nat) (rest : List (Nat × Nat))
    (hlen : (mapGet b.2 2 []).length = 1001)
    (hget : (mapGet b.2 2 []).get? 1000 = some (id :: rest))
    (hid0 : id.1 ≠ 0) (hid2 : id.2 = 2) :
    a.growthRound ct cp 1 2 1001 b = Except.error Abort.undefined := by
  have hcell : a.expandCell ct cp 1001 2 b id = Except.error Abort.undefined := by
    unfold SplitClusters.expandCell
    rw [if_neg hid0, if_neg (not_not.2 hid2)]
    dsimp only
    rw [appendFrontier_none _ _ _ (by omega)]
  have hcluster : a.expandCluster ct cp 1001 (b, false) 2 = Except.error Abort.undefined := by
    unfold SplitClusters.expandCluster
    have e : (1001 : Nat) - 1 = 1000 := rfl
    dsimp only
    rw [e, hget]
    dsimp only
    rw [if_pos (by simp), List.foldlM_cons, hcell]
    rfl
  unfold SplitClusters.growthRound
  have eL : (List.range 2).map (fun k => 1 + (k + 1)) = [2, 3] := rfl
  rw [eL, List.foldlM_cons, hcluster]
  rfl


theorem pingPong_seeds : pingPongSplitter.newSeeds pingPongCluster.hits = [(1, 5), (2, 5)] := by
  decide!

theorem pingPong_iteration0 : pingPongSplitter.iteration0 1 pingPongCluster
    = [((1 : Nat), (5 : ℚ)), (2, 5)].foldl
        (pingPongSplitter.startSeed (SplitClusters.cellsType pingPongCluster.hits)
          (pingPongSplitter.cellsPosition pingPongCluster.hits))
        { growth := { clusterOfCell := [], clusterPositions := [] },
          preClusterCollection := [], mapVecNextNeighbours := [], clusterID := 1 + 1 } := by
  unfold SplitClusters.iteration0
  rw [pingPong_seeds]

theorem pingPong_start : RoundStart pingPongSplitter
    (SplitClusters.cellsType pingPongCluster.hits) [1, 2] 1
    ((pingPongSplitter.iteration0 1 pingPongCluster).growth,
      [(3, 2), (4, 2), (5, 2), (6, 2), (7, 2)], [(8, 3), (9, 3), (10, 3), (11, 3), (12, 3)])
    ((pingPongSplitter.iteration0 1 pingPongCluster).growth,
      (pingPongSplitter.iteration0 1 pingPongCluster).mapVecNextNeighbours) := by
  have hinv : GrowthInv pingPongSplitter (SplitClusters.cellsType pingPongCluster.hits)
      [1, 2] 1 2 0
      ((pingPongSplitter.iteration0 1 pingPongCluster).growth,
        (pingPongSplitter.iteration0 1 pingPongCluster).mapVecNextNeighbours) := by
    rw [pingPong_iteration0]
    exact (foldl_startSeed_inv pingPongSplitter (SplitClusters.cellsType pingPongCluster.hits)
      (pingPongSplitter.cellsPosition pingPongCluster.hits) 1 [(1, 5), (2, 5)]).2.2
  have hready : FrontiersReady 1 2
      (pingPongSplitter.iteration0 1 pingPongCluster).mapVecNextNeighbours := by
    have h := iteration0_ready pingPongSplitter 1 pingPongCluster
    rw [pingPong_seeds] at h
    exact h
  have h2 : (mapGet (pingPongSplitter.iteration0 1 pingPongCluster).mapVecNextNeighbours 2
      []).get? 0 = some [(3, 2), (4, 2), (5, 2), (6, 2), (7, 2)] := by decide!
  have h3 : (mapGet (pingPongSplitter.iteration0 1 pingPongCluster).mapVecNextNeighbours 3
      []).get? 0 = some [(8, 3), (9, 3), (10, 3), (11, 3), (12, 3)] := by decide!
  exact ⟨hinv, hready, rfl, h2, h3⟩

theorem pingPong_rounds : roundsFrom pingPongSplitter
    (SplitClusters.cellsType pingPongCluster.hits)
    (pingPongSplitter.cellsPosition pingPongCluster.hits) 1000
    ((pingPongSplitter.iteration0 1 pingPongCluster).growth,
      [(3, 2), (4, 2), (5, 2), (6, 2), (7, 2)], [(8, 3), (9, 3), (10, 3), (11, 3), (12, 3)])
    = some (pingOddGrowth, [(2, 2)], [(8, 3)]) := by
  have h4 : roundsFrom pingPongSplitter (SplitClusters.cellsType pingPongCluster.hits)
      (pingPongSplitter.cellsPosition pingPongCluster.hits) 4
      ((pingPongSplitter.iteration0 1 pingPongCluster).growth,
        [(3, 2), (4, 2), (5, 2), (6, 2), (7, 2)], [(8, 3), (9, 3), (10, 3), (11, 3), (12, 3)])
      = some (pingOddGrowth, [(2, 2)], [(8, 3)]) := by decide!
  have h2 : roundsFrom pingPongSplitter (SplitClusters.cellsType pingPongCluster.hits)
      (pingPongSplitter.cellsPosition pingPongCluster.hits) 2
      (pingOddGrowth, [(2, 2)], [(8, 3)]) = some (pingOddGrowth, [(2, 2)], [(8, 3)]) := by
    decide!
  exact roundsFrom_add _ _ _ 4 (2 * 498) _ _ _ h4 (roundsFrom_period _ _ _ _ h2 498)

theorem pingPong_reached :
    ∃ st, reachedRound pingPongSplitter (SplitClusters.cellsType pingPongCluster.hits)
        (pingPongSplitter.cellsPosition pingPongCluster.hits) 1 2 1000 1
        ((pingPongSplitter.iteration0 1 pingPongCluster).growth,
          (pingPongSplitter.iteration0 1 pingPongCluster).mapVecNextNeighbours) = some st ∧
      (mapGet st.2 2 []).length = 1001 ∧
      (mapGet st.2 2 []).get? 1000 = some [(2, 2)] := by
  obtain ⟨st, hreach, hst⟩ := reach_of_rounds pingPongSplitter
    (SplitClusters.cellsType pingPongCluster.hits)
    (pingPongSplitter.cellsPosition pingPongCluster.hits) [1, 2] 1000 1 _ _ _ (le_refl 1)
    (by norm_num) pingPong_start pingPong_rounds
  obtain ⟨_, hrdy, _, hf2, _⟩ := hst
  exact ⟨st, hreach, hrdy 0 (by omega), hf2⟩

/-- C14: the growth loop is not bounded by the number of cells. In `pingPongCluster`
(12 cells, 2 confirmed seeds) iteration 0 assigns all 12 cells, so that no round can
assign a cell not assigned before; yet each of the rounds 1 to 13 finds a frontier that is
not empty, filled by the cells reassigned from the other sub-cluster in the round before,
and so does each of the rounds 1 to 1000: the loop has no exit but an empty round, and the
1000 rounds which the source names as the maximum are completed as well. -/
theorem growth_outlasts_cell_count :
    pingPongCluster.hits.length = 12 ∧
    pingPongSplitter.newSeeds pingPongCluster.hits = [(1, 5), (2, 5)] ∧
    (pingPongSplitter.iteration0 1 pingPongCluster).growth.clusterOfCell.length = 12 ∧
    roundFlags pingPongSplitter (SplitClusters.cellsType pingPongCluster.hits)
        (pingPongSplitter.cellsPosition pingPongCluster.hits) 1 2 13 1
        ((pingPongSplitter.iteration0 1 pingPongCluster).growth,
         (pingPongSplitter.iteration0 1 pingPongCluster).mapVecNextNeighbours)
      = List.replicate 13 true ∧
    (reachedRound pingPongSplitter (SplitClusters.cellsType pingPongCluster.hits)
        (pingPongSplitter.cellsPosition pingPongCluster.hits) 1 2 1000 1
        ((pingPongSplitter.iteration0 1 pingPongCluster).growth,
          (pingPongSplitter.iteration0 1 pingPongCluster).mapVecNextNeighbours)).isSome
      = true := by
  refine ⟨by decide!, by decide!, by decide!, by decide!, ?_⟩
  obtain ⟨st, h, -⟩ := pingPong_reached
  rw [h]
  rfl

theorem pingPong_loop :
    pingPongSplitter.growthLoop (SplitClusters.cellsType pingPongCluster.hits)
      (pingPongSplitter.cellsPosition pingPongCluster.hits) 1 2 1002 1
      ((pingPongSplitter.iteration0 1 pingPongCluster).growth,
        (pingPongSplitter.iteration0 1 pingPongCluster).mapVecNextNeighbours)
        = Except.error Abort.undefined := by
  obtain ⟨st, hreach, hlen, hget⟩ := pingPong_reached
  have hround := round_overflows pingPongSplitter (SplitClusters.cellsType pingPongCluster.hits)
    (pingPongSplitter.cellsPosition pingPongCluster.hits) st (2, 2) [] hlen hget (by decide) rfl
  have hlast : pingPongSplitter.growthLoop (SplitClusters.cellsType pingPongCluster.hits)
      (pingPongSplitter.cellsPosition pingPongCluster.hits) 1 2 (1 + 1) 1001 st
      = Except.error Abort.undefined := by
    rw [growthLoop_succ, hround]
  exact ((reachedRound_spec pingPongSplitter _ _ 1 2 1000 1 _ st hreach).2 (1 + 1)).trans hlast

theorem splitCluster_loop_error (a : SplitClusters) (nClusters n : Nat) (cluster : Cluster)
    (e : Abort) (hn : (a.newSeeds cluster.hits).length = n) (h2 : 2 ≤ n)
    (hg : a.growthLoop (SplitClusters.cellsType cluster.hits) (a.cellsPosition cluster.hits)
      nClusters n 1002 1
      ((a.iteration0 nClusters cluster).growth,
        (a.iteration0 nClusters cluster).mapVecNextNeighbours) = Except.error e)
    (allCells : List (Nat × Int)) :
    a.splitCluster nClusters allCells cluster = Except.error e := by
  subst hn
  unfold SplitClusters.iteration0 at hg
  unfold SplitClusters.splitCluster
  dsimp only
  rw [if_pos (by omega)]
  simp only [hg]

theorem execute_single_error (a : SplitClusters) (cluster : Cluster) (e : Abort)
    (h : a.splitCluster 1 [] cluster = Except.error e) :
    a.execute [cluster] = Except.error e := by
  unfold SplitClusters.execute
  rw [List.foldlM_cons]
  simp only [List.length_singleton]
  rw [h]
  rfl

theorem pingPong_split (allCells : List (Nat × Int)) :
    pingPongSplitter.splitCluster 1 allCells pingPongCluster = Except.error Abort.undefined :=
  splitCluster_loop_error pingPongSplitter 1 2 pingPongCluster Abort.undefined
    (by rw [pingPong_seeds]; rfl) (le_refl 2) pingPong_loop allCells

/-- C37: the round counter reaches the number of frontier vectors. In `pingPongCluster`
(12 cells, 2 confirmed seeds) the two sub-clusters keep taking the cells 2 and 8 from each
other: each of the rounds 1 to 1000 finds a frontier that is not empty and fills the next
one, so that the round 1001 is entered with the frontier `[(2, 2)]` at index 1000, the last
of the 1001 frontier vectors of the sub-cluster 2; expanding it writes to index 1001, which
is outside the vector. The embedded `execute` stops there without a defined result. -/
theorem frontier_storage_exceeded :
    pingPongSplitter.newSeeds pingPongCluster.hits = [(1, 5), (2, 5)] ∧
    (∃ st, reachedRound pingPongSplitter (SplitClusters.cellsType pingPongCluster.hits)
        (pingPongSplitter.cellsPosition pingPongCluster.hits) 1 2 1000 1
        ((pingPongSplitter.iteration0 1 pingPongCluster).growth,
          (pingPongSplitter.iteration0 1 pingPongCluster).mapVecNextNeighbours) = some st ∧
      (mapGet st.2 2 []).length = 1001 ∧
      (mapGet st.2 2 []).get? 1000 = some [(2, 2)] ∧
      SplitClusters.appendFrontier (mapGet st.2 2 []) 1001
        (pingPongSplitter.searchForNeighbours 2 2 (SplitClusters.cellsType pingPongCluster.hits)
          (pingPongSplitter.cellsPosition pingPongCluster.hits) st.1).2 = none ∧
      pingPongSplitter.growthRound (SplitClusters.cellsType pingPongCluster.hits)
        (pingPongSplitter.cellsPosition pingPongCluster.hits) 1 2 1001 st
        = Except.error Abort.undefined) ∧
    pingPongSplitter.splitCluster 1 [] pingPongCluster = Except.error Abort.undefined ∧
    pingPongSplitter.execute [pingPongCluster] = Except.error Abort.undefined := by
  obtain ⟨st, hreach, hlen, hget⟩ := pingPong_reached
  exact ⟨pingPong_seeds,
    ⟨st, hreach, hlen, hget, appendFrontier_none _ _ _ (by omega),
      round_overflows pingPongSplitter (SplitClusters.cellsType pingPongCluster.hits)
        (pingPongSplitter.cellsPosition pingPongCluster.hits) st (2, 2) [] hlen hget
        (by decide) rfl⟩,
    pingPong_split [], execute_single_error _ _ _ (pingPong_split [])⟩

/-! ## The eta indices and the number of eta towers -/

theorem eta_indices_of_count (t : CaloTowerTool) (s : GridPhiEta) (c : Nat) (n : Int)
    (hd : epsilon < t.deltaEtaTower) (hw : 2 * epsilon ≤ s.gridSizeEta)
    (hlo : -t.etaMax ≤ CaloTowerTool.etaCellMin s c)
    (hhi : CaloTowerTool.etaCellMax s c ≤ t.etaMax)
    (hn : n = ⌈2 * (t.etaMax - epsilon) / t.deltaEtaTower⌉) (hint : IsInt32 n) :
    0 ≤ t.iEtaMin s c ∧ t.iEtaMin s c ≤ t.iEtaMax s c ∧ t.iEtaMax s c ≤ n ∧
    (t.iEtaMax s c < n ↔
      CaloTowerTool.etaCellMax s c - epsilon + t.etaMax < (n : ℚ) * t.deltaEtaTower) ∧
    (∀ k : Int, 2 * epsilon < t.deltaEtaTower → 2 * t.etaMax = (k : ℚ) * t.deltaEtaTower →
      t.iEtaMax s c < n) := by
  have heps : (0 : ℚ) < epsilon := by unfold epsilon; norm_num
  have hdE : 0 < t.deltaEtaTower := lt_trans heps hd
  have hwid : CaloTowerTool.etaCellMax s c - CaloTowerTool.etaCellMin s c = s.gridSizeEta := by
    unfold CaloTowerTool.etaCellMin CaloTowerTool.etaCellMax; ring
  have hnd : 2 * (t.etaMax - epsilon) ≤ (n : ℚ) * t.deltaEtaTower := by
    rw [← div_le_iff₀ hdE, hn]
    exact Int.le_ceil _
  have a0 : 0 ≤ ⌊(CaloTowerTool.etaCellMin s c + epsilon + t.etaMax) / t.deltaEtaTower⌋ :=
    Int.floor_nonneg.2 (div_nonneg (by linarith) (le_of_lt hdE))
  have ab : ⌊(CaloTowerTool.etaCellMin s c + epsilon + t.etaMax) / t.deltaEtaTower⌋
      ≤ ⌊(CaloTowerTool.etaCellMax s c - epsilon + t.etaMax) / t.deltaEtaTower⌋ :=
    Int.floor_le_floor ((div_le_div_iff_of_pos_right hdE).2 (by linarith))
  have b1 : ⌊(CaloTowerTool.etaCellMax s c - epsilon + t.etaMax) / t.deltaEtaTower⌋
      < n + 1 := by
    rw [Int.floor_lt, div_lt_iff₀ hdE]
    push_cast
    linarith
  have hiff : ⌊(CaloTowerTool.etaCellMax s c - epsilon + t.etaMax) / t.deltaEtaTower⌋ < n ↔
      CaloTowerTool.etaCellMax s c - epsilon + t.etaMax < (n : ℚ) * t.deltaEtaTower := by
    rw [Int.floor_lt, div_lt_iff₀ hdE]
  obtain ⟨hn0, hn1⟩ := hint
  have i1 : IsInt32 ⌊(CaloTowerTool.etaCellMin s c + epsilon + t.etaMax) / t.deltaEtaTower⌋ :=
    ⟨by omega, by omega⟩
  have i2 : IsInt32 ⌊(CaloTowerTool.etaCellMax s c - epsilon + t.etaMax) / t.deltaEtaTower⌋ :=
    ⟨by omega, by omega⟩
  rw [iEtaMin_eq t s c i1, iEtaMax_eq t s c i2]
  refine ⟨a0, ab, by omega, hiff, ?_⟩
  intro k h2 hk
  rw [hiff]
  have hkn : k - 1 < n := by
    rw [hn, Int.lt_ceil, lt_div_iff₀ hdE]
    push_cast
    linarith
  have hkn' : (k : ℚ) ≤ (n : ℚ) := by
    have : k ≤ n := by omega
    exact_mod_cast this
  have := mul_le_mul_of_nonneg_right hkn' (le_of_lt hdE)
  linarith

/-- C35: the last eta index can equal the number of eta towers. For a tower size above
`epsilon`, `etaMax` and the number of eta towers as set by `towersNumber` (a number that
fits an `int`), and a cell at least `2 * epsilon` wide whose eta interval lies between
`-etaMax` and `etaMax`, the first and last eta indices of `CellsIntoTowers` satisfy
`0 ≤ iEtaMin ≤ iEtaMax ≤ nEtaTower`; the last index is below `nEtaTower` exactly when
`etaCellMax - epsilon + etaMax < nEtaTower * deltaEtaTower`, which holds when `2 * etaMax`
is a whole multiple of a tower size above `2 * epsilon`, and fails when a multiple of the
tower size lies from `2 * etaMax - 2 * epsilon` to `etaCellMax + etaMax - epsilon`: then
`towersNumber` rounds the grid down to that multiple while the cell still reaches the
tower above it. -/
theorem eta_index_reaches_tower_count (t : CaloTowerTool)
    (segmentations : Partitions (Option Segmentation)) (s : GridPhiEta) (c : Nat)
    (hd : epsilon < t.deltaEtaTower) (hw : 2 * epsilon ≤ s.gridSizeEta)
    (hlo : -(t.towersNumber segmentations).1.etaMax ≤ CaloTowerTool.etaCellMin s c)
    (hhi : CaloTowerTool.etaCellMax s c ≤ (t.towersNumber segmentations).1.etaMax)
    (hint : IsInt32
      ⌈2 * ((t.towersNumber segmentations).1.etaMax - epsilon) / t.deltaEtaTower⌉) :
    0 ≤ (t.towersNumber segmentations).1.iEtaMin s c ∧
    (t.towersNumber segmentations).1.iEtaMin s c
      ≤ (t.towersNumber segmentations).1.iEtaMax s c ∧
    (t.towersNumber segmentations).1.iEtaMax s c ≤ (t.towersNumber segmentations).2.1 ∧
    (t.towersNumber segmentations).2.1 = (t.towersNumber segmentations).1.nEtaTower ∧
    ((t.towersNumber segmentations).1.iEtaMax s c < (t.towersNumber segmentations).2.1 ↔
      CaloTowerTool.etaCellMax s c - epsilon + (t.towersNumber segmentations).1.etaMax
        < ((t.towersNumber segmentations).2.1 : ℚ) * t.deltaEtaTower) ∧
    (∀ k : Int, 2 * epsilon < t.deltaEtaTower →
      2 * (t.towersNumber segmentations).1.etaMax = (k : ℚ) * t.deltaEtaTower →
      (t.towersNumber segmentations).1.iEtaMax s c < (t.towersNumber segmentations).2.1) := by
  have hn : (t.towersNumber segmentations).2.1
      = ⌈2 * ((t.towersNumber segmentations).1.etaMax - epsilon) / t.deltaEtaTower⌉ := by
    have e : (t.towersNumber segmentations).2.1
        = doubleToInt
            ⌈2 * ((t.towersNumber segmentations).1.etaMax - epsilon) / t.deltaEtaTower⌉ := rfl
    rw [e]
    unfold doubleToInt
    rw [if_pos hint]
  have h := eta_indices_of_count (t.towersNumber segmentations).1 s c
    (t.towersNumber segmentations).2.1 hd hw hlo hhi hn (hn ▸ hint)
  exact ⟨h.1, h.2.1, h.2.2.1, rfl, h.2.2.2.1, h.2.2.2.2⟩

theorem eta_index_reaches_tower_count_witness :
    (freshTool.towersNumber edgePartitions).2 = (2, 1) ∧
    (freshTool.towersNumber edgePartitions).1.etaMax = 40003 / 40000 ∧
    CaloTowerTool.etaCellMin edgeGrid 1 = 0 ∧
    CaloTowerTool.etaCellMax edgeGrid 1 = 40003 / 40000 ∧
    (freshTool.towersNumber edgePartitions).1.iEtaMin edgeGrid 1 = 1 ∧
    (freshTool.towersNumber edgePartitions).1.iEtaMax edgeGrid 1 = 2 ∧
    (freshTool.towersNumber edgePartitions).1.CellsIntoTowers [cellFive]
      (Segmentation.kPhiEta edgeGrid) false (zeroTowers 2 1, []) = none ∧
    (freshTool.towersNumber edgePartitions).1.iEtaMax edgeGrid 1
      ≤ (freshTool.towersNumber edgePartitions).2.1 ∧
    ¬ (CaloTowerTool.etaCellMax edgeGrid 1 - epsilon
        + (freshTool.towersNumber edgePartitions).1.etaMax
      < ((freshTool.towersNumber edgePartitions).2.1 : ℚ) * freshTool.deltaEtaTower) :=
  ⟨by decide!, by decide!, by decide!, by decide!, by decide!, by decide!, by decide!,
    (eta_index_reaches_tower_count freshTool edgePartitions edgeGrid 1 (by decide!)
      (by decide!) (by decide!) (by decide!) (by decide!)).2.2.1,
    by decide!⟩
end K4Rec
